import Mathlib

/-!
# Shading-language execution core

A shallow embedding of the interpreter's math operators (`liboslexec/opmath.cpp`)
and array operators (`liboslexec/oparray.cpp`), of the native code generator
(`liboslexec/llvm_instance.cpp`), and of the diffuse and transparent closures
(`liboslexec/bsdf.cpp`).

Conventions of the embedding:

* a C++ `int` is an integer of `ℤ` and a C++ `float` is a rational of `ℚ`
  (exact arithmetic: no rounding, no NaN, no overflow);
* a C++ pointer that may be null is an `Option`;
* the diagnostic channels (`error`, `warning`, `info`) are lists of messages,
  the most recent message last;
* an `ASSERT` that fails is the result `Except.error`.
-/

namespace OSL

/-! ## Types of symbols -/

/-- The base types of a `TypeDesc` that the execution core distinguishes. -/
inductive BASETYPE where
  | NONE
  | INT
  | FLOAT
  | STRING
  deriving DecidableEq, Repr

/-- A simple type: base type, aggregate arity (1 scalar, 3 triple, 16 matrix)
and array length (0 for a non-array). -/
structure TypeDesc where
  basetype : BASETYPE
  aggregate : Nat
  arraylen : Nat
  deriving DecidableEq, Repr

/-- Number of array elements of a simple type, 1 for a non-array. -/
def TypeDesc.numelements (t : TypeDesc) : Nat :=
  if 1 ≤ t.arraylen then t.arraylen else 1

def TypeDesc.TypeInt : TypeDesc := ⟨BASETYPE.INT, 1, 0⟩

def TypeDesc.TypeFloat : TypeDesc := ⟨BASETYPE.FLOAT, 1, 0⟩

def TypeDesc.TypeString : TypeDesc := ⟨BASETYPE.STRING, 1, 0⟩

def TypeDesc.TypeVector : TypeDesc := ⟨BASETYPE.FLOAT, 3, 0⟩

def TypeDesc.TypeMatrix : TypeDesc := ⟨BASETYPE.FLOAT, 16, 0⟩

/-- Modelled from the spec: the declared type of a symbol (class `TypeSpec`,
declared in a header that is not part of the sources).  The spec's element
types are int, float, vector, matrix, string, closure, struct and array, with
aggregate arity 1, 3 or 16 and array length 0 for a non-array. -/
structure TypeSpec where
  m_simple : TypeDesc
  m_structure : Nat
  m_closure : Bool
  deriving DecidableEq, Repr

namespace TypeSpec

def simpletype (t : TypeSpec) : TypeDesc := t.m_simple

def is_closure (t : TypeSpec) : Bool := t.m_closure

def is_structure (t : TypeSpec) : Bool := decide (0 < t.m_structure)

def is_array (t : TypeSpec) : Bool := decide (t.m_simple.arraylen ≠ 0)

def is_int (t : TypeSpec) : Bool := decide (t.m_simple = TypeDesc.TypeInt) && !t.is_closure

def is_float (t : TypeSpec) : Bool := decide (t.m_simple = TypeDesc.TypeFloat) && !t.is_closure

def is_string (t : TypeSpec) : Bool := decide (t.m_simple = TypeDesc.TypeString) && !t.is_closure

def is_triple (t : TypeSpec) : Bool := decide (t.m_simple = TypeDesc.TypeVector) && !t.is_closure

def is_matrix (t : TypeSpec) : Bool := decide (t.m_simple = TypeDesc.TypeMatrix) && !t.is_closure

def is_floatbased (t : TypeSpec) : Bool :=
  !t.is_closure && !t.is_array && decide (t.m_simple.basetype = BASETYPE.FLOAT)

end TypeSpec

def TypeSpec.int : TypeSpec := ⟨TypeDesc.TypeInt, 0, false⟩

def TypeSpec.float : TypeSpec := ⟨TypeDesc.TypeFloat, 0, false⟩

def TypeSpec.triple : TypeSpec := ⟨TypeDesc.TypeVector, 0, false⟩

def TypeSpec.matrix : TypeSpec := ⟨TypeDesc.TypeMatrix, 0, false⟩

def TypeSpec.string : TypeSpec := ⟨TypeDesc.TypeString, 0, false⟩

/-- The type of a closure symbol (its simple type is irrelevant once the
closure flag is set). -/
def TypeSpec.closure : TypeSpec := ⟨⟨BASETYPE.NONE, 1, 0⟩, 0, true⟩

/-! ## Values -/

/-- A 3-vector of floats (`Vec3`, also used for `Color3`). -/
structure Vec3 where
  x : ℚ
  y : ℚ
  z : ℚ
  deriving DecidableEq

/-- Component `i` of a 3-vector (`v[i]`). -/
def Vec3.get (v : Vec3) (i : Nat) : ℚ :=
  match i with
  | 0 => v.x
  | 1 => v.y
  | _ => v.z

/-- The vector with all three components equal (`Vec3 (a)`). -/
def Vec3.splat (a : ℚ) : Vec3 := ⟨a, a, a⟩

/-- Component-wise combination of two vectors. -/
def Vec3.map2 (f : ℚ → ℚ → ℚ) (a b : Vec3) : Vec3 := ⟨f a.x b.x, f a.y b.y, f a.z b.z⟩

/-- A 4x4 matrix of floats, `x[row][column]` as in the `Matrix44` class. -/
structure Matrix44 where
  x : Fin 4 → Fin 4 → ℚ

/-- The sixteen-argument constructor `Matrix44 (a,b,c,d, e,f,g,h, i,j,k,l, m,n,o,p)`,
arguments in row-major order. -/
def Matrix44.mk16 (a b c d e f g h i j k l m n o p : ℚ) : Matrix44 :=
  ⟨fun r s => [a, b, c, d, e, f, g, h, i, j, k, l, m, n, o, p].getD (4 * r.val + s.val) 0⟩

/-- The one-argument constructor `Matrix44 (a)`: every element is `a`. -/
def Matrix44.splat (a : ℚ) : Matrix44 := ⟨fun _ _ => a⟩

/-- Element-wise scaling `m * s` (also `s * m`). -/
def Matrix44.scale (m : Matrix44) (s : ℚ) : Matrix44 := ⟨fun i j => m.x i j * s⟩

/-- Element-wise division `m / s`. -/
def Matrix44.divScalar (m : Matrix44) (s : ℚ) : Matrix44 := ⟨fun i j => m.x i j / s⟩

/-- The linear-algebra product `a * b`. -/
def Matrix44.mul (a b : Matrix44) : Matrix44 :=
  ⟨fun i j => a.x i 0 * b.x 0 j + a.x i 1 * b.x 1 j + a.x i 2 * b.x 2 j + a.x i 3 * b.x 3 j⟩

/-- Element `c` of a matrix in storage order (row-major, sixteen floats). -/
def Matrix44.flat (m : Matrix44) (c : Nat) : ℚ :=
  m.x ⟨(c / 4) % 4, Nat.mod_lt _ (by decide)⟩ ⟨c % 4, Nat.mod_lt _ (by decide)⟩

/-- Modelled from the spec: a closure (class `ClosureColor`, declared outside
the sources) is a weighted sum of scattering-model instances: a list of
(weight, component id) terms, composed additively and by scalar or color
multiplication. -/
structure ClosureColor where
  terms : List (Vec3 × Nat)

/-- Scale every weight of a closure by a color, channel by channel. -/
def ClosureColor.mulColor (c : ClosureColor) (w : Vec3) : ClosureColor :=
  ⟨c.terms.map (fun t => (Vec3.map2 (fun a b => a * b) t.1 w, t.2))⟩

/-- Scale every weight of a closure by a scalar. -/
def ClosureColor.mulFloat (c : ClosureColor) (w : ℚ) : ClosureColor :=
  c.mulColor (Vec3.splat w)

/-- The sum of two closures (`result->add (A, B)`). -/
def ClosureColor.add (a b : ClosureColor) : ClosureColor := ⟨a.terms ++ b.terms⟩

/-- The difference of two closures (`result->sub (A, B)`). -/
def ClosureColor.sub (a b : ClosureColor) : ClosureColor :=
  ⟨a.terms ++ (b.mulFloat (-1)).terms⟩

/-- A value held by a symbol at one point. -/
inductive Value where
  | int (i : ℤ)
  | float (f : ℚ)
  | vec3 (v : Vec3)
  | matrix (m : Matrix44)
  | closure (c : ClosureColor)
  | string (s : String)

/-- The conversion of a scalar argument to `float` (identity on a float,
`(float)i` on an int). -/
def Value.toFloat? : Value → Option ℚ
  | Value.int i => some (i : ℚ)
  | Value.float f => some f
  | _ => none

/-- Truncation of a float toward zero (the C++ conversion `int (f)`). -/
def truncToInt (f : ℚ) : ℤ := Int.tdiv f.num (f.den : ℤ)

/-- The exact value of `fmodf (x, y)` for `y` different from 0: the remainder
of the division truncated toward zero, `x - y * trunc (x / y)`. -/
def fmodf (x y : ℚ) : ℚ := x - y * (truncToInt (x / y) : ℚ)

/-- The inverse `m.inverse ()` of the matrix library: the identity matrix when
`m` is singular, the adjugate over the determinant otherwise. -/
def Matrix44.inverse (m : Matrix44) : Matrix44 :=
  let M : Matrix (Fin 4) (Fin 4) ℚ := Matrix.of m.x
  if M.det = 0 then ⟨fun i j => if i = j then 1 else 0⟩
  else ⟨fun i j => (M.det)⁻¹ * M.adjugate i j⟩

/-! ## C++ arithmetic on values -/

/-- The C++ expression `a op b` for the scalar and triple operand types the
operators are instantiated with: int with int is integer arithmetic, a mixed
pair is promoted to float, and (modelled from the spec, the `VecProxy` class
being declared outside the sources) a triple combines component-wise with a
scalar operand broadcast to all three components.  `none` where the
operation is undefined. -/
def cppArith (fi : ℤ → ℤ → Option ℤ) (ff : ℚ → ℚ → Option ℚ) : Value → Value → Option Value
  | Value.int a, Value.int b => (fi a b).map Value.int
  | Value.int a, Value.float b => (ff (a : ℚ) b).map Value.float
  | Value.float a, Value.int b => (ff a (b : ℚ)).map Value.float
  | Value.float a, Value.float b => (ff a b).map Value.float
  | Value.vec3 a, Value.vec3 b =>
      (ff a.x b.x).bind fun x => (ff a.y b.y).bind fun y => (ff a.z b.z).map fun z =>
        Value.vec3 ⟨x, y, z⟩
  | Value.vec3 a, Value.float b =>
      (ff a.x b).bind fun x => (ff a.y b).bind fun y => (ff a.z b).map fun z =>
        Value.vec3 ⟨x, y, z⟩
  | Value.vec3 a, Value.int b =>
      (ff a.x (b : ℚ)).bind fun x => (ff a.y (b : ℚ)).bind fun y => (ff a.z (b : ℚ)).map fun z =>
        Value.vec3 ⟨x, y, z⟩
  | Value.float a, Value.vec3 b =>
      (ff a b.x).bind fun x => (ff a b.y).bind fun y => (ff a b.z).map fun z =>
        Value.vec3 ⟨x, y, z⟩
  | Value.int a, Value.vec3 b =>
      (ff (a : ℚ) b.x).bind fun x => (ff (a : ℚ) b.y).bind fun y => (ff (a : ℚ) b.z).map fun z =>
        Value.vec3 ⟨x, y, z⟩
  | _, _ => none

/-- The expression `a + b`. -/
def cppAdd : Value → Value → Option Value :=
  cppArith (fun a b => some (a + b)) (fun a b => some (a + b))

/-- The expression `a - b`. -/
def cppSub : Value → Value → Option Value :=
  cppArith (fun a b => some (a - b)) (fun a b => some (a - b))

/-- The expression `a * b`; on matrices the linear-algebra product, and a
float scales every element of a matrix. -/
def cppMul : Value → Value → Option Value
  | Value.matrix a, Value.matrix b => some (Value.matrix (a.mul b))
  | Value.matrix a, Value.float b => some (Value.matrix (a.scale b))
  | Value.float a, Value.matrix b => some (Value.matrix (b.scale a))
  | a, b => cppArith (fun a b => some (a * b)) (fun a b => some (a * b)) a b

/-- The least value of a 32-bit `int`. -/
def INT_MIN : ℤ := -2147483648

/-- The greatest value of a 32-bit `int`. -/
def INT_MAX : ℤ := 2147483647

/-- The raw C++ quotient of two ints: truncating; undefined for a zero
divisor and for `INT_MIN / -1`, whose quotient 2147483648 is not an `int`
(the division overflows). -/
def cppDivInt (a b : ℤ) : Option ℤ :=
  if b = 0 then none
  else if a = INT_MIN ∧ b = -1 then none
  else some (Int.tdiv a b)

/-- The raw quotient of two floats in exact arithmetic, undefined for a zero
divisor. -/
def cppDivFloat (a b : ℚ) : Option ℚ := if b = 0 then none else some (a / b)

/-- Modelled from the spec: a component of a triple quotient (the division
operators of `VecProxy` are declared outside the sources); a zero divisor
yields 0 for that component. -/
def safeDivComponent (a b : ℚ) : Option ℚ := if b = 0 then some 0 else some (a / b)

/-- The expression `a / b`: raw division on scalars, component-wise on
triples, and a matrix divided by a float divides every element. -/
def cppDiv : Value → Value → Option Value
  | Value.int a, Value.int b => (cppDivInt a b).map Value.int
  | Value.int a, Value.float b => (cppDivFloat (a : ℚ) b).map Value.float
  | Value.float a, Value.int b => (cppDivFloat a (b : ℚ)).map Value.float
  | Value.float a, Value.float b => (cppDivFloat a b).map Value.float
  | Value.matrix a, Value.float b => if b = 0 then none else some (Value.matrix (a.divScalar b))
  | a, b => cppArith (fun _ _ => none) safeDivComponent a b

/-- The comparison `b == (Float)0.0` of the division functor; a triple is
compared component by component. -/
def cppIsZero : Value → Option Bool
  | Value.int b => some (decide (b = 0))
  | Value.float b => some (decide (b = 0))
  | Value.vec3 b => some (decide (b.x = 0) && decide (b.y = 0) && decide (b.z = 0))
  | _ => none

/-- The C++ types that instantiate the operator templates. -/
inductive CType where
  | int
  | float
  | Vec3
  | VecProxy
  | Color3
  | Matrix44
  | ClosureColorPtr
  | ustring
  deriving DecidableEq, Repr

/-- The conversion `R (x)` of an expression value to the result type `R`:
float to int truncates, int to float is exact, a float fills all components
of a triple or all sixteen elements of a matrix. -/
def CType.construct : CType → Value → Option Value
  | CType.int, Value.int i => some (Value.int i)
  | CType.int, Value.float f => some (Value.int (truncToInt f))
  | CType.float, Value.int i => some (Value.float (i : ℚ))
  | CType.float, Value.float f => some (Value.float f)
  | CType.Vec3, Value.vec3 v => some (Value.vec3 v)
  | CType.Vec3, Value.float f => some (Value.vec3 (Vec3.splat f))
  | CType.VecProxy, Value.vec3 v => some (Value.vec3 v)
  | CType.VecProxy, Value.float f => some (Value.vec3 (Vec3.splat f))
  | CType.Color3, Value.vec3 v => some (Value.vec3 v)
  | CType.Matrix44, Value.matrix m => some (Value.matrix m)
  | CType.Matrix44, Value.float f => some (Value.matrix (Matrix44.splat f))
  | _, _ => none

/-! ## Symbols, opcodes and the interpreter state -/

/-- The kind of a symbol. -/
inductive SymType where
  | SymTypeParam
  | SymTypeOutputParam
  | SymTypeLocal
  | SymTypeTemp
  | SymTypeGlobal
  | SymTypeConst
  deriving DecidableEq, Repr

/-- Where the value of a parameter comes from. -/
inductive ValueSource where
  | DefaultVal
  | InstanceVal
  | GeomVal
  | ConnectedVal
  deriving DecidableEq, Repr

/-- Modelled from the spec: a named, typed storage location (class `Symbol`,
declared outside the sources): name, mangled name, type, kind, whether it
carries derivative planes, connection and deferred-initialization data of a
parameter, the (name, mangled name) of the symbol it is an alias of, its
data, and the data of its derivative planes.  The data of a uniform symbol
(`m_step` 0) is one value, or the elements of one array; the data of a varying
symbol holds that for every point, `m_step` elements apart (1 for a
non-array, the array length for an array). -/
structure Symbol where
  m_name : String
  m_mangled : String
  m_typespec : TypeSpec
  m_symtype : SymType
  m_has_derivs : Bool
  m_valuesource : ValueSource
  m_lockgeom : Bool
  m_initbegin : Nat
  m_initend : Nat
  m_alias : Option (String × String)
  m_data : List Value
  m_step : Nat
  m_derivs : List Value

namespace Symbol

def name (s : Symbol) : String := s.m_name

def typespec (s : Symbol) : TypeSpec := s.m_typespec

def symtype (s : Symbol) : SymType := s.m_symtype

def has_derivs (s : Symbol) : Bool := s.m_has_derivs

def valuesource (s : Symbol) : ValueSource := s.m_valuesource

def lockgeom (s : Symbol) : Bool := s.m_lockgeom

def initbegin (s : Symbol) : Nat := s.m_initbegin

def initend (s : Symbol) : Nat := s.m_initend

def is_constant (s : Symbol) : Bool := decide (s.m_symtype = SymType.SymTypeConst)

def is_varying (s : Symbol) : Bool := decide (s.m_step ≠ 0)

/-- The name of the symbol at the end of the alias chain. -/
def dealias_name (s : Symbol) : String :=
  match s.m_alias with
  | some a => a.1
  | none => s.m_name

/-- The mangled name of the symbol at the end of the alias chain
(`sym.dealias ()->mangled ()`). -/
def dealias_mangled (s : Symbol) : String :=
  match s.m_alias with
  | some a => a.2
  | none => s.m_mangled

/-- The value of the symbol at point `i` (`VaryingRef::operator[]`). -/
def valueAt (s : Symbol) (i : Nat) : Option Value := s.m_data[i * s.m_step]?

/-- The symbol with its value at point `i` replaced. -/
def setValueAt (s : Symbol) (i : Nat) (v : Value) : Symbol :=
  { s with m_data := s.m_data.set (i * s.m_step) v }

end Symbol

/-- The operator functors of the interpreter, with their template arguments. -/
inductive Functor where
  | Add (R A B : CType)
  | Sub (R A B : CType)
  | Mul (R A B : CType)
  | Div (R A B : CType)
  | ScalarMatrixMul
  | ScalarMatrixDiv
  | Mod
  | AddClosure
  | SubClosure
  | MulClosure
  | DivClosure
  | Neg (R A : CType)
  | NegClosure
  deriving DecidableEq, Repr

/-- The implementations an opcode can point to: the type-dispatching entry
points of `opmath.cpp` and `oparray.cpp`, the specialized drivers they select,
and (`other`) the implementations of opcodes defined in other source files,
which are not embedded here. -/
inductive OpImpl where
  | OP_add
  | OP_sub
  | OP_mul
  | OP_div
  | OP_mod
  | binary_op (R A B : CType) (F : Functor)
  | closure_binary_op (A B : CType) (F : Functor)
  | other (name : String)
  | OP_neg
  | OP_aref
  | OP_aassign
  | unary_op (R A : CType) (F : Functor)
  | closure_unary_op (A : CType) (F : Functor)
  | specialized_aref (T : CType)
  | specialized_aassign (T : CType)
  deriving DecidableEq, Repr

/-- Modelled from the spec: one instruction (class `Opcode`, declared outside
the sources): an operation name, the ordered argument symbol references, the
jump targets, and the stored implementation pointer. -/
structure Opcode where
  m_op : String
  m_args : List Nat
  m_jump : List Nat
  m_impl : OpImpl

namespace Opcode

def opname (op : Opcode) : String := op.m_op

def nargs (op : Opcode) : Nat := op.m_args.length

def jump (op : Opcode) (i : Nat) : Nat := op.m_jump.getD i 0

/-- The getter `op.implementation ()`. -/
def implementation (op : Opcode) : OpImpl := op.m_impl

/-- The setter `op.implementation (impl)`. -/
def set_implementation (op : Opcode) (impl : OpImpl) : Opcode := { op with m_impl := impl }

end Opcode

/-- Point `i` is executing: its run flag is set and it lies in the range
`[beginpoint, endpoint)`. -/
def pointIsActive (runflags : List Bool) (beginpoint endpoint i : Nat) : Bool :=
  runflags.getD i false && decide (beginpoint ≤ i) && decide (i < endpoint)

/-- Modelled from the spec: the state of one interpreter execution
(class `ShadingExecution`, declared outside the sources): the symbols, the
opcode being executed (`exec->op ()`), the number of points of the batch, and
the error channel. -/
structure ShadingExecution where
  m_symbols : List Symbol
  m_op : Opcode
  m_npoints : Nat
  m_errors : List String

namespace ShadingExecution

def sym (exec : ShadingExecution) (i : Nat) : Option Symbol := exec.m_symbols[i]?

def op (exec : ShadingExecution) : Opcode := exec.m_op

/-- Report an error on the execution's error channel (`exec->error (...)`). -/
def error (exec : ShadingExecution) (msg : String) : ShadingExecution :=
  { exec with m_errors := exec.m_errors ++ [msg] }

/-- Replace symbol `i`. -/
def setSym (exec : ShadingExecution) (i : Nat) (s : Symbol) : ShadingExecution :=
  { exec with m_symbols := exec.m_symbols.set i s }

/-- Modelled from the spec: every point of the batch is executing the
current op (the execution is not inside a conditional): the run flag of each
point is set and the point lies in the range `[beginpoint, endpoint)`. -/
def all_points_on (exec : ShadingExecution) (runflags : List Bool)
    (beginpoint endpoint : Nat) : Bool :=
  (List.range exec.m_npoints).all fun i => pointIsActive runflags beginpoint endpoint i

/-- Modelled from the spec: `adjust_varying` updates the destination symbol's
uniform/varying status.  A uniform symbol becomes varying when the assignment
is varying or when the execution is inside a conditional, that is, when some
point of the batch is not executing the op (the run flags and the point range
of the execution are those the op is called with, and are passed on here);
it then gets one copy of its value (of its elements, for an array) per point
of the batch. -/
def adjust_varying (exec : ShadingExecution) (i : Nat) (varying_assignment : Bool)
    (runflags : List Bool) (beginpoint endpoint : Nat) : ShadingExecution :=
  match exec.sym i with
  | some s =>
      if (varying_assignment || !exec.all_points_on runflags beginpoint endpoint)
          && !s.is_varying then
        let n := s.typespec.simpletype.numelements
        exec.setSym i { s with m_step := n,
                               m_data := (List.replicate exec.m_npoints (s.m_data.take n)).flatten }
      else exec
  | none => exec

end ShadingExecution

/-! ## The operator functors of `opmath.cpp` -/

/-- Functor `ScalarMatrixMul`: `f = a * b` on the diagonal, 0 elsewhere. -/
def ScalarMatrixMul (a b : ℚ) : Matrix44 :=
  let f := a * b
  Matrix44.mk16 f 0 0 0 0 f 0 0 0 0 f 0 0 0 0 f

/-- Functor `ScalarMatrixDiv`: `f = (b == 0) ? 0.0 : (a / b)` on the diagonal,
0 elsewhere. -/
def ScalarMatrixDiv (a b : ℚ) : Matrix44 :=
  let f := if b = 0 then 0 else a / b
  Matrix44.mk16 f 0 0 0 0 f 0 0 0 0 f 0 0 0 0 f

namespace Mod

/-- Method `Mod::safe_mod (int, int)`. -/
def safe_mod (m_exec : ShadingExecution) (a b : ℤ) : ℤ × ShadingExecution :=
  if b = 0 then (0, m_exec.error "attempted to compute mod(%d, %d)")
  else (Int.tmod a b, m_exec)

/-- Method `Mod::safe_fmod (float, float)`. -/
def safe_fmod (m_exec : ShadingExecution) (x y : ℚ) : ℚ × ShadingExecution :=
  if y = 0 then (0, m_exec.error "attempted to compute mod(%g, %g)")
  else (fmodf x y, m_exec)

/-- Method `Mod::safe_fmod (const Vec3 &, float)`. -/
def safe_fmod_vec_float (m_exec : ShadingExecution) (x : Vec3) (y : ℚ) : Vec3 × ShadingExecution :=
  if y = 0 then (⟨0, 0, 0⟩, m_exec.error "attempted to compute mod(%g %g %g, %g)")
  else (⟨fmodf (x.get 0) y, fmodf (x.get 1) y, fmodf (x.get 2) y⟩, m_exec)

/-- Method `Mod::safe_fmod (const Vec3 &, const Vec3 &)`. -/
def safe_fmod_vec_vec (m_exec : ShadingExecution) (x y : Vec3) : Vec3 × ShadingExecution :=
  if y.get 0 = 0 ∨ y.get 1 = 0 ∨ y.get 2 = 0 then
    let m_exec1 := m_exec.error "attempted to compute mod(%g %g %g, %g %g %g)"
    let x0 := if y.get 0 = 0 then 0 else fmodf (x.get 0) (y.get 0)
    let x1 := if y.get 1 = 0 then 0 else fmodf (x.get 1) (y.get 1)
    let x2 := if y.get 2 = 0 then 0 else fmodf (x.get 2) (y.get 2)
    (⟨x0, x1, x2⟩, m_exec1)
  else
    (⟨fmodf (x.get 0) (y.get 0), fmodf (x.get 1) (y.get 1), fmodf (x.get 2) (y.get 2)⟩, m_exec)

/-- The four overloads of `Mod::operator()`, selected by the argument types. -/
def call (m_exec : ShadingExecution) : Value → Value → Option Value × ShadingExecution
  | Value.int a, Value.int b =>
      let r := safe_mod m_exec a b
      (some (Value.int r.1), r.2)
  | Value.float x, Value.float y =>
      let r := safe_fmod m_exec x y
      (some (Value.float r.1), r.2)
  | Value.vec3 x, Value.float y =>
      let r := safe_fmod_vec_float m_exec x y
      (some (Value.vec3 r.1), r.2)
  | Value.vec3 x, Value.vec3 y =>
      let r := safe_fmod_vec_vec m_exec x y
      (some (Value.vec3 r.1), r.2)
  | _, _ => (none, m_exec)

end Mod

/-- The generic `Div<R,A,B>::operator()`:
`(b == (Float)0.0) ? R (0.0) : R (a / b)`. -/
def DivGeneric (R : CType) (a b : Value) : Option Value :=
  match cppIsZero b with
  | some true => R.construct (Value.float 0)
  | some false => (cppDiv a b).bind R.construct
  | none => none

/-- The value `function (a, b)` computed by a numeric functor; the execution
is only used (and only changed) by `Mod`, the one functor that keeps the
pointer it is constructed with. -/
def Functor.call : Functor → ShadingExecution → Value → Value → Option Value × ShadingExecution
  | Functor.Add R _ _, exec, a, b => ((cppAdd a b).bind R.construct, exec)
  | Functor.Sub R _ _, exec, a, b => ((cppSub a b).bind R.construct, exec)
  | Functor.Mul CType.Matrix44 CType.Matrix44 CType.int, exec, Value.matrix a, Value.int b =>
      (some (Value.matrix (a.scale (b : ℚ))), exec)
  | Functor.Mul CType.Matrix44 CType.int CType.Matrix44, exec, Value.int a, Value.matrix b =>
      (some (Value.matrix (b.scale (a : ℚ))), exec)
  | Functor.Mul R _ _, exec, a, b => ((cppMul a b).bind R.construct, exec)
  | Functor.Div CType.Matrix44 CType.Matrix44 CType.Matrix44, exec, Value.matrix a, Value.matrix b =>
      (some (Value.matrix (a.mul b.inverse)), exec)
  | Functor.Div CType.Matrix44 CType.float CType.Matrix44, exec, Value.float a, Value.matrix b =>
      (some (Value.matrix (b.inverse.scale a)), exec)
  | Functor.Div CType.Matrix44 CType.int CType.Matrix44, exec, Value.int a, Value.matrix b =>
      (some (Value.matrix (b.inverse.scale (a : ℚ))), exec)
  | Functor.Div CType.Matrix44 CType.Matrix44 CType.int, exec, Value.matrix a, Value.int b =>
      (cppDiv (Value.matrix a) (Value.float (b : ℚ)), exec)
  | Functor.Div R _ _, exec, a, b => (DivGeneric R a b, exec)
  | Functor.ScalarMatrixMul, exec, a, b =>
      (a.toFloat?.bind fun x => b.toFloat?.map fun y => Value.matrix (OSL.ScalarMatrixMul x y), exec)
  | Functor.ScalarMatrixDiv, exec, a, b =>
      (a.toFloat?.bind fun x => b.toFloat?.map fun y => Value.matrix (OSL.ScalarMatrixDiv x y), exec)
  | Functor.Mod, exec, a, b => Mod.call exec a b
  | _, exec, _, _ => (none, exec)

/-- The closure functors (`AddClosure`, `SubClosure`, `MulClosure`,
`DivClosure`): the closure written to `*result` from the operands. -/
def Functor.callClosure : Functor → Value → Value → Option ClosureColor
  | Functor.AddClosure, Value.closure a, Value.closure b => some (a.add b)
  | Functor.SubClosure, Value.closure a, Value.closure b => some (a.sub b)
  | Functor.MulClosure, Value.closure a, Value.vec3 b => some (a.mulColor b)
  | Functor.MulClosure, Value.vec3 a, Value.closure b => some (b.mulColor a)
  | Functor.MulClosure, Value.closure a, Value.float b => some (a.mulFloat b)
  | Functor.MulClosure, Value.float a, Value.closure b => some (b.mulFloat a)
  | Functor.DivClosure, Value.closure a, Value.vec3 b =>
      (cppDivFloat 1 b.x).bind fun x => (cppDivFloat 1 b.y).bind fun y =>
        (cppDivFloat 1 b.z).map fun z => a.mulColor ⟨x, y, z⟩
  | Functor.DivClosure, Value.closure a, Value.float b => (cppDivFloat 1 b).map a.mulFloat
  | _, _, _ => none

/-! ## The per-point drivers -/

/-- The point loop of a driver: for `i` from `beginpoint` to `endpoint`, when
`runflags[i]` is set, `result[i] = f (a[i], b[i])`. -/
def pointLoop (body : ShadingExecution → Nat → Except String ShadingExecution)
    (runflags : List Bool) : List Nat → ShadingExecution → Except String ShadingExecution
  | [], exec => Except.ok exec
  | i :: rest, exec =>
      if runflags.getD i false then
        match body exec i with
        | Except.ok exec1 => pointLoop body runflags rest exec1
        | Except.error e => Except.error e
      else pointLoop body runflags rest exec

/-- Store `v` as the value of symbol `r` at point `i`. -/
def storeResult (exec : ShadingExecution) (r i : Nat) (v : Value) : Except String ShadingExecution :=
  match exec.sym r with
  | some R => Except.ok (exec.setSym r (R.setValueAt i v))
  | none => Except.error "no such symbol"

/-- Modelled from the spec: the driver template `binary_op<RET,ATYPE,BTYPE,FUNCTION>`
(declared outside the sources) executes one opcode over the half-open point
range `[beginpoint, endpoint)`, honoring the active-lane mask, and updates the
destination's uniform/varying status; its shape is that of
`closure_binary_op` below. -/
def binary_op (F : Functor) (exec : ShadingExecution) (nargs : Nat) (args : List Nat)
    (runflags : List Bool) (beginpoint endpoint : Nat) : Except String ShadingExecution :=
  match args, nargs with
  | [r, a, b], _ =>
      match exec.sym r, exec.sym a, exec.sym b with
      | some _, some A, some B =>
          let exec1 := exec.adjust_varying r (A.is_varying || B.is_varying)
            runflags beginpoint endpoint
          pointLoop
            (fun ex i =>
              match (ex.sym a).bind (fun s => s.valueAt i), (ex.sym b).bind (fun s => s.valueAt i) with
              | some va, some vb =>
                  match F.call ex va vb with
                  | (some v, ex1) => storeResult ex1 r i v
                  | (none, _) => Except.error "operands do not have the types of the functor"
              | _, _ => Except.error "no data for the point")
            runflags (List.range' beginpoint (endpoint - beginpoint)) exec1
      | _, _, _ => Except.error "no such symbol"
  | _, _ => Except.error "wrong number of arguments"

/-- The driver template `closure_binary_op<ATYPE,BTYPE,FUNCTION>`: the result
is always adjusted to varying, and for every point of the range whose run
flag is set the functor is applied to (`result[i]`, `a[i]`, `b[i]`). -/
def closure_binary_op (F : Functor) (exec : ShadingExecution) (nargs : Nat) (args : List Nat)
    (runflags : List Bool) (beginpoint endpoint : Nat) : Except String ShadingExecution :=
  match args, nargs with
  | [r, a, b], _ =>
      match exec.sym r, exec.sym a, exec.sym b with
      | some _, some _, some _ =>
          let exec1 := exec.adjust_varying r true runflags beginpoint endpoint
          pointLoop
            (fun ex i =>
              match (ex.sym a).bind (fun s => s.valueAt i), (ex.sym b).bind (fun s => s.valueAt i) with
              | some va, some vb =>
                  match F.callClosure va vb with
                  | some c => storeResult ex r i (Value.closure c)
                  | none => Except.error "operands do not have the types of the functor"
              | _, _ => Except.error "no data for the point")
            runflags (List.range' beginpoint (endpoint - beginpoint)) exec1
      | _, _, _ => Except.error "no such symbol"
  | _, _ => Except.error "wrong number of arguments"

/-- The expression `-a`: on a matrix every element is negated. -/
def cppNeg : Value → Option Value
  | Value.int a => some (Value.int (-a))
  | Value.float a => some (Value.float (-a))
  | Value.vec3 a => some (Value.vec3 ⟨-a.x, -a.y, -a.z⟩)
  | Value.matrix a => some (Value.matrix ⟨fun i j => -a.x i j⟩)
  | _ => none

/-- The value `function (a)` computed by the functor `Neg<R,A>`: `R (-a)`. -/
def Functor.call1 : Functor → Value → Option Value
  | Functor.Neg R _, a => (cppNeg a).bind R.construct
  | _, _ => none

/-- Functor `NegClosure`: `*result = *A; *result *= -1.0`. -/
def Functor.callClosure1 : Functor → Value → Option ClosureColor
  | Functor.NegClosure, Value.closure a => some (a.mulFloat (-1))
  | _, _ => none

/-- Modelled from the spec: the driver template `unary_op<RET,ATYPE,FUNCTION>`
(declared outside the sources), the one-operand form of `binary_op`. -/
def unary_op (F : Functor) (exec : ShadingExecution) (nargs : Nat) (args : List Nat)
    (runflags : List Bool) (beginpoint endpoint : Nat) : Except String ShadingExecution :=
  match args, nargs with
  | [r, a], _ =>
      match exec.sym r, exec.sym a with
      | some _, some A =>
          let exec1 := exec.adjust_varying r A.is_varying runflags beginpoint endpoint
          pointLoop
            (fun ex i =>
              match (ex.sym a).bind (fun s => s.valueAt i) with
              | some va =>
                  match F.call1 va with
                  | some v => storeResult ex r i v
                  | none => Except.error "operand does not have the type of the functor"
              | none => Except.error "no data for the point")
            runflags (List.range' beginpoint (endpoint - beginpoint)) exec1
      | _, _ => Except.error "no such symbol"
  | _, _ => Except.error "wrong number of arguments"

/-- The driver template `closure_unary_op<ATYPE,FUNCTION>`: the result is
always adjusted to varying, and for every point of the range whose run flag is
set the functor is applied to (`result[i]`, `a[i]`). -/
def closure_unary_op (F : Functor) (exec : ShadingExecution) (nargs : Nat) (args : List Nat)
    (runflags : List Bool) (beginpoint endpoint : Nat) : Except String ShadingExecution :=
  match args, nargs with
  | [r, a], _ =>
      match exec.sym r, exec.sym a with
      | some _, some _ =>
          let exec1 := exec.adjust_varying r true runflags beginpoint endpoint
          pointLoop
            (fun ex i =>
              match (ex.sym a).bind (fun s => s.valueAt i) with
              | some va =>
                  match F.callClosure1 va with
                  | some c => storeResult ex r i (Value.closure c)
                  | none => Except.error "operand does not have the type of the functor"
              | none => Except.error "no data for the point")
            runflags (List.range' beginpoint (endpoint - beginpoint)) exec1
      | _, _ => Except.error "no such symbol"
  | _, _ => Except.error "wrong number of arguments"

/-! ## The array operators of `oparray.cpp` -/

/-- The zero of the kind of a value. -/
def Value.zero : Value → Value
  | Value.int _ => Value.int 0
  | Value.float _ => Value.float 0
  | Value.vec3 _ => Value.vec3 ⟨0, 0, 0⟩
  | Value.matrix _ => Value.matrix (Matrix44.splat 0)
  | v => v

/-- Modelled from the spec: `zero_derivs` (declared outside the sources) zeroes
the derivative planes of a symbol. -/
def ShadingExecution.zero_derivs (exec : ShadingExecution) (i : Nat) : ShadingExecution :=
  match exec.sym i with
  | some s => exec.setSym i { s with m_derivs := s.m_derivs.map Value.zero }
  | none => exec

/-- The element `(&ref[i])[ind]` of a symbol's storage: `ind` elements past
the first datum of point `i`; `none` outside the storage. -/
def Symbol.elementAt (s : Symbol) (i : Nat) (ind : ℤ) : Option Value :=
  let k : ℤ := ((i * s.m_step : Nat) : ℤ) + ind
  if 0 ≤ k then s.m_data[k.toNat]? else none

/-- The symbol after the assignment `(&ref[i])[ind] = v`; `none` outside the
storage. -/
def Symbol.setElementAt (s : Symbol) (i : Nat) (ind : ℤ) (v : Value) : Option Symbol :=
  let k : ℤ := ((i * s.m_step : Nat) : ℤ) + ind
  if 0 ≤ k ∧ k.toNat < s.m_data.length then some { s with m_data := s.m_data.set k.toNat v }
  else none

/-- The int a symbol holds at point `i` (`index[i]`). -/
def Symbol.intAt (s : Symbol) (i : Nat) : Option ℤ :=
  match s.valueAt i with
  | some (Value.int k) => some k
  | _ => none

/-- One assignment `result[i] = T ((&src[j])[ind])` of `specialized_aref`. -/
def arefAssign (r a : Nat) (ex : ShadingExecution) (i j : Nat) (ind : ℤ) :
    Except String ShadingExecution :=
  match (ex.sym a).bind (fun s => s.elementAt j ind) with
  | some v => storeResult ex r i v
  | none => Except.error "access outside the storage of the array"

/-- The template `specialized_aref<T>`: after the adjustment of the result's
status, one unguarded assignment when the result is uniform, a guarded loop
with the one index when the index is uniform, a guarded loop with the index
of each point otherwise. -/
def specialized_aref (exec : ShadingExecution) (nargs : Nat) (args : List Nat)
    (runflags : List Bool) (beginpoint endpoint : Nat) : Except String ShadingExecution :=
  match args, nargs with
  | [r, a, x], _ =>
      match exec.sym r, exec.sym a, exec.sym x with
      | some Result, some Src, some Index =>
          let exec1 := exec.adjust_varying r (Src.is_varying || Index.is_varying)
            runflags beginpoint endpoint
          let exec2 := if Result.has_derivs then exec1.zero_derivs r else exec1
          match exec2.sym r, exec2.sym x with
          | some result, some index =>
              if !result.is_varying then
                match index.intAt 0 with
                | some ind => arefAssign r a exec2 0 0 ind
                | none => Except.error "no data for the index"
              else if !index.is_varying then
                match index.intAt 0 with
                | some ind =>
                    pointLoop (fun ex i => arefAssign r a ex i i ind)
                      runflags (List.range' beginpoint (endpoint - beginpoint)) exec2
                | none => Except.error "no data for the index"
              else
                pointLoop
                  (fun ex i =>
                    match (ex.sym x).bind (fun s => s.intAt i) with
                    | some ind => arefAssign r a ex i i ind
                    | none => Except.error "no data for the index")
                  runflags (List.range' beginpoint (endpoint - beginpoint)) exec2
          | _, _ => Except.error "no such symbol"
      | _, _, _ => Except.error "no such symbol"
  | _, _ => Except.error "wrong number of arguments"

/-- One assignment `(&result[i])[ind] = src[j]` of `specialized_aassign`. -/
def aassignAssign (r s : Nat) (ex : ShadingExecution) (i j : Nat) (ind : ℤ) :
    Except String ShadingExecution :=
  match ex.sym r, (ex.sym s).bind (fun src => src.valueAt j) with
  | some R, some v =>
      match R.setElementAt i ind v with
      | some R1 => Except.ok (ex.setSym r R1)
      | none => Except.error "access outside the storage of the array"
  | _, _ => Except.error "no data for the point"

/-- The template `specialized_aassign<T>`, of the same three shapes as
`specialized_aref`. -/
def specialized_aassign (exec : ShadingExecution) (nargs : Nat) (args : List Nat)
    (runflags : List Bool) (beginpoint endpoint : Nat) : Except String ShadingExecution :=
  match args, nargs with
  | [r, x, s], _ =>
      match exec.sym r, exec.sym x, exec.sym s with
      | some Result, some Index, some Src =>
          let exec1 := exec.adjust_varying r (Src.is_varying || Index.is_varying)
            runflags beginpoint endpoint
          let exec2 := if Result.has_derivs then exec1.zero_derivs r else exec1
          match exec2.sym r, exec2.sym x with
          | some result, some index =>
              if !result.is_varying then
                match index.intAt 0 with
                | some ind => aassignAssign r s exec2 0 0 ind
                | none => Except.error "no data for the index"
              else if !index.is_varying then
                match index.intAt 0 with
                | some ind =>
                    pointLoop (fun ex i => aassignAssign r s ex i i ind)
                      runflags (List.range' beginpoint (endpoint - beginpoint)) exec2
                | none => Except.error "no data for the index"
              else
                pointLoop
                  (fun ex i =>
                    match (ex.sym x).bind (fun sx => sx.intAt i) with
                    | some ind => aassignAssign r s ex i i ind
                    | none => Except.error "no data for the index")
                  runflags (List.range' beginpoint (endpoint - beginpoint)) exec2
          | _, _ => Except.error "no such symbol"
      | _, _, _ => Except.error "no such symbol"
  | _, _ => Except.error "wrong number of arguments"

/-- Run a specialized implementation (a driver instantiation). -/
def runSpecialized (impl : OpImpl) (exec : ShadingExecution) (nargs : Nat) (args : List Nat)
    (runflags : List Bool) (beginpoint endpoint : Nat) : Except String ShadingExecution :=
  match impl with
  | OpImpl.binary_op _ _ _ F => binary_op F exec nargs args runflags beginpoint endpoint
  | OpImpl.closure_binary_op _ _ F => closure_binary_op F exec nargs args runflags beginpoint endpoint
  | OpImpl.unary_op _ _ F => unary_op F exec nargs args runflags beginpoint endpoint
  | OpImpl.closure_unary_op _ F => closure_unary_op F exec nargs args runflags beginpoint endpoint
  | OpImpl.specialized_aref _ => specialized_aref exec nargs args runflags beginpoint endpoint
  | OpImpl.specialized_aassign _ =>
      specialized_aassign exec nargs args runflags beginpoint endpoint
  | _ => Except.error "not a specialized implementation"

/-! ## The type-dispatching entry points of `opmath.cpp` -/

/-- The tail of every entry point, after `impl (exec, nargs, args, ...)` has
returned: `exec->op ().implementation (impl)`, the rewrite of the stored
implementation pointer ("use the specialized one for next time"). -/
def storeImplementation (impl : OpImpl) (r : Except String ShadingExecution) :
    Except String ShadingExecution :=
  match r with
  | Except.ok exec1 => Except.ok { exec1 with m_op := exec1.op.set_implementation impl }
  | Except.error e => Except.error e

/-- The selection of `OP_add`: the value of `impl` after the cascade of type
tests, `none` for the null pointer. -/
def OP_add_select (Result A B : TypeSpec) : Option OpImpl :=
  let impl : Option OpImpl := none
  if Result.is_closure then
    if A.is_closure && B.is_closure then
      some (OpImpl.closure_binary_op CType.ClosureColorPtr CType.ClosureColorPtr Functor.AddClosure)
    else impl
  else if Result.is_triple then
    let impl : Option OpImpl :=
      if A.is_triple then
        if B.is_triple then
          some (OpImpl.binary_op CType.Vec3 CType.Vec3 CType.Vec3
                  (Functor.Add CType.Vec3 CType.Vec3 CType.Vec3))
        else if B.is_float then
          some (OpImpl.binary_op CType.VecProxy CType.VecProxy CType.float
                  (Functor.Add CType.VecProxy CType.VecProxy CType.float))
        else if B.is_int then
          some (OpImpl.binary_op CType.VecProxy CType.VecProxy CType.int
                  (Functor.Add CType.VecProxy CType.VecProxy CType.int))
        else impl
      else if A.is_float then
        if B.is_triple then
          some (OpImpl.binary_op CType.VecProxy CType.float CType.VecProxy
                  (Functor.Add CType.VecProxy CType.float CType.VecProxy))
        else impl
      else impl
    if A.is_int then
      if B.is_triple then
        some (OpImpl.binary_op CType.VecProxy CType.int CType.VecProxy
                (Functor.Add CType.VecProxy CType.int CType.VecProxy))
      else impl
    else impl
  else if Result.is_float then
    if A.is_float && B.is_float then
      some (OpImpl.binary_op CType.float CType.float CType.float
              (Functor.Add CType.float CType.float CType.float))
    else if A.is_float && B.is_int then
      some (OpImpl.binary_op CType.float CType.float CType.int
              (Functor.Add CType.float CType.float CType.int))
    else if A.is_int && B.is_float then
      some (OpImpl.binary_op CType.float CType.int CType.float
              (Functor.Add CType.float CType.int CType.float))
    else impl
  else if Result.is_int then
    if A.is_int && B.is_int then
      some (OpImpl.binary_op CType.int CType.int CType.int
              (Functor.Add CType.int CType.int CType.int))
    else impl
  else impl

/-- The entry point `DECLOP (OP_add)`: the assertions, the type-directed
selection, and on success the run of the selected implementation followed by
the rewrite of the stored implementation pointer of the opcode. -/
def OP_add (exec : ShadingExecution) (nargs : Nat) (args : List Nat)
    (runflags : List Bool) (beginpoint endpoint : Nat) : Except String ShadingExecution :=
  if nargs ≠ 3 then Except.error "ASSERT (nargs == 3)"
  else
    match exec.sym (args.getD 0 0), exec.sym (args.getD 1 0), exec.sym (args.getD 2 0) with
    | some Result, some A, some B =>
      if Result.typespec.is_structure || Result.typespec.is_array then
        Except.error "ASSERT on the type of Result"
      else if A.typespec.is_structure || A.typespec.is_array then
        Except.error "ASSERT on the type of A"
      else if B.typespec.is_structure || B.typespec.is_array then
        Except.error "ASSERT on the type of B"
      else
        match OP_add_select Result.typespec A.typespec B.typespec with
        | some impl =>
            storeImplementation impl
              (runSpecialized impl exec nargs args runflags beginpoint endpoint)
        | none => Except.error "ASSERT (0): Addition types cannot be handled"
    | _, _, _ => Except.error "no such symbol"

/-- The selection of `OP_sub`: the value of `impl` after the cascade of type
tests, `none` for the null pointer. -/
def OP_sub_select (Result A B : TypeSpec) : Option OpImpl :=
  let impl : Option OpImpl := none
  if Result.is_closure then
    if A.is_closure && B.is_closure then
      some (OpImpl.closure_binary_op CType.ClosureColorPtr CType.ClosureColorPtr Functor.SubClosure)
    else impl
  else if Result.is_triple then
    let impl : Option OpImpl :=
      if A.is_triple then
        if B.is_triple then
          some (OpImpl.binary_op CType.Vec3 CType.Vec3 CType.Vec3
                  (Functor.Sub CType.Vec3 CType.Vec3 CType.Vec3))
        else if B.is_float then
          some (OpImpl.binary_op CType.VecProxy CType.VecProxy CType.float
                  (Functor.Sub CType.VecProxy CType.VecProxy CType.float))
        else if B.is_int then
          some (OpImpl.binary_op CType.VecProxy CType.VecProxy CType.int
                  (Functor.Sub CType.VecProxy CType.VecProxy CType.int))
        else impl
      else if A.is_float then
        if B.is_triple then
          some (OpImpl.binary_op CType.VecProxy CType.float CType.VecProxy
                  (Functor.Sub CType.VecProxy CType.float CType.VecProxy))
        else impl
      else impl
    if A.is_int then
      if B.is_triple then
        some (OpImpl.binary_op CType.VecProxy CType.int CType.VecProxy
                (Functor.Sub CType.VecProxy CType.int CType.VecProxy))
      else impl
    else impl
  else if Result.is_float then
    if A.is_float && B.is_float then
      some (OpImpl.binary_op CType.float CType.float CType.float
              (Functor.Sub CType.float CType.float CType.float))
    else if A.is_float && B.is_int then
      some (OpImpl.binary_op CType.float CType.float CType.int
              (Functor.Sub CType.float CType.float CType.int))
    else if A.is_int && B.is_float then
      some (OpImpl.binary_op CType.float CType.int CType.float
              (Functor.Sub CType.float CType.int CType.float))
    else impl
  else if Result.is_int then
    if A.is_int && B.is_int then
      some (OpImpl.binary_op CType.int CType.int CType.int
              (Functor.Sub CType.int CType.int CType.int))
    else impl
  else impl

/-- The entry point `DECLOP (OP_sub)`: the assertions, the type-directed
selection, and on success the run of the selected implementation followed by
the rewrite of the stored implementation pointer of the opcode. -/
def OP_sub (exec : ShadingExecution) (nargs : Nat) (args : List Nat)
    (runflags : List Bool) (beginpoint endpoint : Nat) : Except String ShadingExecution :=
  if nargs ≠ 3 then Except.error "ASSERT (nargs == 3)"
  else
    match exec.sym (args.getD 0 0), exec.sym (args.getD 1 0), exec.sym (args.getD 2 0) with
    | some Result, some A, some B =>
      if Result.typespec.is_structure || Result.typespec.is_array then
        Except.error "ASSERT on the type of Result"
      else if A.typespec.is_structure || A.typespec.is_array then
        Except.error "ASSERT on the type of A"
      else if B.typespec.is_structure || B.typespec.is_array then
        Except.error "ASSERT on the type of B"
      else
        match OP_sub_select Result.typespec A.typespec B.typespec with
        | some impl =>
            storeImplementation impl
              (runSpecialized impl exec nargs args runflags beginpoint endpoint)
        | none => Except.error "ASSERT (0): Subtraction types cannot be handled"
    | _, _, _ => Except.error "no such symbol"

/-- The selection of `OP_mul`: the value of `impl` after the cascade of type
tests, `none` for the null pointer. -/
def OP_mul_select (Result A B : TypeSpec) : Option OpImpl :=
  let impl : Option OpImpl := none
  if Result.is_closure then
    if A.is_closure && B.is_triple then
      some (OpImpl.closure_binary_op CType.ClosureColorPtr CType.Color3 Functor.MulClosure)
    else if A.is_closure && B.is_float then
      some (OpImpl.closure_binary_op CType.ClosureColorPtr CType.float Functor.MulClosure)
    else if A.is_triple && B.is_closure then
      some (OpImpl.closure_binary_op CType.Color3 CType.ClosureColorPtr Functor.MulClosure)
    else if A.is_float && B.is_closure then
      some (OpImpl.closure_binary_op CType.float CType.ClosureColorPtr Functor.MulClosure)
    else impl
  else if Result.is_triple then
    let impl : Option OpImpl :=
      if A.is_triple then
        if B.is_triple then
          some (OpImpl.binary_op CType.Vec3 CType.Vec3 CType.Vec3
                  (Functor.Mul CType.Vec3 CType.Vec3 CType.Vec3))
        else if B.is_float then
          some (OpImpl.binary_op CType.VecProxy CType.VecProxy CType.float
                  (Functor.Mul CType.VecProxy CType.VecProxy CType.float))
        else if B.is_int then
          some (OpImpl.binary_op CType.VecProxy CType.VecProxy CType.int
                  (Functor.Mul CType.VecProxy CType.VecProxy CType.int))
        else impl
      else if A.is_float then
        if B.is_triple then
          some (OpImpl.binary_op CType.VecProxy CType.float CType.VecProxy
                  (Functor.Mul CType.VecProxy CType.float CType.VecProxy))
        else impl
      else impl
    if A.is_int then
      if B.is_triple then
        some (OpImpl.binary_op CType.VecProxy CType.int CType.VecProxy
                (Functor.Mul CType.VecProxy CType.int CType.VecProxy))
      else impl
    else impl
  else if Result.is_float then
    if A.is_float && B.is_float then
      some (OpImpl.binary_op CType.float CType.float CType.float
              (Functor.Mul CType.float CType.float CType.float))
    else if A.is_float && B.is_int then
      some (OpImpl.binary_op CType.float CType.float CType.int
              (Functor.Mul CType.float CType.float CType.int))
    else if A.is_int && B.is_float then
      some (OpImpl.binary_op CType.float CType.int CType.float
              (Functor.Mul CType.float CType.int CType.float))
    else impl
  else if Result.is_int then
    if A.is_int && B.is_int then
      some (OpImpl.binary_op CType.int CType.int CType.int
              (Functor.Mul CType.int CType.int CType.int))
    else impl
  else if Result.is_matrix then
    let impl : Option OpImpl :=
      if A.is_float then
        if B.is_float then
          some (OpImpl.binary_op CType.Matrix44 CType.float CType.float Functor.ScalarMatrixMul)
        else if B.is_int then
          some (OpImpl.binary_op CType.Matrix44 CType.float CType.int Functor.ScalarMatrixMul)
        else if B.is_matrix then
          some (OpImpl.binary_op CType.Matrix44 CType.float CType.Matrix44
                  (Functor.Mul CType.Matrix44 CType.float CType.Matrix44))
        else impl
      else impl
    let impl : Option OpImpl :=
      if A.is_int then
        if B.is_float then
          some (OpImpl.binary_op CType.Matrix44 CType.int CType.float Functor.ScalarMatrixMul)
        else if B.is_int then
          some (OpImpl.binary_op CType.Matrix44 CType.int CType.int Functor.ScalarMatrixMul)
        else if B.is_matrix then
          some (OpImpl.binary_op CType.Matrix44 CType.int CType.Matrix44
                  (Functor.Mul CType.Matrix44 CType.int CType.Matrix44))
        else impl
      else impl
    if A.is_matrix then
      if B.is_float then
        some (OpImpl.binary_op CType.Matrix44 CType.Matrix44 CType.float
                (Functor.Mul CType.Matrix44 CType.Matrix44 CType.float))
      else if B.is_int then
        some (OpImpl.binary_op CType.Matrix44 CType.Matrix44 CType.int
                (Functor.Mul CType.Matrix44 CType.Matrix44 CType.int))
      else if B.is_matrix then
        some (OpImpl.binary_op CType.Matrix44 CType.Matrix44 CType.Matrix44
                (Functor.Mul CType.Matrix44 CType.Matrix44 CType.Matrix44))
      else impl
    else impl
  else impl

/-- The entry point `DECLOP (OP_mul)`: the assertions, the type-directed
selection, and on success the run of the selected implementation followed by
the rewrite of the stored implementation pointer of the opcode. -/
def OP_mul (exec : ShadingExecution) (nargs : Nat) (args : List Nat)
    (runflags : List Bool) (beginpoint endpoint : Nat) : Except String ShadingExecution :=
  if nargs ≠ 3 then Except.error "ASSERT (nargs == 3)"
  else
    match exec.sym (args.getD 0 0), exec.sym (args.getD 1 0), exec.sym (args.getD 2 0) with
    | some Result, some A, some B =>
      if Result.typespec.is_structure || Result.typespec.is_array then
        Except.error "ASSERT on the type of Result"
      else if A.typespec.is_structure || A.typespec.is_array then
        Except.error "ASSERT on the type of A"
      else if B.typespec.is_structure || B.typespec.is_array then
        Except.error "ASSERT on the type of B"
      else if Result.typespec.is_closure && !(A.typespec.is_closure || B.typespec.is_closure) then
        Except.error "ASSERT (A.typespec().is_closure() || B.typespec().is_closure())"
      else
        match OP_mul_select Result.typespec A.typespec B.typespec with
        | some impl =>
            storeImplementation impl
              (runSpecialized impl exec nargs args runflags beginpoint endpoint)
        | none => Except.error "ASSERT (0): Multiplication types cannot be handled"
    | _, _, _ => Except.error "no such symbol"

/-- The selection of `OP_div`: the value of `impl` after the cascade of type
tests, `none` for the null pointer (the closure branch is empty). -/
def OP_div_select (Result A B : TypeSpec) : Option OpImpl :=
  let impl : Option OpImpl := none
  if Result.is_closure then
    impl
  else if Result.is_triple then
    let impl : Option OpImpl :=
      if A.is_triple then
        if B.is_triple then
          some (OpImpl.binary_op CType.VecProxy CType.VecProxy CType.VecProxy
                  (Functor.Div CType.VecProxy CType.VecProxy CType.VecProxy))
        else if B.is_float then
          some (OpImpl.binary_op CType.VecProxy CType.VecProxy CType.float
                  (Functor.Div CType.VecProxy CType.VecProxy CType.float))
        else if B.is_int then
          some (OpImpl.binary_op CType.VecProxy CType.VecProxy CType.int
                  (Functor.Div CType.VecProxy CType.VecProxy CType.int))
        else impl
      else if A.is_float then
        if B.is_triple then
          some (OpImpl.binary_op CType.VecProxy CType.float CType.VecProxy
                  (Functor.Div CType.VecProxy CType.float CType.VecProxy))
        else impl
      else impl
    if A.is_int then
      if B.is_triple then
        some (OpImpl.binary_op CType.VecProxy CType.int CType.VecProxy
                (Functor.Div CType.VecProxy CType.int CType.VecProxy))
      else impl
    else impl
  else if Result.is_float then
    if A.is_float && B.is_float then
      some (OpImpl.binary_op CType.float CType.float CType.float
              (Functor.Div CType.float CType.float CType.float))
    else if A.is_float && B.is_int then
      some (OpImpl.binary_op CType.float CType.float CType.int
              (Functor.Div CType.float CType.float CType.int))
    else if A.is_int && B.is_float then
      some (OpImpl.binary_op CType.float CType.int CType.float
              (Functor.Div CType.float CType.int CType.float))
    else impl
  else if Result.is_int then
    if A.is_int && B.is_int then
      some (OpImpl.binary_op CType.int CType.int CType.int
              (Functor.Div CType.int CType.int CType.int))
    else impl
  else if Result.is_matrix then
    let impl : Option OpImpl :=
      if A.is_float then
        if B.is_float then
          some (OpImpl.binary_op CType.Matrix44 CType.float CType.float Functor.ScalarMatrixDiv)
        else if B.is_int then
          some (OpImpl.binary_op CType.Matrix44 CType.float CType.int Functor.ScalarMatrixDiv)
        else if B.is_matrix then
          some (OpImpl.binary_op CType.Matrix44 CType.float CType.Matrix44
                  (Functor.Div CType.Matrix44 CType.float CType.Matrix44))
        else impl
      else impl
    let impl : Option OpImpl :=
      if A.is_int then
        if B.is_float then
          some (OpImpl.binary_op CType.Matrix44 CType.int CType.float Functor.ScalarMatrixDiv)
        else if B.is_int then
          some (OpImpl.binary_op CType.Matrix44 CType.int CType.int Functor.ScalarMatrixDiv)
        else if B.is_matrix then
          some (OpImpl.binary_op CType.Matrix44 CType.int CType.Matrix44
                  (Functor.Div CType.Matrix44 CType.int CType.Matrix44))
        else impl
      else impl
    if A.is_matrix then
      if B.is_float then
        some (OpImpl.binary_op CType.Matrix44 CType.Matrix44 CType.float
                (Functor.Div CType.Matrix44 CType.Matrix44 CType.float))
      else if B.is_int then
        some (OpImpl.binary_op CType.Matrix44 CType.Matrix44 CType.int
                (Functor.Div CType.Matrix44 CType.Matrix44 CType.int))
      else if B.is_matrix then
        some (OpImpl.binary_op CType.Matrix44 CType.Matrix44 CType.Matrix44
                (Functor.Div CType.Matrix44 CType.Matrix44 CType.Matrix44))
      else impl
    else impl
  else impl

/-- The entry point `DECLOP (OP_div)`: the assertions, the type-directed
selection, and on success the run of the selected implementation followed by
the rewrite of the stored implementation pointer of the opcode. -/
def OP_div (exec : ShadingExecution) (nargs : Nat) (args : List Nat)
    (runflags : List Bool) (beginpoint endpoint : Nat) : Except String ShadingExecution :=
  if nargs ≠ 3 then Except.error "ASSERT (nargs == 3)"
  else
    match exec.sym (args.getD 0 0), exec.sym (args.getD 1 0), exec.sym (args.getD 2 0) with
    | some Result, some A, some B =>
      if Result.typespec.is_closure || Result.typespec.is_structure || Result.typespec.is_array then
        Except.error "ASSERT on the type of Result"
      else if A.typespec.is_closure || A.typespec.is_structure || A.typespec.is_array then
        Except.error "ASSERT on the type of A"
      else if B.typespec.is_closure || B.typespec.is_structure || B.typespec.is_array then
        Except.error "ASSERT on the type of B"
      else
        match OP_div_select Result.typespec A.typespec B.typespec with
        | some impl =>
            storeImplementation impl
              (runSpecialized impl exec nargs args runflags beginpoint endpoint)
        | none => Except.error "ASSERT (0): Division types cannot be handled"
    | _, _, _ => Except.error "no such symbol"

/-- The selection of `OP_mod`: the value of `impl` after the cascade of type
tests, `none` for the null pointer. -/
def OP_mod_select (Result A B : TypeSpec) : Option OpImpl :=
  let impl : Option OpImpl := none
  if Result.is_int && A.is_int && B.is_int then
    some (OpImpl.binary_op CType.int CType.int CType.int Functor.Mod)
  else if Result.is_float && A.is_float && B.is_float then
    some (OpImpl.binary_op CType.float CType.float CType.float Functor.Mod)
  else if Result.is_triple && A.is_triple && B.is_float then
    some (OpImpl.binary_op CType.Vec3 CType.Vec3 CType.float Functor.Mod)
  else if Result.is_triple && A.is_triple && B.is_triple then
    some (OpImpl.binary_op CType.Vec3 CType.Vec3 CType.Vec3 Functor.Mod)
  else impl

/-- The entry point `DECLOP (OP_mod)`: the assertions, the type-directed
selection, and on success the run of the selected implementation followed by
the rewrite of the stored implementation pointer of the opcode. -/
def OP_mod (exec : ShadingExecution) (nargs : Nat) (args : List Nat)
    (runflags : List Bool) (beginpoint endpoint : Nat) : Except String ShadingExecution :=
  if nargs ≠ 3 then Except.error "ASSERT (nargs == 3)"
  else
    match exec.sym (args.getD 0 0), exec.sym (args.getD 1 0), exec.sym (args.getD 2 0) with
    | some Result, some A, some B =>
      if Result.typespec.is_closure || Result.typespec.is_structure || Result.typespec.is_array then
        Except.error "ASSERT on the type of Result"
      else if A.typespec.is_closure || A.typespec.is_structure || A.typespec.is_array then
        Except.error "ASSERT on the type of A"
      else if B.typespec.is_closure || B.typespec.is_structure || B.typespec.is_array then
        Except.error "ASSERT on the type of B"
      else
        match OP_mod_select Result.typespec A.typespec B.typespec with
        | some impl =>
            storeImplementation impl
              (runSpecialized impl exec nargs args runflags beginpoint endpoint)
        | none => Except.error "ASSERT (0): Division types cannot be handled"
    | _, _, _ => Except.error "no such symbol"

/-- The selection of `OP_neg`. -/
def OP_neg_select (Result A : TypeSpec) : Option OpImpl :=
  let impl : Option OpImpl := none
  if Result.is_closure then
    if A.is_closure then
      some (OpImpl.closure_unary_op CType.ClosureColorPtr Functor.NegClosure)
    else impl
  else if Result.is_triple then
    if A.is_triple then
      some (OpImpl.unary_op CType.Vec3 CType.Vec3 (Functor.Neg CType.Vec3 CType.Vec3))
    else if A.is_float then
      some (OpImpl.unary_op CType.VecProxy CType.float (Functor.Neg CType.VecProxy CType.float))
    else if A.is_int then
      some (OpImpl.unary_op CType.VecProxy CType.int (Functor.Neg CType.VecProxy CType.int))
    else impl
  else if Result.is_float then
    if A.is_float then
      some (OpImpl.unary_op CType.float CType.float (Functor.Neg CType.float CType.float))
    else if A.is_int then
      some (OpImpl.unary_op CType.float CType.int (Functor.Neg CType.float CType.int))
    else impl
  else if Result.is_int && A.is_int then
    some (OpImpl.unary_op CType.int CType.int (Functor.Neg CType.int CType.int))
  else if Result.is_matrix then
    if A.is_matrix then
      some (OpImpl.unary_op CType.Matrix44 CType.Matrix44
              (Functor.Neg CType.Matrix44 CType.Matrix44))
    else impl
  else impl

/-- The entry point `DECLOP (OP_neg)`. -/
def OP_neg (exec : ShadingExecution) (nargs : Nat) (args : List Nat)
    (runflags : List Bool) (beginpoint endpoint : Nat) : Except String ShadingExecution :=
  if nargs ≠ 2 then Except.error "ASSERT (nargs == 2)"
  else
    match exec.sym (args.getD 0 0), exec.sym (args.getD 1 0) with
    | some Result, some A =>
      if Result.typespec.is_structure || Result.typespec.is_array then
        Except.error "ASSERT on the type of Result"
      else if A.typespec.is_structure || A.typespec.is_array then
        Except.error "ASSERT on the type of A"
      else
        match OP_neg_select Result.typespec A.typespec with
        | some impl =>
            storeImplementation impl
              (runSpecialized impl exec nargs args runflags beginpoint endpoint)
        | none => Except.error "ASSERT (0): Negation types cannot be handled"
    | _, _ => Except.error "no such symbol"

/-- The element type of an array type (`elementtype ()`): the type with the
array length removed. -/
def TypeSpec.elementtype (t : TypeSpec) : TypeSpec :=
  { t with m_simple := { t.m_simple with arraylen := 0 } }

/-- The selection of `OP_aref`, by the type of the result. -/
def OP_aref_select (Result : TypeSpec) : Option OpImpl :=
  if Result.is_float then some (OpImpl.specialized_aref CType.float)
  else if Result.is_int then some (OpImpl.specialized_aref CType.int)
  else if Result.is_triple then some (OpImpl.specialized_aref CType.Vec3)
  else if Result.is_matrix then some (OpImpl.specialized_aref CType.Matrix44)
  else if Result.is_string then some (OpImpl.specialized_aref CType.ustring)
  else none

/-- The entry point `DECLOP (OP_aref)`: `Result = Src[Index]`. -/
def OP_aref (exec : ShadingExecution) (nargs : Nat) (args : List Nat)
    (runflags : List Bool) (beginpoint endpoint : Nat) : Except String ShadingExecution :=
  if nargs ≠ 3 then Except.error "ASSERT (nargs == 3)"
  else
    match exec.sym (args.getD 0 0), exec.sym (args.getD 1 0), exec.sym (args.getD 2 0) with
    | some Result, some Src, some Index =>
      if !(!Result.typespec.is_closure && !Src.typespec.is_closure) then
        Except.error "ASSERT on the closure types"
      else if !(!Index.typespec.is_closure && Index.typespec.is_int) then
        Except.error "ASSERT on the type of Index"
      else if !(Src.typespec.is_array && !Result.typespec.is_array &&
                decide (Result.typespec = Src.typespec.elementtype)) then
        Except.error "ASSERT on the array types"
      else
        match OP_aref_select Result.typespec with
        | some impl =>
            storeImplementation impl
              (runSpecialized impl exec nargs args runflags beginpoint endpoint)
        | none => Except.error "ASSERT (0): Array reference types cannot be handled"
    | _, _, _ => Except.error "no such symbol"

/-- The selection of `OP_aassign`, by the element type of the result and the
type of the source. -/
def OP_aassign_select (Relement Src : TypeSpec) : Option OpImpl :=
  if Relement.is_float && Src.is_float then some (OpImpl.specialized_aassign CType.float)
  else if Relement.is_int && Src.is_int then some (OpImpl.specialized_aassign CType.int)
  else if Relement.is_triple && Src.is_triple then some (OpImpl.specialized_aassign CType.Vec3)
  else if Relement.is_matrix && Src.is_matrix then
    some (OpImpl.specialized_aassign CType.Matrix44)
  else if Relement.is_string && Src.is_string then
    some (OpImpl.specialized_aassign CType.ustring)
  else none

/-- The entry point `DECLOP (OP_aassign)`: `Result[Index] = Src`. -/
def OP_aassign (exec : ShadingExecution) (nargs : Nat) (args : List Nat)
    (runflags : List Bool) (beginpoint endpoint : Nat) : Except String ShadingExecution :=
  if nargs ≠ 3 then Except.error "ASSERT (nargs == 3)"
  else
    match exec.sym (args.getD 0 0), exec.sym (args.getD 1 0), exec.sym (args.getD 2 0) with
    | some Result, some Index, some Src =>
      if !(!Result.typespec.is_closure && !Src.typespec.is_closure) then
        Except.error "ASSERT on the closure types"
      else if !(!Index.typespec.is_closure && Index.typespec.is_int) then
        Except.error "ASSERT on the type of Index"
      else if !(Result.typespec.is_array && !Src.typespec.is_array) then
        Except.error "ASSERT on the array types"
      else
        let Relement := Result.typespec.elementtype
        match OP_aassign_select Relement Src.typespec with
        | some impl =>
            storeImplementation impl
              (runSpecialized impl exec nargs args runflags beginpoint endpoint)
        | none => Except.error "ASSERT (0): Array assignment types cannot be handled"
    | _, _, _ => Except.error "no such symbol"

/-- Call an implementation pointer. -/
def OpImpl.run (impl : OpImpl) (exec : ShadingExecution) (nargs : Nat) (args : List Nat)
    (runflags : List Bool) (beginpoint endpoint : Nat) : Except String ShadingExecution :=
  match impl with
  | OpImpl.OP_add => OSL.OP_add exec nargs args runflags beginpoint endpoint
  | OpImpl.OP_sub => OSL.OP_sub exec nargs args runflags beginpoint endpoint
  | OpImpl.OP_mul => OSL.OP_mul exec nargs args runflags beginpoint endpoint
  | OpImpl.OP_div => OSL.OP_div exec nargs args runflags beginpoint endpoint
  | OpImpl.OP_mod => OSL.OP_mod exec nargs args runflags beginpoint endpoint
  | OpImpl.OP_neg => OSL.OP_neg exec nargs args runflags beginpoint endpoint
  | OpImpl.OP_aref => OSL.OP_aref exec nargs args runflags beginpoint endpoint
  | OpImpl.OP_aassign => OSL.OP_aassign exec nargs args runflags beginpoint endpoint
  | impl => runSpecialized impl exec nargs args runflags beginpoint endpoint

/-- Execute the current opcode over the point range: call its stored
implementation pointer with the arguments of the opcode. -/
def ShadingExecution.run_op (exec : ShadingExecution) (runflags : List Bool)
    (beginpoint endpoint : Nat) : Except String ShadingExecution :=
  exec.op.implementation.run exec exec.op.nargs exec.op.m_args runflags beginpoint endpoint

/-! ## The native code generator: IR values and builder state -/

/-- Binary instructions of the IR. -/
inductive BinaryOps where
  | FAdd
  | Add
  | FSub
  | Sub
  | FMul
  | Mul
  | FDiv
  | SDiv
  | FRem
  | SRem
  | And
  | Or
  deriving DecidableEq, Repr

/-- Comparison predicates of the IR. -/
inductive CmpPredicate where
  | FCMP_ULT
  | ICMP_SLT
  | FCMP_ULE
  | ICMP_SLE
  | FCMP_UEQ
  | ICMP_EQ
  | FCMP_UGE
  | ICMP_SGE
  | FCMP_UGT
  | ICMP_SGT
  | FCMP_UNE
  | ICMP_NE
  deriving DecidableEq, Repr

/-- Conversion instructions of the IR. -/
inductive CastOps where
  | SIToFP
  | FPToSI
  | ZExt
  | Trunc
  | FPExt
  deriving DecidableEq, Repr

/-- An IR value (`llvm::Value`): a constant, the address of a stack slot, of
the shading-state record or of a global string, a constant-index address
computation, the result of the load instruction numbered `id`, or a pure
operation on values (among them the calls of the math functions). -/
inductive LLVMValue where
  | ConstantFP (x : ℚ)
  | ConstantInt (bits : Nat) (v : ℤ)
  | Alloca (name : String)
  | SgPtr
  | ConstGEP2_32 (ptr : LLVMValue) (idx0 idx1 : ℤ)
  | Load (id : Nat) (ptr : LLVMValue)
  | BinOp (op : BinaryOps) (a b : LLVMValue)
  | Cmp (pred : CmpPredicate) (a b : LLVMValue)
  | Cast (op : CastOps) (v : LLVMValue)
  | Neg (v : LLVMValue)
  | FNeg (v : LLVMValue)
  | Select (cond ifTrue ifFalse : LLVMValue)
  | Call1 (fn : String) (arg : LLVMValue)
  | GlobalString (s : String)
  deriving DecidableEq, Repr

/-- The instructions with an effect or a position in a block: loads, stores,
calls of the runtime, and terminators (branch targets are block numbers). -/
inductive Instruction where
  | Load (id : Nat) (ptr : LLVMValue)
  | Store (val ptr : LLVMValue)
  | Call (fn : String) (args : List LLVMValue)
  | Br (dest : Nat)
  | CondBr (cond : LLVMValue) (ifTrue ifFalse : Nat)
  | RetVoid
  deriving DecidableEq, Repr

/-- A stack allocation of the entry block: name, element type (float or
32-bit int) and number of elements. -/
structure AllocaInst where
  name : String
  is_float : Bool
  total_size : Nat
  deriving DecidableEq, Repr

/-- Insert `x` before position `k` of a list (at the end when `k` is past it). -/
def insertAt {α : Type} (l : List α) (k : Nat) (x : α) : List α :=
  l.take k ++ x :: l.drop k

/-- The layer function `layer_func`, named `unique_layer_name` after the
layer's name and id. -/
structure LayerFunction where
  layername : String
  id : ℤ
  deriving DecidableEq, Repr

/-- The code generator's state for one layer: the layer's opcodes and symbols,
the allocation map, the function under construction (entry-block allocas and
basic blocks, block 0 being the entry block), the builder's insertion point
(a block and a position in it, `none` for the end of the block), the counter
that numbers load instructions, the block map, the shading system's
diagnostic channels, and the layer's name, id and recorded native version
(`inst ()->llvm_version`). -/
structure RuntimeOptimizer where
  m_ops : List Opcode
  m_symbols : List Symbol
  m_named_values : List (String × LLVMValue)
  m_allocas : List AllocaInst
  m_blocks : List (List Instruction)
  m_insert_block : Nat
  m_insert_pos : Option Nat
  m_next_id : Nat
  m_bb_map : List (Nat × Nat)
  m_errors : List String
  m_warnings : List String
  m_infos : List String
  m_layername : String
  m_id : ℤ
  m_llvm_version : Option LayerFunction

namespace RuntimeOptimizer

/-- Report through `shadingsys ().error`. -/
def error (rop : RuntimeOptimizer) (msg : String) : RuntimeOptimizer :=
  { rop with m_errors := rop.m_errors ++ [msg] }

/-- Report through `shadingsys ().warning`. -/
def warning (rop : RuntimeOptimizer) (msg : String) : RuntimeOptimizer :=
  { rop with m_warnings := rop.m_warnings ++ [msg] }

/-- Report through `shadingsys ().info`. -/
def info (rop : RuntimeOptimizer) (msg : String) : RuntimeOptimizer :=
  { rop with m_infos := rop.m_infos ++ [msg] }

/-- The symbol of argument `i` of an opcode (`rop.opargsym (op, i)`); `none`
when the opcode has no such argument or the layer no such symbol. -/
def opargsym (rop : RuntimeOptimizer) (op : Opcode) (i : Nat) : Option Symbol :=
  (op.m_args[i]?).bind fun k => rop.m_symbols[k]?

/-- Insert an instruction at the builder's insertion point. -/
def emit (rop : RuntimeOptimizer) (instr : Instruction) : RuntimeOptimizer :=
  match rop.m_insert_pos with
  | none =>
      { rop with m_blocks := rop.m_blocks.modify (fun b => b ++ [instr]) rop.m_insert_block }
  | some k =>
      { rop with m_blocks := rop.m_blocks.modify (fun b => insertAt b k instr) rop.m_insert_block,
                 m_insert_pos := some (k + 1) }

/-- Builder call `builder ().CreateLoad (ptr)`. -/
def CreateLoad (rop : RuntimeOptimizer) (ptr : LLVMValue) : LLVMValue × RuntimeOptimizer :=
  (LLVMValue.Load rop.m_next_id ptr,
   { rop.emit (Instruction.Load rop.m_next_id ptr) with m_next_id := rop.m_next_id + 1 })

/-- Builder call `builder ().CreateStore (val, ptr)`. -/
def CreateStore (rop : RuntimeOptimizer) (val ptr : LLVMValue) : RuntimeOptimizer :=
  rop.emit (Instruction.Store val ptr)

/-- The instructions of the block the builder is inserting into. -/
def currentCode (rop : RuntimeOptimizer) : List Instruction :=
  rop.m_blocks.getD rop.m_insert_block []

/-- The number of load instructions in all blocks. -/
def loadCount (rop : RuntimeOptimizer) : Nat :=
  (rop.m_blocks.map fun b =>
    (b.filter fun i => match i with
      | Instruction.Load _ _ => true
      | _ => false).length).sum

end RuntimeOptimizer

/-! ## Shader globals, symbol storage, loads and stores -/

/-- Function `ShaderGlobalNameToIndex`; the names of the shader globals are
the strings of the `Strings` namespace. -/
def ShaderGlobalNameToIndex (name : String) (deriv : ℤ) : ℤ :=
  let sg_index : ℤ := -1
  if name = "P" then
    if deriv = 0 then 0 else if deriv = 1 then 1 else if deriv = 2 then 2 else sg_index
  else if name = "I" then
    if deriv = 0 then 3 else if deriv = 1 then 4 else if deriv = 2 then 5 else sg_index
  else if name = "N" then 6
  else if name = "Ng" then 7
  else if name = "u" then
    if deriv = 0 then 8 else if deriv = 1 then 10 else if deriv = 2 then 11 else sg_index
  else if name = "v" then
    if deriv = 0 then 9 else if deriv = 1 then 12 else if deriv = 2 then 13 else sg_index
  else if name = "dPdu" then 14
  else if name = "dPdv" then 15
  else if name = "time" then 16
  else if name = "dtime" then 17
  else if name = "dPdtime" then 18
  else if name = "Ps" then
    if deriv = 0 then 19 else if deriv = 1 then 20 else if deriv = 2 then 21 else sg_index
  else sg_index

/-- Function `SkipSymbol`. -/
def SkipSymbol (s : Symbol) : Bool :=
  if s.symtype = SymType.SymTypeOutputParam then true
  else if s.typespec.simpletype.basetype = BASETYPE.STRING then true
  else if s.typespec.is_closure then true
  else if s.typespec.is_structure then true
  else if s.symtype = SymType.SymTypeParam then
    if s.valuesource = ValueSource.ConnectedVal then true
    else if !s.lockgeom then true
    else if s.initbegin ≠ s.initend then true
    else false
  else false

/-- Method `RuntimeOptimizer::getLLVMSymbolBase`. -/
def getLLVMSymbolBase (rop : RuntimeOptimizer) (sym : Symbol) : Option LLVMValue × RuntimeOptimizer :=
  let mangled_name := sym.dealias_mangled
  match rop.m_named_values.lookup mangled_name with
  | none =>
      (none, rop.error "Couldn't find symbol '%s' (unmangled = '%s'). Did you forget to allocate it?")
  | some v => (some v, rop)

/-- Method `RuntimeOptimizer::LLVMLoadShaderGlobal`. -/
def LLVMLoadShaderGlobal (rop : RuntimeOptimizer) (sym : Symbol) (component deriv : ℤ) :
    Option LLVMValue × RuntimeOptimizer :=
  let sg_index := ShaderGlobalNameToIndex sym.name deriv
  if sg_index = -1 then
    (none, rop.error "Warning unhandled global '%s'")
  else
    let num_elements : ℤ := sym.typespec.simpletype.aggregate
    let real_component := min num_elements component
    let field := LLVMValue.ConstGEP2_32 LLVMValue.SgPtr 0 sg_index
    if num_elements = 1 then
      let r := rop.CreateLoad field
      (some r.1, r.2)
    else
      let element := LLVMValue.ConstGEP2_32 field 0 real_component
      let r := rop.CreateLoad element
      (some r.1, r.2)

/-- Method `RuntimeOptimizer::LLVMStoreShaderGlobal`. -/
def LLVMStoreShaderGlobal (rop : RuntimeOptimizer) (_val : LLVMValue) (_sym : Symbol)
    (_component _deriv : ℤ) : Option LLVMValue × RuntimeOptimizer :=
  (none, rop.error "WARNING: Store to shaderglobal unsupported!")

/-- Method `RuntimeOptimizer::loadLLVMValue`. -/
def loadLLVMValue (rop : RuntimeOptimizer) (sym : Symbol) (component deriv : ℤ) :
    Option LLVMValue × RuntimeOptimizer :=
  let has_derivs := sym.has_derivs
  if !has_derivs && decide (deriv ≠ 0) then
    if sym.typespec.is_floatbased then (some (LLVMValue.ConstantFP 0), rop)
    else (some (LLVMValue.ConstantInt 32 0), rop)
  else if sym.symtype = SymType.SymTypeGlobal then
    LLVMLoadShaderGlobal rop sym component deriv
  else
    let num_elements : ℤ := sym.typespec.simpletype.aggregate
    let real_component := min num_elements component
    let index := real_component + deriv * num_elements
    match getLLVMSymbolBase rop sym with
    | (none, rop1) => (none, rop1)
    | (some aggregate, rop1) =>
        if decide (num_elements = 1) && !has_derivs then
          let r := rop1.CreateLoad aggregate
          (some r.1, r.2)
        else
          let ptr := LLVMValue.ConstGEP2_32 aggregate 0 index
          let r := rop1.CreateLoad ptr
          (some r.1, r.2)

/-- Method `RuntimeOptimizer::storeLLVMValue`. -/
def storeLLVMValue (rop : RuntimeOptimizer) (new_val : LLVMValue) (sym : Symbol)
    (component deriv : ℤ) : RuntimeOptimizer :=
  let has_derivs := sym.has_derivs
  if !has_derivs && decide (deriv ≠ 0) then
    rop.error "Tried to store to symbol '%s', component %d, deriv_idx %d but doesn't have derivatives"
  else
    match getLLVMSymbolBase rop sym with
    | (none, rop1) => rop1
    | (some aggregate, rop1) =>
        let num_elements : ℤ := sym.typespec.simpletype.aggregate
        if decide (num_elements = 1) && !has_derivs then
          rop1.CreateStore new_val aggregate
        else
          let real_component := min num_elements component
          let index := real_component + deriv * num_elements
          let ptr := LLVMValue.ConstGEP2_32 aggregate 0 index
          rop1.CreateStore new_val ptr

/-- Method `RuntimeOptimizer::llvm_float_to_int`. -/
def llvm_float_to_int (fval : LLVMValue) : LLVMValue := LLVMValue.Cast CastOps.FPToSI fval

/-- Method `RuntimeOptimizer::llvm_int_to_float`. -/
def llvm_int_to_float (ival : LLVMValue) : LLVMValue := LLVMValue.Cast CastOps.SIToFP ival

/-! ## Lowering of binary arithmetic and of comparisons -/

/-- The operand conversion shared by `llvm_gen_binary_op` and
`llvm_gen_compare_op`: the values (`src1_val`, `src2_val`) after
"upconvert int -> float for the op if necessary". -/
def upconvertOperands (src1_float src2_float : Bool) (src1_load src2_load : LLVMValue) :
    LLVMValue × LLVMValue :=
  let need_float_op := src1_float || src2_float
  if need_float_op then
    if src1_float && !src2_float then (src1_load, llvm_int_to_float src2_load)
    else if !src1_float && src2_float then (llvm_int_to_float src1_load, src2_load)
    else (src1_load, src2_load)
  else (src1_load, src2_load)

/-- The instruction selected by the opcode name in `llvm_gen_binary_op`:
the floating-point form when `need_float_op`, the integer form otherwise;
`none` (a null result) for an opcode name it does not know. -/
def binaryOpResult (opname : String) (need_float_op : Bool) (src1_val src2_val : LLVMValue) :
    Option LLVMValue :=
  if opname = "add" then
    some (if need_float_op then LLVMValue.BinOp BinaryOps.FAdd src1_val src2_val
          else LLVMValue.BinOp BinaryOps.Add src1_val src2_val)
  else if opname = "sub" then
    some (if need_float_op then LLVMValue.BinOp BinaryOps.FSub src1_val src2_val
          else LLVMValue.BinOp BinaryOps.Sub src1_val src2_val)
  else if opname = "mul" then
    some (if need_float_op then LLVMValue.BinOp BinaryOps.FMul src1_val src2_val
          else LLVMValue.BinOp BinaryOps.Mul src1_val src2_val)
  else if opname = "div" then
    some (if need_float_op then LLVMValue.BinOp BinaryOps.FDiv src1_val src2_val
          else LLVMValue.BinOp BinaryOps.SDiv src1_val src2_val)
  else if opname = "mod" then
    some (if need_float_op then LLVMValue.BinOp BinaryOps.FRem src1_val src2_val
          else LLVMValue.BinOp BinaryOps.SRem src1_val src2_val)
  else none

/-- One iteration (component `i`) of the loop of `llvm_gen_binary_op`; the
boolean is false when the iteration leaves the function with `return`. -/
def llvm_gen_binary_op_component (op : Opcode) (dst src1 src2 : Symbol)
    (rop : RuntimeOptimizer) (i : Nat) : RuntimeOptimizer × Bool :=
  let dst_derivs := dst.has_derivs
  let is_float := dst.typespec.is_floatbased
  let src1_float := src1.typespec.is_floatbased
  let src2_float := src2.typespec.is_floatbased
  let l1 := loadLLVMValue rop src1 i 0
  let l2 := loadLLVMValue l1.2 src2 i 0
  match l1.1, l2.1 with
  | none, _ => (l2.2, false)
  | _, none => (l2.2, false)
  | some src1_load, some src2_load =>
      let need_float_op := src1_float || src2_float
      let vals := upconvertOperands src1_float src2_float src1_load src2_load
      let src1_val := vals.1
      let src2_val := vals.2
      let opname := op.opname
      let result := binaryOpResult opname need_float_op src1_val src2_val
      let rop3 :=
        match result with
        | some result =>
            let result :=
              if is_float && !need_float_op then llvm_int_to_float result
              else if !is_float && need_float_op then llvm_float_to_int result
              else result
            storeLLVMValue l2.2 result dst i 0
        | none => l2.2.error "Don't know how to handle op '%s', eliding the store"
      let rop4 := if dst_derivs then rop3.info "punting on derivatives for now" else rop3
      (rop4, true)

/-- The loop `for (int i = 0; i < num_components; i++)` of a lowering routine,
over the remaining component indices. -/
def componentLoop (body : RuntimeOptimizer → Nat → RuntimeOptimizer × Bool) :
    List Nat → RuntimeOptimizer → RuntimeOptimizer
  | [], rop => rop
  | i :: rest, rop =>
      match body rop i with
      | (rop1, true) => componentLoop body rest rop1
      | (rop1, false) => rop1

/-- Function `llvm_gen_binary_op`; `none` when the opcode or one of its three
argument symbols does not exist. -/
def llvm_gen_binary_op (rop : RuntimeOptimizer) (opnum : Nat) : Option RuntimeOptimizer :=
  match rop.m_ops[opnum]? with
  | none => none
  | some op =>
      match rop.opargsym op 0, rop.opargsym op 1, rop.opargsym op 2 with
      | some dst, some src1, some src2 =>
          if SkipSymbol dst || SkipSymbol src1 || SkipSymbol src2 then some rop
          else
            let num_components := dst.typespec.simpletype.aggregate
            some (componentLoop (llvm_gen_binary_op_component op dst src1 src2)
                    (List.range num_components) rop)
      | _, _, _ => none

/-- The comparison selected by the opcode name in `llvm_gen_compare_op`. -/
def compareOpResult (opname : String) (need_float_op : Bool) (src1_val src2_val : LLVMValue) :
    Option LLVMValue :=
  if opname = "lt" then
    some (if need_float_op then LLVMValue.Cmp CmpPredicate.FCMP_ULT src1_val src2_val
          else LLVMValue.Cmp CmpPredicate.ICMP_SLT src1_val src2_val)
  else if opname = "le" then
    some (if need_float_op then LLVMValue.Cmp CmpPredicate.FCMP_ULE src1_val src2_val
          else LLVMValue.Cmp CmpPredicate.ICMP_SLE src1_val src2_val)
  else if opname = "eq" then
    some (if need_float_op then LLVMValue.Cmp CmpPredicate.FCMP_UEQ src1_val src2_val
          else LLVMValue.Cmp CmpPredicate.ICMP_EQ src1_val src2_val)
  else if opname = "ge" then
    some (if need_float_op then LLVMValue.Cmp CmpPredicate.FCMP_UGE src1_val src2_val
          else LLVMValue.Cmp CmpPredicate.ICMP_SGE src1_val src2_val)
  else if opname = "gt" then
    some (if need_float_op then LLVMValue.Cmp CmpPredicate.FCMP_UGT src1_val src2_val
          else LLVMValue.Cmp CmpPredicate.ICMP_SGT src1_val src2_val)
  else if opname = "neq" then
    some (if need_float_op then LLVMValue.Cmp CmpPredicate.FCMP_UNE src1_val src2_val
          else LLVMValue.Cmp CmpPredicate.ICMP_NE src1_val src2_val)
  else none

/-- The loop of `llvm_gen_compare_op` over the remaining component indices,
carrying `final_result`; the boolean is false when the loop leaves the
function with `return`. -/
def llvm_gen_compare_op_loop (op : Opcode) (src1 src2 : Symbol) :
    List Nat → Option LLVMValue → RuntimeOptimizer → Option LLVMValue × RuntimeOptimizer × Bool
  | [], final_result, rop => (final_result, rop, true)
  | i :: rest, final_result, rop =>
      let src1_float := src1.typespec.is_floatbased
      let src2_float := src2.typespec.is_floatbased
      let l1 := loadLLVMValue rop src1 i 0
      let l2 := loadLLVMValue l1.2 src2 i 0
      match l1.1, l2.1 with
      | none, _ => (final_result, l2.2, false)
      | _, none => (final_result, l2.2, false)
      | some src1_load, some src2_load =>
          let need_float_op := src1_float || src2_float
          let vals := upconvertOperands src1_float src2_float src1_load src2_load
          let src1_val := vals.1
          let src2_val := vals.2
          let opname := op.opname
          match compareOpResult opname need_float_op src1_val src2_val with
          | some result =>
              let final_result1 :=
                match final_result with
                | some fr =>
                    if opname ≠ "neq" then LLVMValue.BinOp BinaryOps.And fr result
                    else LLVMValue.BinOp BinaryOps.Or fr result
                | none => result
              llvm_gen_compare_op_loop op src1 src2 rest (some final_result1) l2.2
          | none =>
              llvm_gen_compare_op_loop op src1 src2 rest final_result
                (l2.2.error "Don't know how to handle op '%s', eliding the store")

/-- Function `llvm_gen_compare_op`; `none` when the opcode or one of its three
argument symbols does not exist. -/
def llvm_gen_compare_op (rop : RuntimeOptimizer) (opnum : Nat) : Option RuntimeOptimizer :=
  match rop.m_ops[opnum]? with
  | none => none
  | some op =>
      match rop.opargsym op 0, rop.opargsym op 1, rop.opargsym op 2 with
      | some dst, some src1, some src2 =>
          if SkipSymbol dst || SkipSymbol src1 || SkipSymbol src2 then some rop
          else
            let dst_derivs := dst.has_derivs
            let num_components := dst.typespec.simpletype.aggregate
            match llvm_gen_compare_op_loop op src1 src2 (List.range num_components) none rop with
            | (_, rop1, false) => some rop1
            | (none, rop1, true) => some rop1
            | (some final_result, rop1, true) =>
                let final_result := LLVMValue.Cast CastOps.ZExt final_result
                let is_float := dst.typespec.is_floatbased
                let final_result := if is_float then llvm_int_to_float final_result else final_result
                let rop2 := storeLLVMValue rop1 final_result dst 0 0
                some (if dst_derivs then rop2.info "punting on derivatives for now" else rop2)
      | _, _, _ => none

/-! ## Lowering of the other opcodes -/

namespace RuntimeOptimizer

/-- Builder call `builder ().SetInsertPoint (block)`: insert at the end of the
block. -/
def SetInsertPoint (rop : RuntimeOptimizer) (block : Nat) : RuntimeOptimizer :=
  { rop with m_insert_block := block, m_insert_pos := none }

/-- Builder call `builder ().SetInsertPoint (block, block->begin ())`: insert
before the instructions the block holds. -/
def SetInsertPointBegin (rop : RuntimeOptimizer) (block : Nat) : RuntimeOptimizer :=
  { rop with m_insert_block := block, m_insert_pos := some 0 }

/-- Builder call `builder ().CreateBr (dest)`. -/
def CreateBr (rop : RuntimeOptimizer) (dest : Nat) : RuntimeOptimizer :=
  rop.emit (Instruction.Br dest)

/-- Builder call `builder ().CreateCondBr (cond, ifTrue, ifFalse)`. -/
def CreateCondBr (rop : RuntimeOptimizer) (cond : LLVMValue) (ifTrue ifFalse : Nat) :
    RuntimeOptimizer :=
  rop.emit (Instruction.CondBr cond ifTrue ifFalse)

/-- Builder call `builder ().CreateRetVoid ()`. -/
def CreateRetVoid (rop : RuntimeOptimizer) : RuntimeOptimizer :=
  rop.emit Instruction.RetVoid

/-- Builder call `builder ().CreateCall (fn, args)` of a runtime function
without result. -/
def CreateCall (rop : RuntimeOptimizer) (fn : String) (args : List LLVMValue) :
    RuntimeOptimizer :=
  rop.emit (Instruction.Call fn args)

/-- The call `BasicBlock::Create (context, "", layer_func)`: a new empty block
at the end of the function; the result is its number. -/
def BasicBlockCreate (rop : RuntimeOptimizer) : Nat × RuntimeOptimizer :=
  (rop.m_blocks.length, { rop with m_blocks := rop.m_blocks ++ [[]] })

/-- All instructions of the function under construction. -/
def allInstrs (rop : RuntimeOptimizer) : List Instruction :=
  rop.m_blocks.flatten

end RuntimeOptimizer

/-- The conversion of a value to the destination's kind before it is stored:
int to float when the destination is float and the value is not, float to int
when the destination is int and the value is float. -/
def convertForStore (dst_float src_float : Bool) (v : LLVMValue) : LLVMValue :=
  if dst_float && !src_float then LLVMValue.Cast CastOps.SIToFP v
  else if !dst_float && src_float then LLVMValue.Cast CastOps.FPToSI v
  else v

/-- The value selected by the opcode name in `llvm_gen_unary_op`; `none`
(a null result) for an opcode it does not know. -/
def unaryOpResult (opname : String) (src_float : Bool) (src_val : LLVMValue) :
    Option LLVMValue :=
  if opname = "neg" then
    some (if src_float then LLVMValue.FNeg src_val else LLVMValue.Neg src_val)
  else if opname = "abs" ∨ opname = "fabs" then
    if src_float then some (LLVMValue.Call1 "fabsf" src_val)
    else
      let negated := LLVMValue.Neg src_val
      let cond := LLVMValue.Cmp CmpPredicate.ICMP_SLT src_val (LLVMValue.ConstantInt 32 0)
      some (LLVMValue.Select cond negated src_val)
  else if opname = "sqrt" ∧ src_float = true then some (LLVMValue.Call1 "llvm.sqrt.f32" src_val)
  else if opname = "sin" ∧ src_float = true then some (LLVMValue.Call1 "llvm.sin.f32" src_val)
  else if opname = "cos" ∧ src_float = true then some (LLVMValue.Call1 "llvm.cos.f32" src_val)
  else none

/-- One iteration (component `i`) of the loop of `llvm_gen_unary_op`. -/
def llvm_gen_unary_op_component (op : Opcode) (dst src : Symbol)
    (rop : RuntimeOptimizer) (i : Nat) : RuntimeOptimizer × Bool :=
  let dst_derivs := dst.has_derivs
  let dst_float := dst.typespec.is_floatbased
  let src_float := src.typespec.is_floatbased
  let l := loadLLVMValue rop src i 0
  match l.1 with
  | none => (l.2, false)
  | some src_load =>
      let src_val := src_load
      let opname := op.opname
      let rop3 :=
        match unaryOpResult opname src_float src_val with
        | some result => storeLLVMValue l.2 (convertForStore dst_float src_float result) dst i 0
        | none => l.2.error "Don't know how to handle op '%s', eliding the store"
      let rop4 := if dst_derivs then rop3.info "punting on derivatives for now" else rop3
      (rop4, true)

/-- Function `llvm_gen_unary_op`; `none` when the opcode or one of its two
argument symbols does not exist. -/
def llvm_gen_unary_op (rop : RuntimeOptimizer) (opnum : Nat) : Option RuntimeOptimizer :=
  match rop.m_ops[opnum]? with
  | none => none
  | some op =>
      match rop.opargsym op 0, rop.opargsym op 1 with
      | some dst, some src =>
          if SkipSymbol dst || SkipSymbol src then some rop
          else
            let num_components := dst.typespec.simpletype.aggregate
            some (componentLoop (llvm_gen_unary_op_component op dst src)
                    (List.range num_components) rop)
      | _, _ => none

/-- One iteration (component `i`) of the loop of `llvm_gen_assign`. -/
def llvm_gen_assign_component (dst src : Symbol) (rop : RuntimeOptimizer) (i : Nat) :
    RuntimeOptimizer × Bool :=
  let dst_derivs := dst.has_derivs
  let dst_float := dst.typespec.is_floatbased
  let src_float := src.typespec.is_floatbased
  let l := loadLLVMValue rop src i 0
  match l.1 with
  | none => (l.2, false)
  | some src_val =>
      let rop2 := storeLLVMValue l.2 (convertForStore dst_float src_float src_val) dst i 0
      let rop3 := if dst_derivs then rop2.info "punting on derivatives for now" else rop2
      (rop3, true)

/-- Function `llvm_gen_assign`. -/
def llvm_gen_assign (rop : RuntimeOptimizer) (opnum : Nat) : Option RuntimeOptimizer :=
  match rop.m_ops[opnum]? with
  | none => none
  | some op =>
      match rop.opargsym op 0, rop.opargsym op 1 with
      | some dst, some src =>
          if SkipSymbol dst || SkipSymbol src then some rop
          else
            let num_components := dst.typespec.simpletype.aggregate
            some (componentLoop (llvm_gen_assign_component dst src)
                    (List.range num_components) rop)
      | _, _ => none

/-- The int a constant symbol holds (`*((int*)sym.data ())`). -/
def Symbol.constInt (s : Symbol) : Option ℤ :=
  match s.m_data.head? with
  | some (Value.int k) => some k
  | _ => none

/-- Function `llvm_gen_compref`: `scalar = vector[int]`; `none` when the
opcode or an argument symbol does not exist or the constant index holds no
int. -/
def llvm_gen_compref (rop : RuntimeOptimizer) (opnum : Nat) : Option RuntimeOptimizer :=
  match rop.m_ops[opnum]? with
  | none => none
  | some op =>
      match rop.opargsym op 0, rop.opargsym op 1, rop.opargsym op 2 with
      | some dst, some src, some index =>
          if SkipSymbol dst || SkipSymbol src || SkipSymbol index then some rop
          else
            let dst_derivs := dst.has_derivs
            let num_components : ℤ := src.typespec.simpletype.aggregate
            let dst_float := dst.typespec.is_floatbased
            let src_float := src.typespec.is_floatbased
            if !index.is_constant then
              some (rop.info "punting on non-constant index for now. annoying")
            else
              match index.constInt with
              | none => none
              | some const_index =>
                  if const_index < 0 ∨ const_index ≥ num_components then
                    some (rop.warning
                      "index out of range for object (idx = %d, num_comp = %d)")
                  else
                    let l := loadLLVMValue rop src const_index 0
                    match l.1 with
                    | none => some l.2
                    | some src_val =>
                        let rop2 := storeLLVMValue l.2
                          (convertForStore dst_float src_float src_val) dst 0 0
                        some (if dst_derivs then rop2.info "punting on derivatives for now"
                              else rop2)
      | _, _, _ => none

/-- The loop of `llvm_gen_construct_aggregate` over the remaining components
of the destination; `src_syms` is the local array of argument symbols, and
`none` is the read of an entry that was never written. -/
def llvm_gen_construct_aggregate_loop (dst : Symbol) (src_syms : List (Option Symbol)) :
    List Nat → RuntimeOptimizer → Option RuntimeOptimizer
  | [], rop => some rop
  | i :: rest, rop =>
      match src_syms[i]? with
      | some (some src) =>
          let dst_derivs := dst.has_derivs
          let dst_float := dst.typespec.is_floatbased
          let src_float := src.typespec.is_floatbased
          let l := loadLLVMValue rop src 0 0
          match l.1 with
          | none => some l.2
          | some src_val =>
              let rop2 := storeLLVMValue l.2 (convertForStore dst_float src_float src_val) dst i 0
              let rop3 := if dst_derivs then rop2.info "punting on derivatives for now" else rop2
              llvm_gen_construct_aggregate_loop dst src_syms rest rop3
      | _ => none

/-- Function `llvm_gen_construct_aggregate`; `none` when a symbol it
dereferences does not exist, or when the opcode has more arguments than the
sixteen entries of `src_syms` can take. -/
def llvm_gen_construct_aggregate (rop : RuntimeOptimizer) (opnum : Nat) :
    Option RuntimeOptimizer :=
  match rop.m_ops[opnum]? with
  | none => none
  | some op =>
      match rop.opargsym op 0, rop.opargsym op 1 with
      | some dst, some arg1 =>
          if arg1.typespec.is_string then some rop
          else if 17 < op.nargs then none
          else
            let src_syms : List (Option Symbol) :=
              (List.range (op.nargs - 1)).map fun k => rop.opargsym op (k + 1)
            let num_components := dst.typespec.simpletype.aggregate
            llvm_gen_construct_aggregate_loop dst src_syms (List.range num_components) rop
      | _, _ => none

/-- The accumulation `final_result = final_result ? op (final_result, result)
: result` of the reducing loops. -/
def accumulate (op : BinaryOps) (final_result : Option LLVMValue) (result : LLVMValue) :
    LLVMValue :=
  match final_result with
  | some fr => LLVMValue.BinOp op fr result
  | none => result

/-- The loop of `llvm_gen_unary_reduction` over the remaining components of
the source, carrying `final_result`; the boolean is false when the loop
leaves the function with `return`. -/
def llvm_gen_unary_reduction_loop (op : Opcode) (src : Symbol) :
    List Nat → Option LLVMValue → RuntimeOptimizer → Option LLVMValue × RuntimeOptimizer × Bool
  | [], final_result, rop => (final_result, rop, true)
  | i :: rest, final_result, rop =>
      let l := loadLLVMValue rop src i 0
      match l.1 with
      | none => (final_result, l.2, false)
      | some src_val =>
          let opname := op.opname
          if opname = "length" then
            let result := LLVMValue.BinOp BinaryOps.FMul src_val src_val
            llvm_gen_unary_reduction_loop op src rest
              (some (accumulate BinaryOps.FAdd final_result result)) l.2
          else if opname = "luminance" then
            let coeff : ℚ :=
              if i = 0 then 2126 / 10000 else if i = 1 then 7152 / 10000 else 722 / 10000
            let result := LLVMValue.BinOp BinaryOps.FMul src_val (LLVMValue.ConstantFP coeff)
            llvm_gen_unary_reduction_loop op src rest
              (some (accumulate BinaryOps.FAdd final_result result)) l.2
          else
            llvm_gen_unary_reduction_loop op src rest final_result
              (l.2.error "Don't know how to handle op '%s', eliding the store")

/-- Function `llvm_gen_unary_reduction` (length, luminance). -/
def llvm_gen_unary_reduction (rop : RuntimeOptimizer) (opnum : Nat) : Option RuntimeOptimizer :=
  match rop.m_ops[opnum]? with
  | none => none
  | some op =>
      match rop.opargsym op 0, rop.opargsym op 1 with
      | some dst, some src =>
          if SkipSymbol dst || SkipSymbol src then some rop
          else
            let dst_derivs := dst.has_derivs
            let num_components := src.typespec.simpletype.aggregate
            let opname := op.opname
            match llvm_gen_unary_reduction_loop op src (List.range num_components) none rop with
            | (_, rop1, false) => some rop1
            | (none, rop1, true) => some rop1
            | (some final_result, rop1, true) =>
                let final_result :=
                  if opname = "length" then LLVMValue.Call1 "llvm.sqrt.f32" final_result
                  else final_result
                let rop2 := storeLLVMValue rop1 final_result dst 0 0
                some (if dst_derivs then rop2.info "punting on derivatives for now" else rop2)
      | _, _ => none

/-- The loop of `llvm_gen_dot` over the remaining components, carrying
`final_result`. -/
def llvm_gen_dot_loop (src1 src2 : Symbol) :
    List Nat → Option LLVMValue → RuntimeOptimizer → Option LLVMValue × RuntimeOptimizer × Bool
  | [], final_result, rop => (final_result, rop, true)
  | i :: rest, final_result, rop =>
      let l1 := loadLLVMValue rop src1 i 0
      let l2 := loadLLVMValue l1.2 src2 i 0
      match l1.1, l2.1 with
      | some src1_load, some src2_load =>
          let result := LLVMValue.BinOp BinaryOps.FMul src1_load src2_load
          llvm_gen_dot_loop src1 src2 rest (some (accumulate BinaryOps.FAdd final_result result))
            l2.2
      | _, _ => (final_result, l2.2, false)

/-- Function `llvm_gen_dot`; `none` also when the loop ends with a null
`final_result`, which the function then passes to the store. -/
def llvm_gen_dot (rop : RuntimeOptimizer) (opnum : Nat) : Option RuntimeOptimizer :=
  match rop.m_ops[opnum]? with
  | none => none
  | some op =>
      match rop.opargsym op 0, rop.opargsym op 1, rop.opargsym op 2 with
      | some dst, some src1, some src2 =>
          if SkipSymbol dst || SkipSymbol src1 || SkipSymbol src2 then some rop
          else
            let dst_derivs := dst.has_derivs
            let num_components := src1.typespec.simpletype.aggregate
            match llvm_gen_dot_loop src1 src2 (List.range num_components) none rop with
            | (_, rop1, false) => some rop1
            | (none, _, true) => none
            | (some final_result, rop1, true) =>
                let rop2 := storeLLVMValue rop1 final_result dst 0 0
                some (if dst_derivs then rop2.info "punting on derivatives for now" else rop2)
      | _, _, _ => none

/-- The loop of `llvm_gen_cross` over the remaining components of the
destination; `none` for a component beyond the three entries of the index
tables. -/
def llvm_gen_cross_loop (dst src1 src2 : Symbol) :
    List Nat → RuntimeOptimizer → Option RuntimeOptimizer
  | [], rop => some rop
  | i :: rest, rop =>
      let src1_idx0 : List ℤ := [1, 2, 0]
      let src1_idx1 : List ℤ := [2, 0, 1]
      let src2_idx0 : List ℤ := [2, 0, 1]
      let src2_idx1 : List ℤ := [1, 2, 0]
      match src1_idx0[i]?, src1_idx1[i]?, src2_idx0[i]?, src2_idx1[i]? with
      | some i10, some i11, some i20, some i21 =>
          let dst_derivs := dst.has_derivs
          let l10 := loadLLVMValue rop src1 i10 0
          let l11 := loadLLVMValue l10.2 src1 i11 0
          let l20 := loadLLVMValue l11.2 src2 i20 0
          let l21 := loadLLVMValue l20.2 src2 i21 0
          match l10.1, l11.1, l20.1, l21.1 with
          | some src1_load0, some src1_load1, some src2_load0, some src2_load1 =>
              let prod0 := LLVMValue.BinOp BinaryOps.FMul src1_load0 src2_load0
              let prod1 := LLVMValue.BinOp BinaryOps.FMul src1_load1 src2_load1
              let result := LLVMValue.BinOp BinaryOps.FSub prod0 prod1
              let rop2 := storeLLVMValue l21.2 result dst i 0
              let rop3 := if dst_derivs then rop2.info "punting on derivatives for now" else rop2
              llvm_gen_cross_loop dst src1 src2 rest rop3
          | _, _, _, _ => some l21.2
      | _, _, _, _ => none

/-- Function `llvm_gen_cross`. -/
def llvm_gen_cross (rop : RuntimeOptimizer) (opnum : Nat) : Option RuntimeOptimizer :=
  match rop.m_ops[opnum]? with
  | none => none
  | some op =>
      match rop.opargsym op 0, rop.opargsym op 1, rop.opargsym op 2 with
      | some dst, some src1, some src2 =>
          if SkipSymbol dst || SkipSymbol src1 || SkipSymbol src2 then some rop
          else
            let num_components := dst.typespec.simpletype.aggregate
            llvm_gen_cross_loop dst src1 src2 (List.range num_components) rop
      | _, _, _ => none

/-- The first loop of `llvm_gen_normalize`: the sum of the squared
components, carried in `length_squared`. -/
def llvm_gen_normalize_sum (src : Symbol) :
    List Nat → Option LLVMValue → RuntimeOptimizer → Option LLVMValue × RuntimeOptimizer × Bool
  | [], length_squared, rop => (length_squared, rop, true)
  | i :: rest, length_squared, rop =>
      let l := loadLLVMValue rop src i 0
      match l.1 with
      | none => (length_squared, l.2, false)
      | some src_val =>
          let result := LLVMValue.BinOp BinaryOps.FMul src_val src_val
          llvm_gen_normalize_sum src rest (some (accumulate BinaryOps.FAdd length_squared result))
            l.2

/-- One iteration of the second loop of `llvm_gen_normalize`. -/
def llvm_gen_normalize_component (dst src : Symbol) (inv_length : LLVMValue)
    (rop : RuntimeOptimizer) (i : Nat) : RuntimeOptimizer × Bool :=
  let dst_derivs := dst.has_derivs
  let l := loadLLVMValue rop src i 0
  match l.1 with
  | none => (l.2, false)
  | some src_val =>
      let result := LLVMValue.BinOp BinaryOps.FMul src_val inv_length
      let rop2 := storeLLVMValue l.2 result dst i 0
      let rop3 := if dst_derivs then rop2.info "punting on derivatives for now" else rop2
      (rop3, true)

/-- Function `llvm_gen_normalize`; `none` also when the first loop ends with a
null `length_squared`, which the function then passes to the square root. -/
def llvm_gen_normalize (rop : RuntimeOptimizer) (opnum : Nat) : Option RuntimeOptimizer :=
  match rop.m_ops[opnum]? with
  | none => none
  | some op =>
      match rop.opargsym op 0, rop.opargsym op 1 with
      | some dst, some src =>
          if SkipSymbol dst || SkipSymbol src then some rop
          else
            let num_components := dst.typespec.simpletype.aggregate
            match llvm_gen_normalize_sum src (List.range num_components) none rop with
            | (_, rop1, false) => some rop1
            | (none, _, true) => none
            | (some length_squared, rop1, true) =>
                let length := LLVMValue.Call1 "llvm.sqrt.f32" length_squared
                let inv_length := LLVMValue.BinOp BinaryOps.FDiv (LLVMValue.ConstantFP 1) length
                some (componentLoop (llvm_gen_normalize_component dst src inv_length)
                        (List.range num_components) rop1)
      | _, _ => none

/-- The entry `bb_map[opnum]` of the block map; `none` for the null pointer
of a missing entry. -/
def RuntimeOptimizer.bb_map (rop : RuntimeOptimizer) (opnum : Nat) : Option Nat :=
  rop.m_bb_map.lookup opnum

/-- Function `llvm_gen_if`; `none` when the opcode or its condition symbol
does not exist, when the load of the condition yields null (which is then
truncated), or when a target block is null. -/
def llvm_gen_if (rop : RuntimeOptimizer) (opnum : Nat) : Option RuntimeOptimizer :=
  match rop.m_ops[opnum]? with
  | none => none
  | some op =>
      match rop.opargsym op 0 with
      | none => none
      | some cond =>
          if SkipSymbol cond then some rop
          else
            let l := loadLLVMValue rop cond 0 0
            match l.1 with
            | none => none
            | some cond_load =>
                let cond_bool := LLVMValue.Cast CastOps.Trunc cond_load
                match l.2.bb_map (opnum + 1), l.2.bb_map (op.jump 0), l.2.bb_map (op.jump 1) with
                | some then_block, some else_block, some after_block =>
                    let rop1 := l.2.CreateCondBr cond_bool then_block else_block
                    let rop2 :=
                      if then_block ≠ after_block then
                        (rop1.SetInsertPoint then_block).CreateBr after_block
                      else rop1
                    let rop3 :=
                      if else_block ≠ after_block then
                        (rop2.SetInsertPoint else_block).CreateBr after_block
                      else rop2
                    some rop3
                | _, _, _ => none

/-- Function `llvm_gen_loop_op` (for, while, dowhile); `none` as for
`llvm_gen_if`. -/
def llvm_gen_loop_op (rop : RuntimeOptimizer) (opnum : Nat) : Option RuntimeOptimizer :=
  match rop.m_ops[opnum]? with
  | none => none
  | some op =>
      match rop.opargsym op 0 with
      | none => none
      | some cond =>
          if SkipSymbol cond then some rop
          else
            match rop.bb_map (opnum + 1), rop.bb_map (op.jump 0), rop.bb_map (op.jump 1),
                  rop.bb_map (op.jump 2), rop.bb_map (op.jump 3) with
            | some init_block, some cond_block, some body_block, some step_block,
              some after_block =>
                let rop1 :=
                  if init_block ≠ cond_block then
                    (rop.CreateBr init_block).SetInsertPoint init_block
                  else rop
                let rop2 :=
                  if op.opname = "dowhile" then rop1.CreateBr body_block
                  else rop1.CreateBr cond_block
                let rop3 := rop2.SetInsertPoint cond_block
                let l := loadLLVMValue rop3 cond 0 0
                match l.1 with
                | none => none
                | some cond_load =>
                    let cond_bool := LLVMValue.Cast CastOps.Trunc cond_load
                    let rop4 := l.2.CreateCondBr cond_bool body_block after_block
                    if step_block ≠ after_block then
                      let rop5 := (rop4.SetInsertPoint body_block).CreateBr step_block
                      some ((rop5.SetInsertPoint step_block).CreateBr cond_block)
                    else
                      some ((rop4.SetInsertPoint body_block).CreateBr cond_block)
            | _, _, _, _, _ => none

/-! ## Lowering of printf -/

/-- The characters that end a conversion specification in `llvm_gen_printf`. -/
def isConversionChar (c : Char) : Bool :=
  c = 'c' || c = 'd' || c = 'e' || c = 'f' || c = 'g' || c = 'i' || c = 'm' || c = 'n' ||
  c = 'o' || c = 'p' || c = 's' || c = 'u' || c = 'v' || c = 'x' || c = 'X'

/-- The scan of a conversion specification: the characters from `oldfmt` up
to and including the conversion character, and the rest of the format; when
the string ends first, the characters up to and including the terminator, and
`none` for a position past the end of the string. -/
def scanConversion : List Char → List Char × Option (List Char)
  | [] => ([Char.ofNat 0], none)
  | c :: rest =>
      if isConversionChar c then ([c], some rest)
      else
        let r := scanConversion rest
        (c :: r.1, r.2)

/-- The loop over the components of one printf argument: the format text and
the call arguments it appends; `none` when a load yields null, which is then
passed on as an argument. -/
def llvm_gen_printf_components (sym : Symbol) (ourformat : List Char) :
    List Nat → List Char → List LLVMValue → RuntimeOptimizer →
      Option (List Char × List LLVMValue × RuntimeOptimizer)
  | [], s, call_args, rop => some (s, call_args, rop)
  | i :: rest, s, call_args, rop =>
      let s := if i ≠ 0 then s ++ [' '] else s
      let s := s ++ ourformat
      let l := loadLLVMValue rop sym i 0
      match l.1 with
      | none => none
      | some loaded =>
          let arg :=
            if sym.typespec.is_floatbased then LLVMValue.Cast CastOps.FPExt loaded else loaded
          llvm_gen_printf_components sym ourformat rest s (call_args ++ [arg]) l.2

/-- One iteration of the loop `while (*format != 0)` of `llvm_gen_printf`, at
the character `c` followed by `rest`.  The result is `none` when the
iteration has no defined behaviour, the state alone when it leaves the
function with `return`, and otherwise the state with the position reached in
the format (`none` past the end of the string), the text, the argument count
and the call arguments. -/
def llvm_gen_printf_step (op : Opcode) (c : Char) (rest : List Char) (s : List Char) (arg : ℤ)
    (call_args : List LLVMValue) (rop : RuntimeOptimizer) :
    Option (RuntimeOptimizer × Option (Option (List Char) × List Char × ℤ × List LLVMValue)) :=
  if c = '%' then
    if rest.head? = some '%' then
      some (rop, some (some rest.tail, s ++ ['%', '%'], arg, call_args))
    else
      let sc := scanConversion (c :: rest)
      if arg ≥ (op.nargs : ℤ) then
        some (rop.error "Mismatch between format string and arguments", none)
      else
        let ourformat := sc.1
        match rop.opargsym op (1 + arg).toNat with
        | none => none
        | some sym =>
            if SkipSymbol sym then
              some (rop.warning "symbol type for '%s' unsupported for printf", none)
            else
              let simpletype := sym.typespec.simpletype
              let num_components := simpletype.numelements * simpletype.aggregate
              match llvm_gen_printf_components sym ourformat (List.range num_components)
                      s call_args rop with
              | none => none
              | some (s1, call_args1, rop1) => some (rop1, some (sc.2, s1, arg + 1, call_args1))
  else if c = '\\' then
    match rest with
    | [] => none
    | e :: rest1 =>
        let out :=
          if e = 'n' then '\n' else if e = 'r' then '\r' else if e = 't' then '\t' else e
        some (rop, some (some rest1, s ++ [out], arg, call_args))
  else
    some (rop, some (some rest, s ++ [c], arg, call_args))

/-- The loop `while (*format != 0)` of `llvm_gen_printf` with `fuel` steps
left; `format` is `none` for a position past the end of the string.  The
result is `none` when the function has no defined behaviour, the state alone
when it leaves with `return`, and the state with the text and the arguments
when the loop ends. -/
def llvm_gen_printf_loop (op : Opcode) :
    Nat → Option (List Char) → List Char → ℤ → List LLVMValue → RuntimeOptimizer →
      Option (RuntimeOptimizer × Option (List Char × List LLVMValue))
  | 0, _, _, _, _, _ => none
  | _ + 1, none, _, _, _, _ => none
  | _ + 1, some [], s, _, call_args, rop => some (rop, some (s, call_args))
  | fuel + 1, some (c :: rest), s, arg, call_args, rop =>
      match llvm_gen_printf_step op c rest s arg call_args rop with
      | none => none
      | some (rop1, none) => some (rop1, none)
      | some (rop1, some (format1, s1, arg1, call_args1)) =>
          llvm_gen_printf_loop op fuel format1 s1 arg1 call_args1 rop1

/-- The string a constant symbol holds (`*((ustring*)sym.data ())`). -/
def Symbol.constString (s : Symbol) : Option String :=
  match s.m_data.head? with
  | some (Value.string str) => some str
  | _ => none

/-- Function `llvm_gen_printf`. -/
def llvm_gen_printf (rop : RuntimeOptimizer) (opnum : Nat) : Option RuntimeOptimizer :=
  match rop.m_ops[opnum]? with
  | none => none
  | some op =>
      match rop.opargsym op 0 with
      | none => none
      | some format_sym =>
          if !format_sym.is_constant then
            some (rop.warning "printf must currently have constant format")
          else
            match format_sym.constString with
            | none => none
            | some format_ustring =>
                let format := format_ustring.toList
                match llvm_gen_printf_loop op (format.length + 1) (some format) [] 0 [] rop with
                | none => none
                | some (rop1, none) => some rop1
                | some (rop1, some (s, call_args)) =>
                    let llvm_str := LLVMValue.GlobalString (String.mk s)
                    let llvm_ptr := LLVMValue.ConstGEP2_32 llvm_str 0 0
                    some (rop1.CreateCall "llvm_osl_printf" (llvm_ptr :: call_args))

/-! ## Meaning of the generated code -/

/-- A first-class value of the generated code: a 1-bit or 32-bit integer, or
a float or double (exact). -/
inductive Scalar where
  | i1 (b : Bool)
  | i32 (v : ℤ)
  | f32 (x : ℚ)
  | f64 (x : ℚ)
  deriving DecidableEq

/-- The root of an address: a stack slot or the shading-state record. -/
inductive AddrBase where
  | alloca (name : String)
  | shaderglobals
  deriving DecidableEq, Repr

/-- An address: a root and the field indices leading to the element. -/
structure Addr where
  base : AddrBase
  path : List ℤ
  deriving DecidableEq, Repr

/-- The state the generated code runs on: memory and the results of the load
instructions executed so far. -/
structure Machine where
  mem : Addr → Option Scalar
  regs : Nat → Option Scalar

/-- The address a pointer value denotes. -/
def evalPtr : LLVMValue → Option Addr
  | LLVMValue.Alloca name => some ⟨AddrBase.alloca name, []⟩
  | LLVMValue.SgPtr => some ⟨AddrBase.shaderglobals, []⟩
  | LLVMValue.ConstGEP2_32 p _ idx1 => (evalPtr p).map fun a => ⟨a.base, a.path ++ [idx1]⟩
  | _ => none

/-- The meaning of a binary instruction in exact arithmetic; the integer and
floating-point quotient and remainder have no value for a zero divisor. -/
def evalBinOp : BinaryOps → Scalar → Scalar → Option Scalar
  | BinaryOps.FAdd, Scalar.f32 x, Scalar.f32 y => some (Scalar.f32 (x + y))
  | BinaryOps.Add, Scalar.i32 x, Scalar.i32 y => some (Scalar.i32 (x + y))
  | BinaryOps.FSub, Scalar.f32 x, Scalar.f32 y => some (Scalar.f32 (x - y))
  | BinaryOps.Sub, Scalar.i32 x, Scalar.i32 y => some (Scalar.i32 (x - y))
  | BinaryOps.FMul, Scalar.f32 x, Scalar.f32 y => some (Scalar.f32 (x * y))
  | BinaryOps.Mul, Scalar.i32 x, Scalar.i32 y => some (Scalar.i32 (x * y))
  | BinaryOps.FDiv, Scalar.f32 x, Scalar.f32 y => if y = 0 then none else some (Scalar.f32 (x / y))
  | BinaryOps.SDiv, Scalar.i32 x, Scalar.i32 y => if y = 0 then none else some (Scalar.i32 (Int.tdiv x y))
  | BinaryOps.FRem, Scalar.f32 x, Scalar.f32 y => if y = 0 then none else some (Scalar.f32 (fmodf x y))
  | BinaryOps.SRem, Scalar.i32 x, Scalar.i32 y => if y = 0 then none else some (Scalar.i32 (Int.tmod x y))
  | BinaryOps.And, Scalar.i1 x, Scalar.i1 y => some (Scalar.i1 (x && y))
  | BinaryOps.Or, Scalar.i1 x, Scalar.i1 y => some (Scalar.i1 (x || y))
  | _, _, _ => none

/-- The meaning of a comparison (on exact values the unordered predicates are
the plain comparisons). -/
def evalCmp : CmpPredicate → Scalar → Scalar → Option Scalar
  | CmpPredicate.FCMP_ULT, Scalar.f32 x, Scalar.f32 y => some (Scalar.i1 (decide (x < y)))
  | CmpPredicate.ICMP_SLT, Scalar.i32 x, Scalar.i32 y => some (Scalar.i1 (decide (x < y)))
  | CmpPredicate.FCMP_ULE, Scalar.f32 x, Scalar.f32 y => some (Scalar.i1 (decide (x ≤ y)))
  | CmpPredicate.ICMP_SLE, Scalar.i32 x, Scalar.i32 y => some (Scalar.i1 (decide (x ≤ y)))
  | CmpPredicate.FCMP_UEQ, Scalar.f32 x, Scalar.f32 y => some (Scalar.i1 (decide (x = y)))
  | CmpPredicate.ICMP_EQ, Scalar.i32 x, Scalar.i32 y => some (Scalar.i1 (decide (x = y)))
  | CmpPredicate.FCMP_UGE, Scalar.f32 x, Scalar.f32 y => some (Scalar.i1 (decide (y ≤ x)))
  | CmpPredicate.ICMP_SGE, Scalar.i32 x, Scalar.i32 y => some (Scalar.i1 (decide (y ≤ x)))
  | CmpPredicate.FCMP_UGT, Scalar.f32 x, Scalar.f32 y => some (Scalar.i1 (decide (y < x)))
  | CmpPredicate.ICMP_SGT, Scalar.i32 x, Scalar.i32 y => some (Scalar.i1 (decide (y < x)))
  | CmpPredicate.FCMP_UNE, Scalar.f32 x, Scalar.f32 y => some (Scalar.i1 (decide (x ≠ y)))
  | CmpPredicate.ICMP_NE, Scalar.i32 x, Scalar.i32 y => some (Scalar.i1 (decide (x ≠ y)))
  | _, _, _ => none

/-- The meaning of a conversion. -/
def evalCast : CastOps → Scalar → Option Scalar
  | CastOps.SIToFP, Scalar.i32 v => some (Scalar.f32 (v : ℚ))
  | CastOps.FPToSI, Scalar.f32 x => some (Scalar.i32 (truncToInt x))
  | CastOps.ZExt, Scalar.i1 b => some (Scalar.i32 (if b then 1 else 0))
  | CastOps.Trunc, Scalar.i32 v => some (Scalar.i1 (decide (v % 2 = 1)))
  | CastOps.FPExt, Scalar.f32 x => some (Scalar.f64 x)
  | _, _ => none

/-- The value of an IR value on a machine state; `none` when it has none. -/
def evalValue (m : Machine) : LLVMValue → Option Scalar
  | LLVMValue.ConstantFP x => some (Scalar.f32 x)
  | LLVMValue.ConstantInt _ v => some (Scalar.i32 v)
  | LLVMValue.Load id _ => m.regs id
  | LLVMValue.BinOp op a b =>
      (evalValue m a).bind fun x => (evalValue m b).bind fun y => evalBinOp op x y
  | LLVMValue.Cmp pred a b =>
      (evalValue m a).bind fun x => (evalValue m b).bind fun y => evalCmp pred x y
  | LLVMValue.Cast op v => (evalValue m v).bind fun x => evalCast op x
  | LLVMValue.Neg v =>
      (evalValue m v).bind fun x =>
        match x with
        | Scalar.i32 k => some (Scalar.i32 (-k))
        | _ => none
  | LLVMValue.FNeg v =>
      (evalValue m v).bind fun x =>
        match x with
        | Scalar.f32 y => some (Scalar.f32 (-y))
        | _ => none
  | LLVMValue.Select c a b =>
      (evalValue m c).bind fun x =>
        match x with
        | Scalar.i1 t => if t then evalValue m a else evalValue m b
        | _ => none
  | LLVMValue.Call1 fn v =>
      (evalValue m v).bind fun x =>
        match x with
        | Scalar.f32 y => if fn = "fabsf" then some (Scalar.f32 |y|) else none
        | _ => none
  | _ => none

/-- Execute one non-terminator instruction. -/
def stepInstruction (m : Machine) : Instruction → Option Machine
  | Instruction.Load id ptr =>
      (evalPtr ptr).bind fun a => (m.mem a).map fun v =>
        { m with regs := fun k => if k = id then some v else m.regs k }
  | Instruction.Store val ptr =>
      (evalPtr ptr).bind fun a => (evalValue m val).map fun v =>
        { m with mem := fun b => if b = a then some v else m.mem b }
  | Instruction.Call _ _ => some m
  | _ => none

/-- Execute straight-line code up to its end or its first terminator. -/
def runCode : List Instruction → Machine → Option Machine
  | [], m => some m
  | Instruction.Br _ :: _, m => some m
  | Instruction.CondBr _ _ _ :: _, m => some m
  | Instruction.RetVoid :: _, m => some m
  | instr :: rest, m => (stepInstruction m instr).bind (runCode rest)

/-! ## Storage allocation and fixtures for running generated code -/

/-- Method `RuntimeOptimizer::getOrAllocateLLVMSymbol`: the alloca goes to
the beginning of the entry block and is recorded in the allocation map. -/
def getOrAllocateLLVMSymbol (rop : RuntimeOptimizer) (sym : Symbol) : LLVMValue × RuntimeOptimizer :=
  let mangled_name := sym.dealias_mangled
  match rop.m_named_values.lookup mangled_name with
  | none =>
      let has_derivs := sym.has_derivs
      let is_float := sym.typespec.is_floatbased
      let num_components := sym.typespec.simpletype.aggregate
      let total_size := num_components * (if has_derivs then 3 else 1)
      let allocation := LLVMValue.Alloca mangled_name
      (allocation,
       { rop with m_allocas := ⟨mangled_name, is_float, total_size⟩ :: rop.m_allocas,
                  m_named_values := (mangled_name, allocation) :: rop.m_named_values })
  | some v => (v, rop)

/-! ## The shading-state record and the layer function -/

/-- The field types of the shading-state record. -/
inductive SGFieldType where
  | vec3_type
  | float_type
  | bool_type
  | void_ptr_type
  deriving DecidableEq, Repr

/-- Method `RuntimeOptimizer::getShaderGlobalType`: the field types pushed to
`sg_types`, in order. -/
def getShaderGlobalType : List SGFieldType :=
  let sg_types : List SGFieldType := []
  let sg_types := sg_types ++ List.replicate 8 SGFieldType.vec3_type
  let sg_types := sg_types ++ List.replicate 6 SGFieldType.float_type
  let sg_types := sg_types ++ List.replicate 2 SGFieldType.vec3_type
  let sg_types := sg_types ++ List.replicate 2 SGFieldType.float_type
  let sg_types := sg_types ++ List.replicate 4 SGFieldType.vec3_type
  let sg_types := sg_types ++ List.replicate 3 SGFieldType.void_ptr_type
  let sg_types := sg_types ++ List.replicate 1 SGFieldType.void_ptr_type
  let sg_types := sg_types ++ List.replicate 1 SGFieldType.float_type
  let sg_types := sg_types ++ List.replicate 3 SGFieldType.bool_type
  sg_types

/-- Component `i` of the floats a value consists of (`((float*)data)[i]`). -/
def Value.floatComponent : Value → Nat → Option ℚ
  | Value.float f, 0 => some f
  | Value.vec3 v, i => if i < 3 then some (v.get i) else none
  | Value.matrix m, i => if i < 16 then some (m.flat i) else none
  | _, _ => none

/-- Component `i` of the ints a value consists of (`((int*)data)[i]`). -/
def Value.intComponent : Value → Nat → Option ℤ
  | Value.int k, 0 => some k
  | _, _ => none

/-- The loop of `llvm_assign_initial_constant` over the remaining components;
`none` when the symbol holds no such datum. -/
def llvm_assign_initial_constant_loop (sym : Symbol) :
    List Nat → RuntimeOptimizer → Option RuntimeOptimizer
  | [], rop => some rop
  | i :: rest, rop =>
      let is_float := sym.typespec.is_floatbased
      let init_val : Option LLVMValue :=
        if is_float then
          (sym.m_data.head?.bind fun v => v.floatComponent i).map LLVMValue.ConstantFP
        else
          (sym.m_data.head?.bind fun v => v.intComponent i).map (LLVMValue.ConstantInt 32)
      match init_val with
      | none => none
      | some init_val =>
          llvm_assign_initial_constant_loop sym rest (storeLLVMValue rop init_val sym i 0)

/-- Method `RuntimeOptimizer::llvm_assign_initial_constant`; `none` when the
assertion fails or the symbol holds no data. -/
def llvm_assign_initial_constant (rop : RuntimeOptimizer) (sym : Symbol) :
    Option RuntimeOptimizer :=
  if !(sym.is_constant && !sym.has_derivs) then none
  else
    let num_components := sym.typespec.simpletype.aggregate
    llvm_assign_initial_constant_loop sym (List.range num_components) rop

/-- A lowering routine (`OpLLVMer`). -/
abbrev OpLLVMer : Type := RuntimeOptimizer → Nat → Option RuntimeOptimizer

/-- The table `llvm_generator_table` as `initialize_llvm_generator_table`
fills it. -/
def llvm_generator_table : List (String × OpLLVMer) :=
  [("assign", llvm_gen_assign),
   ("add", llvm_gen_binary_op),
   ("sub", llvm_gen_binary_op),
   ("mul", llvm_gen_binary_op),
   ("div", llvm_gen_binary_op),
   ("mod", llvm_gen_binary_op),
   ("dot", llvm_gen_dot),
   ("cross", llvm_gen_cross),
   ("normalize", llvm_gen_normalize),
   ("compref", llvm_gen_compref),
   ("eq", llvm_gen_compare_op),
   ("neq", llvm_gen_compare_op),
   ("lt", llvm_gen_compare_op),
   ("le", llvm_gen_compare_op),
   ("gt", llvm_gen_compare_op),
   ("ge", llvm_gen_compare_op),
   ("neg", llvm_gen_unary_op),
   ("abs", llvm_gen_unary_op),
   ("fabs", llvm_gen_unary_op),
   ("sqrt", llvm_gen_unary_op),
   ("sin", llvm_gen_unary_op),
   ("cos", llvm_gen_unary_op),
   ("vector", llvm_gen_construct_aggregate),
   ("color", llvm_gen_construct_aggregate),
   ("length", llvm_gen_unary_reduction),
   ("luminance", llvm_gen_unary_reduction),
   ("if", llvm_gen_if),
   ("for", llvm_gen_loop_op),
   ("while", llvm_gen_loop_op),
   ("dowhile", llvm_gen_loop_op),
   ("printf", llvm_gen_printf)]

/-- The symbol loop of `build_llvm_version`: storage for every symbol that is
neither skipped nor a global, and the initial stores of the constants. -/
def setupSymbols : List Symbol → RuntimeOptimizer → Option RuntimeOptimizer
  | [], rop => some rop
  | s :: rest, rop =>
      if SkipSymbol s then setupSymbols rest rop
      else if s.symtype = SymType.SymTypeGlobal then setupSymbols rest rop
      else
        let rop1 := (getOrAllocateLLVMSymbol rop s).2
        if s.is_constant then
          (llvm_assign_initial_constant rop1 s).bind (setupSymbols rest)
        else setupSymbols rest rop1

/-- The assignment `bb_start[k] = true`; `none` outside the vector. -/
def setStart (bb_start : List Bool) (k : Nat) : Option (List Bool) :=
  if k < bb_start.length then some (bb_start.set k true) else none

/-- The loop of `build_llvm_version` that marks the opcodes at which a basic
block starts, over the remaining opcodes (`opnum` is the number of the first
of them). -/
def markBlockStarts : List Opcode → Nat → List Bool → Option (List Bool)
  | [], _, bb_start => some bb_start
  | op :: rest, opnum, bb_start =>
      if op.opname = "if" then
        ((((setStart bb_start (opnum + 1)).bind fun b => setStart b (op.jump 0)).bind
          fun b => setStart b (op.jump 1)).bind fun b => markBlockStarts rest (opnum + 1) b)
      else if op.opname = "for" ∨ op.opname = "while" ∨ op.opname = "dowhile" then
        ((((((setStart bb_start (opnum + 1)).bind fun b => setStart b (op.jump 0)).bind
          fun b => setStart b (op.jump 1)).bind fun b => setStart b (op.jump 2)).bind
          fun b => setStart b (op.jump 3)).bind fun b => markBlockStarts rest (opnum + 1) b)
      else markBlockStarts rest (opnum + 1) bb_start

/-- The loop of `build_llvm_version` that creates a block for every marked
opcode and enters it into the block map. -/
def createBlocks (bb_start : List Bool) : List Nat → RuntimeOptimizer → RuntimeOptimizer
  | [], rop => rop
  | opnum :: rest, rop =>
      if bb_start.getD opnum false then
        let r := rop.BasicBlockCreate
        createBlocks bb_start rest
          { r.2 with m_bb_map := (opnum, r.1) :: r.2.m_bb_map.filter fun e => e.1 ≠ opnum }
      else createBlocks bb_start rest rop

/-- The main loop of `build_llvm_version` over the remaining opcodes of
`instance_ops` (`opnum` is the number of the first of them): the lowering
routine of the table is called for every opcode, `nop` and `end` are skipped,
and any other name is reported and ends generation (the boolean is then
false, for `return NULL`).  `none` when a lowering routine has no defined
result. -/
def lowerOps (bb_start : List Bool) : List Opcode → Nat → RuntimeOptimizer →
    Option (RuntimeOptimizer × Bool)
  | [], _, rop => some (rop, true)
  | op :: rest, opnum, rop =>
      let rop1 : Option RuntimeOptimizer :=
        if bb_start.getD opnum false then
          match rop.bb_map opnum with
          | some next_bb =>
              if next_bb ≠ 0 then some (rop.SetInsertPointBegin next_bb)
              else some (rop.SetInsertPoint next_bb)
          | none => none
        else some rop
      match rop1 with
      | none => none
      | some rop1 =>
          match llvm_generator_table.lookup op.opname with
          | some found =>
              (found rop1 opnum).bind (lowerOps bb_start rest (opnum + 1))
          | none =>
              if op.opname = "nop" ∨ op.opname = "end" then
                lowerOps bb_start rest (opnum + 1) rop1
              else some (rop1.error "LLVMOSL: Unsupported op %s", false)

/-- Method `RuntimeOptimizer::build_llvm_version`, for a module that holds no
function of the layer's name yet: the allocation map is cleared, the function
starts with its entry block (block 0), the symbols get their storage, the
blocks are created, and the opcodes are lowered in order.  The result is the
returned pointer (`none` for NULL) and the state; the run of the optimization
passes on the finished function is not part of the model.  The whole result
is `none` when the C++ has no defined result. -/
def build_llvm_version (rop0 : RuntimeOptimizer) :
    Option (Option LayerFunction × RuntimeOptimizer) :=
  let layer_func : LayerFunction := ⟨rop0.m_layername, rop0.m_id⟩
  let rop : RuntimeOptimizer :=
    { rop0 with m_named_values := [], m_allocas := [], m_blocks := [[]],
                m_insert_block := 0, m_insert_pos := none }
  match setupSymbols rop.m_symbols rop with
  | none => none
  | some rop1 =>
      match markBlockStarts rop1.m_ops 0 (List.replicate rop1.m_ops.length false) with
      | none => none
      | some bb_start =>
          let rop2 := createBlocks bb_start (List.range rop1.m_ops.length)
                        { rop1 with m_bb_map := [] }
          match lowerOps bb_start rop2.m_ops 0 rop2 with
          | none => none
          | some (rop3, false) => some (none, rop3)
          | some (rop3, true) =>
              let rop4 := rop3.CreateRetVoid
              some (some layer_func, { rop4 with m_llvm_version := some layer_func })

/-- A local symbol without derivatives, not an alias, with uniform data. -/
def Symbol.mkLocal (name : String) (ts : TypeSpec) (data : List Value) : Symbol :=
  ⟨name, name, ts, SymType.SymTypeLocal, false, ValueSource.DefaultVal, true, 0, 0, none, data, 0, []⟩

/-- The generator state in which the lowering of the opcodes starts, for a
layer without constants: an empty entry block with the builder at its end,
and storage allocated by the symbol loop of `build_llvm_version` (skipped
symbols and globals get none). -/
def RuntimeOptimizer.start (ops : List Opcode) (syms : List Symbol) : RuntimeOptimizer :=
  syms.foldl
    (fun rop s =>
      if SkipSymbol s then rop
      else if s.symtype = SymType.SymTypeGlobal then rop
      else (getOrAllocateLLVMSymbol rop s).2)
    ⟨ops, syms, [], [], [[]], 0, none, 0, [], [], [], [], "layer", 0, none⟩

/-- The code a lowering routine left in the block the builder points to. -/
def generatedCode (r : Option RuntimeOptimizer) : Option (List Instruction) :=
  r.map RuntimeOptimizer.currentCode

/-- A memory given by a list of (address, content) pairs. -/
def memOfList : List (Addr × Scalar) → Addr → Option Scalar
  | [], _ => none
  | (a, v) :: rest, b => if b = a then some v else memOfList rest b

/-- The machine state with the given memory and no load executed yet. -/
def Machine.ofList (entries : List (Addr × Scalar)) : Machine :=
  ⟨memOfList entries, fun _ => none⟩

/-- Run code on the given memory and read the final content of an address. -/
def runAndRead (code : List Instruction) (entries : List (Addr × Scalar)) (a : Addr) :
    Option Scalar :=
  (runCode code (Machine.ofList entries)).bind fun m => m.mem a

/-- The address of a scalar stack slot. -/
def Addr.slot (name : String) : Addr := ⟨AddrBase.alloca name, []⟩

/-- The address of element `i` of an aggregate stack slot. -/
def Addr.elem (name : String) (i : ℤ) : Addr := ⟨AddrBase.alloca name, [i]⟩

/-! ## Predicates used to state the properties -/

/-- One of the three types is a structure or an array (the condition under
which the first assertions of an entry point fail). -/
def anyStructureOrArray (R A B : TypeSpec) : Bool :=
  R.is_structure || R.is_array || A.is_structure || A.is_array || B.is_structure || B.is_array

/-- The (destination, A, B) type triples for which addition is specified:
closure from closures, triple from triples or from a triple and a scalar,
float from floats or from a float and an int, int from ints. -/
def OP_add_supported (R A B : TypeSpec) : Bool :=
  !anyStructureOrArray R A B &&
  ((R.is_closure && A.is_closure && B.is_closure)
   || (R.is_triple && A.is_triple && B.is_triple)
   || (R.is_triple && A.is_triple && B.is_float)
   || (R.is_triple && A.is_triple && B.is_int)
   || (R.is_triple && A.is_float && B.is_triple)
   || (R.is_triple && A.is_int && B.is_triple)
   || (R.is_float && A.is_float && B.is_float)
   || (R.is_float && A.is_float && B.is_int)
   || (R.is_float && A.is_int && B.is_float)
   || (R.is_int && A.is_int && B.is_int))

/-- All symbols of `e1` have the types they have in `e`. -/
def SameTypes (e e1 : ShadingExecution) : Prop :=
  ∀ k, (e1.sym k).map Symbol.typespec = (e.sym k).map Symbol.typespec

/-- The specialization `binary_op<float,int,float, Add<float,int,float> >`. -/
def binary_op_float_int_float_Add : OpImpl :=
  OpImpl.binary_op CType.float CType.int CType.float
    (Functor.Add CType.float CType.int CType.float)

/-- The C++ type a scalar (int or float) symbol is read as. -/
def scalarCType (t : TypeSpec) : CType := if t.is_float then CType.float else CType.int

/-- The execution of one opcode on three uniform local symbols `r`, `a`, `b`
(arguments 0, 1 and 2) holding the given values, for a batch of one point and
with an empty error channel. -/
def ShadingExecution.single (opname : String) (impl : OpImpl) (tr ta tb : TypeSpec)
    (vr va vb : Value) : ShadingExecution :=
  ⟨[Symbol.mkLocal "r" tr [vr], Symbol.mkLocal "a" ta [va], Symbol.mkLocal "b" tb [vb]],
   ⟨opname, [0, 1, 2], [], impl⟩, 1, []⟩

/-- The value of symbol 0 at point 0 after an execution that returned. -/
def resultValue (r : Except String ShadingExecution) : Option Value :=
  r.toOption.bind fun e => (e.sym 0).bind fun s => s.valueAt 0

/-- The errors on the error channel after an execution that returned. -/
def reportedErrors (r : Except String ShadingExecution) : Option (List String) :=
  r.toOption.map ShadingExecution.m_errors

/-- The stored implementation of the opcode after an execution that returned. -/
def storedImplementation (r : Except String ShadingExecution) : Option OpImpl :=
  r.toOption.map fun e => e.op.implementation

/-- The scenario of the spec: opcode `add`, destination float, A = int 3,
B = float 2.5, not yet specialized. -/
def addScenario : ShadingExecution :=
  ShadingExecution.single "add" OpImpl.OP_add TypeSpec.float TypeSpec.int TypeSpec.float
    (Value.float 0) (Value.int 3) (Value.float (5 / 2))

/-- An unsupported addition: float = int + int. -/
def addFloatFromInts : ShadingExecution :=
  ShadingExecution.single "add" OpImpl.OP_add TypeSpec.float TypeSpec.int TypeSpec.int
    (Value.float 0) (Value.int 1) (Value.int 2)

/-- An integer division by zero: int = 7 / 0, the destination holding 5. -/
def divByZeroScenario : ShadingExecution :=
  ShadingExecution.single "div" OpImpl.OP_div TypeSpec.int TypeSpec.int TypeSpec.int
    (Value.int 5) (Value.int 7) (Value.int 0)

/-- An integer division that overflows: int = INT_MIN / -1, the destination
holding 5. -/
def divOverflowScenario : ShadingExecution :=
  ShadingExecution.single "div" OpImpl.OP_div TypeSpec.int TypeSpec.int TypeSpec.int
    (Value.int 5) (Value.int INT_MIN) (Value.int (-1))

/-- An integer modulus by zero: int = 7 % 0, the destination holding 5. -/
def modByZeroScenario : ShadingExecution :=
  ShadingExecution.single "mod" OpImpl.OP_mod TypeSpec.int TypeSpec.int TypeSpec.int
    (Value.int 5) (Value.int 7) (Value.int 0)

/-- The scenario matrix = 2.0 * 3.0 of the interpreter. -/
def mulMatrixScenario : ShadingExecution :=
  ShadingExecution.single "mul" OpImpl.OP_mul TypeSpec.matrix TypeSpec.float TypeSpec.float
    (Value.matrix (Matrix44.splat 0)) (Value.float 2) (Value.float 3)

/-- The layer of one opcode `opname r a b` on three local symbols without
derivatives of the given types, as the generator sees it before lowering. -/
def RuntimeOptimizer.single (opname : String) (impl : OpImpl) (tr ta tb : TypeSpec) :
    RuntimeOptimizer :=
  RuntimeOptimizer.start [⟨opname, [0, 1, 2], [], impl⟩]
    [Symbol.mkLocal "r" tr [], Symbol.mkLocal "a" ta [], Symbol.mkLocal "b" tb []]

/-- The floating-point instructions among the binary instructions. -/
def BinaryOps.isFloat : BinaryOps → Bool
  | BinaryOps.FAdd => true
  | BinaryOps.FSub => true
  | BinaryOps.FMul => true
  | BinaryOps.FDiv => true
  | BinaryOps.FRem => true
  | _ => false

/-- The errors an execution has reported beyond those of an earlier state. -/
def ShadingExecution.errorsSince (e1 e : ShadingExecution) : List String :=
  e1.m_errors.drop e.m_errors.length

/-- An implementation is a numeric driver whose functor is not `Mod` (the
only functor that reports errors). -/
def OpImpl.isSilentDriver : OpImpl → Bool
  | OpImpl.binary_op _ _ _ F => decide (F ≠ Functor.Mod)
  | _ => false

/-- The memory cells of a triple held in the aggregate stack slot `name`. -/
def memOfVec3 (name : String) (v : Vec3) : List (Addr × Scalar) :=
  [(Addr.elem name 0, Scalar.f32 v.x), (Addr.elem name 1, Scalar.f32 v.y),
   (Addr.elem name 2, Scalar.f32 v.z)]

/-- The floating-point instruction of an arithmetic opcode. -/
def floatInstruction (opname : String) : BinaryOps :=
  if opname = "add" then BinaryOps.FAdd
  else if opname = "sub" then BinaryOps.FSub
  else if opname = "mul" then BinaryOps.FMul
  else if opname = "div" then BinaryOps.FDiv
  else BinaryOps.FRem

/-- The integer instruction of an arithmetic opcode. -/
def intInstruction (opname : String) : BinaryOps :=
  if opname = "add" then BinaryOps.Add
  else if opname = "sub" then BinaryOps.Sub
  else if opname = "mul" then BinaryOps.Mul
  else if opname = "div" then BinaryOps.SDiv
  else BinaryOps.SRem

/-- The layer `r = a * b` with a matrix `r` and floats `a`, `b`, before lowering. -/
def mulMatrixLayer : RuntimeOptimizer :=
  RuntimeOptimizer.single "mul" OpImpl.OP_mul TypeSpec.matrix TypeSpec.float TypeSpec.float

/-- The layer `r = a / b` on ints, before lowering. -/
def divIntLayer : RuntimeOptimizer :=
  RuntimeOptimizer.single "div" OpImpl.OP_div TypeSpec.int TypeSpec.int TypeSpec.int

/-- The layer `r = a + b` with floats `r`, `b` and an int `a`, before lowering. -/
def addIntFloatLayer : RuntimeOptimizer :=
  RuntimeOptimizer.single "add" OpImpl.OP_add TypeSpec.float TypeSpec.int TypeSpec.float

/-- The layer `r = (a == b)` with an int `r` and triples `a`, `b`, before lowering. -/
def eqTriplesLayer : RuntimeOptimizer :=
  RuntimeOptimizer.single "eq" (OpImpl.other "OP_eq") TypeSpec.int TypeSpec.triple TypeSpec.triple

/-- The layer `r = (a != b)` with an int `r` and triples `a`, `b`, before lowering. -/
def neqTriplesLayer : RuntimeOptimizer :=
  RuntimeOptimizer.single "neq" (OpImpl.other "OP_neq") TypeSpec.int TypeSpec.triple TypeSpec.triple

/-- The code `llvm_gen_compare_op` generates for a comparison of the triples
`a` and `b` into the int `r`: two loads of component 0 and one store. -/
def compareFirstComponentCode (pred : CmpPredicate) : List Instruction :=
  [Instruction.Load 0 (LLVMValue.ConstGEP2_32 (LLVMValue.Alloca "a") 0 0),
   Instruction.Load 1 (LLVMValue.ConstGEP2_32 (LLVMValue.Alloca "b") 0 0),
   Instruction.Store
     (LLVMValue.Cast CastOps.ZExt
       (LLVMValue.Cmp pred
         (LLVMValue.Load 0 (LLVMValue.ConstGEP2_32 (LLVMValue.Alloca "a") 0 0))
         (LLVMValue.Load 1 (LLVMValue.ConstGEP2_32 (LLVMValue.Alloca "b") 0 0))))
     (LLVMValue.Alloca "r")]

/-! ## The scattering models of `bsdf.cpp`

The scalar type `F` stands for `float`; the properties are stated for a
linearly ordered field, the reals among them. -/

/-- The functions and constants of the C math library that `bsdf.cpp` uses,
over the scalar type `F`. -/
structure CMath (F : Type) where
  sqrtf : F → F
  cosf : F → F
  sinf : F → F
  powf : F → F → F
  M_PI : F
  M_PI_4 : F
  M_1_PI : F

namespace Imath

/-- The class `Vec3` (and `Color3`) of the vector library, over the scalar
type `F`. -/
structure Vec3 (F : Type) where
  x : F
  y : F
  z : F

namespace Vec3

/-- Component `v[i]`. -/
def get {F : Type} [LinearOrderedField F] (v : Vec3 F) (i : Nat) : F :=
  match i with
  | 0 => v.x
  | 1 => v.y
  | _ => v.z

/-- The product `a.dot (b)`. -/
def dot {F : Type} [LinearOrderedField F] (a b : Vec3 F) : F := a.x * b.x + a.y * b.y + a.z * b.z

/-- The product `a.cross (b)`. -/
def cross {F : Type} [LinearOrderedField F] (a b : Vec3 F) : Vec3 F :=
  ⟨a.y * b.z - a.z * b.y, a.z * b.x - a.x * b.z, a.x * b.y - a.y * b.x⟩

/-- The sum `a + b`. -/
def add {F : Type} [LinearOrderedField F] (a b : Vec3 F) : Vec3 F := ⟨a.x + b.x, a.y + b.y, a.z + b.z⟩

/-- The difference `a - b`. -/
def sub {F : Type} [LinearOrderedField F] (a b : Vec3 F) : Vec3 F := ⟨a.x - b.x, a.y - b.y, a.z - b.z⟩

/-- The product `s * a` with a scalar. -/
def smul {F : Type} [LinearOrderedField F] (s : F) (a : Vec3 F) : Vec3 F := ⟨s * a.x, s * a.y, s * a.z⟩

/-- The negation `-a`. -/
def neg {F : Type} [LinearOrderedField F] (a : Vec3 F) : Vec3 F := ⟨-a.x, -a.y, -a.z⟩

/-- The method `a.normalize ()` of the vector library: the components are
divided by the length unless the length is 0. -/
def normalize {F : Type} [LinearOrderedField F] (m : CMath F) (a : Vec3 F) : Vec3 F :=
  let l := m.sqrtf (a.dot a)
  if l ≠ 0 then ⟨a.x / l, a.y / l, a.z / l⟩ else a

end Vec3

end Imath

/-- Function `to_unit_disk`: the new values of `x` and `y`. -/
def to_unit_disk {F : Type} [LinearOrderedField F] (m : CMath F) (x y : F) : F × F :=
  let a := 2 * x - 1
  let b := 2 * y - 1
  let rphi : F × F :=
    if a > -b then
      if a > b then (a, m.M_PI_4 * (b / a))
      else (b, m.M_PI_4 * (2 - a / b))
    else
      if a < b then (-a, m.M_PI_4 * (4 + b / a))
      else (-b, if b ≠ 0 then m.M_PI_4 * (6 - a / b) else 0)
  let r := rphi.1
  let phi := rphi.2
  (r * m.cosf phi, r * m.sinf phi)

namespace ClosurePrimitive

/-- Method `ClosurePrimitive::make_orthonormals`: the vectors `a` and `b`. -/
def make_orthonormals {F : Type} [LinearOrderedField F] (m : CMath F) (N : Imath.Vec3 F) : Imath.Vec3 F × Imath.Vec3 F :=
  let a : Imath.Vec3 F :=
    if N.get 0 ≠ N.get 1 ∨ N.get 0 ≠ N.get 2 then
      ⟨N.get 2 - N.get 1, N.get 0 - N.get 2, N.get 1 - N.get 0⟩
    else
      ⟨N.get 2 - N.get 1, N.get 0 + N.get 2, -N.get 1 - N.get 0⟩
  let a := a.normalize m
  let b := N.cross a
  (a, b)

/-- Method `ClosurePrimitive::sample_cos_hemisphere`: `omega_in` and `pdf`. -/
def sample_cos_hemisphere {F : Type} [LinearOrderedField F] (m : CMath F) (N _omega_out : Imath.Vec3 F) (randu randv : F) :
    Imath.Vec3 F × F :=
  let d := to_unit_disk m randu randv
  let randu := d.1
  let randv := d.2
  let costheta := m.sqrtf (max (1 - randu * randu - randv * randv) 0)
  let TB := make_orthonormals m N
  let T := TB.1
  let B := TB.2
  let omega_in := ((T.smul randu).add (B.smul randv)).add (N.smul costheta)
  let pdf := costheta * m.M_1_PI
  (omega_in, pdf)

/-- Method `ClosurePrimitive::pdf_cos_hemisphere`. -/
def pdf_cos_hemisphere {F : Type} [LinearOrderedField F] (m : CMath F) (N omega_in : Imath.Vec3 F) : F :=
  let costheta := N.dot omega_in
  if costheta > 0 then costheta * m.M_1_PI else 0

end ClosurePrimitive

namespace DiffuseClosure

/-- The parameters of the diffuse model. -/
structure params_t (F : Type) where
  N : Imath.Vec3 F

/-- Method `DiffuseClosure::get_cone`: the axis and the angle when it returns
true, `none` when it returns false. -/
def get_cone {F : Type} [LinearOrderedField F] (m : CMath F) (params : params_t F) (omega_out : Imath.Vec3 F) :
    Option (Imath.Vec3 F × F) :=
  let cosNO := params.N.dot omega_out
  if cosNO > 0 then some (params.N, m.M_PI) else none

/-- Method `DiffuseClosure::eval`. -/
def eval {F : Type} [LinearOrderedField F] (m : CMath F) (params : params_t F) (_omega_out omega_in : Imath.Vec3 F) :
    Imath.Vec3 F :=
  let cos_pi := params.N.dot omega_in * m.M_1_PI
  ⟨cos_pi, cos_pi, cos_pi⟩

/-- Method `DiffuseClosure::sample`: `omega_in` and `pdf`. -/
def sample {F : Type} [LinearOrderedField F] (m : CMath F) (params : params_t F) (omega_out : Imath.Vec3 F) (randu randv : F) :
    Imath.Vec3 F × F :=
  let cosNO := params.N.dot omega_out
  if cosNO > 0 then
    ClosurePrimitive.sample_cos_hemisphere m params.N omega_out randu randv
  else
    (⟨0, 0, 0⟩, 0)

/-- Method `DiffuseClosure::pdf`. -/
def pdf {F : Type} [LinearOrderedField F] (m : CMath F) (params : params_t F) (_omega_out omega_in : Imath.Vec3 F) : F :=
  ClosurePrimitive.pdf_cos_hemisphere m params.N omega_in

end DiffuseClosure

namespace TransparentClosure

/-- Method `TransparentClosure::get_cone`: it returns false (`none`). -/
def get_cone {F : Type} [LinearOrderedField F] (_omega_out : Imath.Vec3 F) : Option (Imath.Vec3 F × F) := none

/-- Method `TransparentClosure::eval`. -/
def eval {F : Type} [LinearOrderedField F] (_omega_out _omega_in : Imath.Vec3 F) : Imath.Vec3 F := ⟨0, 0, 0⟩

/-- Method `TransparentClosure::sample`: `omega_in` and `pdf`. -/
def sample {F : Type} [LinearOrderedField F] (omega_out : Imath.Vec3 F) (_randu _randv : F) : Imath.Vec3 F × F :=
  (omega_out.neg, 1)

/-- Method `TransparentClosure::pdf`. -/
def pdf {F : Type} [LinearOrderedField F] (_omega_out _omega_in : Imath.Vec3 F) : F := 0

end TransparentClosure

namespace PhongClosure

/-- The parameters of the Phong model. -/
structure params_t (F : Type) where
  N : Imath.Vec3 F
  exponent : F

/-- Method `PhongClosure::get_cone`: the axis and the angle when it returns
true, `none` when it returns false. -/
def get_cone {F : Type} [LinearOrderedField F] (m : CMath F) (params : params_t F)
    (omega_out : Imath.Vec3 F) : Option (Imath.Vec3 F × F) :=
  let cosNO := params.N.dot omega_out
  if cosNO > 0 then some (params.N, m.M_PI) else none

/-- The reflected view vector `R = (2 * cosNO) * params->N - omega_out` that
`eval`, `sample` and `pdf` compute. -/
def reflected {F : Type} [LinearOrderedField F] (params : params_t F)
    (omega_out : Imath.Vec3 F) : Imath.Vec3 F :=
  let cosNO := params.N.dot omega_out
  (params.N.smul (2 * cosNO)).sub omega_out

/-- Method `PhongClosure::eval`; the constant `0.5f` is the fraction 1/2. -/
def eval {F : Type} [LinearOrderedField F] (m : CMath F) (params : params_t F)
    (omega_out omega_in : Imath.Vec3 F) : Imath.Vec3 F :=
  let cosNI := params.N.dot omega_in
  let R := reflected params omega_out
  let out := cosNI * ((params.exponent + 2) * (1 / 2) * m.M_1_PI
                        * m.powf (R.dot omega_in) params.exponent)
  ⟨out, out, out⟩

/-- The direction `omega_in` that `PhongClosure::sample` computes from the
random numbers, before it tests the hemisphere. -/
def drawn_direction {F : Type} [LinearOrderedField F] (m : CMath F) (params : params_t F)
    (omega_out : Imath.Vec3 F) (randu randv : F) : Imath.Vec3 F :=
  let R := reflected params omega_out
  let TB := ClosurePrimitive.make_orthonormals m R
  let T := TB.1
  let B := TB.2
  let phi := 2 * m.M_PI * randu
  let cosTheta := m.powf randv (1 / (params.exponent + 1))
  let sinTheta := m.sqrtf (1 - cosTheta * cosTheta)
  ((T.smul (m.cosf phi * sinTheta)).add (B.smul (m.sinf phi * sinTheta))).add (R.smul cosTheta)

/-- Method `PhongClosure::sample`: `omega_in` and `pdf`. -/
def sample {F : Type} [LinearOrderedField F] (m : CMath F) (params : params_t F)
    (omega_out : Imath.Vec3 F) (randu randv : F) : Imath.Vec3 F × F :=
  let cosNO := params.N.dot omega_out
  if cosNO > 0 then
    let R := reflected params omega_out
    let omega_in := drawn_direction m params omega_out randu randv
    if params.N.dot omega_in > 0 then
      (omega_in, (params.exponent + 1) * (1 / 2) * m.M_1_PI
                   * m.powf (R.dot omega_in) params.exponent)
    else (⟨0, 0, 0⟩, 0)
  else (⟨0, 0, 0⟩, 0)

/-- Method `PhongClosure::pdf`. -/
def pdf {F : Type} [LinearOrderedField F] (m : CMath F) (params : params_t F)
    (omega_out omega_in : Imath.Vec3 F) : F :=
  let R := reflected params omega_out
  (params.exponent + 1) * (1 / 2) * m.M_1_PI * m.powf (R.dot omega_in) params.exponent

end PhongClosure

/-- The names `ShaderGlobalNameToIndex` recognizes. -/
def shaderGlobalNames : List String :=
  ["P", "I", "N", "Ng", "u", "v", "dPdu", "dPdv", "time", "dtime", "dPdtime", "Ps"]

/-- The recognized names whose index depends on `deriv`. -/
def shaderGlobalNamesWithDerivs : List String := ["P", "I", "u", "v", "Ps"]

/-- The shader globals that are points, vectors or normals; the other
recognized globals (`u`, `v`, `time`, `dtime`) are floats. -/
def shaderGlobalIsTriple (name : String) : Bool :=
  decide (name ∈ ["P", "I", "N", "Ng", "dPdu", "dPdv", "dPdtime", "Ps"])

/-- The type of field `index` of the shading-state record. -/
def shaderGlobalField (index : ℤ) : Option SGFieldType :=
  if 0 ≤ index then getShaderGlobalType[index.toNat]? else none

/-- A shader global of the given name and type (no storage of its own). -/
def Symbol.mkGlobal (name : String) (ts : TypeSpec) : Symbol :=
  ⟨name, name, ts, SymType.SymTypeGlobal, false, ValueSource.DefaultVal, true, 0, 0, none, [], 0,
   []⟩

/-- The symbol with derivative planes. -/
def Symbol.withDerivs (s : Symbol) : Symbol := { s with m_has_derivs := true }

/-- A layer as the generator receives it: opcodes and symbols, nothing
generated, no diagnostics, no native version recorded. -/
def RuntimeOptimizer.ofLayer (ops : List Opcode) (syms : List Symbol) : RuntimeOptimizer :=
  ⟨ops, syms, [], [], [], 0, none, 0, [], [], [], [], "layer", 0, none⟩

/-- An opcode of the given name and arguments that no implementation has
been selected for. -/
def Opcode.mk0 (opname : String) (args : List Nat) : Opcode :=
  ⟨opname, args, [], OpImpl.other opname⟩

/-- The tail `if (dst_derivs) info ("punting on derivatives for now")` that
follows every store of a lowering routine. -/
def puntOnDerivs (dst : Symbol) (rop : RuntimeOptimizer) : RuntimeOptimizer :=
  if dst.has_derivs then rop.info "punting on derivatives for now" else rop

/-- The part of the generator state that a lowering routine leaves as it is:
the layer (opcodes, symbols, name, id, recorded native version), the
allocation map, the allocas and the block map. -/
def RuntimeOptimizer.frame (rop : RuntimeOptimizer) :
    List Opcode × List Symbol × List (String × LLVMValue) × List AllocaInst × List (Nat × Nat)
      × String × ℤ × Option LayerFunction :=
  (rop.m_ops, rop.m_symbols, rop.m_named_values, rop.m_allocas, rop.m_bb_map, rop.m_layername,
   rop.m_id, rop.m_llvm_version)

/-- The builder calls a lowering routine with destination `dst` is made of:
`Steps dst P rop rop1` holds when `rop1` results from `rop` by loads of symbol
components, stores of a value into a component `c` with `P c` of the value
plane of `dst` (each followed by the derivative marker when `dst` carries
derivatives), diagnostics, instructions other than stores, and moves of the
insertion point. -/
inductive Steps (dst : Symbol) (P : ℤ → Prop) : RuntimeOptimizer → RuntimeOptimizer → Prop where
  | refl (rop : RuntimeOptimizer) : Steps dst P rop rop
  | load (rop : RuntimeOptimizer) (sym : Symbol) (component deriv : ℤ) (rop1 : RuntimeOptimizer) :
      Steps dst P (loadLLVMValue rop sym component deriv).2 rop1 → Steps dst P rop rop1
  | store (rop : RuntimeOptimizer) (v : LLVMValue) (c : ℤ) (rop1 : RuntimeOptimizer) :
      P c → Steps dst P (puntOnDerivs dst (storeLLVMValue rop v dst c 0)) rop1 →
      Steps dst P rop rop1
  | error (rop : RuntimeOptimizer) (msg : String) (rop1 : RuntimeOptimizer) :
      Steps dst P (rop.error msg) rop1 → Steps dst P rop rop1
  | warning (rop : RuntimeOptimizer) (msg : String) (rop1 : RuntimeOptimizer) :
      Steps dst P (rop.warning msg) rop1 → Steps dst P rop rop1
  | info (rop : RuntimeOptimizer) (msg : String) (rop1 : RuntimeOptimizer) :
      Steps dst P (rop.info msg) rop1 → Steps dst P rop rop1
  | emit (rop : RuntimeOptimizer) (instr : Instruction) (rop1 : RuntimeOptimizer) :
      (∀ v p, instr ≠ Instruction.Store v p) →
      Steps dst P (rop.emit instr) rop1 → Steps dst P rop rop1
  | setInsertPoint (rop : RuntimeOptimizer) (block : Nat) (pos : Option Nat)
      (rop1 : RuntimeOptimizer) :
      Steps dst P { rop with m_insert_block := block, m_insert_pos := pos } rop1 →
      Steps dst P rop rop1

/-- The registered generator names (the keys of `llvm_generator_table`). -/
def registeredGeneratorNames : List String :=
  ["assign", "add", "sub", "mul", "div", "mod", "dot", "cross", "normalize", "compref",
   "eq", "neq", "lt", "le", "gt", "ge", "neg", "abs", "fabs", "sqrt", "sin", "cos",
   "vector", "color", "length", "luminance", "if", "for", "while", "dowhile", "printf"]

/-- An opcode name `build_llvm_version` cannot handle: not registered, not
`nop`, not `end`. -/
def unsupportedOp (opname : String) : Prop :=
  opname ∉ registeredGeneratorNames ∧ opname ≠ "nop" ∧ opname ≠ "end"

instance (opname : String) : Decidable (unsupportedOp opname) := by
  unfold unsupportedOp
  infer_instance

/-- The registered names of the opcodes that compute a destination: binary
and unary arithmetic, assign, compref, constructors, comparisons,
length/luminance, dot, cross and normalize. -/
def valueLoweringNames : List String :=
  ["assign", "add", "sub", "mul", "div", "mod", "dot", "cross", "normalize", "compref",
   "eq", "neq", "lt", "le", "gt", "ge", "neg", "abs", "fabs", "sqrt", "sin", "cos",
   "vector", "color", "length", "luminance"]

/-- The part of the generator state that describes the layer: opcodes,
symbols, name, id and recorded native version. -/
def RuntimeOptimizer.layer (rop : RuntimeOptimizer) :
    List Opcode × List Symbol × String × ℤ × Option LayerFunction :=
  (rop.m_ops, rop.m_symbols, rop.m_layername, rop.m_id, rop.m_llvm_version)

/-- A layer with an opcode that has no lowering routine: `r = a + b`,
`r = floor (a)`, `r = a + b` on floats. -/
def unsupportedLayer : RuntimeOptimizer :=
  RuntimeOptimizer.ofLayer
    [Opcode.mk0 "add" [0, 1, 2], Opcode.mk0 "floor" [0, 1], Opcode.mk0 "add" [0, 1, 2]]
    [Symbol.mkLocal "r" TypeSpec.float [], Symbol.mkLocal "a" TypeSpec.float [],
     Symbol.mkLocal "b" TypeSpec.float []]

/-- A layer that assigns the local triple `a` to the shader global `P`. -/
def storeToGlobalLayer : RuntimeOptimizer :=
  RuntimeOptimizer.ofLayer [Opcode.mk0 "assign" [0, 1], Opcode.mk0 "end" []]
    [Symbol.mkGlobal "P" TypeSpec.triple, Symbol.mkLocal "a" TypeSpec.triple []]

/-- A layer that assigns the local triple `a` to the shader global `P`, in
which the local triple `x` is an alias of `P`: the symbol loop of
`build_llvm_version` allocates the storage of `x` under the mangled name of
the symbol at the end of its alias chain, `P`. -/
def storeToAliasedGlobalLayer : RuntimeOptimizer :=
  RuntimeOptimizer.ofLayer [Opcode.mk0 "assign" [0, 1], Opcode.mk0 "end" []]
    [Symbol.mkGlobal "P" TypeSpec.triple, Symbol.mkLocal "a" TypeSpec.triple [],
     { Symbol.mkLocal "x" TypeSpec.triple [] with m_alias := some ("P", "P") }]

/-- The layer `r = a + b` on floats, the destination carrying derivatives. -/
def addWithDerivsLayer : RuntimeOptimizer :=
  RuntimeOptimizer.ofLayer [Opcode.mk0 "add" [0, 1, 2]]
    [(Symbol.mkLocal "r" TypeSpec.float []).withDerivs, Symbol.mkLocal "a" TypeSpec.float [],
     Symbol.mkLocal "b" TypeSpec.float []]

/-- The code generated for `addWithDerivsLayer`. -/
def addWithDerivsCode : List Instruction :=
  [Instruction.Load 0 (LLVMValue.Alloca "a"),
   Instruction.Load 1 (LLVMValue.Alloca "b"),
   Instruction.Store
     (LLVMValue.BinOp BinaryOps.FAdd (LLVMValue.Load 0 (LLVMValue.Alloca "a"))
       (LLVMValue.Load 1 (LLVMValue.Alloca "b")))
     (LLVMValue.ConstGEP2_32 (LLVMValue.Alloca "r") 0 0),
   Instruction.RetVoid]

/-- A memory for `addWithDerivsCode`: a = 1, b = 2, and the destination
holding 0 with the stale derivatives 7 (d/dx) and 9 (d/dy). -/
def staleDerivsMemory : List (Addr × Scalar) :=
  [(Addr.slot "a", Scalar.f32 1), (Addr.slot "b", Scalar.f32 2),
   (Addr.elem "r" 0, Scalar.f32 0), (Addr.elem "r" 1, Scalar.f32 7),
   (Addr.elem "r" 2, Scalar.f32 9)]

/-- The layer `r = a + b` on floats with a destination that carries
derivatives, after the allocation of the symbols. -/
def addWithDerivsStart : RuntimeOptimizer :=
  RuntimeOptimizer.start [Opcode.mk0 "add" [0, 1, 2]]
    [(Symbol.mkLocal "r" TypeSpec.float []).withDerivs, Symbol.mkLocal "a" TypeSpec.float [],
     Symbol.mkLocal "b" TypeSpec.float []]

/-- The division of a closure by the float 2 as the interpreter meets it:
opcode `div`, destination and A closures, B = 2.0, not yet specialized. -/
def divClosureScenario : ShadingExecution :=
  ShadingExecution.single "div" OpImpl.OP_div TypeSpec.closure TypeSpec.closure TypeSpec.float
    (Value.closure ⟨[]⟩) (Value.closure ⟨[(⟨1, 1, 1⟩, 0)]⟩) (Value.float 2)

/-- The multiplication of the same closure by the float 2. -/
def mulClosureScenario : ShadingExecution :=
  ShadingExecution.single "mul" OpImpl.OP_mul TypeSpec.closure TypeSpec.closure TypeSpec.float
    (Value.closure ⟨[]⟩) (Value.closure ⟨[(⟨1, 1, 1⟩, 0)]⟩) (Value.float 2)

/-- The type of an array of `n` floats. -/
def TypeSpec.floatArray (n : Nat) : TypeSpec := ⟨⟨BASETYPE.FLOAT, 1, n⟩, 0, false⟩

/-- A local symbol with varying data, `step` elements per point. -/
def Symbol.mkVarying (name : String) (ts : TypeSpec) (data : List Value) (step : Nat) : Symbol :=
  { Symbol.mkLocal name ts data with m_step := step }

/-- A constant symbol (uniform data). -/
def Symbol.mkConst (name : String) (ts : TypeSpec) (data : List Value) : Symbol :=
  { Symbol.mkLocal name ts data with m_symtype := SymType.SymTypeConst }

/-- The floats that symbol `k` holds after an execution that returned. -/
def floatsOf (r : Except String ShadingExecution) (k : Nat) : Option (List (Option ℚ)) :=
  r.toOption.bind fun e => (e.sym k).map fun s => s.m_data.map Value.toFloat?

/-- The array read `r = a[2]` on a batch of two points: `r` is a varying
float, `a` a varying array of two floats (10, 11 at point 0 and 20, 21 at
point 1), and the index is the constant 2, the length of the array. -/
def arefOutOfRangeScenario : ShadingExecution :=
  ⟨[Symbol.mkVarying "r" TypeSpec.float [Value.float 0, Value.float 0] 1,
    Symbol.mkVarying "a" (TypeSpec.floatArray 2)
      [Value.float 10, Value.float 11, Value.float 20, Value.float 21] 2,
    Symbol.mkConst "x" TypeSpec.int [Value.int 2]],
   ⟨"aref", [0, 1, 2], [], OpImpl.OP_aref⟩, 2, []⟩

/-- The array write `r[-1] = s` on a batch of two points: `r` is a varying
array of two floats (10, 11 at point 0 and 20, 21 at point 1), the index is
the constant -1 and `s` the uniform float 99. -/
def aassignOutOfRangeScenario : ShadingExecution :=
  ⟨[Symbol.mkVarying "r" (TypeSpec.floatArray 2)
      [Value.float 10, Value.float 11, Value.float 20, Value.float 21] 2,
    Symbol.mkConst "x" TypeSpec.int [Value.int (-1)],
    Symbol.mkLocal "s" TypeSpec.float [Value.float 99]],
   ⟨"aassign", [0, 1, 2], [], OpImpl.OP_aassign⟩, 2, []⟩

/-- The array write `r[1] = s` on a batch of two points: `r` is a varying
array of two floats (10, 11 at point 0 and 20, 21 at point 1), the index is
the constant 1 and `s` the uniform float 99. -/
def aassignInRangeScenario : ShadingExecution :=
  ⟨[Symbol.mkVarying "r" (TypeSpec.floatArray 2)
      [Value.float 10, Value.float 11, Value.float 20, Value.float 21] 2,
    Symbol.mkConst "x" TypeSpec.int [Value.int 1],
    Symbol.mkLocal "s" TypeSpec.float [Value.float 99]],
   ⟨"aassign", [0, 1, 2], [], OpImpl.OP_aassign⟩, 2, []⟩

/-- The number of elements the storage of the symbol provides for one point:
all its data when the symbol is uniform, its step when it is varying. -/
def Symbol.elements_per_point (s : Symbol) : Nat :=
  if s.m_step = 0 then s.m_data.length else s.m_step

/-- The value the symbol `r` holds for point `i`. -/
def pointValue (e : ShadingExecution) (r i : Nat) : Option Value :=
  (e.sym r).bind fun s => s.valueAt i

/-- Element `k` of the array the symbol `r` holds for point `i`. -/
def pointElement (e : ShadingExecution) (r i k : Nat) : Option Value :=
  (e.sym r).bind fun s => s.elementAt i k

/-- The distance, in elements, between the data of successive points of the
symbol `r`. -/
def destStep (e : ShadingExecution) (r : Nat) : Option Nat :=
  (e.sym r).map fun s => s.m_step

/-- The datum in slot `q` of the flat storage of the symbol `r`. -/
def destSlot (e : ShadingExecution) (r q : Nat) : Option Value :=
  (e.sym r).bind fun s => s.m_data[q]?

/-! ## Meaning of the generated floating-point code over an ordered field -/

/-- The state the generated floating-point code runs on when its arithmetic
is read in an ordered field `F` (the rationals, the reals): memory and the
results of the load instructions executed so far. -/
structure FloatMachine (F : Type) where
  mem : Addr → Option F
  regs : Nat → Option F

/-- The meaning of a floating-point binary instruction in the field; the
quotient has no value for a zero divisor. -/
def evalFloatBinOp {F : Type} [LinearOrderedField F] : BinaryOps → F → F → Option F
  | BinaryOps.FAdd, x, y => some (x + y)
  | BinaryOps.FSub, x, y => some (x - y)
  | BinaryOps.FMul, x, y => some (x * y)
  | BinaryOps.FDiv, x, y => if y = 0 then none else some (x / y)
  | _, _, _ => none

/-- The value of a floating-point IR value in the field, with the square-root
intrinsic read as `sqrtf` of the math library `m`; `none` when it has none. -/
def evalFloat {F : Type} [LinearOrderedField F] (m : CMath F) (s : FloatMachine F) :
    LLVMValue → Option F
  | LLVMValue.ConstantFP x => some (x : F)
  | LLVMValue.Load id _ => s.regs id
  | LLVMValue.BinOp op a b =>
      (evalFloat m s a).bind fun x => (evalFloat m s b).bind fun y => evalFloatBinOp op x y
  | LLVMValue.Call1 fn v =>
      if fn = "llvm.sqrt.f32" then (evalFloat m s v).map m.sqrtf else none
  | _ => none

/-- Execute one load or store of floating-point code. -/
def stepFloat {F : Type} [LinearOrderedField F] (m : CMath F) (s : FloatMachine F) :
    Instruction → Option (FloatMachine F)
  | Instruction.Load id ptr =>
      (evalPtr ptr).bind fun a => (s.mem a).map fun v =>
        { s with regs := fun k => if k = id then some v else s.regs k }
  | Instruction.Store val ptr =>
      (evalPtr ptr).bind fun a => (evalFloat m s val).map fun v =>
        { s with mem := fun b => if b = a then some v else s.mem b }
  | _ => none

/-- Execute straight-line floating-point code up to its end or its first
terminator. -/
def runFloat {F : Type} [LinearOrderedField F] (m : CMath F) :
    List Instruction → FloatMachine F → Option (FloatMachine F)
  | [], s => some s
  | Instruction.Br _ :: _, s => some s
  | Instruction.CondBr _ _ _ :: _, s => some s
  | Instruction.RetVoid :: _, s => some s
  | instr :: rest, s => (stepFloat m s instr).bind (runFloat m rest)

/-- A memory of field elements given by a list of (address, content) pairs. -/
def floatMemOfList {F : Type} : List (Addr × F) → Addr → Option F
  | [], _ => none
  | (a, v) :: rest, b => if b = a then some v else floatMemOfList rest b

/-- Run floating-point code on the given memory and read the final content of
an address. -/
def runFloatAndRead {F : Type} [LinearOrderedField F] (m : CMath F) (code : List Instruction)
    (entries : List (Addr × F)) (a : Addr) : Option F :=
  (runFloat m code ⟨floatMemOfList entries, fun _ => none⟩).bind fun s => s.mem a

/-- The memory holding the vector (`x`, `y`, `z`) in the aggregate `name`. -/
def floatMemOfVec {F : Type} (name : String) (x y z : F) : List (Addr × F) :=
  [(Addr.elem name 0, x), (Addr.elem name 1, y), (Addr.elem name 2, z)]

/-- The layer `r = cross (a, b)` on triples. -/
def crossLayer : RuntimeOptimizer :=
  RuntimeOptimizer.ofLayer [Opcode.mk0 "cross" [0, 1, 2]]
    [Symbol.mkLocal "r" TypeSpec.triple [], Symbol.mkLocal "a" TypeSpec.triple [],
     Symbol.mkLocal "b" TypeSpec.triple []]

/-- The layer `r = cross (b, a)` on triples. -/
def crossSwappedLayer : RuntimeOptimizer :=
  RuntimeOptimizer.ofLayer [Opcode.mk0 "cross" [0, 2, 1]]
    [Symbol.mkLocal "r" TypeSpec.triple [], Symbol.mkLocal "a" TypeSpec.triple [],
     Symbol.mkLocal "b" TypeSpec.triple []]

/-- The layer `r = cross (a, b); s = dot (a, r)`. -/
def crossDotLayer : RuntimeOptimizer :=
  RuntimeOptimizer.ofLayer [Opcode.mk0 "cross" [0, 1, 2], Opcode.mk0 "dot" [3, 1, 0]]
    [Symbol.mkLocal "r" TypeSpec.triple [], Symbol.mkLocal "a" TypeSpec.triple [],
     Symbol.mkLocal "b" TypeSpec.triple [], Symbol.mkLocal "s" TypeSpec.float []]

/-- The layer `n = normalize (v); l = length (n)`. -/
def normalizeLengthLayer : RuntimeOptimizer :=
  RuntimeOptimizer.ofLayer [Opcode.mk0 "normalize" [0, 1], Opcode.mk0 "length" [2, 0]]
    [Symbol.mkLocal "n" TypeSpec.triple [], Symbol.mkLocal "v" TypeSpec.triple [],
     Symbol.mkLocal "l" TypeSpec.float []]

/-- The layer `l = length (v)`. -/
def lengthLayer : RuntimeOptimizer :=
  RuntimeOptimizer.ofLayer [Opcode.mk0 "length" [0, 1]]
    [Symbol.mkLocal "l" TypeSpec.float [], Symbol.mkLocal "v" TypeSpec.triple []]

/-- The layer `s = dot (v, v)`. -/
def dotSelfLayer : RuntimeOptimizer :=
  RuntimeOptimizer.ofLayer [Opcode.mk0 "dot" [0, 1, 1]]
    [Symbol.mkLocal "s" TypeSpec.float [], Symbol.mkLocal "v" TypeSpec.triple []]

/-- The entry block of the function `build_llvm_version` builds for a layer;
`none` when it builds none. -/
def entryBlock (rop : RuntimeOptimizer) : Option (List Instruction) :=
  (build_llvm_version rop).bind fun r => r.2.m_blocks[0]?

/-- The value of the load numbered `id` of element `i` of the aggregate
`name`. -/
def loadedElement (id : Nat) (name : String) (i : ℤ) : LLVMValue :=
  LLVMValue.Load id (LLVMValue.ConstGEP2_32 (LLVMValue.Alloca name) 0 i)

/-- The load instruction numbered `id` of element `i` of the aggregate
`name`. -/
def loadElement (id : Nat) (name : String) (i : ℤ) : Instruction :=
  Instruction.Load id (LLVMValue.ConstGEP2_32 (LLVMValue.Alloca name) 0 i)

/-- The store of `v` into element `i` of the aggregate `name`. -/
def storeElement (v : LLVMValue) (name : String) (i : ℤ) : Instruction :=
  Instruction.Store v (LLVMValue.ConstGEP2_32 (LLVMValue.Alloca name) 0 i)

/-- The sum `(x * x + y * y) + z * z` as the reducing loops build it. -/
def sumOfSquares (x y z : LLVMValue) : LLVMValue :=
  LLVMValue.BinOp BinaryOps.FAdd
    (LLVMValue.BinOp BinaryOps.FAdd (LLVMValue.BinOp BinaryOps.FMul x x)
      (LLVMValue.BinOp BinaryOps.FMul y y))
    (LLVMValue.BinOp BinaryOps.FMul z z)

/-- The sum `(x0 * y0 + x1 * y1) + x2 * y2` as the loop of `llvm_gen_dot`
builds it. -/
def sumOfProducts (x0 y0 x1 y1 x2 y2 : LLVMValue) : LLVMValue :=
  LLVMValue.BinOp BinaryOps.FAdd
    (LLVMValue.BinOp BinaryOps.FAdd (LLVMValue.BinOp BinaryOps.FMul x0 y0)
      (LLVMValue.BinOp BinaryOps.FMul x1 y1))
    (LLVMValue.BinOp BinaryOps.FMul x2 y2)

/-- The value `1 / sqrt (length_squared)` of `llvm_gen_normalize` for the
first three loads of `v`. -/
def inverseLength : LLVMValue :=
  LLVMValue.BinOp BinaryOps.FDiv (LLVMValue.ConstantFP 1)
    (LLVMValue.Call1 "llvm.sqrt.f32"
      (sumOfSquares (loadedElement 0 "v" 0) (loadedElement 1 "v" 1) (loadedElement 2 "v" 2)))

/-- The code generated for `normalizeLengthLayer`. -/
def normalizeLengthCode : List Instruction :=
  [loadElement 0 "v" 0, loadElement 1 "v" 1, loadElement 2 "v" 2,
   loadElement 3 "v" 0,
   storeElement (LLVMValue.BinOp BinaryOps.FMul (loadedElement 3 "v" 0) inverseLength) "n" 0,
   loadElement 4 "v" 1,
   storeElement (LLVMValue.BinOp BinaryOps.FMul (loadedElement 4 "v" 1) inverseLength) "n" 1,
   loadElement 5 "v" 2,
   storeElement (LLVMValue.BinOp BinaryOps.FMul (loadedElement 5 "v" 2) inverseLength) "n" 2,
   loadElement 6 "n" 0, loadElement 7 "n" 1, loadElement 8 "n" 2,
   Instruction.Store
     (LLVMValue.Call1 "llvm.sqrt.f32"
       (sumOfSquares (loadedElement 6 "n" 0) (loadedElement 7 "n" 1) (loadedElement 8 "n" 2)))
     (LLVMValue.Alloca "l"),
   Instruction.RetVoid]

/-- The code generated for `lengthLayer`. -/
def lengthCode : List Instruction :=
  [loadElement 0 "v" 0, loadElement 1 "v" 1, loadElement 2 "v" 2,
   Instruction.Store
     (LLVMValue.Call1 "llvm.sqrt.f32"
       (sumOfSquares (loadedElement 0 "v" 0) (loadedElement 1 "v" 1) (loadedElement 2 "v" 2)))
     (LLVMValue.Alloca "l"),
   Instruction.RetVoid]

/-- The code generated for `dotSelfLayer`. -/
def dotSelfCode : List Instruction :=
  [loadElement 0 "v" 0, loadElement 1 "v" 0, loadElement 2 "v" 1, loadElement 3 "v" 1,
   loadElement 4 "v" 2, loadElement 5 "v" 2,
   Instruction.Store
     (sumOfProducts (loadedElement 0 "v" 0) (loadedElement 1 "v" 0) (loadedElement 2 "v" 1)
       (loadedElement 3 "v" 1) (loadedElement 4 "v" 2) (loadedElement 5 "v" 2))
     (LLVMValue.Alloca "s"),
   Instruction.RetVoid]

/-- The layer `r = a + b` with triples `r`, `b` and a float `a` that carries
derivatives: the scalar operand is broadcast. -/
def broadcastDerivsLayer : RuntimeOptimizer :=
  RuntimeOptimizer.ofLayer [Opcode.mk0 "add" [0, 1, 2]]
    [Symbol.mkLocal "r" TypeSpec.triple [], (Symbol.mkLocal "a" TypeSpec.float []).withDerivs,
     Symbol.mkLocal "b" TypeSpec.triple []]

/-- The code generated for `broadcastDerivsLayer`. -/
def broadcastDerivsCode : List Instruction :=
  [loadElement 0 "a" 0, loadElement 1 "b" 0,
   storeElement
     (LLVMValue.BinOp BinaryOps.FAdd (loadedElement 0 "a" 0) (loadedElement 1 "b" 0)) "r" 0,
   loadElement 2 "a" 1, loadElement 3 "b" 1,
   storeElement
     (LLVMValue.BinOp BinaryOps.FAdd (loadedElement 2 "a" 1) (loadedElement 3 "b" 1)) "r" 1,
   loadElement 4 "a" 1, loadElement 5 "b" 2,
   storeElement
     (LLVMValue.BinOp BinaryOps.FAdd (loadedElement 4 "a" 1) (loadedElement 5 "b" 2)) "r" 2,
   Instruction.RetVoid]

/-- A memory for `broadcastDerivsCode`: `a` holds the value 5 with the
derivatives 7 (d/dx) and 9 (d/dy), and `b` is (1, 2, 3). -/
def broadcastDerivsMemory : List (Addr × Scalar) :=
  [(Addr.elem "a" 0, Scalar.f32 5), (Addr.elem "a" 1, Scalar.f32 7),
   (Addr.elem "a" 2, Scalar.f32 9)] ++ memOfVec3 "b" ⟨1, 2, 3⟩

/-- The block `old` after the instructions `new` were inserted at the
builder's insertion point `pos` (`none` for the end of the block). -/
def insertedAt (pos : Option Nat) (old new : List Instruction) : List Instruction :=
  match pos with
  | none => old ++ new
  | some k => old.take k ++ new ++ old.drop k

/-- The terminators: branch, conditional branch and return. -/
def Instruction.isTerminator : Instruction → Bool
  | Instruction.Br _ => true
  | Instruction.CondBr _ _ _ => true
  | Instruction.RetVoid => true
  | _ => false

/-- A block is well formed when it holds exactly one terminator and that is
its last instruction. -/
def wellFormedBlock (b : List Instruction) : Bool :=
  decide ((b.filter Instruction.isTerminator).length = 1) &&
    match b.getLast? with
    | some i => i.isTerminator
    | none => false

/-- The symbols of the layers with conditionals: the int conditions `c` and
`d` and the floats `x`, `y`, `z`. -/
def conditionalSymbols : List Symbol :=
  [Symbol.mkLocal "c" TypeSpec.int [], Symbol.mkLocal "d" TypeSpec.int [],
   Symbol.mkLocal "x" TypeSpec.float [], Symbol.mkLocal "y" TypeSpec.float [],
   Symbol.mkLocal "z" TypeSpec.float []]

/-- The layer `if (c) { if (d) { x = y; } x = z; }`: opcode 0 is the outer
`if` (its else part and its exit are opcode 4), opcode 1 the inner `if` (its
else part and its exit are opcode 3), opcode 4 is `end`. -/
def nestedIfLayer : RuntimeOptimizer :=
  RuntimeOptimizer.ofLayer
    [⟨"if", [0], [4, 4], OpImpl.other "if"⟩, ⟨"if", [1], [3, 3], OpImpl.other "if"⟩,
     Opcode.mk0 "assign" [2, 3], Opcode.mk0 "assign" [2, 4], Opcode.mk0 "end" []]
    conditionalSymbols

/-- The layer `if (c) { x = y; } else { x = z; }`: the else part starts at
opcode 2 and the exit is opcode 3, the `end`. -/
def flatIfLayer : RuntimeOptimizer :=
  RuntimeOptimizer.ofLayer
    [⟨"if", [0], [2, 3], OpImpl.other "if"⟩, Opcode.mk0 "assign" [2, 3],
     Opcode.mk0 "assign" [2, 4], Opcode.mk0 "end" []]
    conditionalSymbols

/-- The blocks of the function `build_llvm_version` builds for a layer. -/
def builtBlocks (rop : RuntimeOptimizer) : Option (List (List Instruction)) :=
  (build_llvm_version rop).bind fun r => r.1.map fun _ => r.2.m_blocks

/-- The generator state of `flatIfLayer` when the lowering of opcode 0
starts: storage for the symbols, the entry block and the three blocks of the
opcodes 1, 2 and 3. -/
def flatIfStart : RuntimeOptimizer :=
  { RuntimeOptimizer.start flatIfLayer.m_ops conditionalSymbols with
    m_blocks := [[], [], [], []], m_bb_map := [(3, 3), (2, 2), (1, 1)] }

/-- The vector `a` of `make_orthonormals` before the call `a.normalize ()`. -/
def ClosurePrimitive.make_orthonormals_unnormalized {F : Type} [LinearOrderedField F]
    (N : Imath.Vec3 F) : Imath.Vec3 F :=
  if N.get 0 ≠ N.get 1 ∨ N.get 0 ≠ N.get 2 then
    ⟨N.get 2 - N.get 1, N.get 0 - N.get 2, N.get 1 - N.get 0⟩
  else
    ⟨N.get 2 - N.get 1, N.get 0 + N.get 2, -N.get 1 - N.get 0⟩

/-- The values `r` and `phi` of `to_unit_disk` when it reaches the statement
`x = r * cosf (phi)`. -/
def to_unit_disk_polar {F : Type} [LinearOrderedField F] (m : CMath F) (x y : F) : F × F :=
  let a := 2 * x - 1
  let b := 2 * y - 1
  if a > -b then
    if a > b then (a, m.M_PI_4 * (b / a))
    else (b, m.M_PI_4 * (2 - a / b))
  else
    if a < b then (-a, m.M_PI_4 * (4 + b / a))
    else (-b, if b ≠ 0 then m.M_PI_4 * (6 - a / b) else 0)

/-- Function `to_unit_disk` with the division of two floats as a parameter
`quot dividend divisor` that may have no value: the new values of `x` and
`y`, if every quotient computed in the branch taken has a value. -/
def to_unit_disk_with {F : Type} [LinearOrderedField F] (quot : F → F → Option F)
    (m : CMath F) (x y : F) : Option (F × F) :=
  let a := 2 * x - 1
  let b := 2 * y - 1
  let rphi : Option (F × F) :=
    if a > -b then
      if a > b then (quot b a).map fun q => (a, m.M_PI_4 * q)
      else (quot a b).map fun q => (b, m.M_PI_4 * (2 - q))
    else
      if a < b then (quot b a).map fun q => (-a, m.M_PI_4 * (4 + q))
      else if b ≠ 0 then (quot a b).map fun q => (-b, m.M_PI_4 * (6 - q))
      else some (-b, 0)
  rphi.map fun rp => (rp.1 * m.cosf rp.2, rp.1 * m.sinf rp.2)

/-- Division of two floats where the machine defines it: no value for a
zero divisor. -/
def floatQuotient {F : Type} [LinearOrderedField F] (a b : F) : Option F :=
  if b = 0 then none else some (a / b)

/-- The layer `printf ("%d")`: a format with one conversion and no value
argument. -/
def printfMissingArgLayer : RuntimeOptimizer :=
  RuntimeOptimizer.ofLayer [Opcode.mk0 "printf" [0]]
    [Symbol.mkConst "fmt" TypeSpec.string [Value.string "%d"]]

/-- The layer `printf ("%d %d", i)`: two conversions and one value
argument. -/
def printfSecondArgMissingLayer : RuntimeOptimizer :=
  RuntimeOptimizer.ofLayer [Opcode.mk0 "printf" [0, 1]]
    [Symbol.mkConst "fmt" TypeSpec.string [Value.string "%d %d"],
     Symbol.mkLocal "i" TypeSpec.int []]

/-- The layer `c = color (a)` with a triple `c` and a float `a`: a
constructor with one source argument. -/
def colorFromFloatLayer : RuntimeOptimizer :=
  RuntimeOptimizer.ofLayer [Opcode.mk0 "color" [0, 1]]
    [Symbol.mkLocal "c" TypeSpec.triple [], Symbol.mkLocal "a" TypeSpec.float []]

/-- The layer `c = color (x, y, z)` with a triple `c` and floats `x`, `y`,
`z`. -/
def colorFromThreeLayer : RuntimeOptimizer :=
  RuntimeOptimizer.ofLayer [Opcode.mk0 "color" [0, 1, 2, 3]]
    [Symbol.mkLocal "c" TypeSpec.triple [], Symbol.mkLocal "x" TypeSpec.float [],
     Symbol.mkLocal "y" TypeSpec.float [], Symbol.mkLocal "z" TypeSpec.float []]

/-- The local array `src_syms` of `llvm_gen_construct_aggregate` after the
loop that fills it from the arguments 1 .. nargs - 1 of the opcode (`none`
inside for an argument without symbol). -/
def constructorSources (rop : RuntimeOptimizer) (op : Opcode) : List (Option Symbol) :=
  (List.range (op.nargs - 1)).map fun k => rop.opargsym op (k + 1)

/-- The blocks of a function after the instructions `new` were inserted into
block `b` at position `pos` (`none` for the end of the block). -/
def blocksWith (blocks : List (List Instruction)) (b : Nat) (pos : Option Nat)
    (new : List Instruction) : List (List Instruction) :=
  blocks.modify (fun old => insertedAt pos old new) b

/-- The edges the specification lists for a loop, emitted in its order into
the blocks of a function whose builder is at position `pos` of block
`current`: a jump into the init block when it differs from the condition
block; then, at the end of the init block (or at the builder's position when
there is none), a jump into the condition block, or into the body for a
`dowhile`; the test (the load of the condition and the conditional branch to
body or after) at the end of the condition block; and then either body to
step and step to condition when step differs from after, or body to
condition. -/
def specifiedLoopEdges (blocks : List (List Instruction)) (current : Nat) (pos : Option Nat)
    (dowhile : Bool) (init_block cond_block body_block step_block after_block : Nat)
    (load : Instruction) (cond_load : LLVMValue) : List (List Instruction) :=
  let first := if dowhile then body_block else cond_block
  let entered :=
    if init_block ≠ cond_block then
      blocksWith (blocksWith blocks current pos [Instruction.Br init_block]) init_block none
        [Instruction.Br first]
    else blocksWith blocks current pos [Instruction.Br first]
  let tested :=
    blocksWith entered cond_block none
      [load,
       Instruction.CondBr (LLVMValue.Cast CastOps.Trunc cond_load) body_block after_block]
  if step_block ≠ after_block then
    blocksWith (blocksWith tested body_block none [Instruction.Br step_block]) step_block none
      [Instruction.Br cond_block]
  else blocksWith tested body_block none [Instruction.Br cond_block]

/-- The layer `for (i = 0; c; i = n) { x = y; }` with the condition computed
elsewhere: opcode 0 is the `for` (condition at opcode 2, body at 3, step at
4, exit at 5), opcode 1 the initialization, opcode 5 is `end`. -/
def forLayer : RuntimeOptimizer :=
  RuntimeOptimizer.ofLayer
    [⟨"for", [0], [2, 3, 4, 5], OpImpl.other "for"⟩, Opcode.mk0 "assign" [2, 3],
     Opcode.mk0 "nop" [], Opcode.mk0 "assign" [2, 4], Opcode.mk0 "assign" [2, 3],
     Opcode.mk0 "end" []]
    conditionalSymbols

/-- The generator state of `forLayer` when the lowering of opcode 0 starts:
storage for the symbols, the entry block and the five blocks of the opcodes
1 to 5. -/
def forStart : RuntimeOptimizer :=
  { RuntimeOptimizer.start forLayer.m_ops conditionalSymbols with
    m_blocks := [[], [], [], [], [], []],
    m_bb_map := [(5, 5), (4, 4), (3, 3), (2, 2), (1, 1)] }

/-- The instruction indices the specification names for an opcode at index
`k`: for an `if` the next index and its two jump targets, for a `for`,
`while` or `dowhile` the next index and its four jump targets, and none for
any other opcode. -/
def Opcode.blockStartsAt (op : Opcode) (k : Nat) : List Nat :=
  if op.opname = "if" then [k + 1, op.jump 0, op.jump 1]
  else if op.opname = "for" ∨ op.opname = "while" ∨ op.opname = "dowhile" then
    [k + 1, op.jump 0, op.jump 1, op.jump 2, op.jump 3]
  else []

/-- Whether index `i` is named for one of the opcodes `ops`, the first of
which has index `k`. -/
def blockStartFrom : List Opcode → Nat → Nat → Bool
  | [], _, _ => false
  | op :: rest, k, i => decide (i ∈ op.blockStartsAt k) || blockStartFrom rest (k + 1) i

/-- Index `i` is a block start of the opcode sequence in the sense of the
specification: it is the index after a conditional or loop header of the
sequence, or one of its jump targets. -/
def isBlockStart (ops : List Opcode) (i : Nat) : Bool := blockStartFrom ops 0 i

/-- Whether the indices named for the opcodes `ops`, the first of which has
index `k`, are all below `n`. -/
def targetsInRangeFrom : List Opcode → Nat → Nat → Bool
  | [], _, _ => true
  | op :: rest, k, n =>
      (op.blockStartsAt k).all (fun i => decide (i < n)) && targetsInRangeFrom rest (k + 1) n

/-- The jump targets and successor indices of the conditionals and loops of
the sequence are within the sequence. -/
def targetsInRange (ops : List Opcode) : Bool := targetsInRangeFrom ops 0 ops.length

/-- The number of block starts below index `i`. -/
def blockStartsBelow (ops : List Opcode) (i : Nat) : Nat :=
  ((List.range i).filter (isBlockStart ops)).length

/-- The generator state after the instructions `new`, `loads` of them loads,
were inserted at the builder's position; nothing else changes. -/
def RuntimeOptimizer.withInserted (rop : RuntimeOptimizer) (new : List Instruction)
    (loads : Nat) : RuntimeOptimizer :=
  { rop with
    m_blocks := blocksWith rop.m_blocks rop.m_insert_block rop.m_insert_pos new,
    m_insert_pos := rop.m_insert_pos.map fun k => k + new.length,
    m_next_id := rop.m_next_id + loads }

/-- The value `init_val` of `llvm_assign_initial_constant` for component `i`
of a constant; `none` when the symbol holds no such datum. -/
def initialConstant (sym : Symbol) (i : Nat) : Option LLVMValue :=
  if sym.typespec.is_floatbased then
    (sym.m_data.head?.bind fun v => v.floatComponent i).map LLVMValue.ConstantFP
  else
    (sym.m_data.head?.bind fun v => v.intComponent i).map (LLVMValue.ConstantInt 32)

/-- The pointer through which `storeLLVMValue` reaches component `c` of the
value plane of a symbol without derivatives whose storage is `aggregate`. -/
def componentPointer (aggregate : LLVMValue) (sym : Symbol) (c : ℤ) : LLVMValue :=
  if (sym.typespec.simpletype.aggregate : ℤ) = 1 then aggregate
  else
    LLVMValue.ConstGEP2_32 aggregate 0
      (min (sym.typespec.simpletype.aggregate : ℤ) c
        + 0 * (sym.typespec.simpletype.aggregate : ℤ))

/-- The initial stores of a constant whose storage is `aggregate`, for the
components `l`. -/
def initialStores (aggregate : LLVMValue) (sym : Symbol) (l : List Nat) : List Instruction :=
  l.filterMap fun i =>
    (initialConstant sym i).map fun v => Instruction.Store v (componentPointer aggregate sym i)

/-- A parameter that geometry data may override (`lockgeom` 0): not
connected, with a default value and without initialization ops. -/
def Symbol.mkUserData (name : String) (ts : TypeSpec) : Symbol :=
  ⟨name, name, ts, SymType.SymTypeParam, false, ValueSource.DefaultVal, false, 0, 0, none, [],
   0, []⟩

/-- A layer with the user-data parameter `Kd` and the local `x`, both
floats, and no opcode but `end`. -/
def userDataLayer : RuntimeOptimizer :=
  RuntimeOptimizer.ofLayer [Opcode.mk0 "end" []]
    [Symbol.mkUserData "Kd" TypeSpec.float, Symbol.mkLocal "x" TypeSpec.float []]

/-- The layer `x = c1` with the constants `c1` = 2.5, `c2` = (1, 2, 3) and
`c3` = 7 and the local float `x`. -/
def constantsLayer : RuntimeOptimizer :=
  RuntimeOptimizer.ofLayer [Opcode.mk0 "assign" [3, 0], Opcode.mk0 "end" []]
    [Symbol.mkConst "c1" TypeSpec.float [Value.float (5 / 2)],
     Symbol.mkConst "c2" TypeSpec.triple [Value.vec3 ⟨1, 2, 3⟩],
     Symbol.mkConst "c3" TypeSpec.int [Value.int 7],
     Symbol.mkLocal "x" TypeSpec.float []]

/-- Whether `build_llvm_version` gives a symbol storage according to the
code: it is neither skipped nor a global. -/
def receivesStorage (s : Symbol) : Bool :=
  !SkipSymbol s && decide (s.symtype ≠ SymType.SymTypeGlobal)

/-- The pieces a format string consists of: a character that is copied, the
pair `%%`, a conversion (the characters from `%` through its conversion
character), and an escape sequence (a backslash and the character `e` after
it). -/
inductive FormatPiece where
  | text (c : Char)
  | percent
  | conversion (spec : List Char)
  | escape (e : Char)
  deriving DecidableEq, Repr

/-- The first piece of the format that starts with the character `c`
followed by `rest`, and the format after that piece; `none` when `c` is a
`%` that is not followed by a conversion character, or a backslash that ends
the format. -/
def firstPiece (c : Char) (rest : List Char) : Option (FormatPiece × List Char) :=
  if c = '%' then
    if rest.head? = some '%' then some (FormatPiece.percent, rest.tail)
    else
      (scanConversion (c :: rest)).2.map fun rest1 =>
        (FormatPiece.conversion (scanConversion (c :: rest)).1, rest1)
  else if c = '\\' then
    match rest with
    | [] => none
    | e :: rest1 => some (FormatPiece.escape e, rest1)
  else some (FormatPiece.text c, rest)

/-- The pieces of a format, read from the left (at most `fuel` of them);
`none` when a `%` is not followed by a conversion character or a backslash
ends the format. -/
def formatPieces : Nat → List Char → Option (List FormatPiece)
  | 0, _ => none
  | _ + 1, [] => some []
  | fuel + 1, c :: rest =>
      match firstPiece c rest with
      | none => none
      | some (p, rest1) => (formatPieces fuel rest1).map fun ps => p :: ps

/-- The number of conversions among the pieces. -/
def conversionCount : List FormatPiece → Nat
  | [] => 0
  | FormatPiece.conversion _ :: ps => conversionCount ps + 1
  | _ :: ps => conversionCount ps

/-- The text of `n` copies of a conversion separated by single spaces. -/
def repeatedConversion (spec : List Char) (n : Nat) : List Char :=
  [' '].intercalate (List.replicate n spec)

/-- The character an escape sequence stands for: newline, carriage return
and tab for `n`, `r` and `t`, and the character itself otherwise. -/
def escapeChar (e : Char) : Char :=
  if e = 'n' then '\n' else if e = 'r' then '\r' else if e = 't' then '\t' else e

/-- The rewritten format of the specification, for the component counts of
the arguments in order: every conversion is replaced by as many copies of it
as the matching argument has components, `%%` is copied, and every other
character is copied.  An escape sequence is replaced by the character it
stands for when `escapes` is set, and copied otherwise. -/
def expandPieces (escapes : Bool) : List FormatPiece → List Nat → List Char
  | [], _ => []
  | FormatPiece.text c :: ps, counts => c :: expandPieces escapes ps counts
  | FormatPiece.percent :: ps, counts => '%' :: '%' :: expandPieces escapes ps counts
  | FormatPiece.conversion spec :: ps, counts =>
      repeatedConversion spec (counts.headD 0) ++ expandPieces escapes ps counts.tail
  | FormatPiece.escape e :: ps, counts =>
      (if escapes then [escapeChar e] else ['\\', e]) ++ expandPieces escapes ps counts

/-- The number of components of a printf argument: array elements times
aggregate size. -/
def printfComponents (sym : Symbol) : Nat :=
  sym.typespec.simpletype.numelements * sym.typespec.simpletype.aggregate

/-- The text the loop over the components `l` of one printf argument
appends. -/
def componentsText (spec : List Char) : List Nat → List Char
  | [] => []
  | i :: rest => (if i ≠ 0 then ' ' :: spec else spec) ++ componentsText spec rest

/-- The loads of the components `l` of one printf argument, numbered from
`id`, through the pointers `p`: each load instruction with the call argument
made of it, widened to double when `widen` is set. -/
def componentLoads (p : Nat → LLVMValue) (widen : Bool) :
    List Nat → Nat → List (Instruction × LLVMValue)
  | [], _ => []
  | i :: rest, id =>
      (Instruction.Load id (p i),
        if widen then LLVMValue.Cast CastOps.FPExt (LLVMValue.Load id (p i))
        else LLVMValue.Load id (p i))
      :: componentLoads p widen rest (id + 1)

/-- The loads of all components of the printf arguments `syms`, in argument
and component order, the first symbol being value argument `k` and the first
load being numbered `id`; `ptr k i` is the pointer to component `i` of value
argument `k`. -/
def printfLoads (ptr : Nat → Nat → LLVMValue) :
    List Symbol → Nat → Nat → List (Instruction × LLVMValue)
  | [], _, _ => []
  | sym :: rest, k, id =>
      componentLoads (ptr k) sym.typespec.is_floatbased (List.range (printfComponents sym)) id
        ++ printfLoads ptr rest (k + 1) (id + printfComponents sym)

/-- The layer `printf ("v=%f i=%d%%", v, i)` with a triple `v` and an int
`i`. -/
def printfVectorLayer : RuntimeOptimizer :=
  RuntimeOptimizer.ofLayer [Opcode.mk0 "printf" [0, 1, 2]]
    [Symbol.mkConst "fmt" TypeSpec.string [Value.string "v=%f i=%d%%"],
     Symbol.mkLocal "v" TypeSpec.triple [], Symbol.mkLocal "i" TypeSpec.int []]

/-- The layer `printf (fmt)` whose format holds the four characters `a`,
backslash, `t`, `b`. -/
def printfEscapeLayer : RuntimeOptimizer :=
  RuntimeOptimizer.ofLayer [Opcode.mk0 "printf" [0]]
    [Symbol.mkConst "fmt" TypeSpec.string [Value.string "a\\tb"]]

/-- The layer `printf ("%s", name)` with a string argument. -/
def printfStringArgLayer : RuntimeOptimizer :=
  RuntimeOptimizer.ofLayer [Opcode.mk0 "printf" [0, 1]]
    [Symbol.mkConst "fmt" TypeSpec.string [Value.string "%s"],
     Symbol.mkLocal "name" TypeSpec.string []]

/-- The layer `printf (f, i)` whose format is a local string, not a
constant. -/
def printfLocalFormatLayer : RuntimeOptimizer :=
  RuntimeOptimizer.ofLayer [Opcode.mk0 "printf" [0, 1]]
    [Symbol.mkLocal "f" TypeSpec.string [Value.string "%d"],
     Symbol.mkLocal "i" TypeSpec.int []]

/-- The layer `r = cross (r, b)` on triples: the destination is the first
operand. -/
def crossInPlaceLayer : RuntimeOptimizer :=
  RuntimeOptimizer.ofLayer [Opcode.mk0 "cross" [0, 0, 1]]
    [Symbol.mkLocal "r" TypeSpec.triple [], Symbol.mkLocal "b" TypeSpec.triple []]

/-- The layer `r = cross (a, r)` on triples: the destination is the second
operand. -/
def crossInPlaceSecondLayer : RuntimeOptimizer :=
  RuntimeOptimizer.ofLayer [Opcode.mk0 "cross" [0, 1, 0]]
    [Symbol.mkLocal "r" TypeSpec.triple [], Symbol.mkLocal "a" TypeSpec.triple []]

/-! # Properties of the interpreter and of the generator -/

/-! ## Auxiliary lemmas -/

theorem truncToInt_zero : truncToInt 0 = 0 := by
  simp [truncToInt]

theorem ScalarMatrixMul_apply (a b : ℚ) (i j : Fin 4) :
    (ScalarMatrixMul a b).x i j = if i = j then a * b else 0 := by
  fin_cases i <;> fin_cases j <;> simp [ScalarMatrixMul, Matrix44.mk16] <;> rfl

theorem ScalarMatrixDiv_apply (a b : ℚ) (i j : Fin 4) :
    (ScalarMatrixDiv a b).x i j = if i = j then (if b = 0 then 0 else a / b) else 0 := by
  fin_cases i <;> fin_cases j <;> simp [ScalarMatrixDiv, Matrix44.mk16] <;> rfl

theorem is_float_excl (t : TypeSpec) (h : t.is_float = true) :
    t.is_closure = false ∧ t.is_int = false ∧ t.is_triple = false ∧ t.is_matrix = false := by
  simp only [TypeSpec.is_float, TypeSpec.is_closure, Bool.and_eq_true, decide_eq_true_eq,
    Bool.not_eq_true'] at h
  simp [TypeSpec.is_closure, TypeSpec.is_int, TypeSpec.is_triple, TypeSpec.is_matrix, h.1, h.2,
    TypeDesc.TypeFloat, TypeDesc.TypeInt, TypeDesc.TypeVector, TypeDesc.TypeMatrix]

theorem is_int_excl (t : TypeSpec) (h : t.is_int = true) :
    t.is_closure = false ∧ t.is_float = false ∧ t.is_triple = false ∧ t.is_matrix = false := by
  simp only [TypeSpec.is_int, TypeSpec.is_closure, Bool.and_eq_true, decide_eq_true_eq,
    Bool.not_eq_true'] at h
  simp [TypeSpec.is_closure, TypeSpec.is_float, TypeSpec.is_triple, TypeSpec.is_matrix, h.1, h.2,
    TypeDesc.TypeFloat, TypeDesc.TypeInt, TypeDesc.TypeVector, TypeDesc.TypeMatrix]

theorem is_triple_excl (t : TypeSpec) (h : t.is_triple = true) :
    t.is_closure = false ∧ t.is_float = false ∧ t.is_int = false ∧ t.is_matrix = false := by
  simp only [TypeSpec.is_triple, TypeSpec.is_closure, Bool.and_eq_true, decide_eq_true_eq,
    Bool.not_eq_true'] at h
  simp [TypeSpec.is_closure, TypeSpec.is_float, TypeSpec.is_int, TypeSpec.is_matrix, h.1, h.2,
    TypeDesc.TypeFloat, TypeDesc.TypeInt, TypeDesc.TypeVector, TypeDesc.TypeMatrix]

theorem is_matrix_excl (t : TypeSpec) (h : t.is_matrix = true) :
    t.is_closure = false ∧ t.is_float = false ∧ t.is_int = false ∧ t.is_triple = false := by
  simp only [TypeSpec.is_matrix, TypeSpec.is_closure, Bool.and_eq_true, decide_eq_true_eq,
    Bool.not_eq_true'] at h
  simp [TypeSpec.is_closure, TypeSpec.is_float, TypeSpec.is_int, TypeSpec.is_triple, h.1, h.2,
    TypeDesc.TypeFloat, TypeDesc.TypeInt, TypeDesc.TypeVector, TypeDesc.TypeMatrix]

theorem is_closure_excl (t : TypeSpec) (h : t.is_closure = true) :
    t.is_float = false ∧ t.is_int = false ∧ t.is_triple = false ∧ t.is_matrix = false := by
  simp only [TypeSpec.is_closure] at h
  simp [TypeSpec.is_closure, TypeSpec.is_float, TypeSpec.is_int, TypeSpec.is_triple,
    TypeSpec.is_matrix, h]

theorem OP_add_select_of_supported (R A B : TypeSpec) (h : OP_add_supported R A B = true) :
    ∃ impl, OP_add_select R A B = some impl := by
  simp only [OP_add_supported, Bool.and_eq_true, Bool.or_eq_true] at h
  obtain ⟨_, h⟩ := h
  rcases h with (((((((((⟨⟨h1, h2⟩, h3⟩ | ⟨⟨h1, h2⟩, h3⟩) | ⟨⟨h1, h2⟩, h3⟩) | ⟨⟨h1, h2⟩, h3⟩) | ⟨⟨h1, h2⟩, h3⟩) | ⟨⟨h1, h2⟩, h3⟩) | ⟨⟨h1, h2⟩, h3⟩) | ⟨⟨h1, h2⟩, h3⟩) | ⟨⟨h1, h2⟩, h3⟩) | ⟨⟨h1, h2⟩, h3⟩)
  · simp [OP_add_select, h1, h2, h3]
  · obtain ⟨r1, r2, r3, r4⟩ := is_triple_excl R h1
    obtain ⟨a1, a2, a3, a4⟩ := is_triple_excl A h2
    simp [OP_add_select, h1, h2, h3, r1, a3]
  · obtain ⟨r1, r2, r3, r4⟩ := is_triple_excl R h1
    obtain ⟨b1, b2, b3, b4⟩ := is_float_excl B h3
    obtain ⟨a1, a2, a3, a4⟩ := is_triple_excl A h2
    simp [OP_add_select, h1, h2, h3, r1, b3, a3]
  · obtain ⟨r1, r2, r3, r4⟩ := is_triple_excl R h1
    obtain ⟨b1, b2, b3, b4⟩ := is_int_excl B h3
    obtain ⟨a1, a2, a3, a4⟩ := is_triple_excl A h2
    simp [OP_add_select, h1, h2, h3, r1, b2, b3, a3]
  · obtain ⟨r1, r2, r3, r4⟩ := is_triple_excl R h1
    obtain ⟨a1, a2, a3, a4⟩ := is_float_excl A h2
    simp [OP_add_select, h1, h2, h3, r1, a2, a3]
  · obtain ⟨r1, r2, r3, r4⟩ := is_triple_excl R h1
    obtain ⟨a1, a2, a3, a4⟩ := is_int_excl A h2
    simp [OP_add_select, h1, h2, h3, r1, a2, a3]
  · obtain ⟨r1, r2, r3, r4⟩ := is_float_excl R h1
    simp [OP_add_select, h1, h2, h3, r1, r3]
  · obtain ⟨r1, r2, r3, r4⟩ := is_float_excl R h1
    obtain ⟨b1, b2, b3, b4⟩ := is_int_excl B h3
    simp [OP_add_select, h1, h2, h3, r1, r3, b2]
  · obtain ⟨r1, r2, r3, r4⟩ := is_float_excl R h1
    obtain ⟨a1, a2, a3, a4⟩ := is_int_excl A h2
    simp [OP_add_select, h1, h2, h3, r1, r3, a2]
  · obtain ⟨r1, r2, r3, r4⟩ := is_int_excl R h1
    simp [OP_add_select, h1, h2, h3, r1, r2, r3]

theorem OP_add_select_none_of_unsupported (R A B : TypeSpec)
    (hns : anyStructureOrArray R A B = false) (h : OP_add_supported R A B = false) :
    OP_add_select R A B = none := by
  simp only [OP_add_supported, hns] at h
  unfold OP_add_select
  split_ifs <;> simp_all


theorem OP_add_unfold (exec : ShadingExecution) (args : List Nat) (runflags : List Bool)
    (bp ep : Nat) (Result A B : Symbol)
    (hR : exec.sym (args.getD 0 0) = some Result) (hA : exec.sym (args.getD 1 0) = some A)
    (hB : exec.sym (args.getD 2 0) = some B) :
    OP_add exec 3 args runflags bp ep =
      if anyStructureOrArray Result.typespec A.typespec B.typespec then
        OP_add exec 3 args runflags bp ep
      else
        match OP_add_select Result.typespec A.typespec B.typespec with
        | some impl => storeImplementation impl (runSpecialized impl exec 3 args runflags bp ep)
        | none => Except.error "ASSERT (0): Addition types cannot be handled" := by
  by_cases hg : anyStructureOrArray Result.typespec A.typespec B.typespec = true
  · simp [hg]
  · simp only [hg]
    simp only [anyStructureOrArray, Bool.or_eq_true, not_or, Bool.not_eq_true] at hg
    obtain ⟨⟨⟨⟨⟨g1, g2⟩, g3⟩, g4⟩, g5⟩, g6⟩ := hg
    simp only [OP_add, hR, hA, hB, g1, g2, g3, g4, g5, g6]
    cases hs : OP_add_select Result.typespec A.typespec B.typespec with
    | none => simp
    | some impl =>
      simp only [storeImplementation]
      cases runSpecialized impl exec 3 args runflags bp ep <;> simp

theorem OP_add_abort_of_guard (exec : ShadingExecution) (args : List Nat) (runflags : List Bool)
    (bp ep : Nat) (Result A B : Symbol)
    (hR : exec.sym (args.getD 0 0) = some Result) (hA : exec.sym (args.getD 1 0) = some A)
    (hB : exec.sym (args.getD 2 0) = some B)
    (hg : anyStructureOrArray Result.typespec A.typespec B.typespec = true) :
    ∃ msg, OP_add exec 3 args runflags bp ep = Except.error msg := by
  simp only [anyStructureOrArray, Bool.or_eq_true] at hg
  simp only [OP_add, hR, hA, hB]
  by_cases c1 : (Result.typespec.is_structure || Result.typespec.is_array) = true
  · simp [c1]
  · by_cases c2 : (A.typespec.is_structure || A.typespec.is_array) = true
    · simp [c1, c2]
    · by_cases c3 : (B.typespec.is_structure || B.typespec.is_array) = true
      · simp [c1, c2, c3]
      · exfalso
        simp only [Bool.or_eq_true, not_or] at c1 c2 c3
        tauto

theorem SameTypes.refl (e : ShadingExecution) : SameTypes e e := fun _ => rfl

theorem SameTypes.trans {a b c : ShadingExecution} (h1 : SameTypes a b) (h2 : SameTypes b c) :
    SameTypes a c := fun k => (h2 k).trans (h1 k)

theorem SameTypes_setSym (e : ShadingExecution) (i : Nat) (s s0 : Symbol)
    (h : e.sym i = some s0) (ht : s.typespec = s0.typespec) : SameTypes e (e.setSym i s) := by
  intro k
  simp only [ShadingExecution.sym, ShadingExecution.setSym] at h ⊢
  by_cases hik : i = k
  · subst hik
    have hlt : i < e.m_symbols.length := by
      rcases Nat.lt_or_ge i e.m_symbols.length with hl | hl
      · exact hl
      · rw [List.getElem?_eq_none hl] at h
        cases h
    simp [List.getElem?_set, hlt, h, ht]
  · simp [List.getElem?_set, hik]

theorem all_points_on_mk_one (s : List Symbol) (o : Opcode) (er : List String) :
    ShadingExecution.all_points_on ⟨s, o, 1, er⟩ [true] 0 1 = true := rfl

theorem SameTypes_adjust_varying (e : ShadingExecution) (i : Nat) (v : Bool)
    (rf : List Bool) (bp ep : Nat) :
    SameTypes e (e.adjust_varying i v rf bp ep) := by
  unfold ShadingExecution.adjust_varying
  cases h : e.sym i with
  | none => exact SameTypes.refl e
  | some s =>
    simp only
    split_ifs
    · exact SameTypes_setSym e i _ s h rfl
    · exact SameTypes.refl e

theorem SameTypes_storeResult (e e1 : ShadingExecution) (r i : Nat) (v : Value)
    (h : storeResult e r i v = Except.ok e1) : SameTypes e e1 := by
  unfold storeResult at h
  cases hs : e.sym r with
  | none => simp [hs] at h
  | some R =>
    simp only [hs, Except.ok.injEq] at h
    subst h
    exact SameTypes_setSym e r _ R hs rfl

theorem Mod_call_symbols (e : ShadingExecution) (a b : Value) :
    (Mod.call e a b).2.m_symbols = e.m_symbols := by
  cases a <;> cases b <;>
    simp only [Mod.call, Mod.safe_mod, Mod.safe_fmod, Mod.safe_fmod_vec_float,
      Mod.safe_fmod_vec_vec] <;>
    split_ifs <;> rfl

theorem Functor_call_symbols (F : Functor) (e : ShadingExecution) (a b : Value) :
    (F.call e a b).2.m_symbols = e.m_symbols := by
  unfold Functor.call
  split <;> first | rfl | exact Mod_call_symbols e a b

theorem SameTypes_of_symbols_eq (e e1 : ShadingExecution) (h : e1.m_symbols = e.m_symbols) :
    SameTypes e e1 := by
  intro k
  simp [ShadingExecution.sym, h]

theorem SameTypes_pointLoop (body : ShadingExecution → Nat → Except String ShadingExecution)
    (runflags : List Bool)
    (hbody : ∀ e i e1, body e i = Except.ok e1 → SameTypes e e1) :
    ∀ (l : List Nat) (e e1 : ShadingExecution),
      pointLoop body runflags l e = Except.ok e1 → SameTypes e e1 := by
  intro l
  induction l with
  | nil =>
    intro e e1 h
    simp only [pointLoop, Except.ok.injEq] at h
    subst h
    exact SameTypes.refl e
  | cons i rest ih =>
    intro e e1 h
    simp only [pointLoop] at h
    split_ifs at h with hf
    · cases hb : body e i with
      | error msg => simp [hb] at h
      | ok e2 =>
        simp only [hb] at h
        exact SameTypes.trans (hbody e i e2 hb) (ih e2 e1 h)
    · exact ih e e1 h

theorem SameTypes_binary_op (F : Functor) (e e1 : ShadingExecution) (nargs : Nat)
    (args : List Nat) (runflags : List Bool) (bp ep : Nat)
    (h : binary_op F e nargs args runflags bp ep = Except.ok e1) : SameTypes e e1 := by
  unfold binary_op at h
  split at h
  · split at h
    · refine SameTypes.trans (SameTypes_adjust_varying e _ _ _ _ _) (SameTypes_pointLoop _ _ ?_ _ _ _ h)
      intro x i x1 hx
      split at hx
      · split at hx
        · rename_i hc
          have h2 := congrArg (fun p => p.2.m_symbols) hc
          simp only [Functor_call_symbols] at h2
          exact SameTypes.trans (SameTypes_of_symbols_eq x _ h2.symm)
            (SameTypes_storeResult _ _ _ _ _ hx)
        · cases hx
      · cases hx
    · cases h
  · cases h

theorem OP_add_select_float_int_float (R A B : TypeSpec) (hR : R.is_float = true)
    (hA : A.is_int = true) (hB : B.is_float = true) :
    OP_add_select R A B = some binary_op_float_int_float_Add := by
  obtain ⟨r1, r2, r3, r4⟩ := is_float_excl R hR
  obtain ⟨a1, a2, a3, a4⟩ := is_int_excl A hA
  simp [OP_add_select, binary_op_float_int_float_Add, hR, hA, hB, r1, r3, a2]

theorem storeImplementation_ok (impl : OpImpl) (r : Except String ShadingExecution)
    (e1 : ShadingExecution) (h : storeImplementation impl r = Except.ok e1) :
    ∃ e0, r = Except.ok e0 ∧ e1 = { e0 with m_op := e0.op.set_implementation impl } := by
  cases r with
  | error msg => simp [storeImplementation] at h
  | ok e0 =>
    simp only [storeImplementation, Except.ok.injEq] at h
    exact ⟨e0, rfl, h.symm⟩

theorem SameTypes_runSpecialized (impl : OpImpl) (e e1 : ShadingExecution) (nargs : Nat)
    (args : List Nat) (runflags : List Bool) (bp ep : Nat) (F : Functor) (R A B : CType)
    (hi : impl = OpImpl.binary_op R A B F)
    (h : runSpecialized impl e nargs args runflags bp ep = Except.ok e1) : SameTypes e e1 := by
  subst hi
  exact SameTypes_binary_op F e e1 nargs args runflags bp ep h

theorem sym_of_SameTypes (e e1 : ShadingExecution) (h : SameTypes e e1) (k : Nat) (s : Symbol)
    (hs : e.sym k = some s) : ∃ s1, e1.sym k = some s1 ∧ s1.typespec = s.typespec := by
  have := h k
  rw [hs] at this
  cases h1 : e1.sym k with
  | none => simp [h1] at this
  | some s1 =>
    simp only [h1, Option.map_some', Option.some.injEq] at this
    exact ⟨s1, rfl, this⟩

theorem anyStructureOrArray_scalars :
    anyStructureOrArray TypeSpec.float TypeSpec.int TypeSpec.float = false := by
  decide

theorem Functor_call_exec_of_ne_Mod (F : Functor) (hF : F ≠ Functor.Mod) (e : ShadingExecution)
    (a b : Value) : (F.call e a b).2 = e := by
  unfold Functor.call
  split <;> first | rfl | exact absurd rfl hF

theorem errors_pointLoop (body : ShadingExecution → Nat → Except String ShadingExecution)
    (runflags : List Bool)
    (hbody : ∀ e i e1, body e i = Except.ok e1 → e1.m_errors = e.m_errors) :
    ∀ (l : List Nat) (e e1 : ShadingExecution),
      pointLoop body runflags l e = Except.ok e1 → e1.m_errors = e.m_errors := by
  intro l
  induction l with
  | nil =>
    intro e e1 h
    simp only [pointLoop, Except.ok.injEq] at h
    subst h
    rfl
  | cons i rest ih =>
    intro e e1 h
    simp only [pointLoop] at h
    split_ifs at h with hf
    · cases hb : body e i with
      | error msg => simp [hb] at h
      | ok e2 =>
        simp only [hb] at h
        exact (ih e2 e1 h).trans (hbody e i e2 hb)
    · exact ih e e1 h

theorem errors_adjust_varying (e : ShadingExecution) (i : Nat) (v : Bool)
    (rf : List Bool) (bp ep : Nat) :
    (e.adjust_varying i v rf bp ep).m_errors = e.m_errors := by
  unfold ShadingExecution.adjust_varying
  cases h : e.sym i with
  | none => rfl
  | some s =>
    simp only
    split_ifs <;> rfl

theorem errors_storeResult (e e1 : ShadingExecution) (r i : Nat) (v : Value)
    (h : storeResult e r i v = Except.ok e1) : e1.m_errors = e.m_errors := by
  unfold storeResult at h
  cases hs : e.sym r with
  | none => simp [hs] at h
  | some R =>
    simp only [hs, Except.ok.injEq] at h
    subst h
    rfl

theorem errors_binary_op (F : Functor) (hF : F ≠ Functor.Mod) (e e1 : ShadingExecution)
    (nargs : Nat) (args : List Nat) (runflags : List Bool) (bp ep : Nat)
    (h : binary_op F e nargs args runflags bp ep = Except.ok e1) : e1.m_errors = e.m_errors := by
  unfold binary_op at h
  split at h
  · split at h
    · refine (errors_pointLoop _ _ ?_ _ _ _ h).trans (errors_adjust_varying e _ _ _ _ _)
      intro x i x1 hx
      split at hx
      · split at hx
        · rename_i hc
          have h2 := congrArg (fun p => p.2) hc
          simp only [Functor_call_exec_of_ne_Mod F hF] at h2
          rw [errors_storeResult _ _ _ _ _ hx, ← h2]
        · cases hx
      · cases hx
    · cases h
  · cases h

theorem Option_all_ite (p : OpImpl → Bool) (c : Prop) [Decidable c] (a b : Option OpImpl)
    (ha : a.all p = true) (hb : b.all p = true) : (if c then a else b).all p = true := by
  split_ifs
  · exact ha
  · exact hb

theorem OP_div_select_silent (R A B : TypeSpec) :
    (OP_div_select R A B).all OpImpl.isSilentDriver = true := by
  simp only [OP_div_select]
  repeat' (first | apply Option_all_ite | rfl)

theorem OP_div_select_functor (R A B : TypeSpec) (impl : OpImpl)
    (h : OP_div_select R A B = some impl) :
    ∃ (TR TA TB : CType) (F : Functor), impl = OpImpl.binary_op TR TA TB F ∧ F ≠ Functor.Mod := by
  have hs := OP_div_select_silent R A B
  rw [h] at hs
  cases impl with
  | binary_op TR TA TB F =>
    refine ⟨TR, TA, TB, F, rfl, ?_⟩
    simpa [OpImpl.isSilentDriver, Option.all] using hs
  | _ => simp [OpImpl.isSilentDriver, Option.all] at hs

theorem OP_mul_select_scalars (R A B : TypeSpec) (hR : R.is_matrix = true)
    (hA : A.is_float = true ∨ A.is_int = true) (hB : B.is_float = true ∨ B.is_int = true) :
    OP_mul_select R A B =
      some (OpImpl.binary_op CType.Matrix44 (scalarCType A) (scalarCType B) Functor.ScalarMatrixMul) := by
  obtain ⟨r1, r2, r3, r4⟩ := is_matrix_excl R hR
  rcases hA with hA | hA <;> rcases hB with hB | hB
  · obtain ⟨a1, a2, a3, a4⟩ := is_float_excl A hA
    simp [OP_mul_select, scalarCType, hR, hA, hB, r1, r2, r3, r4, a2, a4]
  · obtain ⟨a1, a2, a3, a4⟩ := is_float_excl A hA
    obtain ⟨b1, b2, b3, b4⟩ := is_int_excl B hB
    simp [OP_mul_select, scalarCType, hR, hA, hB, r1, r2, r3, r4, a2, a4, b2]
  · obtain ⟨a1, a2, a3, a4⟩ := is_int_excl A hA
    simp [OP_mul_select, scalarCType, hR, hA, hB, r1, r2, r3, r4, a2, a4]
  · obtain ⟨a1, a2, a3, a4⟩ := is_int_excl A hA
    obtain ⟨b1, b2, b3, b4⟩ := is_int_excl B hB
    simp [OP_mul_select, scalarCType, hR, hA, hB, r1, r2, r3, r4, a2, a4, b2]

theorem OP_div_select_scalars (R A B : TypeSpec) (hR : R.is_matrix = true)
    (hA : A.is_float = true ∨ A.is_int = true) (hB : B.is_float = true ∨ B.is_int = true) :
    OP_div_select R A B =
      some (OpImpl.binary_op CType.Matrix44 (scalarCType A) (scalarCType B) Functor.ScalarMatrixDiv) := by
  obtain ⟨r1, r2, r3, r4⟩ := is_matrix_excl R hR
  rcases hA with hA | hA <;> rcases hB with hB | hB
  · obtain ⟨a1, a2, a3, a4⟩ := is_float_excl A hA
    simp [OP_div_select, scalarCType, hR, hA, hB, r1, r2, r3, r4, a2, a4]
  · obtain ⟨a1, a2, a3, a4⟩ := is_float_excl A hA
    obtain ⟨b1, b2, b3, b4⟩ := is_int_excl B hB
    simp [OP_div_select, scalarCType, hR, hA, hB, r1, r2, r3, r4, a2, a4, b2]
  · obtain ⟨a1, a2, a3, a4⟩ := is_int_excl A hA
    simp [OP_div_select, scalarCType, hR, hA, hB, r1, r2, r3, r4, a2, a4]
  · obtain ⟨a1, a2, a3, a4⟩ := is_int_excl A hA
    obtain ⟨b1, b2, b3, b4⟩ := is_int_excl B hB
    simp [OP_div_select, scalarCType, hR, hA, hB, r1, r2, r3, r4, a2, a4, b2]

theorem OP_mul_select_scalar_matrix (R A B : TypeSpec) (hR : R.is_matrix = true)
    (hA : A.is_float = true ∨ A.is_int = true) (hB : B.is_matrix = true) :
    OP_mul_select R A B =
      some (OpImpl.binary_op CType.Matrix44 (scalarCType A) CType.Matrix44
        (Functor.Mul CType.Matrix44 (scalarCType A) CType.Matrix44)) := by
  obtain ⟨r1, r2, r3, r4⟩ := is_matrix_excl R hR
  obtain ⟨b1, b2, b3, b4⟩ := is_matrix_excl B hB
  rcases hA with hA | hA
  · obtain ⟨a1, a2, a3, a4⟩ := is_float_excl A hA
    simp [OP_mul_select, scalarCType, hR, hA, hB, r1, r2, r3, r4, a2, a4, b2, b3]
  · obtain ⟨a1, a2, a3, a4⟩ := is_int_excl A hA
    simp [OP_mul_select, scalarCType, hR, hA, hB, r1, r2, r3, r4, a2, a4, b2, b3]

theorem OP_mul_select_matrix_scalar (R A B : TypeSpec) (hR : R.is_matrix = true)
    (hA : A.is_matrix = true) (hB : B.is_float = true ∨ B.is_int = true) :
    OP_mul_select R A B =
      some (OpImpl.binary_op CType.Matrix44 CType.Matrix44 (scalarCType B)
        (Functor.Mul CType.Matrix44 CType.Matrix44 (scalarCType B))) := by
  obtain ⟨r1, r2, r3, r4⟩ := is_matrix_excl R hR
  obtain ⟨a1, a2, a3, a4⟩ := is_matrix_excl A hA
  rcases hB with hB | hB
  · simp [OP_mul_select, scalarCType, hR, hA, hB, r1, r2, r3, r4, a2, a3]
  · obtain ⟨b1, b2, b3, b4⟩ := is_int_excl B hB
    simp [OP_mul_select, scalarCType, hR, hA, hB, r1, r2, r3, r4, a2, a3, b2]

theorem OP_div_select_scalar_matrix (R A B : TypeSpec) (hR : R.is_matrix = true)
    (hA : A.is_float = true ∨ A.is_int = true) (hB : B.is_matrix = true) :
    OP_div_select R A B =
      some (OpImpl.binary_op CType.Matrix44 (scalarCType A) CType.Matrix44
        (Functor.Div CType.Matrix44 (scalarCType A) CType.Matrix44)) := by
  obtain ⟨r1, r2, r3, r4⟩ := is_matrix_excl R hR
  obtain ⟨b1, b2, b3, b4⟩ := is_matrix_excl B hB
  rcases hA with hA | hA
  · obtain ⟨a1, a2, a3, a4⟩ := is_float_excl A hA
    simp [OP_div_select, scalarCType, hR, hA, hB, r1, r2, r3, r4, a2, a4, b2, b3]
  · obtain ⟨a1, a2, a3, a4⟩ := is_int_excl A hA
    simp [OP_div_select, scalarCType, hR, hA, hB, r1, r2, r3, r4, a2, a4, b2, b3]

theorem OP_div_select_matrix_scalar (R A B : TypeSpec) (hR : R.is_matrix = true)
    (hA : A.is_matrix = true) (hB : B.is_float = true ∨ B.is_int = true) :
    OP_div_select R A B =
      some (OpImpl.binary_op CType.Matrix44 CType.Matrix44 (scalarCType B)
        (Functor.Div CType.Matrix44 CType.Matrix44 (scalarCType B))) := by
  obtain ⟨r1, r2, r3, r4⟩ := is_matrix_excl R hR
  obtain ⟨a1, a2, a3, a4⟩ := is_matrix_excl A hA
  rcases hB with hB | hB
  · simp [OP_div_select, scalarCType, hR, hA, hB, r1, r2, r3, r4, a2, a3]
  · obtain ⟨b1, b2, b3, b4⟩ := is_int_excl B hB
    simp [OP_div_select, scalarCType, hR, hA, hB, r1, r2, r3, r4, a2, a3, b2]

theorem divByZeroScenario_result :
    resultValue (divByZeroScenario.run_op [true] 0 1) = some (Value.int 0) := by
  simp [resultValue, divByZeroScenario, ShadingExecution.single, ShadingExecution.run_op,
    ShadingExecution.op, Opcode.implementation, OpImpl.run, OP_div, Opcode.nargs,
    ShadingExecution.sym, Symbol.mkLocal, Symbol.typespec, TypeSpec.is_structure,
    TypeSpec.is_array, TypeSpec.int, TypeDesc.TypeFloat, TypeDesc.TypeInt,
    OP_div_select, TypeSpec.is_closure, TypeSpec.is_triple, TypeSpec.is_float, TypeSpec.is_int,
    TypeDesc.TypeVector, runSpecialized, binary_op, ShadingExecution.adjust_varying, all_points_on_mk_one,
    Symbol.is_varying, pointLoop, List.range', Symbol.valueAt, Functor.call, DivGeneric,
    cppIsZero, CType.construct, storeResult, ShadingExecution.setSym, Symbol.setValueAt,
    Opcode.set_implementation, storeImplementation, Except.toOption, truncToInt_zero]

theorem divByZeroScenario_errors :
    reportedErrors (divByZeroScenario.run_op [true] 0 1) = some [] := by
  simp [reportedErrors, divByZeroScenario, ShadingExecution.single, ShadingExecution.run_op,
    ShadingExecution.op, Opcode.implementation, OpImpl.run, OP_div, Opcode.nargs,
    ShadingExecution.sym, Symbol.mkLocal, Symbol.typespec, TypeSpec.is_structure,
    TypeSpec.is_array, TypeSpec.int, TypeDesc.TypeFloat, TypeDesc.TypeInt,
    OP_div_select, TypeSpec.is_closure, TypeSpec.is_triple, TypeSpec.is_float, TypeSpec.is_int,
    TypeDesc.TypeVector, runSpecialized, binary_op, ShadingExecution.adjust_varying, all_points_on_mk_one,
    Symbol.is_varying, pointLoop, List.range', Symbol.valueAt, Functor.call, DivGeneric,
    cppIsZero, CType.construct, storeResult, ShadingExecution.setSym, Symbol.setValueAt,
    Opcode.set_implementation, storeImplementation, Except.toOption, truncToInt_zero]

theorem modByZeroScenario_result :
    resultValue (modByZeroScenario.run_op [true] 0 1) = some (Value.int 0) := by
  simp [resultValue, modByZeroScenario, ShadingExecution.single, ShadingExecution.run_op,
    ShadingExecution.op, Opcode.implementation, OpImpl.run, OP_mod, Opcode.nargs,
    ShadingExecution.sym, Symbol.mkLocal, Symbol.typespec, TypeSpec.is_structure,
    TypeSpec.is_array, TypeSpec.int, TypeDesc.TypeFloat, TypeDesc.TypeInt,
    OP_mod_select, TypeSpec.is_closure, TypeSpec.is_triple, TypeSpec.is_float, TypeSpec.is_int,
    TypeDesc.TypeVector, runSpecialized, binary_op, ShadingExecution.adjust_varying, all_points_on_mk_one,
    Symbol.is_varying, pointLoop, List.range', Symbol.valueAt, Functor.call, Mod.call,
    Mod.safe_mod, ShadingExecution.error, storeResult, ShadingExecution.setSym,
    Symbol.setValueAt, Opcode.set_implementation, storeImplementation, Except.toOption]

theorem modByZeroScenario_errors :
    reportedErrors (modByZeroScenario.run_op [true] 0 1)
      = some ["attempted to compute mod(%d, %d)"] := by
  simp [reportedErrors, modByZeroScenario, ShadingExecution.single, ShadingExecution.run_op,
    ShadingExecution.op, Opcode.implementation, OpImpl.run, OP_mod, Opcode.nargs,
    ShadingExecution.sym, Symbol.mkLocal, Symbol.typespec, TypeSpec.is_structure,
    TypeSpec.is_array, TypeSpec.int, TypeDesc.TypeFloat, TypeDesc.TypeInt,
    OP_mod_select, TypeSpec.is_closure, TypeSpec.is_triple, TypeSpec.is_float, TypeSpec.is_int,
    TypeDesc.TypeVector, runSpecialized, binary_op, ShadingExecution.adjust_varying, all_points_on_mk_one,
    Symbol.is_varying, pointLoop, List.range', Symbol.valueAt, Functor.call, Mod.call,
    Mod.safe_mod, ShadingExecution.error, storeResult, ShadingExecution.setSym,
    Symbol.setValueAt, Opcode.set_implementation, storeImplementation, Except.toOption]

theorem mulMatrixScenario_result :
    resultValue (mulMatrixScenario.run_op [true] 0 1)
      = some (Value.matrix (ScalarMatrixMul 2 3)) := by
  simp [resultValue, mulMatrixScenario, ShadingExecution.single, ShadingExecution.run_op,
    ShadingExecution.op, Opcode.implementation, OpImpl.run, OP_mul, Opcode.nargs,
    ShadingExecution.sym, Symbol.mkLocal, Symbol.typespec, TypeSpec.is_structure,
    TypeSpec.is_array, TypeSpec.float, TypeSpec.matrix, TypeDesc.TypeFloat, TypeDesc.TypeInt,
    TypeDesc.TypeMatrix, OP_mul_select, TypeSpec.is_closure, TypeSpec.is_triple,
    TypeSpec.is_float, TypeSpec.is_int, TypeSpec.is_matrix,
    TypeDesc.TypeVector, runSpecialized, binary_op, ShadingExecution.adjust_varying, all_points_on_mk_one,
    Symbol.is_varying, pointLoop, List.range', Symbol.valueAt, Functor.call, Value.toFloat?,
    storeResult, ShadingExecution.setSym, Symbol.setValueAt,
    Opcode.set_implementation, storeImplementation, Except.toOption]

theorem ShaderGlobalNameToIndex_of_not_mem (name : String) (deriv : ℤ)
    (h : name ∉ shaderGlobalNames) : ShaderGlobalNameToIndex name deriv = -1 := by
  simp only [shaderGlobalNames, List.mem_cons, List.mem_singleton, not_or, List.mem_nil_iff,
    or_false] at h
  obtain ⟨h1, h2, h3, h4, h5, h6, h7, h8, h9, h10, h11, h12⟩ := h
  unfold ShaderGlobalNameToIndex
  rw [if_neg h1, if_neg h2, if_neg h3, if_neg h4, if_neg h5, if_neg h6, if_neg h7, if_neg h8,
    if_neg h9, if_neg h10, if_neg h11, if_neg h12]

theorem ShaderGlobalNameToIndex_P (deriv : ℤ) : ShaderGlobalNameToIndex "P" deriv =
    if deriv = 0 then 0 else if deriv = 1 then 1 else if deriv = 2 then 2 else -1 := rfl

theorem ShaderGlobalNameToIndex_I (deriv : ℤ) : ShaderGlobalNameToIndex "I" deriv =
    if deriv = 0 then 3 else if deriv = 1 then 4 else if deriv = 2 then 5 else -1 := rfl

theorem ShaderGlobalNameToIndex_u (deriv : ℤ) : ShaderGlobalNameToIndex "u" deriv =
    if deriv = 0 then 8 else if deriv = 1 then 10 else if deriv = 2 then 11 else -1 := rfl

theorem ShaderGlobalNameToIndex_v (deriv : ℤ) : ShaderGlobalNameToIndex "v" deriv =
    if deriv = 0 then 9 else if deriv = 1 then 12 else if deriv = 2 then 13 else -1 := rfl

theorem ShaderGlobalNameToIndex_Ps (deriv : ℤ) : ShaderGlobalNameToIndex "Ps" deriv =
    if deriv = 0 then 19 else if deriv = 1 then 20 else if deriv = 2 then 21 else -1 := rfl

theorem ShaderGlobalNameToIndex_fixed (deriv : ℤ) :
    ShaderGlobalNameToIndex "N" deriv = 6
    ∧ ShaderGlobalNameToIndex "Ng" deriv = 7 ∧ ShaderGlobalNameToIndex "dPdu" deriv = 14
    ∧ ShaderGlobalNameToIndex "dPdv" deriv = 15 ∧ ShaderGlobalNameToIndex "time" deriv = 16
    ∧ ShaderGlobalNameToIndex "dtime" deriv = 17 ∧ ShaderGlobalNameToIndex "dPdtime" deriv = 18 :=
  ⟨rfl, rfl, rfl, rfl, rfl, rfl, rfl⟩

theorem shaderGlobalField_of_index (name : String) (deriv : ℤ)
    (h : ShaderGlobalNameToIndex name deriv ≠ -1) :
    shaderGlobalField (ShaderGlobalNameToIndex name deriv) =
      some (if shaderGlobalIsTriple name then SGFieldType.vec3_type
            else SGFieldType.float_type) := by
  by_cases hm : name ∈ shaderGlobalNames
  · simp only [shaderGlobalNames, List.mem_cons, List.mem_singleton, List.mem_nil_iff,
      or_false] at hm
    obtain ⟨d6, d7, d14, d15, d16, d17, d18⟩ := ShaderGlobalNameToIndex_fixed deriv
    rcases hm with rfl | rfl | rfl | rfl | rfl | rfl | rfl | rfl | rfl | rfl | rfl | rfl
    · rw [ShaderGlobalNameToIndex_P] at h ⊢
      split_ifs at h ⊢ <;>
        first | exact absurd rfl h | decide | (rename_i ht; revert ht; decide)
    · rw [ShaderGlobalNameToIndex_I] at h ⊢
      split_ifs at h ⊢ <;>
        first | exact absurd rfl h | decide | (rename_i ht; revert ht; decide)
    · rw [d6]; decide
    · rw [d7]; decide
    · rw [ShaderGlobalNameToIndex_u] at h ⊢
      split_ifs at h ⊢ <;>
        first | exact absurd rfl h | decide | (rename_i ht; revert ht; decide)
    · rw [ShaderGlobalNameToIndex_v] at h ⊢
      split_ifs at h ⊢ <;>
        first | exact absurd rfl h | decide | (rename_i ht; revert ht; decide)
    · rw [d14]; decide
    · rw [d15]; decide
    · rw [d16]; decide
    · rw [d17]; decide
    · rw [d18]; decide
    · rw [ShaderGlobalNameToIndex_Ps] at h ⊢
      split_ifs at h ⊢ <;>
        first | exact absurd rfl h | decide | (rename_i ht; revert ht; decide)
  · exact absurd (ShaderGlobalNameToIndex_of_not_mem name deriv hm) h

theorem ShaderGlobalNameToIndex_eq_neg_one_iff (name : String) (deriv : ℤ) :
    ShaderGlobalNameToIndex name deriv = -1 ↔
      (name ∉ shaderGlobalNames ∨
        (name ∈ shaderGlobalNamesWithDerivs ∧ deriv ≠ 0 ∧ deriv ≠ 1 ∧ deriv ≠ 2)) := by
  by_cases hm : name ∈ shaderGlobalNames
  · have hm1 := hm
    simp only [shaderGlobalNames, List.mem_cons, List.mem_singleton, List.mem_nil_iff,
      or_false] at hm1
    obtain ⟨d6, d7, d14, d15, d16, d17, d18⟩ := ShaderGlobalNameToIndex_fixed deriv
    rcases hm1 with rfl | rfl | rfl | rfl | rfl | rfl | rfl | rfl | rfl | rfl | rfl | rfl
    · rw [ShaderGlobalNameToIndex_P]; split_ifs <;> simp_all [shaderGlobalNamesWithDerivs]
    · rw [ShaderGlobalNameToIndex_I]; split_ifs <;> simp_all [shaderGlobalNamesWithDerivs]
    · rw [d6]; simp [hm, shaderGlobalNamesWithDerivs]
    · rw [d7]; simp [hm, shaderGlobalNamesWithDerivs]
    · rw [ShaderGlobalNameToIndex_u]; split_ifs <;> simp_all [shaderGlobalNamesWithDerivs]
    · rw [ShaderGlobalNameToIndex_v]; split_ifs <;> simp_all [shaderGlobalNamesWithDerivs]
    · rw [d14]; simp [hm, shaderGlobalNamesWithDerivs]
    · rw [d15]; simp [hm, shaderGlobalNamesWithDerivs]
    · rw [d16]; simp [hm, shaderGlobalNamesWithDerivs]
    · rw [d17]; simp [hm, shaderGlobalNamesWithDerivs]
    · rw [d18]; simp [hm, shaderGlobalNamesWithDerivs]
    · rw [ShaderGlobalNameToIndex_Ps]; split_ifs <;> simp_all [shaderGlobalNamesWithDerivs]
  · simp [ShaderGlobalNameToIndex_of_not_mem name deriv hm, hm]

theorem Imath_dot_normalize {F : Type} [LinearOrderedField F] (m : CMath F)
    (N a : Imath.Vec3 F) (h : N.dot a = 0) : N.dot (a.normalize m) = 0 := by
  unfold Imath.Vec3.normalize
  simp only
  split_ifs with hl
  · have : N.x * (a.x / m.sqrtf (a.dot a)) + N.y * (a.y / m.sqrtf (a.dot a))
        + N.z * (a.z / m.sqrtf (a.dot a)) = (N.dot a) / m.sqrtf (a.dot a) := by
      simp only [Imath.Vec3.dot]
      ring
    simp only [Imath.Vec3.dot] at this h ⊢
    rw [this, h, zero_div]
  · exact h

theorem Imath_dot_cross_self {F : Type} [LinearOrderedField F] (N a : Imath.Vec3 F) :
    N.dot (N.cross a) = 0 := by
  simp only [Imath.Vec3.dot, Imath.Vec3.cross]
  ring

theorem make_orthonormals_orthogonal {F : Type} [LinearOrderedField F] (m : CMath F)
    (N : Imath.Vec3 F) :
    N.dot (ClosurePrimitive.make_orthonormals m N).1 = 0
    ∧ N.dot (ClosurePrimitive.make_orthonormals m N).2 = 0 := by
  unfold ClosurePrimitive.make_orthonormals
  simp only
  refine ⟨?_, Imath_dot_cross_self _ _⟩
  apply Imath_dot_normalize
  split_ifs <;> simp only [Imath.Vec3.dot, Imath.Vec3.get] <;> ring

theorem sample_cos_hemisphere_dot {F : Type} [LinearOrderedField F] (m : CMath F)
    (N omega_out : Imath.Vec3 F) (randu randv : F) (hN : N.dot N = 1) :
    N.dot (ClosurePrimitive.sample_cos_hemisphere m N omega_out randu randv).1 =
      m.sqrtf (max (1 - (to_unit_disk m randu randv).1 * (to_unit_disk m randu randv).1
                      - (to_unit_disk m randu randv).2 * (to_unit_disk m randu randv).2) 0) := by
  obtain ⟨hT, hB⟩ := make_orthonormals_orthogonal m N
  unfold ClosurePrimitive.sample_cos_hemisphere
  simp only
  generalize ClosurePrimitive.make_orthonormals m N = TB at hT hB
  generalize to_unit_disk m randu randv = d
  generalize m.sqrtf (max (1 - d.1 * d.1 - d.2 * d.2) 0) = c
  simp only [Imath.Vec3.dot, Imath.Vec3.add, Imath.Vec3.smul] at hT hB hN ⊢
  have : N.x * (d.1 * TB.1.x + d.2 * TB.2.x + c * N.x)
      + N.y * (d.1 * TB.1.y + d.2 * TB.2.y + c * N.y)
      + N.z * (d.1 * TB.1.z + d.2 * TB.2.z + c * N.z)
      = d.1 * (N.x * TB.1.x + N.y * TB.1.y + N.z * TB.1.z)
        + d.2 * (N.x * TB.2.x + N.y * TB.2.y + N.z * TB.2.z)
        + c * (N.x * N.x + N.y * N.y + N.z * N.z) := by ring
  rw [this, hT, hB, hN]
  ring

theorem Steps.seq {dst : Symbol} {P : ℤ → Prop} {a b c : RuntimeOptimizer}
    (h1 : Steps dst P a b) (h2 : Steps dst P b c) : Steps dst P a c := by
  induction h1 with
  | refl _ => exact h2
  | load rop sym comp d rop1 _ ih => exact Steps.load rop sym comp d c (ih h2)
  | store rop v k rop1 hk _ ih => exact Steps.store rop v k c hk (ih h2)
  | error rop msg rop1 _ ih => exact Steps.error rop msg c (ih h2)
  | warning rop msg rop1 _ ih => exact Steps.warning rop msg c (ih h2)
  | info rop msg rop1 _ ih => exact Steps.info rop msg c (ih h2)
  | emit rop instr rop1 hi _ ih => exact Steps.emit rop instr c hi (ih h2)
  | setInsertPoint rop b pos rop1 _ ih => exact Steps.setInsertPoint rop b pos c (ih h2)

theorem Steps_load (dst : Symbol) (P : ℤ → Prop) (rop : RuntimeOptimizer) (sym : Symbol)
    (c d : ℤ) : Steps dst P rop (loadLLVMValue rop sym c d).2 :=
  Steps.load rop sym c d _ (Steps.refl _)

theorem Steps_store (dst : Symbol) (P : ℤ → Prop) (rop : RuntimeOptimizer) (v : LLVMValue)
    (c : ℤ) (hc : P c) : Steps dst P rop (puntOnDerivs dst (storeLLVMValue rop v dst c 0)) :=
  Steps.store rop v c _ hc (Steps.refl _)

theorem Steps_error (dst : Symbol) (P : ℤ → Prop) (rop : RuntimeOptimizer) (msg : String) :
    Steps dst P rop (rop.error msg) := Steps.error rop msg _ (Steps.refl _)

theorem Steps_info (dst : Symbol) (P : ℤ → Prop) (rop : RuntimeOptimizer) (msg : String) :
    Steps dst P rop (rop.info msg) := Steps.info rop msg _ (Steps.refl _)

theorem Steps_warning (dst : Symbol) (P : ℤ → Prop) (rop : RuntimeOptimizer) (msg : String) :
    Steps dst P rop (rop.warning msg) := Steps.warning rop msg _ (Steps.refl _)

theorem Steps_emit (dst : Symbol) (P : ℤ → Prop) (rop : RuntimeOptimizer) (instr : Instruction)
    (h : ∀ v p, instr ≠ Instruction.Store v p) : Steps dst P rop (rop.emit instr) :=
  Steps.emit rop instr _ h (Steps.refl _)

theorem Steps_SetInsertPoint (dst : Symbol) (P : ℤ → Prop) (rop : RuntimeOptimizer)
    (block : Nat) : Steps dst P rop (rop.SetInsertPoint block) :=
  Steps.setInsertPoint rop block none _ (Steps.refl _)

theorem Steps_CreateBr (dst : Symbol) (P : ℤ → Prop) (rop : RuntimeOptimizer) (dest : Nat) :
    Steps dst P rop (rop.CreateBr dest) :=
  Steps_emit dst P rop _ (fun _ _ h => by cases h)

theorem Steps_CreateCondBr (dst : Symbol) (P : ℤ → Prop) (rop : RuntimeOptimizer)
    (c : LLVMValue) (a b : Nat) : Steps dst P rop (rop.CreateCondBr c a b) :=
  Steps_emit dst P rop _ (fun _ _ h => by cases h)

theorem Steps_CreateCall (dst : Symbol) (P : ℤ → Prop) (rop : RuntimeOptimizer)
    (fn : String) (args : List LLVMValue) : Steps dst P rop (rop.CreateCall fn args) :=
  Steps_emit dst P rop _ (fun _ _ h => by cases h)

theorem Steps_store_derivs (dst : Symbol) (P : ℤ → Prop) (rop : RuntimeOptimizer)
    (v : LLVMValue) (c : ℤ) (hd : dst.has_derivs = true) (hc : P c) :
    Steps dst P rop ((storeLLVMValue rop v dst c 0).info "punting on derivatives for now") := by
  have h := Steps_store dst P rop v c hc
  simp only [puntOnDerivs, hd, if_true] at h
  exact h

theorem Steps_store_plain (dst : Symbol) (P : ℤ → Prop) (rop : RuntimeOptimizer)
    (v : LLVMValue) (c : ℤ) (hd : ¬ dst.has_derivs = true) (hc : P c) :
    Steps dst P rop (storeLLVMValue rop v dst c 0) := by
  have h := Steps_store dst P rop v c hc
  simp only [puntOnDerivs, hd] at h
  exact h

theorem Steps_componentLoop (dst : Symbol) (P : ℤ → Prop)
    (body : RuntimeOptimizer → Nat → RuntimeOptimizer × Bool) :
    ∀ (l : List Nat) (rop : RuntimeOptimizer),
      (∀ r i, i ∈ l → Steps dst P r (body r i).1) →
      Steps dst P rop (componentLoop body l rop) := by
  intro l
  induction l with
  | nil => intro rop _; exact Steps.refl _
  | cons i rest ih =>
    intro rop hb
    have h1 := hb rop i (List.mem_cons_self _ _)
    unfold componentLoop
    split
    · rename_i rop1 heq
      rw [heq] at h1
      exact h1.seq (ih rop1 fun r j hj => hb r j (List.mem_cons_of_mem _ hj))
    · rename_i rop1 heq
      rw [heq] at h1
      exact h1

theorem Steps_binary_component (P : ℤ → Prop) (op : Opcode) (dst src1 src2 : Symbol)
    (rop : RuntimeOptimizer) (i : Nat) (hc : P (i : ℤ)) :
    Steps dst P rop (llvm_gen_binary_op_component op dst src1 src2 rop i).1 := by
  unfold llvm_gen_binary_op_component
  simp only
  have hl := (Steps_load dst P rop src1 i 0).seq
    (Steps_load dst P (loadLLVMValue rop src1 i 0).2 src2 i 0)
  refine hl.seq ?_
  split
  · exact Steps.refl _
  · exact Steps.refl _
  · split_ifs with hd <;> split <;>
      first
      | exact Steps_store_derivs dst P _ _ _ hd hc
      | exact Steps_store_plain dst P _ _ _ hd hc
      | exact (Steps_error dst P _ _).seq (Steps_info dst P _ _)
      | exact Steps_error dst P _ _

theorem Steps_binary_op (P : ℤ → Prop) (rop rop1 : RuntimeOptimizer) (opnum : Nat)
    (op : Opcode) (dst : Symbol)
    (hP : ∀ i : Nat, i < dst.typespec.simpletype.aggregate ∨ i = 0 → P (i : ℤ))
    (hop : rop.m_ops[opnum]? = some op) (hdst : rop.opargsym op 0 = some dst)
    (h : llvm_gen_binary_op rop opnum = some rop1) : Steps dst P rop rop1 := by
  unfold llvm_gen_binary_op at h
  simp only [hop, hdst] at h
  split at h
  · rename_i d s1 s2 hd _ _
    cases hd
    split_ifs at h
    · cases h; exact Steps.refl _
    · cases h
      exact Steps_componentLoop dst P _ _ _ fun r i hi =>
        Steps_binary_component P op dst s1 s2 r i (hP i (Or.inl (List.mem_range.mp hi)))
  · cases h

theorem Steps_unary_component (P : ℤ → Prop) (op : Opcode) (dst src : Symbol)
    (rop : RuntimeOptimizer) (i : Nat) (hc : P (i : ℤ)) :
    Steps dst P rop (llvm_gen_unary_op_component op dst src rop i).1 := by
  unfold llvm_gen_unary_op_component
  simp only
  refine (Steps_load dst P rop src i 0).seq ?_
  split
  · exact Steps.refl _
  · split_ifs with hd <;> split <;>
      first
      | exact Steps_store_derivs dst P _ _ _ hd hc
      | exact Steps_store_plain dst P _ _ _ hd hc
      | exact (Steps_error dst P _ _).seq (Steps_info dst P _ _)
      | exact Steps_error dst P _ _

theorem Steps_unary_op (P : ℤ → Prop) (rop rop1 : RuntimeOptimizer) (opnum : Nat)
    (op : Opcode) (dst : Symbol)
    (hP : ∀ i : Nat, i < dst.typespec.simpletype.aggregate ∨ i = 0 → P (i : ℤ))
    (hop : rop.m_ops[opnum]? = some op) (hdst : rop.opargsym op 0 = some dst)
    (h : llvm_gen_unary_op rop opnum = some rop1) : Steps dst P rop rop1 := by
  unfold llvm_gen_unary_op at h
  simp only [hop, hdst] at h
  split at h
  · rename_i d s1 hd _
    cases hd
    split_ifs at h
    · cases h; exact Steps.refl _
    · cases h
      exact Steps_componentLoop dst P _ _ _ fun r i hi =>
        Steps_unary_component P op dst s1 r i (hP i (Or.inl (List.mem_range.mp hi)))
  · cases h

theorem Steps_assign_component (P : ℤ → Prop) (dst src : Symbol)
    (rop : RuntimeOptimizer) (i : Nat) (hc : P (i : ℤ)) :
    Steps dst P rop (llvm_gen_assign_component dst src rop i).1 := by
  unfold llvm_gen_assign_component
  simp only
  refine (Steps_load dst P rop src i 0).seq ?_
  split
  · exact Steps.refl _
  · split_ifs with hd
    · exact Steps_store_derivs dst P _ _ _ hd hc
    · exact Steps_store_plain dst P _ _ _ hd hc

theorem Steps_assign (P : ℤ → Prop) (rop rop1 : RuntimeOptimizer) (opnum : Nat)
    (op : Opcode) (dst : Symbol)
    (hP : ∀ i : Nat, i < dst.typespec.simpletype.aggregate ∨ i = 0 → P (i : ℤ))
    (hop : rop.m_ops[opnum]? = some op) (hdst : rop.opargsym op 0 = some dst)
    (h : llvm_gen_assign rop opnum = some rop1) : Steps dst P rop rop1 := by
  unfold llvm_gen_assign at h
  simp only [hop, hdst] at h
  split at h
  · rename_i d s1 hd _
    cases hd
    split_ifs at h
    · cases h; exact Steps.refl _
    · cases h
      exact Steps_componentLoop dst P _ _ _ fun r i hi =>
        Steps_assign_component P dst s1 r i (hP i (Or.inl (List.mem_range.mp hi)))
  · cases h

theorem Steps_compref (P : ℤ → Prop) (rop rop1 : RuntimeOptimizer) (opnum : Nat)
    (op : Opcode) (dst : Symbol)
    (hP : ∀ i : Nat, i < dst.typespec.simpletype.aggregate ∨ i = 0 → P (i : ℤ))
    (hop : rop.m_ops[opnum]? = some op) (hdst : rop.opargsym op 0 = some dst)
    (h : llvm_gen_compref rop opnum = some rop1) : Steps dst P rop rop1 := by
  have h0 : P 0 := hP 0 (Or.inr rfl)
  unfold llvm_gen_compref at h
  simp only [hop, hdst] at h
  split at h
  · rename_i d s1 s2 hd _ _
    cases hd
    split at h
    · cases h; exact Steps.refl _
    · split at h
      · cases h; exact Steps_info dst P _ _
      · split at h
        · cases h
        · rename_i ci _
          split at h
          · cases h; exact Steps_warning dst P _ _
          · refine (Steps_load dst P rop s1 ci 0).seq ?_
            split at h
            · cases h; exact Steps.refl _
            · cases h
              split_ifs with hd
              · exact Steps_store_derivs dst P _ _ _ hd h0
              · exact Steps_store_plain dst P _ _ _ hd h0
  · cases h

theorem Steps_construct_aggregate_loop (P : ℤ → Prop) (dst : Symbol)
    (src_syms : List (Option Symbol)) :
    ∀ (l : List Nat) (rop rop1 : RuntimeOptimizer), (∀ i ∈ l, P (i : ℤ)) →
      llvm_gen_construct_aggregate_loop dst src_syms l rop = some rop1 →
      Steps dst P rop rop1 := by
  intro l
  induction l with
  | nil =>
    intro rop rop1 _ h
    simp only [llvm_gen_construct_aggregate_loop, Option.some.injEq] at h
    subst h
    exact Steps.refl _
  | cons i rest ih =>
    intro rop rop1 hP h
    have hc : P (i : ℤ) := hP i (List.mem_cons_self _ _)
    unfold llvm_gen_construct_aggregate_loop at h
    split at h
    · rename_i src _
      simp only at h
      refine (Steps_load dst P rop src 0 0).seq ?_
      split at h
      · cases h; exact Steps.refl _
      · refine Steps.seq ?_ (ih _ rop1 (fun j hj => hP j (List.mem_cons_of_mem _ hj)) h)
        split_ifs with hd
        · exact Steps_store_derivs dst P _ _ _ hd hc
        · exact Steps_store_plain dst P _ _ _ hd hc
    · cases h

theorem Steps_construct_aggregate (P : ℤ → Prop) (rop rop1 : RuntimeOptimizer) (opnum : Nat)
    (op : Opcode) (dst : Symbol)
    (hP : ∀ i : Nat, i < dst.typespec.simpletype.aggregate ∨ i = 0 → P (i : ℤ))
    (hop : rop.m_ops[opnum]? = some op) (hdst : rop.opargsym op 0 = some dst)
    (h : llvm_gen_construct_aggregate rop opnum = some rop1) : Steps dst P rop rop1 := by
  unfold llvm_gen_construct_aggregate at h
  simp only [hop, hdst] at h
  split at h
  · rename_i d s1 hd _
    cases hd
    split at h
    · cases h; exact Steps.refl _
    · split at h
      · cases h
      · exact Steps_construct_aggregate_loop P dst _ _ _ _
          (fun i hi => hP i (Or.inl (List.mem_range.mp hi))) h
  · cases h

theorem Steps_compare_op_loop (P : ℤ → Prop) (dst : Symbol) (op : Opcode) (src1 src2 : Symbol) :
    ∀ (l : List Nat) (fr : Option LLVMValue) (rop : RuntimeOptimizer),
      Steps dst P rop (llvm_gen_compare_op_loop op src1 src2 l fr rop).2.1 := by
  intro l
  induction l with
  | nil => intro fr rop; exact Steps.refl _
  | cons i rest ih =>
    intro fr rop
    unfold llvm_gen_compare_op_loop
    simp only
    have hl := (Steps_load dst P rop src1 i 0).seq
      (Steps_load dst P (loadLLVMValue rop src1 i 0).2 src2 i 0)
    split
    · exact hl
    · exact hl
    · split
      · exact hl.seq (ih _ _)
      · exact (hl.seq (Steps_error dst P _ _)).seq (ih _ _)

theorem Steps_compare_op (P : ℤ → Prop) (rop rop1 : RuntimeOptimizer) (opnum : Nat)
    (op : Opcode) (dst : Symbol)
    (hP : ∀ i : Nat, i < dst.typespec.simpletype.aggregate ∨ i = 0 → P (i : ℤ))
    (hop : rop.m_ops[opnum]? = some op) (hdst : rop.opargsym op 0 = some dst)
    (h : llvm_gen_compare_op rop opnum = some rop1) : Steps dst P rop rop1 := by
  have h0 : P 0 := hP 0 (Or.inr rfl)
  unfold llvm_gen_compare_op at h
  simp only [hop, hdst] at h
  split at h
  · rename_i d s1 s2 hd _ _
    cases hd
    split at h
    · cases h; exact Steps.refl _
    · have hl := Steps_compare_op_loop P dst op s1 s2
        (List.range dst.typespec.simpletype.aggregate) none rop
      split at h
      · rename_i heq
        rw [heq] at hl
        cases h; exact hl
      · rename_i heq
        rw [heq] at hl
        cases h; exact hl
      · rename_i heq
        rw [heq] at hl
        cases h
        refine hl.seq ?_
        split_ifs <;>
          first
          | exact Steps_store_derivs dst P _ _ _ (by assumption) h0
          | exact Steps_store_plain dst P _ _ _ (by assumption) h0
  · cases h

theorem Steps_unary_reduction_loop (P : ℤ → Prop) (dst : Symbol) (op : Opcode) (src : Symbol) :
    ∀ (l : List Nat) (fr : Option LLVMValue) (rop : RuntimeOptimizer),
      Steps dst P rop (llvm_gen_unary_reduction_loop op src l fr rop).2.1 := by
  intro l
  induction l with
  | nil => intro fr rop; exact Steps.refl _
  | cons i rest ih =>
    intro fr rop
    unfold llvm_gen_unary_reduction_loop
    simp only
    have hl := Steps_load dst P rop src i 0
    split
    · exact hl
    · split_ifs <;>
        first
        | exact hl.seq (ih _ _)
        | exact (hl.seq (Steps_error dst P _ _)).seq (ih _ _)

theorem Steps_unary_reduction (P : ℤ → Prop) (rop rop1 : RuntimeOptimizer) (opnum : Nat)
    (op : Opcode) (dst : Symbol)
    (hP : ∀ i : Nat, i < dst.typespec.simpletype.aggregate ∨ i = 0 → P (i : ℤ))
    (hop : rop.m_ops[opnum]? = some op) (hdst : rop.opargsym op 0 = some dst)
    (h : llvm_gen_unary_reduction rop opnum = some rop1) : Steps dst P rop rop1 := by
  have h0 : P 0 := hP 0 (Or.inr rfl)
  unfold llvm_gen_unary_reduction at h
  simp only [hop, hdst] at h
  split at h
  · rename_i d s1 hd _
    cases hd
    split at h
    · cases h; exact Steps.refl _
    · have hl := Steps_unary_reduction_loop P dst op s1
        (List.range s1.typespec.simpletype.aggregate) none rop
      split at h
      · rename_i heq
        rw [heq] at hl
        cases h; exact hl
      · rename_i heq
        rw [heq] at hl
        cases h; exact hl
      · rename_i heq
        rw [heq] at hl
        cases h
        refine hl.seq ?_
        split_ifs <;>
          first
          | exact Steps_store_derivs dst P _ _ _ (by assumption) h0
          | exact Steps_store_plain dst P _ _ _ (by assumption) h0
  · cases h

theorem Steps_dot_loop (P : ℤ → Prop) (dst : Symbol) (src1 src2 : Symbol) :
    ∀ (l : List Nat) (fr : Option LLVMValue) (rop : RuntimeOptimizer),
      Steps dst P rop (llvm_gen_dot_loop src1 src2 l fr rop).2.1 := by
  intro l
  induction l with
  | nil => intro fr rop; exact Steps.refl _
  | cons i rest ih =>
    intro fr rop
    unfold llvm_gen_dot_loop
    simp only
    have hl := (Steps_load dst P rop src1 i 0).seq
      (Steps_load dst P (loadLLVMValue rop src1 i 0).2 src2 i 0)
    split
    · exact hl.seq (ih _ _)
    · exact hl

theorem Steps_dot (P : ℤ → Prop) (rop rop1 : RuntimeOptimizer) (opnum : Nat)
    (op : Opcode) (dst : Symbol)
    (hP : ∀ i : Nat, i < dst.typespec.simpletype.aggregate ∨ i = 0 → P (i : ℤ))
    (hop : rop.m_ops[opnum]? = some op) (hdst : rop.opargsym op 0 = some dst)
    (h : llvm_gen_dot rop opnum = some rop1) : Steps dst P rop rop1 := by
  have h0 : P 0 := hP 0 (Or.inr rfl)
  unfold llvm_gen_dot at h
  simp only [hop, hdst] at h
  split at h
  · rename_i d s1 s2 hd _ _
    cases hd
    split at h
    · cases h; exact Steps.refl _
    · have hl := Steps_dot_loop P dst s1 s2
        (List.range s1.typespec.simpletype.aggregate) none rop
      split at h
      · rename_i heq
        rw [heq] at hl
        cases h; exact hl
      · cases h
      · rename_i heq
        rw [heq] at hl
        cases h
        refine hl.seq ?_
        split_ifs <;>
          first
          | exact Steps_store_derivs dst P _ _ _ (by assumption) h0
          | exact Steps_store_plain dst P _ _ _ (by assumption) h0
  · cases h

theorem Steps_cross_loop (P : ℤ → Prop) (dst src1 src2 : Symbol) :
    ∀ (l : List Nat) (rop rop1 : RuntimeOptimizer), (∀ i ∈ l, P (i : ℤ)) →
      llvm_gen_cross_loop dst src1 src2 l rop = some rop1 → Steps dst P rop rop1 := by
  intro l
  induction l with
  | nil =>
    intro rop rop1 _ h
    simp only [llvm_gen_cross_loop, Option.some.injEq] at h
    subst h
    exact Steps.refl _
  | cons i rest ih =>
    intro rop rop1 hP h
    have hc : P (i : ℤ) := hP i (List.mem_cons_self _ _)
    unfold llvm_gen_cross_loop at h
    simp only at h
    split at h
    · rename_i i10 i11 i20 i21 _ _ _ _
      have hl := (((Steps_load dst P rop src1 i10 0).seq
        (Steps_load dst P _ src1 i11 0)).seq (Steps_load dst P _ src2 i20 0)).seq
        (Steps_load dst P _ src2 i21 0)
      split at h
      · refine hl.seq (Steps.seq ?_
          (ih _ rop1 (fun j hj => hP j (List.mem_cons_of_mem _ hj)) h))
        split_ifs with hd
        · exact Steps_store_derivs dst P _ _ _ hd hc
        · exact Steps_store_plain dst P _ _ _ hd hc
      · cases h; exact hl
    · cases h

theorem Steps_cross (P : ℤ → Prop) (rop rop1 : RuntimeOptimizer) (opnum : Nat)
    (op : Opcode) (dst : Symbol)
    (hP : ∀ i : Nat, i < dst.typespec.simpletype.aggregate ∨ i = 0 → P (i : ℤ))
    (hop : rop.m_ops[opnum]? = some op) (hdst : rop.opargsym op 0 = some dst)
    (h : llvm_gen_cross rop opnum = some rop1) : Steps dst P rop rop1 := by
  unfold llvm_gen_cross at h
  simp only [hop, hdst] at h
  split at h
  · rename_i d s1 s2 hd _ _
    cases hd
    split at h
    · cases h; exact Steps.refl _
    · exact Steps_cross_loop P dst s1 s2 _ _ _
        (fun i hi => hP i (Or.inl (List.mem_range.mp hi))) h
  · cases h

theorem Steps_normalize_sum (P : ℤ → Prop) (dst : Symbol) (src : Symbol) :
    ∀ (l : List Nat) (fr : Option LLVMValue) (rop : RuntimeOptimizer),
      Steps dst P rop (llvm_gen_normalize_sum src l fr rop).2.1 := by
  intro l
  induction l with
  | nil => intro fr rop; exact Steps.refl _
  | cons i rest ih =>
    intro fr rop
    unfold llvm_gen_normalize_sum
    simp only
    have hl := Steps_load dst P rop src i 0
    split
    · exact hl
    · exact hl.seq (ih _ _)

theorem Steps_normalize_component (P : ℤ → Prop) (dst src : Symbol) (inv_length : LLVMValue)
    (rop : RuntimeOptimizer) (i : Nat) (hc : P (i : ℤ)) :
    Steps dst P rop (llvm_gen_normalize_component dst src inv_length rop i).1 := by
  unfold llvm_gen_normalize_component
  simp only
  refine (Steps_load dst P rop src i 0).seq ?_
  split
  · exact Steps.refl _
  · split_ifs with hd
    · exact Steps_store_derivs dst P _ _ _ hd hc
    · exact Steps_store_plain dst P _ _ _ hd hc

theorem Steps_normalize (P : ℤ → Prop) (rop rop1 : RuntimeOptimizer) (opnum : Nat)
    (op : Opcode) (dst : Symbol)
    (hP : ∀ i : Nat, i < dst.typespec.simpletype.aggregate ∨ i = 0 → P (i : ℤ))
    (hop : rop.m_ops[opnum]? = some op) (hdst : rop.opargsym op 0 = some dst)
    (h : llvm_gen_normalize rop opnum = some rop1) : Steps dst P rop rop1 := by
  unfold llvm_gen_normalize at h
  simp only [hop, hdst] at h
  split at h
  · rename_i d s1 hd _
    cases hd
    split at h
    · cases h; exact Steps.refl _
    · have hl := Steps_normalize_sum P dst s1
        (List.range dst.typespec.simpletype.aggregate) none rop
      split at h
      · rename_i heq
        rw [heq] at hl
        cases h; exact hl
      · cases h
      · rename_i heq
        rw [heq] at hl
        cases h
        refine hl.seq ?_
        exact Steps_componentLoop dst P _ _ _ fun r i hi =>
          Steps_normalize_component P dst s1 _ r i (hP i (Or.inl (List.mem_range.mp hi)))
  · cases h

theorem Steps_if (P : ℤ → Prop) (dst : Symbol) (rop rop1 : RuntimeOptimizer) (opnum : Nat)
    (h : llvm_gen_if rop opnum = some rop1) : Steps dst P rop rop1 := by
  unfold llvm_gen_if at h
  split at h
  · cases h
  · split at h
    · cases h
    · rename_i cond _
      split at h
      · cases h; exact Steps.refl _
      · simp only at h
        have hl := Steps_load dst P rop cond 0 0
        split at h
        · cases h
        · split at h
          · rename_i cl _ _ _ _ tb eb ab _ _ _
            cases h
            have key : ∀ (r : RuntimeOptimizer) (a b : Nat),
                Steps dst P r (if a ≠ b then (r.SetInsertPoint a).CreateBr b else r) := by
              intro r a b
              split_ifs
              · exact (Steps_SetInsertPoint dst P _ _).seq (Steps_CreateBr dst P _ _)
              · exact Steps.refl _
            apply Steps.seq hl
            apply Steps.seq
              (Steps_CreateCondBr dst P _ (LLVMValue.Cast CastOps.Trunc cl) tb eb)
            apply Steps.seq (key _ tb ab)
            exact key _ eb ab
          · cases h

theorem Steps_loop_op (P : ℤ → Prop) (dst : Symbol) (rop rop1 : RuntimeOptimizer) (opnum : Nat)
    (h : llvm_gen_loop_op rop opnum = some rop1) : Steps dst P rop rop1 := by
  unfold llvm_gen_loop_op at h
  split at h
  · cases h
  · split at h
    · cases h
    · rename_i cond _
      split at h
      · cases h; exact Steps.refl _
      · split at h
        · rename_i op _ _ _ _ _ _ _ _ _ init_block cond_block body_block step_block after_block
            _ _ _ _ _
          simp only at h
          have h1 : Steps dst P rop
              (if init_block ≠ cond_block then (rop.CreateBr init_block).SetInsertPoint init_block
               else rop) := by
            split_ifs
            · exact (Steps_CreateBr dst P _ _).seq (Steps_SetInsertPoint dst P _ _)
            · exact Steps.refl _
          have h2 : ∀ r : RuntimeOptimizer, Steps dst P r
              (if op.opname = "dowhile" then r.CreateBr body_block
               else r.CreateBr cond_block) := by
            intro r
            split_ifs <;> exact Steps_CreateBr dst P _ _
          have h3 := (h1.seq (h2 _)).seq (Steps_SetInsertPoint dst P _ cond_block)
          have h4 := h3.seq (Steps_load dst P _ cond 0 0)
          split at h
          · cases h
          · rename_i cl _
            split at h
            · cases h
              apply Steps.seq h4
              apply Steps.seq
                (Steps_CreateCondBr dst P _ (LLVMValue.Cast CastOps.Trunc cl) body_block
                  after_block)
              apply Steps.seq (Steps_SetInsertPoint dst P _ body_block)
              apply Steps.seq (Steps_CreateBr dst P _ step_block)
              apply Steps.seq (Steps_SetInsertPoint dst P _ step_block)
              exact Steps_CreateBr dst P _ cond_block
            · cases h
              apply Steps.seq h4
              apply Steps.seq
                (Steps_CreateCondBr dst P _ (LLVMValue.Cast CastOps.Trunc cl) body_block
                  after_block)
              apply Steps.seq (Steps_SetInsertPoint dst P _ body_block)
              exact Steps_CreateBr dst P _ cond_block
        · cases h

theorem Steps_printf_components (P : ℤ → Prop) (dst sym : Symbol) (ourformat : List Char) :
    ∀ (l : List Nat) (s : List Char) (args : List LLVMValue) (rop : RuntimeOptimizer)
      (r : List Char × List LLVMValue × RuntimeOptimizer),
      llvm_gen_printf_components sym ourformat l s args rop = some r →
      Steps dst P rop r.2.2 := by
  intro l
  induction l with
  | nil =>
    intro s args rop r h
    simp only [llvm_gen_printf_components, Option.some.injEq] at h
    subst h
    exact Steps.refl _
  | cons i rest ih =>
    intro s args rop r h
    unfold llvm_gen_printf_components at h
    simp only at h
    split at h
    · cases h
    · exact (Steps_load dst P rop sym i 0).seq (ih _ _ _ _ h)

theorem Steps_printf_step (P : ℤ → Prop) (dst : Symbol) (op : Opcode) (c : Char)
    (rest s : List Char) (arg : ℤ) (args : List LLVMValue) (rop : RuntimeOptimizer)
    (r : RuntimeOptimizer × Option (Option (List Char) × List Char × ℤ × List LLVMValue))
    (h : llvm_gen_printf_step op c rest s arg args rop = some r) : Steps dst P rop r.1 := by
  unfold llvm_gen_printf_step at h
  split at h
  · split at h
    · cases h; exact Steps.refl _
    · simp only at h
      split at h
      · cases h; exact Steps_error dst P _ _
      · split at h
        · cases h
        · split at h
          · cases h; exact Steps_warning dst P _ _
          · split at h
            · cases h
            · rename_i s1 args1 rop1 hc
              cases h
              exact Steps_printf_components P dst _ _ _ _ _ _ _ hc
  · split at h
    · split at h
      · cases h
      · cases h; exact Steps.refl _
    · cases h; exact Steps.refl _

theorem Steps_printf_loop (P : ℤ → Prop) (dst : Symbol) (op : Opcode) :
    ∀ (fuel : Nat) (format : Option (List Char)) (s : List Char) (arg : ℤ)
      (args : List LLVMValue) (rop : RuntimeOptimizer)
      (r : RuntimeOptimizer × Option (List Char × List LLVMValue)),
      llvm_gen_printf_loop op fuel format s arg args rop = some r → Steps dst P rop r.1 := by
  intro fuel
  induction fuel with
  | zero =>
    intro format s arg args rop r h
    simp [llvm_gen_printf_loop] at h
  | succ n ih =>
    intro format s arg args rop r h
    cases format with
    | none => simp [llvm_gen_printf_loop] at h
    | some fmt =>
      cases fmt with
      | nil =>
        simp only [llvm_gen_printf_loop, Option.some.injEq] at h
        subst h
        exact Steps.refl _
      | cons c rest =>
        simp only [llvm_gen_printf_loop] at h
        split at h
        · cases h
        · rename_i rop1 hs
          cases h
          exact Steps_printf_step P dst _ _ _ _ _ _ _ _ hs
        · rename_i rop1 f1 s1 arg1 args1 hs
          exact (Steps_printf_step P dst _ _ _ _ _ _ _ _ hs).seq (ih _ _ _ _ _ _ h)

theorem Steps_printf (P : ℤ → Prop) (dst : Symbol) (rop rop1 : RuntimeOptimizer) (opnum : Nat)
    (h : llvm_gen_printf rop opnum = some rop1) : Steps dst P rop rop1 := by
  unfold llvm_gen_printf at h
  split at h
  · cases h
  · split at h
    · cases h
    · split at h
      · cases h; exact Steps_warning dst P _ _
      · split at h
        · cases h
        · simp only at h
          split at h
          · cases h
          · rename_i hl
            cases h
            exact Steps_printf_loop P dst _ _ _ _ _ _ _ _ hl
          · rename_i hl
            cases h
            exact (Steps_printf_loop P dst _ _ _ _ _ _ _ _ hl).seq
              (Steps_CreateCall dst P _ _ _)

theorem frame_error (rop : RuntimeOptimizer) (msg : String) : (rop.error msg).frame = rop.frame :=
  rfl

theorem frame_warning (rop : RuntimeOptimizer) (msg : String) :
    (rop.warning msg).frame = rop.frame := rfl

theorem frame_info (rop : RuntimeOptimizer) (msg : String) : (rop.info msg).frame = rop.frame :=
  rfl

theorem frame_emit (rop : RuntimeOptimizer) (instr : Instruction) :
    (rop.emit instr).frame = rop.frame := by
  unfold RuntimeOptimizer.emit
  split <;> rfl

theorem frame_CreateLoad (rop : RuntimeOptimizer) (p : LLVMValue) :
    (rop.CreateLoad p).2.frame = rop.frame := by
  have h := frame_emit rop (Instruction.Load rop.m_next_id p)
  simp only [RuntimeOptimizer.frame, Prod.mk.injEq] at h ⊢
  exact h

theorem frame_CreateStore (rop : RuntimeOptimizer) (v p : LLVMValue) :
    (rop.CreateStore v p).frame = rop.frame := frame_emit rop _

theorem frame_getLLVMSymbolBase (rop : RuntimeOptimizer) (sym : Symbol) :
    (getLLVMSymbolBase rop sym).2.frame = rop.frame := by
  unfold getLLVMSymbolBase
  simp only
  split <;> rfl

theorem frame_loadLLVMValue (rop : RuntimeOptimizer) (sym : Symbol) (c d : ℤ) :
    (loadLLVMValue rop sym c d).2.frame = rop.frame := by
  have hb := frame_getLLVMSymbolBase rop sym
  unfold loadLLVMValue LLVMLoadShaderGlobal
  simp only
  split_ifs <;> (try split) <;>
    first
    | rfl
    | exact frame_CreateLoad _ _
    | (rename_i heq
       rw [heq] at hb
       first
       | exact hb
       | exact (frame_CreateLoad _ _).trans hb)

theorem frame_storeLLVMValue (rop : RuntimeOptimizer) (v : LLVMValue) (sym : Symbol) (c d : ℤ) :
    (storeLLVMValue rop v sym c d).frame = rop.frame := by
  have hb := frame_getLLVMSymbolBase rop sym
  unfold storeLLVMValue
  simp only
  split_ifs <;> (try split) <;>
    first
    | rfl
    | (rename_i heq
       rw [heq] at hb
       first
       | exact hb
       | exact (frame_CreateStore _ _ _).trans hb)

theorem frame_puntOnDerivs (dst : Symbol) (rop : RuntimeOptimizer) :
    (puntOnDerivs dst rop).frame = rop.frame := by
  unfold puntOnDerivs
  split_ifs <;> rfl

theorem frame_of_Steps {dst : Symbol} {P : ℤ → Prop} {rop rop1 : RuntimeOptimizer}
    (h : Steps dst P rop rop1) : rop1.frame = rop.frame := by
  induction h with
  | refl _ => rfl
  | load rop sym comp d rop1 _ ih => exact ih.trans (frame_loadLLVMValue _ _ _ _)
  | store rop v k rop1 _ _ ih =>
    exact ih.trans ((frame_puntOnDerivs _ _).trans (frame_storeLLVMValue _ _ _ _ _))
  | error rop msg rop1 _ ih => exact ih
  | warning rop msg rop1 _ ih => exact ih
  | info rop msg rop1 _ ih => exact ih
  | emit rop instr rop1 _ _ ih => exact ih.trans (frame_emit _ _)
  | setInsertPoint rop b pos rop1 _ ih => exact ih

theorem mem_flatten_modify {α : Type} (f : List α → List α) (x : α) :
    ∀ (l : List (List α)) (k : Nat), x ∈ (l.modify f k).flatten →
      x ∈ l.flatten ∨ ∃ b ∈ l, x ∈ f b := by
  intro l
  induction l with
  | nil => intro k h; cases k <;> simp [List.modify] at h
  | cons a rest ih =>
    intro k h
    cases k with
    | zero =>
      simp only [List.modify_zero_cons, List.flatten_cons, List.mem_append] at h
      rcases h with h | h
      · exact Or.inr ⟨a, List.mem_cons_self _ _, h⟩
      · exact Or.inl (by simp only [List.flatten_cons, List.mem_append]; exact Or.inr h)
    | succ n =>
      simp only [List.modify_succ_cons, List.flatten_cons, List.mem_append] at h
      rcases h with h | h
      · exact Or.inl (by simp only [List.flatten_cons, List.mem_append]; exact Or.inl h)
      · rcases ih n h with h1 | ⟨b, hb, hx⟩
        · exact Or.inl (by simp only [List.flatten_cons, List.mem_append]; exact Or.inr h1)
        · exact Or.inr ⟨b, List.mem_cons_of_mem _ hb, hx⟩

theorem mem_allInstrs_emit (rop : RuntimeOptimizer) (instr x : Instruction)
    (h : x ∈ (rop.emit instr).allInstrs) : x = instr ∨ x ∈ rop.allInstrs := by
  unfold RuntimeOptimizer.emit at h
  unfold RuntimeOptimizer.allInstrs at h ⊢
  split at h
  · rcases mem_flatten_modify _ x _ _ h with h1 | ⟨b, hb, hx⟩
    · exact Or.inr h1
    · simp only [List.mem_append, List.mem_singleton] at hx
      rcases hx with hx | hx
      · exact Or.inr (List.mem_flatten.mpr ⟨b, hb, hx⟩)
      · exact Or.inl hx
  · rename_i k _
    rcases mem_flatten_modify _ x _ _ h with h1 | ⟨b, hb, hx⟩
    · exact Or.inr h1
    · simp only [insertAt, List.mem_append, List.mem_cons] at hx
      rcases hx with hx | hx | hx
      · exact Or.inr (List.mem_flatten.mpr ⟨b, hb, List.mem_of_mem_take hx⟩)
      · exact Or.inl hx
      · exact Or.inr (List.mem_flatten.mpr ⟨b, hb, List.mem_of_mem_drop hx⟩)

theorem infos_emit (rop : RuntimeOptimizer) (instr : Instruction) :
    (rop.emit instr).m_infos = rop.m_infos := by
  unfold RuntimeOptimizer.emit
  split <;> rfl

theorem infos_getLLVMSymbolBase (rop : RuntimeOptimizer) (sym : Symbol) :
    (getLLVMSymbolBase rop sym).2.m_infos = rop.m_infos := by
  unfold getLLVMSymbolBase
  simp only
  split <;> rfl

theorem blocks_getLLVMSymbolBase (rop : RuntimeOptimizer) (sym : Symbol) :
    (getLLVMSymbolBase rop sym).2.allInstrs = rop.allInstrs := by
  unfold getLLVMSymbolBase
  simp only
  split <;> rfl

theorem infos_CreateLoad (rop : RuntimeOptimizer) (p : LLVMValue) :
    (rop.CreateLoad p).2.m_infos = rop.m_infos :=
  infos_emit rop _

theorem mem_allInstrs_CreateLoad (rop : RuntimeOptimizer) (p : LLVMValue) (x : Instruction)
    (h : x ∈ (rop.CreateLoad p).2.allInstrs) :
    (∀ v q, x ≠ Instruction.Store v q) ∨ x ∈ rop.allInstrs := by
  have h1 : x ∈ (rop.emit (Instruction.Load rop.m_next_id p)).allInstrs := h
  rcases mem_allInstrs_emit _ _ _ h1 with h2 | h2
  · exact Or.inl (fun v q hq => by rw [h2] at hq; cases hq)
  · exact Or.inr h2

theorem infos_loadLLVMValue (rop : RuntimeOptimizer) (sym : Symbol) (c d : ℤ) :
    (loadLLVMValue rop sym c d).2.m_infos = rop.m_infos := by
  have hb := infos_getLLVMSymbolBase rop sym
  unfold loadLLVMValue LLVMLoadShaderGlobal
  simp only
  split_ifs <;> (try split) <;>
    first
    | rfl
    | exact infos_CreateLoad _ _
    | (rename_i heq
       rw [heq] at hb
       first
       | exact hb
       | exact (infos_CreateLoad _ _).trans hb)

theorem mem_allInstrs_loadLLVMValue (rop : RuntimeOptimizer) (sym : Symbol) (c d : ℤ)
    (x : Instruction) (h : x ∈ (loadLLVMValue rop sym c d).2.allInstrs) :
    (∀ v q, x ≠ Instruction.Store v q) ∨ x ∈ rop.allInstrs := by
  have hb := blocks_getLLVMSymbolBase rop sym
  unfold loadLLVMValue LLVMLoadShaderGlobal at h
  simp only at h
  split_ifs at h <;> (try split at h) <;>
    first
    | exact Or.inr h
    | exact mem_allInstrs_CreateLoad _ _ _ h
    | (rename_i heq
       rw [heq] at hb
       first
       | exact Or.inr (hb ▸ h)
       | (rcases mem_allInstrs_CreateLoad _ _ _ h with h1 | h1
          · exact Or.inl h1
          · exact Or.inr (hb ▸ h1)))

theorem storeLLVMValue_derivs (rop : RuntimeOptimizer) (v : LLVMValue) (dst : Symbol) (c : ℤ)
    (hd : dst.has_derivs = true) :
    storeLLVMValue rop v dst c 0 =
      match rop.m_named_values.lookup dst.dealias_mangled with
      | none =>
          rop.error "Couldn't find symbol '%s' (unmangled = '%s'). Did you forget to allocate it?"
      | some aggregate =>
          rop.CreateStore v (LLVMValue.ConstGEP2_32 aggregate 0
            (min (dst.typespec.simpletype.aggregate : ℤ) c)) := by
  unfold storeLLVMValue getLLVMSymbolBase
  simp only [hd, Bool.not_true, Bool.false_and, Bool.and_false, zero_mul, add_zero]
  cases List.lookup dst.dealias_mangled rop.m_named_values <;> simp

theorem storeLLVMValue_unallocated (rop : RuntimeOptimizer) (v : LLVMValue) (sym : Symbol)
    (c d : ℤ) (h : rop.m_named_values.lookup sym.dealias_mangled = none) :
    storeLLVMValue rop v sym c d =
      rop.error (if !sym.has_derivs && decide (d ≠ 0) then
          "Tried to store to symbol '%s', component %d, deriv_idx %d but doesn't have derivatives"
        else
          "Couldn't find symbol '%s' (unmangled = '%s'). Did you forget to allocate it?") := by
  unfold storeLLVMValue getLLVMSymbolBase
  simp only [h]
  split_ifs <;> rfl

/-- What a run of lowering steps changes, for a destination with derivatives:
the layer and the maps stay as they are, the info channel grows, every store
instruction that is added writes a component `c` with `P c` of the aggregate
of the destination, and the derivative marker is logged unless no store was
added. -/
theorem Steps_effect {dst : Symbol} {P : ℤ → Prop} {rop rop1 : RuntimeOptimizer}
    (h : Steps dst P rop rop1) (hd : dst.has_derivs = true) :
    rop1.frame = rop.frame
    ∧ ∃ extra : List String, rop1.m_infos = rop.m_infos ++ extra
      ∧ ((∀ x ∈ rop1.allInstrs, x ∈ rop.allInstrs ∨ ∀ v p, x ≠ Instruction.Store v p)
          ∨ "punting on derivatives for now" ∈ extra)
      ∧ ∀ x ∈ rop1.allInstrs, x ∈ rop.allInstrs ∨ (∀ v p, x ≠ Instruction.Store v p)
          ∨ ∃ (aggregate v : LLVMValue) (c : ℤ),
              rop.m_named_values.lookup dst.dealias_mangled = some aggregate ∧ P c
              ∧ x = Instruction.Store v (LLVMValue.ConstGEP2_32 aggregate 0
                      (min (dst.typespec.simpletype.aggregate : ℤ) c)) := by
  induction h with
  | refl r =>
    exact ⟨rfl, [], (List.append_nil _).symm, Or.inl fun x hx => Or.inl hx,
      fun x hx => Or.inl hx⟩
  | load r sym comp d r1 _ ih =>
    obtain ⟨hf, extra, hi, hm, hs⟩ := ih
    have hfr := frame_loadLLVMValue r sym comp d
    have hnv : (loadLLVMValue r sym comp d).2.m_named_values = r.m_named_values := by
      have := congrArg (fun f => f.2.2.1) hfr
      exact this
    refine ⟨hf.trans hfr, extra, by rw [hi, infos_loadLLVMValue], ?_, ?_⟩
    · rcases hm with hm | hm
      · refine Or.inl fun x hx => ?_
        rcases hm x hx with h1 | h1
        · rcases mem_allInstrs_loadLLVMValue _ _ _ _ _ h1 with h2 | h2
          · exact Or.inr h2
          · exact Or.inl h2
        · exact Or.inr h1
      · exact Or.inr hm
    · intro x hx
      rcases hs x hx with h1 | h1 | ⟨a, v, c, ha, hc, hx1⟩
      · rcases mem_allInstrs_loadLLVMValue _ _ _ _ _ h1 with h2 | h2
        · exact Or.inr (Or.inl h2)
        · exact Or.inl h2
      · exact Or.inr (Or.inl h1)
      · exact Or.inr (Or.inr ⟨a, v, c, by rw [← hnv]; exact ha, hc, hx1⟩)
  | store r v k r1 hk _ ih =>
    obtain ⟨hf, extra, hi, _, hs⟩ := ih
    have hfr : (puntOnDerivs dst (storeLLVMValue r v dst k 0)).frame = r.frame :=
      (frame_puntOnDerivs _ _).trans (frame_storeLLVMValue _ _ _ _ _)
    have hnv : (puntOnDerivs dst (storeLLVMValue r v dst k 0)).m_named_values
        = r.m_named_values := by
      have := congrArg (fun f => f.2.2.1) hfr
      exact this
    have hpi : (puntOnDerivs dst (storeLLVMValue r v dst k 0)).m_infos
        = r.m_infos ++ ["punting on derivatives for now"] := by
      simp only [puntOnDerivs, hd, if_true, RuntimeOptimizer.info]
      rw [storeLLVMValue_derivs r v dst k hd]
      split
      · rfl
      · rw [RuntimeOptimizer.CreateStore, infos_emit]
    have hpm : ∀ x ∈ (puntOnDerivs dst (storeLLVMValue r v dst k 0)).allInstrs,
        x ∈ r.allInstrs ∨ ∃ aggregate : LLVMValue,
          r.m_named_values.lookup dst.dealias_mangled = some aggregate
          ∧ x = Instruction.Store v (LLVMValue.ConstGEP2_32 aggregate 0
                  (min (dst.typespec.simpletype.aggregate : ℤ) k)) := by
      intro x hx
      simp only [puntOnDerivs, hd, if_true] at hx
      rw [storeLLVMValue_derivs r v dst k hd] at hx
      split at hx
      · exact Or.inl hx
      · rename_i a ha
        rcases mem_allInstrs_emit _ _ _ hx with h1 | h1
        · exact Or.inr ⟨a, ha, h1⟩
        · exact Or.inl h1
    refine ⟨hf.trans hfr, "punting on derivatives for now" :: extra, ?_, Or.inr ?_, ?_⟩
    · rw [hi, hpi, List.append_assoc]
      rfl
    · exact List.mem_cons_self _ _
    · intro x hx
      rcases hs x hx with h1 | h1 | ⟨a, w, c, ha, hc, hx1⟩
      · rcases hpm x h1 with h2 | ⟨a, ha, h2⟩
        · exact Or.inl h2
        · exact Or.inr (Or.inr ⟨a, v, k, ha, hk, h2⟩)
      · exact Or.inr (Or.inl h1)
      · exact Or.inr (Or.inr ⟨a, w, c, by rw [← hnv]; exact ha, hc, hx1⟩)
  | error r msg r1 _ ih => exact ih
  | warning r msg r1 _ ih => exact ih
  | info r msg r1 _ ih =>
    obtain ⟨hf, extra, hi, hm, hs⟩ := ih
    refine ⟨hf, msg :: extra, ?_, ?_, hs⟩
    · rw [hi]
      simp [RuntimeOptimizer.info]
    · rcases hm with hm | hm
      · exact Or.inl hm
      · exact Or.inr (List.mem_cons_of_mem _ hm)
  | emit r instr r1 hne _ ih =>
    obtain ⟨hf, extra, hi, hm, hs⟩ := ih
    have hnv : (r.emit instr).m_named_values = r.m_named_values := by
      have := congrArg (fun f => f.2.2.1) (frame_emit r instr)
      exact this
    refine ⟨hf.trans (frame_emit _ _), extra, by rw [hi, infos_emit], ?_, ?_⟩
    · rcases hm with hm | hm
      · refine Or.inl fun x hx => ?_
        rcases hm x hx with h1 | h1
        · rcases mem_allInstrs_emit _ _ _ h1 with h2 | h2
          · exact Or.inr (h2 ▸ hne)
          · exact Or.inl h2
        · exact Or.inr h1
      · exact Or.inr hm
    · intro x hx
      rcases hs x hx with h1 | h1 | ⟨a, v, c, ha, hc, hx1⟩
      · rcases mem_allInstrs_emit _ _ _ h1 with h2 | h2
        · exact Or.inr (Or.inl (h2 ▸ hne))
        · exact Or.inl h2
      · exact Or.inr (Or.inl h1)
      · exact Or.inr (Or.inr ⟨a, v, c, by rw [← hnv]; exact ha, hc, hx1⟩)
  | setInsertPoint r b pos r1 _ ih => exact ih

theorem lookup_some_mem {β : Type} (a : String) (b : β) :
    ∀ l : List (String × β), l.lookup a = some b → (a, b) ∈ l := by
  intro l
  induction l with
  | nil => intro h; simp at h
  | cons p rest ih =>
    intro h
    obtain ⟨k, v⟩ := p
    by_cases hk : a = k
    · subst hk
      simp only [List.lookup_cons, beq_self_eq_true, Option.some.injEq] at h
      subst h
      exact List.mem_cons_self _ _
    · have hb : (a == k) = false := by simpa using hk
      simp only [List.lookup_cons, hb] at h
      exact List.mem_cons_of_mem _ (ih h)

theorem lookup_eq_none_iff_not_mem {β : Type} (a : String) :
    ∀ l : List (String × β), l.lookup a = none ↔ a ∉ l.map Prod.fst := by
  intro l
  induction l with
  | nil => simp
  | cons p rest ih =>
    obtain ⟨k, v⟩ := p
    by_cases hk : a = k
    · subst hk
      simp
    · have hb : (a == k) = false := by simpa using hk
      simp only [List.lookup_cons, hb, List.map_cons, List.mem_cons, not_or]
      rw [ih]
      exact ⟨fun h => ⟨hk, h⟩, fun h => h.2⟩

theorem llvm_generator_table_keys :
    llvm_generator_table.map Prod.fst = registeredGeneratorNames := rfl

theorem opcode_and_destination_of_binary_op (rop rop1 : RuntimeOptimizer) (opnum : Nat)
    (h : llvm_gen_binary_op rop opnum = some rop1) :
    ∃ op dst, rop.m_ops[opnum]? = some op ∧ rop.opargsym op 0 = some dst := by
  cases hop : rop.m_ops[opnum]? with
  | none => simp [llvm_gen_binary_op, hop] at h
  | some op =>
    cases hdst : rop.opargsym op 0 with
    | none => simp [llvm_gen_binary_op, hop, hdst] at h
    | some dst => exact ⟨op, dst, rfl, hdst⟩

theorem opcode_and_destination_of_compare_op (rop rop1 : RuntimeOptimizer) (opnum : Nat)
    (h : llvm_gen_compare_op rop opnum = some rop1) :
    ∃ op dst, rop.m_ops[opnum]? = some op ∧ rop.opargsym op 0 = some dst := by
  cases hop : rop.m_ops[opnum]? with
  | none => simp [llvm_gen_compare_op, hop] at h
  | some op =>
    cases hdst : rop.opargsym op 0 with
    | none => simp [llvm_gen_compare_op, hop, hdst] at h
    | some dst => exact ⟨op, dst, rfl, hdst⟩

theorem opcode_and_destination_of_unary_op (rop rop1 : RuntimeOptimizer) (opnum : Nat)
    (h : llvm_gen_unary_op rop opnum = some rop1) :
    ∃ op dst, rop.m_ops[opnum]? = some op ∧ rop.opargsym op 0 = some dst := by
  cases hop : rop.m_ops[opnum]? with
  | none => simp [llvm_gen_unary_op, hop] at h
  | some op =>
    cases hdst : rop.opargsym op 0 with
    | none => simp [llvm_gen_unary_op, hop, hdst] at h
    | some dst => exact ⟨op, dst, rfl, hdst⟩

theorem opcode_and_destination_of_assign (rop rop1 : RuntimeOptimizer) (opnum : Nat)
    (h : llvm_gen_assign rop opnum = some rop1) :
    ∃ op dst, rop.m_ops[opnum]? = some op ∧ rop.opargsym op 0 = some dst := by
  cases hop : rop.m_ops[opnum]? with
  | none => simp [llvm_gen_assign, hop] at h
  | some op =>
    cases hdst : rop.opargsym op 0 with
    | none => simp [llvm_gen_assign, hop, hdst] at h
    | some dst => exact ⟨op, dst, rfl, hdst⟩

theorem opcode_and_destination_of_compref (rop rop1 : RuntimeOptimizer) (opnum : Nat)
    (h : llvm_gen_compref rop opnum = some rop1) :
    ∃ op dst, rop.m_ops[opnum]? = some op ∧ rop.opargsym op 0 = some dst := by
  cases hop : rop.m_ops[opnum]? with
  | none => simp [llvm_gen_compref, hop] at h
  | some op =>
    cases hdst : rop.opargsym op 0 with
    | none => simp [llvm_gen_compref, hop, hdst] at h
    | some dst => exact ⟨op, dst, rfl, hdst⟩

theorem opcode_and_destination_of_construct_aggregate (rop rop1 : RuntimeOptimizer) (opnum : Nat)
    (h : llvm_gen_construct_aggregate rop opnum = some rop1) :
    ∃ op dst, rop.m_ops[opnum]? = some op ∧ rop.opargsym op 0 = some dst := by
  cases hop : rop.m_ops[opnum]? with
  | none => simp [llvm_gen_construct_aggregate, hop] at h
  | some op =>
    cases hdst : rop.opargsym op 0 with
    | none => simp [llvm_gen_construct_aggregate, hop, hdst] at h
    | some dst => exact ⟨op, dst, rfl, hdst⟩

theorem opcode_and_destination_of_unary_reduction (rop rop1 : RuntimeOptimizer) (opnum : Nat)
    (h : llvm_gen_unary_reduction rop opnum = some rop1) :
    ∃ op dst, rop.m_ops[opnum]? = some op ∧ rop.opargsym op 0 = some dst := by
  cases hop : rop.m_ops[opnum]? with
  | none => simp [llvm_gen_unary_reduction, hop] at h
  | some op =>
    cases hdst : rop.opargsym op 0 with
    | none => simp [llvm_gen_unary_reduction, hop, hdst] at h
    | some dst => exact ⟨op, dst, rfl, hdst⟩

theorem opcode_and_destination_of_dot (rop rop1 : RuntimeOptimizer) (opnum : Nat)
    (h : llvm_gen_dot rop opnum = some rop1) :
    ∃ op dst, rop.m_ops[opnum]? = some op ∧ rop.opargsym op 0 = some dst := by
  cases hop : rop.m_ops[opnum]? with
  | none => simp [llvm_gen_dot, hop] at h
  | some op =>
    cases hdst : rop.opargsym op 0 with
    | none => simp [llvm_gen_dot, hop, hdst] at h
    | some dst => exact ⟨op, dst, rfl, hdst⟩

theorem opcode_and_destination_of_cross (rop rop1 : RuntimeOptimizer) (opnum : Nat)
    (h : llvm_gen_cross rop opnum = some rop1) :
    ∃ op dst, rop.m_ops[opnum]? = some op ∧ rop.opargsym op 0 = some dst := by
  cases hop : rop.m_ops[opnum]? with
  | none => simp [llvm_gen_cross, hop] at h
  | some op =>
    cases hdst : rop.opargsym op 0 with
    | none => simp [llvm_gen_cross, hop, hdst] at h
    | some dst => exact ⟨op, dst, rfl, hdst⟩

theorem opcode_and_destination_of_normalize (rop rop1 : RuntimeOptimizer) (opnum : Nat)
    (h : llvm_gen_normalize rop opnum = some rop1) :
    ∃ op dst, rop.m_ops[opnum]? = some op ∧ rop.opargsym op 0 = some dst := by
  cases hop : rop.m_ops[opnum]? with
  | none => simp [llvm_gen_normalize, hop] at h
  | some op =>
    cases hdst : rop.opargsym op 0 with
    | none => simp [llvm_gen_normalize, hop, hdst] at h
    | some dst => exact ⟨op, dst, rfl, hdst⟩

theorem generator_Steps (name : String) (found : OpLLVMer)
    (hfound : llvm_generator_table.lookup name = some found)
    (hname : name ∈ valueLoweringNames) (P : ℤ → Prop) (rop rop1 : RuntimeOptimizer)
    (opnum : Nat) (op : Opcode) (dst : Symbol)
    (hP : ∀ i : Nat, i < dst.typespec.simpletype.aggregate ∨ i = 0 → P (i : ℤ))
    (hop : rop.m_ops[opnum]? = some op) (hdst : rop.opargsym op 0 = some dst)
    (h : found rop opnum = some rop1) : Steps dst P rop rop1 := by
  have hm := lookup_some_mem name found _ hfound
  simp only [llvm_generator_table, List.mem_cons, Prod.mk.injEq, List.mem_singleton,
    List.mem_nil_iff, or_false] at hm
  repeat' refine Or.elim hm (fun hm => ?_) (fun hm => ?_)
  all_goals
    obtain ⟨hn0, hf0⟩ := hm
    subst hn0
    subst hf0
    first
      | exact Steps_binary_op P rop rop1 opnum op dst hP hop hdst h
      | exact Steps_compare_op P rop rop1 opnum op dst hP hop hdst h
      | exact Steps_unary_op P rop rop1 opnum op dst hP hop hdst h
      | exact Steps_assign P rop rop1 opnum op dst hP hop hdst h
      | exact Steps_compref P rop rop1 opnum op dst hP hop hdst h
      | exact Steps_construct_aggregate P rop rop1 opnum op dst hP hop hdst h
      | exact Steps_unary_reduction P rop rop1 opnum op dst hP hop hdst h
      | exact Steps_dot P rop rop1 opnum op dst hP hop hdst h
      | exact Steps_cross P rop rop1 opnum op dst hP hop hdst h
      | exact Steps_normalize P rop rop1 opnum op dst hP hop hdst h
      | exact absurd hname (by decide)

theorem generator_frame (name : String) (found : OpLLVMer)
    (hfound : llvm_generator_table.lookup name = some found) (rop rop1 : RuntimeOptimizer)
    (opnum : Nat) (h : found rop opnum = some rop1) : rop1.frame = rop.frame := by
  have hm := lookup_some_mem name found _ hfound
  have dflt : Symbol := Symbol.mkGlobal "" TypeSpec.int
  simp only [llvm_generator_table, List.mem_cons, Prod.mk.injEq, List.mem_singleton,
    List.mem_nil_iff, or_false] at hm
  repeat' refine Or.elim hm (fun hm => ?_) (fun hm => ?_)
  all_goals
    obtain ⟨hn0, hf0⟩ := hm
    subst hn0
    subst hf0
    first
      | (obtain ⟨op, dst, hop, hdst⟩ := opcode_and_destination_of_binary_op rop rop1 opnum h
         exact frame_of_Steps
           (Steps_binary_op (fun _ => True) rop rop1 opnum op dst (fun _ _ => trivial) hop hdst h))
      | (obtain ⟨op, dst, hop, hdst⟩ := opcode_and_destination_of_compare_op rop rop1 opnum h
         exact frame_of_Steps
           (Steps_compare_op (fun _ => True) rop rop1 opnum op dst (fun _ _ => trivial) hop hdst h))
      | (obtain ⟨op, dst, hop, hdst⟩ := opcode_and_destination_of_unary_op rop rop1 opnum h
         exact frame_of_Steps
           (Steps_unary_op (fun _ => True) rop rop1 opnum op dst (fun _ _ => trivial) hop hdst h))
      | (obtain ⟨op, dst, hop, hdst⟩ := opcode_and_destination_of_assign rop rop1 opnum h
         exact frame_of_Steps
           (Steps_assign (fun _ => True) rop rop1 opnum op dst (fun _ _ => trivial) hop hdst h))
      | (obtain ⟨op, dst, hop, hdst⟩ := opcode_and_destination_of_compref rop rop1 opnum h
         exact frame_of_Steps
           (Steps_compref (fun _ => True) rop rop1 opnum op dst (fun _ _ => trivial) hop hdst h))
      | (obtain ⟨op, dst, hop, hdst⟩ := opcode_and_destination_of_construct_aggregate rop rop1 opnum h
         exact frame_of_Steps
           (Steps_construct_aggregate (fun _ => True) rop rop1 opnum op dst (fun _ _ => trivial) hop hdst h))
      | (obtain ⟨op, dst, hop, hdst⟩ := opcode_and_destination_of_unary_reduction rop rop1 opnum h
         exact frame_of_Steps
           (Steps_unary_reduction (fun _ => True) rop rop1 opnum op dst (fun _ _ => trivial) hop hdst h))
      | (obtain ⟨op, dst, hop, hdst⟩ := opcode_and_destination_of_dot rop rop1 opnum h
         exact frame_of_Steps
           (Steps_dot (fun _ => True) rop rop1 opnum op dst (fun _ _ => trivial) hop hdst h))
      | (obtain ⟨op, dst, hop, hdst⟩ := opcode_and_destination_of_cross rop rop1 opnum h
         exact frame_of_Steps
           (Steps_cross (fun _ => True) rop rop1 opnum op dst (fun _ _ => trivial) hop hdst h))
      | (obtain ⟨op, dst, hop, hdst⟩ := opcode_and_destination_of_normalize rop rop1 opnum h
         exact frame_of_Steps
           (Steps_normalize (fun _ => True) rop rop1 opnum op dst (fun _ _ => trivial) hop hdst h))
      | exact frame_of_Steps (Steps_if (fun _ => True) dflt rop rop1 opnum h)
      | exact frame_of_Steps (Steps_loop_op (fun _ => True) dflt rop rop1 opnum h)
      | exact frame_of_Steps (Steps_printf (fun _ => True) dflt rop rop1 opnum h)

theorem layer_of_frame {a b : RuntimeOptimizer} (h : a.frame = b.frame) : a.layer = b.layer := by
  simp only [RuntimeOptimizer.frame, Prod.mk.injEq] at h
  obtain ⟨h1, h2, _, _, _, h6, h7, h8⟩ := h
  simp only [RuntimeOptimizer.layer, h1, h2, h6, h7, h8]

theorem registered_of_lookup (name : String) (found : OpLLVMer)
    (h : llvm_generator_table.lookup name = some found) : name ∈ registeredGeneratorNames := by
  by_contra hn
  rw [← llvm_generator_table_keys] at hn
  rw [(lookup_eq_none_iff_not_mem name llvm_generator_table).mpr hn] at h
  cases h

theorem not_registered_of_lookup (name : String)
    (h : llvm_generator_table.lookup name = none) : name ∉ registeredGeneratorNames := by
  rw [← llvm_generator_table_keys]
  exact (lookup_eq_none_iff_not_mem name llvm_generator_table).mp h

theorem lowerOps_spec (bb_start : List Bool) :
    ∀ (ops : List Opcode) (opnum : Nat) (rop rop1 : RuntimeOptimizer) (b : Bool),
      lowerOps bb_start ops opnum rop = some (rop1, b) →
      rop1.frame = rop.frame
      ∧ (b = false ↔ ∃ op ∈ ops, unsupportedOp op.opname)
      ∧ (b = false → rop1.m_errors.getLast? = some "LLVMOSL: Unsupported op %s") := by
  intro ops
  induction ops with
  | nil =>
    intro opnum rop rop1 b h
    simp only [lowerOps, Option.some.injEq, Prod.mk.injEq] at h
    obtain ⟨h1, h2⟩ := h
    subst h1 h2
    simp
  | cons op rest ih =>
    intro opnum rop rop1 b h
    unfold lowerOps at h
    simp only at h
    split at h
    · cases h
    · rename_i r1 hr1
      have hfr : r1.frame = rop.frame := by
        split_ifs at hr1
        · split at hr1
          · split_ifs at hr1 <;> cases hr1 <;> rfl
          · cases hr1
        · cases hr1; rfl
      split at h
      · rename_i found hfound
        have hreg := registered_of_lookup _ _ hfound
        cases hf : found r1 opnum with
        | none => simp [hf] at h
        | some r2 =>
          simp only [hf, Option.bind_some] at h
          obtain ⟨h1, h2, h3⟩ := ih _ _ _ _ h
          refine ⟨h1.trans ((generator_frame _ _ hfound _ _ _ hf).trans hfr), ?_, h3⟩
          rw [h2]
          constructor
          · rintro ⟨o, ho, hu⟩
            exact ⟨o, List.mem_cons_of_mem _ ho, hu⟩
          · rintro ⟨o, ho, hu⟩
            rcases List.mem_cons.mp ho with rfl | ho1
            · exact absurd hreg hu.1
            · exact ⟨o, ho1, hu⟩
      · rename_i hnone
        have hnr := not_registered_of_lookup _ hnone
        split_ifs at h with hne
        · obtain ⟨h1, h2, h3⟩ := ih _ _ _ _ h
          refine ⟨h1.trans hfr, ?_, h3⟩
          rw [h2]
          constructor
          · rintro ⟨o, ho, hu⟩
            exact ⟨o, List.mem_cons_of_mem _ ho, hu⟩
          · rintro ⟨o, ho, hu⟩
            rcases List.mem_cons.mp ho with rfl | ho1
            · rcases hne with hne | hne
              · exact absurd hne hu.2.1
              · exact absurd hne hu.2.2
            · exact ⟨o, ho1, hu⟩
        · simp only [Option.some.injEq, Prod.mk.injEq] at h
          obtain ⟨h1, h2⟩ := h
          subst h1 h2
          refine ⟨hfr, ?_, ?_⟩
          · simp only [true_iff]
            refine ⟨op, List.mem_cons_self _ _, hnr, ?_, ?_⟩
            · exact fun hh => hne (Or.inl hh)
            · exact fun hh => hne (Or.inr hh)
          · intro _
            simp [RuntimeOptimizer.error]

theorem layer_getOrAllocateLLVMSymbol (rop : RuntimeOptimizer) (sym : Symbol) :
    (getOrAllocateLLVMSymbol rop sym).2.layer = rop.layer := by
  unfold getOrAllocateLLVMSymbol
  simp only
  split <;> rfl

theorem frame_llvm_assign_initial_constant_loop (sym : Symbol) :
    ∀ (l : List Nat) (rop rop1 : RuntimeOptimizer),
      llvm_assign_initial_constant_loop sym l rop = some rop1 → rop1.frame = rop.frame := by
  intro l
  induction l with
  | nil =>
    intro rop rop1 h
    simp only [llvm_assign_initial_constant_loop, Option.some.injEq] at h
    subst h
    rfl
  | cons i rest ih =>
    intro rop rop1 h
    unfold llvm_assign_initial_constant_loop at h
    simp only at h
    split at h
    · cases h
    · exact (ih _ _ h).trans (frame_storeLLVMValue _ _ _ _ _)

theorem frame_llvm_assign_initial_constant (rop rop1 : RuntimeOptimizer) (sym : Symbol)
    (h : llvm_assign_initial_constant rop sym = some rop1) : rop1.frame = rop.frame := by
  unfold llvm_assign_initial_constant at h
  split_ifs at h
  exact frame_llvm_assign_initial_constant_loop sym _ _ _ h

theorem lookup_getOrAllocateLLVMSymbol (rop : RuntimeOptimizer) (sym : Symbol) (name : String)
    (hne : sym.dealias_mangled ≠ name) :
    (getOrAllocateLLVMSymbol rop sym).2.m_named_values.lookup name
      = rop.m_named_values.lookup name := by
  unfold getOrAllocateLLVMSymbol
  simp only
  split
  · have hb : (name == sym.dealias_mangled) = false := by
      simpa using fun h => hne h.symm
    simp only [List.lookup_cons, hb]
  · rfl

theorem setupSymbols_spec :
    ∀ (syms : List Symbol) (rop rop1 : RuntimeOptimizer),
      setupSymbols syms rop = some rop1 →
      rop1.layer = rop.layer ∧ rop1.m_bb_map = rop.m_bb_map
      ∧ ∀ name : String,
          (∀ s ∈ syms, ¬ SkipSymbol s = true → s.symtype ≠ SymType.SymTypeGlobal →
            s.dealias_mangled ≠ name) →
          rop1.m_named_values.lookup name = rop.m_named_values.lookup name := by
  intro syms
  induction syms with
  | nil =>
    intro rop rop1 h
    simp only [setupSymbols, Option.some.injEq] at h
    subst h
    exact ⟨rfl, rfl, fun _ _ => rfl⟩
  | cons s rest ih =>
    intro rop rop1 h
    unfold setupSymbols at h
    split_ifs at h with hs hg hc
    · obtain ⟨h1, h2, h3⟩ := ih _ _ h
      exact ⟨h1, h2, fun name hn => h3 name fun t ht => hn t (List.mem_cons_of_mem _ ht)⟩
    · obtain ⟨h1, h2, h3⟩ := ih _ _ h
      exact ⟨h1, h2, fun name hn => h3 name fun t ht => hn t (List.mem_cons_of_mem _ ht)⟩
    · cases hi : llvm_assign_initial_constant (getOrAllocateLLVMSymbol rop s).2 s with
      | none => simp [hi] at h
      | some r2 =>
        simp only [hi, Option.bind_some] at h
        obtain ⟨h1, h2, h3⟩ := ih _ _ h
        have hf := frame_llvm_assign_initial_constant _ _ _ hi
        have hnv : r2.m_named_values = (getOrAllocateLLVMSymbol rop s).2.m_named_values :=
          congrArg (fun f => f.2.2.1) hf
        have hbb : r2.m_bb_map = (getOrAllocateLLVMSymbol rop s).2.m_bb_map :=
          congrArg (fun f => f.2.2.2.2.1) hf
        have hbb2 : (getOrAllocateLLVMSymbol rop s).2.m_bb_map = rop.m_bb_map := by
          unfold getOrAllocateLLVMSymbol
          simp only
          split <;> rfl
        refine ⟨h1.trans ((layer_of_frame hf).trans (layer_getOrAllocateLLVMSymbol _ _)),
          h2.trans (hbb.trans hbb2), fun name hn => ?_⟩
        rw [h3 name fun t ht => hn t (List.mem_cons_of_mem _ ht), hnv]
        exact lookup_getOrAllocateLLVMSymbol rop s name
          (hn s (List.mem_cons_self _ _) hs hg)
    · obtain ⟨h1, h2, h3⟩ := ih _ _ h
      have hbb2 : (getOrAllocateLLVMSymbol rop s).2.m_bb_map = rop.m_bb_map := by
        unfold getOrAllocateLLVMSymbol
        simp only
        split <;> rfl
      refine ⟨h1.trans (layer_getOrAllocateLLVMSymbol _ _), h2.trans hbb2, fun name hn => ?_⟩
      rw [h3 name fun t ht => hn t (List.mem_cons_of_mem _ ht)]
      exact lookup_getOrAllocateLLVMSymbol rop s name (hn s (List.mem_cons_self _ _) hs hg)

theorem createBlocks_spec (bb_start : List Bool) :
    ∀ (l : List Nat) (rop : RuntimeOptimizer),
      (createBlocks bb_start l rop).layer = rop.layer
      ∧ (createBlocks bb_start l rop).m_named_values = rop.m_named_values := by
  intro l
  induction l with
  | nil => intro rop; exact ⟨rfl, rfl⟩
  | cons i rest ih =>
    intro rop
    unfold createBlocks
    split_ifs
    · obtain ⟨h1, h2⟩ := ih
        { (rop.BasicBlockCreate).2 with
          m_bb_map := (i, (rop.BasicBlockCreate).1) ::
            (rop.BasicBlockCreate).2.m_bb_map.filter fun e => e.1 ≠ i }
      exact ⟨h1, h2⟩
    · exact ih rop

/-- What `build_llvm_version` returns when its result is defined: the layer is
unchanged but for the recorded native version, the allocation map holds the
symbols that got storage, NULL is returned exactly when an opcode is
unsupported, then the last error reported is the unsupported-opcode error and
no native version is recorded, and otherwise the layer function is returned
and recorded. -/
theorem build_llvm_version_spec (rop : RuntimeOptimizer)
    (r : Option LayerFunction × RuntimeOptimizer) (h : build_llvm_version rop = some r) :
    r.2.m_ops = rop.m_ops ∧ r.2.m_symbols = rop.m_symbols
    ∧ (∀ name : String,
        (∀ s ∈ rop.m_symbols, ¬ SkipSymbol s = true → s.symtype ≠ SymType.SymTypeGlobal →
          s.dealias_mangled ≠ name) →
        r.2.m_named_values.lookup name = none)
    ∧ (r.1 = none ↔ ∃ op ∈ rop.m_ops, unsupportedOp op.opname)
    ∧ (r.1 = none → r.2.m_errors.getLast? = some "LLVMOSL: Unsupported op %s"
        ∧ r.2.m_llvm_version = rop.m_llvm_version)
    ∧ (∀ f, r.1 = some f → f = ⟨rop.m_layername, rop.m_id⟩ ∧ r.2.m_llvm_version = some f) := by
  unfold build_llvm_version at h
  simp only at h
  split at h
  · cases h
  · rename_i rop1 hsetup
    obtain ⟨hl1, _, hn1⟩ := setupSymbols_spec _ _ _ hsetup
    simp only [RuntimeOptimizer.layer, Prod.mk.injEq] at hl1
    obtain ⟨ho1, hs1, hln1, hid1, hv1⟩ := hl1
    split at h
    · cases h
    · rename_i bb_start _
      have hcb := createBlocks_spec bb_start (List.range rop1.m_ops.length)
        { rop1 with m_bb_map := [] }
      generalize createBlocks bb_start (List.range rop1.m_ops.length)
        { rop1 with m_bb_map := [] } = rop2 at h hcb
      obtain ⟨hl2, hn2⟩ := hcb
      simp only [RuntimeOptimizer.layer, Prod.mk.injEq] at hl2
      obtain ⟨ho2, hs2, hln2, hid2, hv2⟩ := hl2
      have hn2a : rop2.m_named_values = rop1.m_named_values := hn2
      split at h
      · cases h
      · rename_i rop3 hlow
        obtain ⟨hf3, hiff, herr⟩ := lowerOps_spec _ _ _ _ _ _ hlow
        have hnv3 : rop3.m_named_values = rop2.m_named_values :=
          congrArg (fun f => f.2.2.1) hf3
        have hl3 := layer_of_frame hf3
        simp only [RuntimeOptimizer.layer, Prod.mk.injEq] at hl3
        obtain ⟨ho3, hs3, hln3, hid3, hv3⟩ := hl3
        cases h
        refine ⟨ho3.trans (ho2.trans ho1), hs3.trans (hs2.trans hs1), ?_, ?_, ?_, ?_⟩
        · intro name hname
          rw [hnv3, hn2a]
          exact (hn1 name hname)
        · simp only [true_iff]
          have := hiff.mp rfl
          rw [ho2, ho1] at this
          exact this
        · intro _
          exact ⟨herr rfl, hv3.trans (hv2.trans hv1)⟩
        · intro f hf
          cases hf
      · rename_i rop3 hlow
        obtain ⟨hf3, hiff, _⟩ := lowerOps_spec _ _ _ _ _ _ hlow
        have hf4 := (frame_emit rop3 Instruction.RetVoid).trans hf3
        have hnv4 : (rop3.emit Instruction.RetVoid).m_named_values = rop2.m_named_values :=
          congrArg (fun f => f.2.2.1) hf4
        have hl4 := layer_of_frame hf4
        simp only [RuntimeOptimizer.layer, Prod.mk.injEq] at hl4
        obtain ⟨ho4, hs4, hln4, hid4, hv4⟩ := hl4
        cases h
        refine ⟨ho4.trans (ho2.trans ho1), hs4.trans (hs2.trans hs1), ?_, ?_, ?_, ?_⟩
        · intro name hname
          show (rop3.emit Instruction.RetVoid).m_named_values.lookup name = none
          rw [hnv4, hn2a]
          exact (hn1 name hname)
        · simp only [false_iff, reduceCtorEq]
          intro hex
          have := hiff.mpr (by rw [ho2, ho1]; exact hex)
          cases this
        · intro hh
          cases hh
        · intro f hf
          cases hf
          exact ⟨rfl, rfl⟩

theorem OP_div_aborts_on_closure (exec : ShadingExecution) (nargs : Nat) (args : List Nat)
    (runflags : List Bool) (bp ep : Nat)
    (h : ∃ k, k < 3 ∧ ∃ s, exec.sym (args.getD k 0) = some s ∧ s.typespec.is_closure = true) :
    ∃ msg, OP_div exec nargs args runflags bp ep = Except.error msg := by
  unfold OP_div
  split_ifs with hn
  · exact ⟨_, rfl⟩
  · split
    · rename_i Result A B hR hA hB
      obtain ⟨k, hk, s, hs, hc⟩ := h
      have hk3 : k = 0 ∨ k = 1 ∨ k = 2 := by omega
      rcases hk3 with rfl | rfl | rfl
      · rw [hR] at hs
        cases hs
        simp only [hc, Bool.true_or, if_true]
        exact ⟨_, rfl⟩
      · rw [hA] at hs
        cases hs
        simp only [hc, Bool.true_or]
        split_ifs <;> exact ⟨_, rfl⟩
      · rw [hB] at hs
        cases hs
        simp only [hc, Bool.true_or]
        split_ifs <;> exact ⟨_, rfl⟩
    · exact ⟨_, rfl⟩

theorem errors_setSym (e : ShadingExecution) (i : Nat) (s : Symbol) :
    (e.setSym i s).m_errors = e.m_errors := rfl

theorem errors_zero_derivs (e : ShadingExecution) (i : Nat) :
    (e.zero_derivs i).m_errors = e.m_errors := by
  unfold ShadingExecution.zero_derivs
  cases e.sym i <;> rfl

theorem errors_adjust_zero (e : ShadingExecution) (r : Nat) (b c : Bool)
    (rf : List Bool) (bp ep : Nat) :
    (if c = true then (e.adjust_varying r b rf bp ep).zero_derivs r
      else e.adjust_varying r b rf bp ep).m_errors = e.m_errors := by
  split_ifs
  · rw [errors_zero_derivs, errors_adjust_varying]
  · rw [errors_adjust_varying]

theorem errors_arefAssign (r a : Nat) (e e1 : ShadingExecution) (i j : Nat) (ind : ℤ)
    (h : arefAssign r a e i j ind = Except.ok e1) : e1.m_errors = e.m_errors := by
  unfold arefAssign at h
  split at h
  · exact errors_storeResult _ _ _ _ _ h
  · cases h

theorem errors_aassignAssign (r s : Nat) (e e1 : ShadingExecution) (i j : Nat) (ind : ℤ)
    (h : aassignAssign r s e i j ind = Except.ok e1) : e1.m_errors = e.m_errors := by
  unfold aassignAssign at h
  split at h
  · split at h
    · simp only [Except.ok.injEq] at h
      subst h
      rfl
    · cases h
  · cases h

theorem errors_specialized_aref (e e1 : ShadingExecution) (nargs : Nat) (args : List Nat)
    (runflags : List Bool) (bp ep : Nat)
    (h : specialized_aref e nargs args runflags bp ep = Except.ok e1) :
    e1.m_errors = e.m_errors := by
  unfold specialized_aref at h
  split at h
  · split at h
    · rename_i Result Src Index _ _ _
      simp only at h
      generalize hE : (if Result.has_derivs = true
        then (e.adjust_varying _ (Src.is_varying || Index.is_varying) _ _ _).zero_derivs _
        else e.adjust_varying _ (Src.is_varying || Index.is_varying) _ _ _) = exec2 at h
      have h2 : exec2.m_errors = e.m_errors := by
        rw [← hE]
        exact errors_adjust_zero e _ _ _ _ _ _
      split at h
      · split_ifs at h
        · split at h
          · exact (errors_arefAssign _ _ _ _ _ _ _ h).trans h2
          · cases h
        · split at h
          · refine (errors_pointLoop _ _ ?_ _ _ _ h).trans h2
            intro x i x1 hx
            exact errors_arefAssign _ _ _ _ _ _ _ hx
          · cases h
        · refine (errors_pointLoop _ _ ?_ _ _ _ h).trans h2
          intro x i x1 hx
          split at hx
          · exact errors_arefAssign _ _ _ _ _ _ _ hx
          · cases hx
      · cases h
    · cases h
  · cases h

theorem errors_specialized_aassign (e e1 : ShadingExecution) (nargs : Nat) (args : List Nat)
    (runflags : List Bool) (bp ep : Nat)
    (h : specialized_aassign e nargs args runflags bp ep = Except.ok e1) :
    e1.m_errors = e.m_errors := by
  unfold specialized_aassign at h
  split at h
  · split at h
    · rename_i Result Index Src _ _ _
      simp only at h
      generalize hE : (if Result.has_derivs = true
        then (e.adjust_varying _ (Src.is_varying || Index.is_varying) _ _ _).zero_derivs _
        else e.adjust_varying _ (Src.is_varying || Index.is_varying) _ _ _) = exec2 at h
      have h2 : exec2.m_errors = e.m_errors := by
        rw [← hE]
        exact errors_adjust_zero e _ _ _ _ _ _
      split at h
      · split_ifs at h
        · split at h
          · exact (errors_aassignAssign _ _ _ _ _ _ _ h).trans h2
          · cases h
        · split at h
          · refine (errors_pointLoop _ _ ?_ _ _ _ h).trans h2
            intro x i x1 hx
            exact errors_aassignAssign _ _ _ _ _ _ _ hx
          · cases h
        · refine (errors_pointLoop _ _ ?_ _ _ _ h).trans h2
          intro x i x1 hx
          split at hx
          · exact errors_aassignAssign _ _ _ _ _ _ _ hx
          · cases hx
      · cases h
    · cases h
  · cases h

theorem OP_aref_select_specialized (t : TypeSpec) (impl : OpImpl)
    (h : OP_aref_select t = some impl) : ∃ T, impl = OpImpl.specialized_aref T := by
  unfold OP_aref_select at h
  split_ifs at h <;> exact ⟨_, (Option.some.inj h).symm⟩

theorem OP_aassign_select_specialized (t s : TypeSpec) (impl : OpImpl)
    (h : OP_aassign_select t s = some impl) : ∃ T, impl = OpImpl.specialized_aassign T := by
  unfold OP_aassign_select at h
  split_ifs at h <;> exact ⟨_, (Option.some.inj h).symm⟩

theorem sym_setSym_self (e : ShadingExecution) (r : Nat) (s s0 : Symbol)
    (h : e.sym r = some s0) : (e.setSym r s).sym r = some s := by
  simp only [ShadingExecution.sym, ShadingExecution.setSym] at h ⊢
  have hlt : r < e.m_symbols.length := by
    rcases Nat.lt_or_ge r e.m_symbols.length with hl | hl
    · exact hl
    · rw [List.getElem?_eq_none hl] at h
      cases h
  simp [List.getElem?_set, hlt]

theorem sym_setSym_ne (e : ShadingExecution) (r x : Nat) (s : Symbol) (h : x ≠ r) :
    (e.setSym r s).sym x = e.sym x := by
  simp only [ShadingExecution.sym, ShadingExecution.setSym]
  simp [List.getElem?_set, Ne.symm h]

theorem pointLoop_inv {α : Type} (Inv : ShadingExecution → Prop) (Q : ShadingExecution → α)
    (body : ShadingExecution → Nat → Except String ShadingExecution) (runflags : List Bool) :
    ∀ (l : List Nat),
      (∀ e j e1, j ∈ l → runflags.getD j false = true → Inv e → body e j = Except.ok e1 →
        Inv e1 ∧ Q e1 = Q e) →
      ∀ e e1, Inv e → pointLoop body runflags l e = Except.ok e1 → Inv e1 ∧ Q e1 = Q e := by
  intro l
  induction l with
  | nil =>
    intro _ e e1 hi h
    simp only [pointLoop, Except.ok.injEq] at h
    subst h
    exact ⟨hi, rfl⟩
  | cons i rest ih =>
    intro hbody e e1 hi h
    have ih2 := ih (fun e j e1 hj => hbody e j e1 (List.mem_cons_of_mem _ hj))
    simp only [pointLoop] at h
    split_ifs at h with hf
    · cases hb : body e i with
      | error msg => simp [hb] at h
      | ok e2 =>
        simp only [hb] at h
        obtain ⟨hi2, hq2⟩ := hbody e i e2 (List.mem_cons_self _ _) hf hi hb
        obtain ⟨hi1, hq1⟩ := ih2 e2 e1 hi2 h
        exact ⟨hi1, hq1.trans hq2⟩
    · exact ih2 e e1 hi h

theorem flatWrite_frame (e : ShadingExecution) (r x p q s : Nat) (S : Symbol) (v : Value)
    (X : Option Symbol) (hS : e.sym r = some S) (hs : destStep e r = some s) (hx : x ≠ r)
    (hX : e.sym x = X) (hpq : q ≠ p) :
    (destStep (e.setSym r { S with m_data := S.m_data.set p v }) r = some s
      ∧ (e.setSym r { S with m_data := S.m_data.set p v }).sym x = X)
    ∧ destSlot (e.setSym r { S with m_data := S.m_data.set p v }) r q = destSlot e r q := by
  have h1 := sym_setSym_self e r { S with m_data := S.m_data.set p v } S hS
  refine ⟨⟨?_, ?_⟩, ?_⟩
  · simp only [destStep, h1, hS, Option.map_some'] at hs ⊢
    exact hs
  · rw [sym_setSym_ne e r x _ hx]
    exact hX
  · simp only [destSlot, h1, hS, Option.some_bind]
    simp [List.getElem?_set, Ne.symm hpq]

theorem storeResult_frame (e e1 : ShadingExecution) (r x j q s : Nat) (v : Value)
    (X : Option Symbol) (hs : destStep e r = some s) (hx : x ≠ r) (hX : e.sym x = X)
    (hq : q ≠ j * s) (h : storeResult e r j v = Except.ok e1) :
    (destStep e1 r = some s ∧ e1.sym x = X) ∧ destSlot e1 r q = destSlot e r q := by
  unfold storeResult at h
  cases hS : e.sym r with
  | none => simp [hS] at h
  | some S =>
    simp only [hS, Except.ok.injEq] at h
    subst h
    have hstep : S.m_step = s := by
      simpa [destStep, hS] using hs
    have := flatWrite_frame e r x (j * S.m_step) q s S v X hS hs hx hX (by rw [hstep]; exact hq)
    exact this

theorem arefAssign_frame (e e1 : ShadingExecution) (r a x j q s : Nat) (ind : ℤ)
    (X : Option Symbol) (hs : destStep e r = some s) (hx : x ≠ r) (hX : e.sym x = X)
    (hq : q ≠ j * s) (h : arefAssign r a e j j ind = Except.ok e1) :
    (destStep e1 r = some s ∧ e1.sym x = X) ∧ destSlot e1 r q = destSlot e r q := by
  unfold arefAssign at h
  split at h
  · exact storeResult_frame e e1 r x j q s _ X hs hx hX hq h
  · cases h

theorem aassignAssign_frame (e e1 : ShadingExecution) (r sx x j q s : Nat) (ind : ℤ)
    (X : Option Symbol) (hs : destStep e r = some s) (hx : x ≠ r) (hX : e.sym x = X)
    (hq : (q : ℤ) ≠ ((j * s : Nat) : ℤ) + ind) (h : aassignAssign r sx e j j ind = Except.ok e1) :
    (destStep e1 r = some s ∧ e1.sym x = X) ∧ destSlot e1 r q = destSlot e r q := by
  unfold aassignAssign at h
  split at h
  · rename_i R v hR _
    have hstep : R.m_step = s := by
      simpa [destStep, hR] using hs
    unfold Symbol.setElementAt at h
    simp only at h
    split at h
    · rename_i R1 hR1
      split_ifs at hR1 with hk
      simp only [Option.some.injEq] at hR1
      simp only [Except.ok.injEq] at h
      subst h
      subst hR1
      refine flatWrite_frame e r x _ q s R v X hR hs hx hX ?_
      intro hc
      apply hq
      rw [hc, Int.toNat_of_nonneg hk.1, hstep]
    · cases h
  · cases h

theorem getElem?_flatten_replicate (b : List Value) (n i k : Nat) (hi : i < n)
    (hk : k < b.length) : (List.replicate n b).flatten[i * b.length + k]? = b[k]? := by
  induction n generalizing i with
  | zero => omega
  | succ n ih =>
    rw [List.replicate_succ, List.flatten_cons]
    cases i with
    | zero =>
      rw [Nat.zero_mul, Nat.zero_add]
      exact List.getElem?_append_left hk
    | succ i =>
      have h1 : (i + 1) * b.length + k = b.length + (i * b.length + k) := by
        rw [Nat.succ_mul]
        omega
      rw [h1, List.getElem?_append_right (by omega)]
      rw [Nat.add_sub_cancel_left]
      exact ih i (by omega)

theorem flatten_replicate_nil (n : Nat) :
    (List.replicate n ([] : List Value)).flatten = [] := by
  induction n with
  | zero => rfl
  | succ n ih => rw [List.replicate_succ, List.flatten_cons, ih]; rfl

theorem numelements_of_not_array (t : TypeSpec) (h : t.is_array = false) :
    t.simpletype.numelements = 1 := by
  simp only [TypeSpec.is_array, ne_eq, decide_not, Bool.not_eq_false', decide_eq_true_eq] at h
  simp [TypeSpec.simpletype, TypeDesc.numelements, h]

theorem numelements_pos (t : TypeDesc) : 0 < t.numelements := by
  unfold TypeDesc.numelements
  split_ifs <;> omega

theorem elementAt_natCast (s : Symbol) (i k : Nat) :
    s.elementAt i (k : ℤ) = s.m_data[i * s.m_step + k]? := by
  unfold Symbol.elementAt
  have h0 : (0 : ℤ) ≤ ((i * s.m_step : Nat) : ℤ) + (k : ℤ) := by omega
  have h1 : (((i * s.m_step : Nat) : ℤ) + (k : ℤ)).toNat = i * s.m_step + k := by omega
  simp only [h0, if_true, h1]

theorem pointValue_eq_destSlot (e : ShadingExecution) (r i s : Nat)
    (hs : destStep e r = some s) : pointValue e r i = destSlot e r (i * s) := by
  unfold destStep at hs
  unfold pointValue destSlot
  cases h : e.sym r with
  | none => rfl
  | some S =>
    simp only [h, Option.map_some', Option.some.injEq] at hs
    simp only [Option.some_bind, Symbol.valueAt, hs]

theorem pointElement_eq_destSlot (e : ShadingExecution) (r i k s : Nat)
    (hs : destStep e r = some s) : pointElement e r i k = destSlot e r (i * s + k) := by
  unfold destStep at hs
  unfold pointElement destSlot
  cases h : e.sym r with
  | none => rfl
  | some S =>
    simp only [h, Option.map_some', Option.some.injEq] at hs
    simp only [Option.some_bind, elementAt_natCast, hs]

theorem sym_zero_derivs_ne (e : ShadingExecution) (r x : Nat) (h : x ≠ r) :
    (e.zero_derivs r).sym x = e.sym x := by
  unfold ShadingExecution.zero_derivs
  cases hs : e.sym r with
  | none => rfl
  | some s => exact sym_setSym_ne e r x _ h

theorem sym_zero_derivs_self (e : ShadingExecution) (r : Nat) (S : Symbol)
    (h : e.sym r = some S) :
    ∃ S1, (e.zero_derivs r).sym r = some S1 ∧ S1.m_step = S.m_step ∧ S1.m_data = S.m_data := by
  unfold ShadingExecution.zero_derivs
  simp only [h]
  exact ⟨_, sym_setSym_self e r _ S h, rfl, rfl⟩

theorem sym_adjust_varying_ne (e : ShadingExecution) (r x : Nat) (b : Bool)
    (rf : List Bool) (bp ep : Nat) (h : x ≠ r) :
    (e.adjust_varying r b rf bp ep).sym x = e.sym x := by
  unfold ShadingExecution.adjust_varying
  cases hs : e.sym r with
  | none => rfl
  | some s =>
    simp only
    split_ifs
    · exact sym_setSym_ne e r x _ h
    · rfl

theorem sym_adjust_varying_self (e : ShadingExecution) (r : Nat) (b : Bool)
    (rf : List Bool) (bp ep : Nat) (S : Symbol)
    (h : e.sym r = some S) :
    ∃ S1, (e.adjust_varying r b rf bp ep).sym r = some S1 ∧
      ((S1.m_step = S.m_step ∧ S1.m_data = S.m_data ∧
          ((b = false ∧ e.all_points_on rf bp ep = true) ∨ S.m_step ≠ 0)) ∨
        (S.m_step = 0 ∧ S1.m_step = S.typespec.simpletype.numelements ∧
          S1.m_data = (List.replicate e.m_npoints
                        (S.m_data.take S.typespec.simpletype.numelements)).flatten)) := by
  unfold ShadingExecution.adjust_varying
  simp only [h]
  split_ifs with hc
  · refine ⟨_, sym_setSym_self e r _ S h, Or.inr ⟨?_, rfl, rfl⟩⟩
    simp only [Symbol.is_varying, Bool.and_eq_true, Bool.not_eq_true', decide_eq_false_iff_not,
      ne_eq, not_not] at hc
    exact hc.2
  · refine ⟨S, h, Or.inl ⟨rfl, rfl, ?_⟩⟩
    by_cases hz : S.m_step = 0
    · left
      cases b with
      | false =>
        refine ⟨rfl, ?_⟩
        cases ha : e.all_points_on rf bp ep with
        | true => rfl
        | false =>
          exfalso
          apply hc
          simp [Symbol.is_varying, ha, hz]
      | true =>
        exfalso
        apply hc
        simp [Symbol.is_varying, hz]
    · exact Or.inr hz

theorem prelude_spec (e exec2 : ShadingExecution) (r : Nat) (b c : Bool)
    (rf : List Bool) (bp ep : Nat) (S : Symbol)
    (h : e.sym r = some S)
    (h2 : (if c = true then (e.adjust_varying r b rf bp ep).zero_derivs r
            else e.adjust_varying r b rf bp ep) = exec2) :
    (∀ x, x ≠ r → exec2.sym x = e.sym x) ∧
    ∃ S2, exec2.sym r = some S2 ∧
      ((S2.m_step = S.m_step ∧ S2.m_data = S.m_data ∧
          ((b = false ∧ e.all_points_on rf bp ep = true) ∨ S.m_step ≠ 0)) ∨
        (S.m_step = 0 ∧ S2.m_step = S.typespec.simpletype.numelements ∧
          S2.m_data = (List.replicate e.m_npoints
                        (S.m_data.take S.typespec.simpletype.numelements)).flatten)) := by
  obtain ⟨S1, hS1, hd⟩ := sym_adjust_varying_self e r b rf bp ep S h
  subst h2
  split_ifs
  · constructor
    · intro x hx
      rw [sym_zero_derivs_ne _ r x hx, sym_adjust_varying_ne e r x b rf bp ep hx]
    · obtain ⟨S2, hS2, hst, hda⟩ := sym_zero_derivs_self _ r S1 hS1
      refine ⟨S2, hS2, ?_⟩
      rw [hst, hda]
      exact hd
  · constructor
    · intro x hx
      rw [sym_adjust_varying_ne e r x b rf bp ep hx]
    · exact ⟨S1, hS1, hd⟩

theorem prelude_pointValue (e exec2 : ShadingExecution) (r i : Nat) (S S2 : Symbol)
    (h : e.sym r = some S) (h2 : exec2.sym r = some S2)
    (hna : S.typespec.is_array = false) (hi : i < e.m_npoints)
    (hd : (S2.m_step = S.m_step ∧ S2.m_data = S.m_data) ∨
        (S.m_step = 0 ∧ S2.m_step = S.typespec.simpletype.numelements ∧
          S2.m_data = (List.replicate e.m_npoints
                        (S.m_data.take S.typespec.simpletype.numelements)).flatten)) :
    pointValue exec2 r i = pointValue e r i := by
  unfold pointValue
  simp only [h, h2, Option.some_bind, Symbol.valueAt]
  rcases hd with ⟨hs, hdat⟩ | ⟨hs0, hs, hdat⟩
  · rw [hs, hdat]
  · rw [numelements_of_not_array _ hna] at hs hdat
    rw [hs, hdat, hs0, Nat.mul_zero]
    cases hdata : S.m_data with
    | nil => simp [flatten_replicate_nil]
    | cons d t =>
      have := getElem?_flatten_replicate [d] e.m_npoints i 0 hi (by simp)
      simpa using this

theorem prelude_pointElement (e exec2 : ShadingExecution) (r i k : Nat) (S S2 : Symbol)
    (h : e.sym r = some S) (h2 : exec2.sym r = some S2)
    (hlen : S.m_step = 0 → S.typespec.simpletype.numelements ≤ S.m_data.length)
    (hi : i < e.m_npoints) (hk : k < S.typespec.simpletype.numelements)
    (hd : (S2.m_step = S.m_step ∧ S2.m_data = S.m_data) ∨
        (S.m_step = 0 ∧ S2.m_step = S.typespec.simpletype.numelements ∧
          S2.m_data = (List.replicate e.m_npoints
                        (S.m_data.take S.typespec.simpletype.numelements)).flatten)) :
    pointElement exec2 r i k = pointElement e r i k := by
  unfold pointElement
  simp only [h, h2, Option.some_bind, elementAt_natCast]
  rcases hd with ⟨hs, hdat⟩ | ⟨hs0, hs, hdat⟩
  · rw [hs, hdat]
  · have hl := hlen hs0
    have hbl : (S.m_data.take S.typespec.simpletype.numelements).length
        = S.typespec.simpletype.numelements := by
      rw [List.length_take]
      omega
    have := getElem?_flatten_replicate (S.m_data.take S.typespec.simpletype.numelements)
      e.m_npoints i k hi (by rw [hbl]; exact hk)
    rw [hbl] at this
    rw [hs, hdat, this, hs0, Nat.mul_zero, Nat.zero_add, List.getElem?_take_of_lt hk]

theorem slot_ne (i j k s : Nat) (ind : ℤ) (hij : i ≠ j) (hk : k < s) (h0 : 0 ≤ ind)
    (h1 : ind < (s : ℤ)) : ((i * s + k : Nat) : ℤ) ≠ ((j * s : Nat) : ℤ) + ind := by
  intro h
  obtain ⟨m, rfl⟩ := Int.eq_ofNat_of_zero_le h0
  have hm : m < s := by omega
  have h2 : i * s + k = j * s + m := by omega
  have hs : 0 < s := by omega
  have e1 : (i * s + k) / s = i := by
    rw [Nat.add_comm, Nat.add_mul_div_right _ _ hs, Nat.div_eq_of_lt hk, Nat.zero_add]
  have e2 : (j * s + m) / s = j := by
    rw [Nat.add_comm, Nat.add_mul_div_right _ _ hs, Nat.div_eq_of_lt hm, Nat.zero_add]
  rw [h2, e2] at e1
  exact hij e1.symm

theorem active_of_mem_range (runflags : List Bool) (bp ep j : Nat)
    (hj : j ∈ List.range' bp (ep - bp)) (hf : runflags.getD j false = true) :
    pointIsActive runflags bp ep j = true := by
  rw [List.mem_range'_1] at hj
  simp only [pointIsActive, hf, Bool.true_and, Bool.and_eq_true, decide_eq_true_eq]
  omega

theorem inactive_ne_active (runflags : List Bool) (bp ep i j : Nat)
    (hoff : pointIsActive runflags bp ep i = false)
    (hon : pointIsActive runflags bp ep j = true) : i ≠ j := by
  intro h
  subst h
  rw [hoff] at hon
  cases hon

theorem mul_step_ne (i j s : Nat) (hs : s ≠ 0) (hij : i ≠ j) : i * s ≠ j * s := by
  intro h
  exact hij (Nat.eq_of_mul_eq_mul_right (Nat.pos_of_ne_zero hs) h)

theorem not_varying_of_destStep (e : ShadingExecution) (r : Nat)
    (hs : destStep e r = some 0) (hv : ∀ R1, e.sym r = some R1 → R1.is_varying = true) :
    False := by
  unfold destStep at hs
  cases h : e.sym r with
  | none => simp [h] at hs
  | some S =>
    simp only [h, Option.map_some', Option.some.injEq] at hs
    have := hv S h
    simp [Symbol.is_varying, hs] at this

theorem destStep_of_sym (e : ShadingExecution) (r : Nat) (S : Symbol) (h : e.sym r = some S) :
    destStep e r = some S.m_step := by
  simp [destStep, h]

theorem all_points_on_active (e : ShadingExecution) (rf : List Bool) (bp ep i : Nat)
    (h : e.all_points_on rf bp ep = true) (hi : i < e.m_npoints) :
    pointIsActive rf bp ep i = true := by
  unfold ShadingExecution.all_points_on at h
  rw [List.all_eq_true] at h
  exact h i (List.mem_range.mpr hi)

theorem uniform_prelude_absurd (e : ShadingExecution) (rf : List Bool) (bp ep i : Nat)
    (S S2 : Symbol) (b : Bool) (hi : i < e.m_npoints)
    (hoff : pointIsActive rf bp ep i = false) (hz : S2.m_step = 0)
    (hd : (S2.m_step = S.m_step ∧ S2.m_data = S.m_data ∧
          ((b = false ∧ e.all_points_on rf bp ep = true) ∨ S.m_step ≠ 0)) ∨
        (S.m_step = 0 ∧ S2.m_step = S.typespec.simpletype.numelements ∧
          S2.m_data = (List.replicate e.m_npoints
                        (S.m_data.take S.typespec.simpletype.numelements)).flatten)) :
    False := by
  rcases hd with ⟨h1, _, h3⟩ | ⟨_, h3, _⟩
  · rcases h3 with ⟨_, hall⟩ | hnz
    · have := all_points_on_active e rf bp ep i hall hi
      rw [hoff] at this
      cases this
    · rw [← h1] at hnz
      exact hnz hz
  · have := numelements_pos S.typespec.simpletype
    omega

theorem specialized_aref_frame (exec exec1 : ShadingExecution) (r a x : Nat)
    (runflags : List Bool) (bp ep : Nat) (Result : Symbol) (i : Nat)
    (hR : exec.sym r = some Result) (hna : Result.typespec.is_array = false)
    (h : specialized_aref exec 3 [r, a, x] runflags bp ep = Except.ok exec1)
    (hi : i < exec.m_npoints) (hoff : pointIsActive runflags bp ep i = false) :
    pointValue exec1 r i = pointValue exec r i := by
  unfold specialized_aref at h
  simp only at h
  split at h
  · rename_i R0 Src Index hR0 _ _
    rw [hR] at hR0
    cases hR0
    generalize hE : (if Result.has_derivs = true
      then (exec.adjust_varying r (Src.is_varying || Index.is_varying)
              runflags bp ep).zero_derivs r
      else exec.adjust_varying r (Src.is_varying || Index.is_varying) runflags bp ep)
      = exec2 at h
    obtain ⟨_, S2, hS2, hd⟩ := prelude_spec exec exec2 r _ _ runflags bp ep Result hR hE
    have hpv : pointValue exec2 r i = pointValue exec r i := by
      refine prelude_pointValue exec exec2 r i Result S2 hR hS2 hna hi ?_
      rcases hd with ⟨h1, h2, _⟩ | h3
      · exact Or.inl ⟨h1, h2⟩
      · exact Or.inr h3
    have hstep := destStep_of_sym exec2 r S2 hS2
    rw [← hpv]
    split at h
    · rename_i result index hres _
      rw [hS2] at hres
      cases hres
      split at h
      · rename_i hu
        exfalso
        have hz : S2.m_step = 0 := by
          simpa [Symbol.is_varying] using hu
        exact uniform_prelude_absurd exec runflags bp ep i Result S2 _ hi hoff hz hd
      · rename_i hu
        have hnz : S2.m_step ≠ 0 := by
          simpa [Symbol.is_varying] using hu
        have key : (destStep exec1 r = some S2.m_step ∧ exec1.sym (r + 1) = exec2.sym (r + 1))
            ∧ destSlot exec1 r (i * S2.m_step) = destSlot exec2 r (i * S2.m_step) := by
          split at h
          · split at h
            · refine pointLoop_inv
                (fun e => destStep e r = some S2.m_step ∧ e.sym (r + 1) = exec2.sym (r + 1))
                (fun e => destSlot e r (i * S2.m_step)) _ runflags _ ?_ exec2 exec1
                ⟨hstep, rfl⟩ h
              intro e j e1 hj hf hinv hb
              exact arefAssign_frame e e1 r a (r + 1) j _ S2.m_step _ _ hinv.1
                (Nat.succ_ne_self r) hinv.2
                (mul_step_ne i j _ hnz
                  (inactive_ne_active runflags bp ep i j hoff
                    (active_of_mem_range runflags bp ep j hj hf))) hb
            · cases h
          · refine pointLoop_inv
              (fun e => destStep e r = some S2.m_step ∧ e.sym (r + 1) = exec2.sym (r + 1))
              (fun e => destSlot e r (i * S2.m_step)) _ runflags _ ?_ exec2 exec1
              ⟨hstep, rfl⟩ h
            intro e j e1 hj hf hinv hb
            split at hb
            · exact arefAssign_frame e e1 r a (r + 1) j _ S2.m_step _ _ hinv.1
                (Nat.succ_ne_self r) hinv.2
                (mul_step_ne i j _ hnz
                  (inactive_ne_active runflags bp ep i j hoff
                    (active_of_mem_range runflags bp ep j hj hf))) hb
            · cases hb
        rw [pointValue_eq_destSlot exec1 r i _ key.1.1, pointValue_eq_destSlot exec2 r i _ hstep]
        exact key.2
    · cases h
  · cases h

theorem intAt_uniform (X : Symbol) (h : X.m_step = 0) (j : Nat) : X.intAt j = X.intAt 0 := by
  simp [Symbol.intAt, Symbol.valueAt, h]

theorem specialized_aassign_frame (exec exec1 : ShadingExecution) (r x sx : Nat)
    (runflags : List Bool) (bp ep : Nat) (Result : Symbol) (i k : Nat)
    (hR : exec.sym r = some Result) (hxr : x ≠ r)
    (hvar : Result.m_step ≠ 0 → Result.typespec.simpletype.numelements ≤ Result.m_step)
    (hlen : Result.m_step = 0 → Result.typespec.simpletype.numelements ≤ Result.m_data.length)
    (hrange : ∀ j X ind, pointIsActive runflags bp ep j = true → exec.sym x = some X →
      X.intAt j = some ind → 0 ≤ ind ∧ ind < (Result.typespec.simpletype.numelements : ℤ))
    (h : specialized_aassign exec 3 [r, x, sx] runflags bp ep = Except.ok exec1)
    (hi : i < exec.m_npoints) (hoff : pointIsActive runflags bp ep i = false)
    (hk : k < Result.typespec.simpletype.numelements) :
    pointElement exec1 r i k = pointElement exec r i k := by
  unfold specialized_aassign at h
  simp only at h
  split at h
  · rename_i R0 Index Src hR0 hX0 _
    rw [hR] at hR0
    cases hR0
    generalize hE : (if Result.has_derivs = true
      then (exec.adjust_varying r (Src.is_varying || Index.is_varying)
              runflags bp ep).zero_derivs r
      else exec.adjust_varying r (Src.is_varying || Index.is_varying) runflags bp ep)
      = exec2 at h
    obtain ⟨hother, S2, hS2, hd⟩ := prelude_spec exec exec2 r _ _ runflags bp ep Result hR hE
    have hpv : pointElement exec2 r i k = pointElement exec r i k := by
      refine prelude_pointElement exec exec2 r i k Result S2 hR hS2 hlen hi hk ?_
      rcases hd with ⟨h1, h2, _⟩ | h3
      · exact Or.inl ⟨h1, h2⟩
      · exact Or.inr h3
    have hstep := destStep_of_sym exec2 r S2 hS2
    have hX2 : exec2.sym x = some Index := by
      rw [hother x hxr]
      exact hX0
    rw [← hpv]
    split at h
    · rename_i result index hres hind
      rw [hS2] at hres
      cases hres
      rw [hX2] at hind
      cases hind
      split at h
      · rename_i hu
        exfalso
        have hz : S2.m_step = 0 := by
          simpa [Symbol.is_varying] using hu
        exact uniform_prelude_absurd exec runflags bp ep i Result S2 _ hi hoff hz hd
      · rename_i hu
        have hnz : S2.m_step ≠ 0 := by
          simpa [Symbol.is_varying] using hu
        have hs2 : Result.typespec.simpletype.numelements ≤ S2.m_step := by
          rcases hd with ⟨h1, _, _⟩ | ⟨_, h3, _⟩
          · rw [h1] at hnz ⊢
            exact hvar hnz
          · exact le_of_eq h3.symm
        have key : (destStep exec1 r = some S2.m_step ∧ exec1.sym x = exec2.sym x)
            ∧ destSlot exec1 r (i * S2.m_step + k) = destSlot exec2 r (i * S2.m_step + k) := by
          split at h
          · rename_i hxu
            have hxs : Index.m_step = 0 := by
              simpa [Symbol.is_varying] using hxu
            split at h
            · rename_i ind hind
              refine pointLoop_inv
                (fun e => destStep e r = some S2.m_step ∧ e.sym x = exec2.sym x)
                (fun e => destSlot e r (i * S2.m_step + k)) _ runflags _ ?_ exec2 exec1
                ⟨hstep, rfl⟩ h
              intro e j e1 hj hf hinv hb
              have hact := active_of_mem_range runflags bp ep j hj hf
              have hr := hrange j Index ind hact hX0 (by rw [intAt_uniform Index hxs]; exact hind)
              refine aassignAssign_frame e e1 r sx x j _ S2.m_step ind _ hinv.1 hxr hinv.2 ?_ hb
              exact slot_ne i j k _ ind (inactive_ne_active runflags bp ep i j hoff hact)
                (lt_of_lt_of_le hk hs2) hr.1
                (lt_of_lt_of_le hr.2 (Int.ofNat_le.mpr hs2))
            · cases h
          · refine pointLoop_inv
              (fun e => destStep e r = some S2.m_step ∧ e.sym x = exec2.sym x)
              (fun e => destSlot e r (i * S2.m_step + k)) _ runflags _ ?_ exec2 exec1
              ⟨hstep, rfl⟩ h
            intro e j e1 hj hf hinv hb
            have hact := active_of_mem_range runflags bp ep j hj hf
            split at hb
            · rename_i ind hind
              rw [hinv.2, hX2] at hind
              have hr := hrange j Index ind hact hX0 hind
              refine aassignAssign_frame e e1 r sx x j _ S2.m_step ind _ hinv.1 hxr hinv.2 ?_ hb
              exact slot_ne i j k _ ind (inactive_ne_active runflags bp ep i j hoff hact)
                (lt_of_lt_of_le hk hs2) hr.1
                (lt_of_lt_of_le hr.2 (Int.ofNat_le.mpr hs2))
            · cases hb
        rw [pointElement_eq_destSlot exec1 r i k _ key.1.1,
          pointElement_eq_destSlot exec2 r i k _ hstep]
        exact key.2
    · cases h
  · cases h

theorem closure_binary_op_frame (F : Functor) (exec exec1 : ShadingExecution) (r a b : Nat)
    (runflags : List Bool) (bp ep : Nat) (Result : Symbol) (i : Nat)
    (hR : exec.sym r = some Result) (hna : Result.typespec.is_array = false)
    (h : closure_binary_op F exec 3 [r, a, b] runflags bp ep = Except.ok exec1)
    (hi : i < exec.m_npoints) (hoff : pointIsActive runflags bp ep i = false) :
    pointValue exec1 r i = pointValue exec r i := by
  unfold closure_binary_op at h
  simp only at h
  split at h
  · obtain ⟨S2, hS2, hd⟩ := sym_adjust_varying_self exec r true runflags bp ep Result hR
    have hpv : pointValue (exec.adjust_varying r true runflags bp ep) r i
        = pointValue exec r i := by
      refine prelude_pointValue exec _ r i Result S2 hR hS2 hna hi ?_
      rcases hd with ⟨h1, h2, _⟩ | h3
      · exact Or.inl ⟨h1, h2⟩
      · exact Or.inr h3
    have hstep := destStep_of_sym _ r S2 hS2
    have hnz : S2.m_step ≠ 0 := by
      rcases hd with ⟨h1, _, h3⟩ | ⟨_, h3, _⟩
      · rw [h1]
        rcases h3 with h3 | h3
        · cases h3.1
        · exact h3
      · rw [h3, numelements_of_not_array _ hna]
        omega
    rw [← hpv]
    have key := pointLoop_inv
      (fun e => destStep e r = some S2.m_step
        ∧ e.sym (r + 1) = (exec.adjust_varying r true runflags bp ep).sym (r + 1))
      (fun e => destSlot e r (i * S2.m_step)) _ runflags _ ?_ _ exec1 ⟨hstep, rfl⟩ h
    · rw [pointValue_eq_destSlot exec1 r i _ key.1.1, pointValue_eq_destSlot _ r i _ hstep]
      exact key.2
    · intro e j e1 hj hf hinv hb
      split at hb
      · split at hb
        · exact storeResult_frame e e1 r (r + 1) j _ S2.m_step _ _ hinv.1
            (Nat.succ_ne_self r) hinv.2
            (mul_step_ne i j _ hnz
              (inactive_ne_active runflags bp ep i j hoff
                (active_of_mem_range runflags bp ep j hj hf))) hb
        · cases hb
      · cases hb
  · cases h

theorem closure_unary_op_frame (F : Functor) (exec exec1 : ShadingExecution) (r a : Nat)
    (runflags : List Bool) (bp ep : Nat) (Result : Symbol) (i : Nat)
    (hR : exec.sym r = some Result) (hna : Result.typespec.is_array = false)
    (h : closure_unary_op F exec 2 [r, a] runflags bp ep = Except.ok exec1)
    (hi : i < exec.m_npoints) (hoff : pointIsActive runflags bp ep i = false) :
    pointValue exec1 r i = pointValue exec r i := by
  unfold closure_unary_op at h
  simp only at h
  split at h
  · obtain ⟨S2, hS2, hd⟩ := sym_adjust_varying_self exec r true runflags bp ep Result hR
    have hpv : pointValue (exec.adjust_varying r true runflags bp ep) r i
        = pointValue exec r i := by
      refine prelude_pointValue exec _ r i Result S2 hR hS2 hna hi ?_
      rcases hd with ⟨h1, h2, _⟩ | h3
      · exact Or.inl ⟨h1, h2⟩
      · exact Or.inr h3
    have hstep := destStep_of_sym _ r S2 hS2
    have hnz : S2.m_step ≠ 0 := by
      rcases hd with ⟨h1, _, h3⟩ | ⟨_, h3, _⟩
      · rw [h1]
        rcases h3 with h3 | h3
        · cases h3.1
        · exact h3
      · rw [h3, numelements_of_not_array _ hna]
        omega
    rw [← hpv]
    have key := pointLoop_inv
      (fun e => destStep e r = some S2.m_step
        ∧ e.sym (r + 1) = (exec.adjust_varying r true runflags bp ep).sym (r + 1))
      (fun e => destSlot e r (i * S2.m_step)) _ runflags _ ?_ _ exec1 ⟨hstep, rfl⟩ h
    · rw [pointValue_eq_destSlot exec1 r i _ key.1.1, pointValue_eq_destSlot _ r i _ hstep]
      exact key.2
    · intro e j e1 hj hf hinv hb
      split at hb
      · split at hb
        · exact storeResult_frame e e1 r (r + 1) j _ S2.m_step _ _ hinv.1
            (Nat.succ_ne_self r) hinv.2
            (mul_step_ne i j _ hnz
              (inactive_ne_active runflags bp ep i j hoff
                (active_of_mem_range runflags bp ep j hj hf))) hb
        · cases hb
      · cases hb
  · cases h

theorem storeResult_destStep (e e1 : ShadingExecution) (r i : Nat) (v : Value)
    (h : storeResult e r i v = Except.ok e1) : destStep e1 r = destStep e r := by
  unfold storeResult at h
  cases hS : e.sym r with
  | none => simp [hS] at h
  | some S =>
    simp only [hS, Except.ok.injEq] at h
    subst h
    simp [destStep, sym_setSym_self e r _ S hS, hS, Symbol.setValueAt]

theorem arefAssign_destStep (e e1 : ShadingExecution) (r a i j : Nat) (ind : ℤ)
    (h : arefAssign r a e i j ind = Except.ok e1) : destStep e1 r = destStep e r := by
  unfold arefAssign at h
  split at h
  · exact storeResult_destStep e e1 r i _ h
  · cases h

theorem aassignAssign_destStep (e e1 : ShadingExecution) (r sx i j : Nat) (ind : ℤ)
    (h : aassignAssign r sx e i j ind = Except.ok e1) : destStep e1 r = destStep e r := by
  unfold aassignAssign at h
  split at h
  · rename_i R v hR _
    unfold Symbol.setElementAt at h
    simp only at h
    split at h
    · rename_i R1 hR1
      split_ifs at hR1
      simp only [Option.some.injEq] at hR1
      simp only [Except.ok.injEq] at h
      subst h
      subst hR1
      simp [destStep, sym_setSym_self e r _ R hR, hR]
    · cases h
  · cases h

theorem destStep_pointLoop (r : Nat)
    (body : ShadingExecution → Nat → Except String ShadingExecution) (runflags : List Bool)
    (hbody : ∀ e j e1, body e j = Except.ok e1 → destStep e1 r = destStep e r)
    (l : List Nat) (e e1 : ShadingExecution)
    (h : pointLoop body runflags l e = Except.ok e1) : destStep e1 r = destStep e r :=
  (pointLoop_inv (fun _ => True) (fun e => destStep e r) body runflags l
    (fun e j e1 _ _ _ hb => ⟨trivial, hbody e j e1 hb⟩) e e1 trivial h).2

theorem uniform_of_destStep (e : ShadingExecution) (r s : Nat)
    (hs : destStep e r = some s) (hu : ∀ R1, e.sym r = some R1 → R1.is_varying = false) :
    s = 0 := by
  unfold destStep at hs
  cases h : e.sym r with
  | none => simp [h] at hs
  | some S =>
    simp only [h, Option.map_some', Option.some.injEq] at hs
    have := hu S h
    simpa [Symbol.is_varying, hs] using this

theorem sample_cos_hemisphere_dot_scaled {F : Type} [LinearOrderedField F] (m : CMath F)
    (N omega_out : Imath.Vec3 F) (randu randv : F) :
    N.dot (ClosurePrimitive.sample_cos_hemisphere m N omega_out randu randv).1 =
      m.sqrtf (max (1 - (to_unit_disk m randu randv).1 * (to_unit_disk m randu randv).1
                      - (to_unit_disk m randu randv).2 * (to_unit_disk m randu randv).2) 0)
        * N.dot N := by
  obtain ⟨hT, hB⟩ := make_orthonormals_orthogonal m N
  unfold ClosurePrimitive.sample_cos_hemisphere
  simp only
  generalize ClosurePrimitive.make_orthonormals m N = TB at hT hB
  generalize to_unit_disk m randu randv = d
  generalize m.sqrtf (max (1 - d.1 * d.1 - d.2 * d.2) 0) = c
  simp only [Imath.Vec3.dot, Imath.Vec3.add, Imath.Vec3.smul] at hT hB ⊢
  have : N.x * (d.1 * TB.1.x + d.2 * TB.2.x + c * N.x)
      + N.y * (d.1 * TB.1.y + d.2 * TB.2.y + c * N.y)
      + N.z * (d.1 * TB.1.z + d.2 * TB.2.z + c * N.z)
      = d.1 * (N.x * TB.1.x + N.y * TB.1.y + N.z * TB.1.z)
        + d.2 * (N.x * TB.2.x + N.y * TB.2.y + N.z * TB.2.z)
        + c * (N.x * N.x + N.y * N.y + N.z * N.z) := by ring
  rw [this, hT, hB]
  ring

theorem sample_cos_hemisphere_pdf {F : Type} [LinearOrderedField F] (m : CMath F)
    (N omega_out : Imath.Vec3 F) (randu randv : F) :
    (ClosurePrimitive.sample_cos_hemisphere m N omega_out randu randv).2 =
      m.sqrtf (max (1 - (to_unit_disk m randu randv).1 * (to_unit_disk m randu randv).1
                      - (to_unit_disk m randu randv).2 * (to_unit_disk m randu randv).2) 0)
        * m.M_1_PI := rfl

theorem Imath_dot_zero {F : Type} [LinearOrderedField F] (N : Imath.Vec3 F) :
    N.dot ⟨0, 0, 0⟩ = 0 := by
  simp [Imath.Vec3.dot]

theorem Imath_dot_self_pos {F : Type} [LinearOrderedField F] (N a : Imath.Vec3 F)
    (h : N.dot a ≠ 0) : 0 < N.dot N := by
  simp only [Imath.Vec3.dot] at h ⊢
  by_contra hc
  have h0 : N.x * N.x + N.y * N.y + N.z * N.z = 0 :=
    le_antisymm (not_lt.mp hc)
      (add_nonneg (add_nonneg (mul_self_nonneg _) (mul_self_nonneg _)) (mul_self_nonneg _))
  have hx : N.x = 0 := by nlinarith [mul_self_nonneg N.x, mul_self_nonneg N.y, mul_self_nonneg N.z]
  have hy : N.y = 0 := by nlinarith [mul_self_nonneg N.x, mul_self_nonneg N.y, mul_self_nonneg N.z]
  have hz : N.z = 0 := by nlinarith [mul_self_nonneg N.x, mul_self_nonneg N.y, mul_self_nonneg N.z]
  apply h
  rw [hx, hy, hz]
  ring

theorem Imath_ne_zero_of_dot {F : Type} [LinearOrderedField F] (N a : Imath.Vec3 F)
    (h : N.dot a ≠ 0) : ¬ (a.x = 0 ∧ a.y = 0 ∧ a.z = 0) := by
  rintro ⟨hx, hy, hz⟩
  apply h
  simp [Imath.Vec3.dot, hx, hy, hz]

theorem DiffuseClosure_sample_cases {F : Type} [LinearOrderedField F] (m : CMath F)
    (params : DiffuseClosure.params_t F) (omega_out : Imath.Vec3 F) (randu randv : F) :
    (0 < params.N.dot omega_out →
      DiffuseClosure.sample m params omega_out randu randv
        = ClosurePrimitive.sample_cos_hemisphere m params.N omega_out randu randv)
    ∧ (params.N.dot omega_out ≤ 0 →
      DiffuseClosure.sample m params omega_out randu randv = (⟨0, 0, 0⟩, 0)) := by
  constructor
  · intro h
    unfold DiffuseClosure.sample
    simp only [gt_iff_lt, if_pos h]
  · intro h
    unfold DiffuseClosure.sample
    simp only [gt_iff_lt, if_neg (not_lt.mpr h)]

theorem PhongClosure_sample_cases {F : Type} [LinearOrderedField F] (m : CMath F)
    (params : PhongClosure.params_t F) (omega_out : Imath.Vec3 F) (randu randv : F) :
    (0 < params.N.dot omega_out →
      0 < params.N.dot (PhongClosure.drawn_direction m params omega_out randu randv) →
      PhongClosure.sample m params omega_out randu randv
        = (PhongClosure.drawn_direction m params omega_out randu randv,
           PhongClosure.pdf m params omega_out
             (PhongClosure.drawn_direction m params omega_out randu randv)))
    ∧ (params.N.dot omega_out ≤ 0 →
      PhongClosure.sample m params omega_out randu randv = (⟨0, 0, 0⟩, 0))
    ∧ (params.N.dot (PhongClosure.drawn_direction m params omega_out randu randv) ≤ 0 →
      PhongClosure.sample m params omega_out randu randv = (⟨0, 0, 0⟩, 0)) := by
  refine ⟨?_, ?_, ?_⟩
  · intro h1 h2
    unfold PhongClosure.sample PhongClosure.pdf
    simp only [gt_iff_lt, if_pos h1, if_pos h2]
  · intro h
    unfold PhongClosure.sample
    simp only [gt_iff_lt, if_neg (not_lt.mpr h)]
  · intro h
    unfold PhongClosure.sample
    simp only [gt_iff_lt, if_neg (not_lt.mpr h)]
    split_ifs <;> rfl

theorem loadLLVMValue_with_derivs (rop : RuntimeOptimizer) (sym : Symbol) (c d : ℤ)
    (aggregate : LLVMValue)
    (hl : rop.m_named_values.lookup sym.dealias_mangled = some aggregate)
    (hg : sym.symtype ≠ SymType.SymTypeGlobal) (hd : sym.has_derivs = true) :
    (loadLLVMValue rop sym c d).1
      = some (LLVMValue.Load rop.m_next_id
          (LLVMValue.ConstGEP2_32 aggregate 0
            (min (sym.typespec.simpletype.aggregate : ℤ) c
              + d * (sym.typespec.simpletype.aggregate : ℤ)))) := by
  simp [loadLLVMValue, getLLVMSymbolBase, hl, hg, hd, RuntimeOptimizer.CreateLoad]

theorem storeLLVMValue_with_derivs (rop : RuntimeOptimizer) (v : LLVMValue) (sym : Symbol)
    (c d : ℤ) (aggregate : LLVMValue)
    (hl : rop.m_named_values.lookup sym.dealias_mangled = some aggregate)
    (hd : sym.has_derivs = true) :
    storeLLVMValue rop v sym c d
      = rop.CreateStore v
          (LLVMValue.ConstGEP2_32 aggregate 0
            (min (sym.typespec.simpletype.aggregate : ℤ) c
              + d * (sym.typespec.simpletype.aggregate : ℤ))) := by
  simp [storeLLVMValue, getLLVMSymbolBase, hl, hd]

theorem loadLLVMValue_cases (rop : RuntimeOptimizer) (sym : Symbol) (c : ℤ) :
    (loadLLVMValue rop sym c 0).1 = none
    ∨ ∃ ptr, loadLLVMValue rop sym c 0
        = (some (LLVMValue.Load rop.m_next_id ptr), (rop.CreateLoad ptr).2) := by
  unfold loadLLVMValue
  simp only [ne_eq, not_true_eq_false, decide_False, Bool.and_false, Bool.false_eq_true,
    if_false]
  by_cases hg : sym.symtype = SymType.SymTypeGlobal
  · simp only [hg, if_true]
    unfold LLVMLoadShaderGlobal
    simp only
    split_ifs
    · exact Or.inl rfl
    · exact Or.inr ⟨_, rfl⟩
    · exact Or.inr ⟨_, rfl⟩
  · simp only [hg, if_false]
    unfold getLLVMSymbolBase
    simp only
    cases hl : rop.m_named_values.lookup sym.dealias_mangled with
    | none => exact Or.inl rfl
    | some aggregate =>
      simp only
      split_ifs
      · exact Or.inr ⟨_, rfl⟩
      · exact Or.inr ⟨_, rfl⟩

theorem loadLLVMValue_some (rop : RuntimeOptimizer) (sym : Symbol) (c : ℤ) (v : LLVMValue)
    (h : (loadLLVMValue rop sym c 0).1 = some v) :
    ∃ ptr, v = LLVMValue.Load rop.m_next_id ptr
      ∧ (loadLLVMValue rop sym c 0).2 = (rop.CreateLoad ptr).2 := by
  rcases loadLLVMValue_cases rop sym c with hn | ⟨ptr, hp⟩
  · rw [hn] at h
    cases h
  · rw [hp] at h ⊢
    exact ⟨ptr, (Option.some.inj h).symm, rfl⟩

theorem insertAt_insertAt {α : Type} (a b : α) :
    ∀ (l : List α) (k : Nat),
      insertAt (insertAt l k a) (k + 1) b = l.take k ++ [a, b] ++ l.drop k := by
  intro l
  induction l with
  | nil => intro k; simp [insertAt]
  | cons x t ih =>
    intro k
    cases k with
    | zero => simp [insertAt]
    | succ k =>
      have := ih k
      simp only [insertAt, List.take_succ_cons, List.drop_succ_cons, List.cons_append,
        List.cons.injEq, true_and] at this ⊢
      exact this

theorem blocks_emit (rop : RuntimeOptimizer) (instr : Instruction) (X : Nat) :
    (rop.emit instr).m_blocks[X]?
      = (rop.m_blocks[X]?).map fun old =>
          if X = rop.m_insert_block then insertedAt rop.m_insert_pos old [instr] else old := by
  unfold RuntimeOptimizer.emit
  cases hp : rop.m_insert_pos with
  | none =>
    simp only [List.getElem?_modify, insertedAt]
    cases rop.m_blocks[X]? with
    | none => rfl
    | some old =>
      by_cases hx : X = rop.m_insert_block
      · simp [hx]
      · simp [hx, Ne.symm hx]
  | some k =>
    simp only [List.getElem?_modify, insertedAt, insertAt]
    cases rop.m_blocks[X]? with
    | none => rfl
    | some old =>
      by_cases hx : X = rop.m_insert_block
      · simp [hx]
      · simp [hx, Ne.symm hx]

theorem blocks_emit_emit (rop : RuntimeOptimizer) (i1 i2 : Instruction) (n : Nat) (X : Nat) :
    (({ rop.emit i1 with m_next_id := n } : RuntimeOptimizer).emit i2).m_blocks[X]?
      = (rop.m_blocks[X]?).map fun old =>
          if X = rop.m_insert_block then insertedAt rop.m_insert_pos old [i1, i2] else old := by
  unfold RuntimeOptimizer.emit
  cases hp : rop.m_insert_pos with
  | none =>
    simp only [List.getElem?_modify, insertedAt]
    cases rop.m_blocks[X]? with
    | none => rfl
    | some old =>
      by_cases hx : X = rop.m_insert_block
      · simp [hx]
      · simp [hx, Ne.symm hx]
  | some k =>
    simp only [List.getElem?_modify, insertedAt]
    cases rop.m_blocks[X]? with
    | none => rfl
    | some old =>
      by_cases hx : X = rop.m_insert_block
      · simp [hx, insertAt_insertAt]
      · simp [hx, Ne.symm hx]

theorem blocks_append_branch (rop : RuntimeOptimizer) (b dest X : Nat) :
    ((rop.SetInsertPoint b).CreateBr dest).m_blocks[X]?
      = (rop.m_blocks[X]?).map fun old =>
          if X = b then old ++ [Instruction.Br dest] else old := by
  unfold RuntimeOptimizer.CreateBr
  rw [blocks_emit]
  rfl

theorem bb_map_loadLLVMValue (rop : RuntimeOptimizer) (sym : Symbol) (c d : ℤ) (k : Nat) :
    (loadLLVMValue rop sym c d).2.bb_map k = rop.bb_map k := by
  have h := frame_loadLLVMValue rop sym c d
  unfold RuntimeOptimizer.bb_map
  have h2 : (loadLLVMValue rop sym c d).2.m_bb_map = rop.m_bb_map :=
    congrArg (fun f => f.2.2.2.2.1) h
  rw [h2]

theorem runFloat_load {F : Type} [LinearOrderedField F] (m : CMath F) (s : FloatMachine F)
    (id : Nat) (name : String) (i : ℤ) (rest : List Instruction) (v : F)
    (h : s.mem (Addr.elem name i) = some v) :
    runFloat m (loadElement id name i :: rest) s
      = runFloat m rest ⟨s.mem, fun k => if k = id then some v else s.regs k⟩ := by
  have hs : stepFloat m s (loadElement id name i)
      = some ⟨s.mem, fun k => if k = id then some v else s.regs k⟩ := by
    have ha : Addr.elem name i = ⟨AddrBase.alloca name, [i]⟩ := rfl
    rw [ha] at h
    simp [stepFloat, loadElement, evalPtr, h]
  simp only [loadElement] at hs ⊢
  simp only [runFloat, hs, Option.some_bind]

theorem runFloat_store {F : Type} [LinearOrderedField F] (m : CMath F) (s : FloatMachine F)
    (val : LLVMValue) (name : String) (i : ℤ) (rest : List Instruction) (x : F)
    (h : evalFloat m s val = some x) :
    runFloat m (storeElement val name i :: rest) s
      = runFloat m rest ⟨fun b => if b = Addr.elem name i then some x else s.mem b, s.regs⟩ := by
  have hs : stepFloat m s (storeElement val name i)
      = some ⟨fun b => if b = Addr.elem name i then some x else s.mem b, s.regs⟩ := by
    simp [stepFloat, storeElement, evalPtr, h, Addr.elem]
  simp only [storeElement] at hs ⊢
  simp only [runFloat, hs, Option.some_bind]

theorem runFloat_store_slot {F : Type} [LinearOrderedField F] (m : CMath F)
    (s : FloatMachine F) (val : LLVMValue) (name : String) (rest : List Instruction) (x : F)
    (h : evalFloat m s val = some x) :
    runFloat m (Instruction.Store val (LLVMValue.Alloca name) :: rest) s
      = runFloat m rest ⟨fun b => if b = Addr.slot name then some x else s.mem b, s.regs⟩ := by
  have hs : stepFloat m s (Instruction.Store val (LLVMValue.Alloca name))
      = some ⟨fun b => if b = Addr.slot name then some x else s.mem b, s.regs⟩ := by
    simp [stepFloat, evalPtr, h, Addr.slot]
  simp only [runFloat, hs, Option.some_bind]

theorem evalFloat_scaled {F : Type} [LinearOrderedField F] (m : CMath F) (s : FloatMachine F)
    (k : Nat) (i : ℤ) (v0 v1 v2 x : F) (h0 : s.regs 0 = some v0) (h1 : s.regs 1 = some v1)
    (h2 : s.regs 2 = some v2) (hk : s.regs k = some x)
    (hne : m.sqrtf (v0 * v0 + v1 * v1 + v2 * v2) ≠ 0) :
    evalFloat m s (LLVMValue.BinOp BinaryOps.FMul (loadedElement k "v" i) inverseLength)
      = some (x * (1 / m.sqrtf (v0 * v0 + v1 * v1 + v2 * v2))) := by
  simp [evalFloat, evalFloatBinOp, inverseLength, sumOfSquares, loadedElement, h0, h1, h2, hk,
    hne]

theorem evalFloat_length {F : Type} [LinearOrderedField F] (m : CMath F) (s : FloatMachine F)
    (a b c : Nat) (name : String) (x y z : F) (ha : s.regs a = some x) (hb : s.regs b = some y)
    (hc : s.regs c = some z) :
    evalFloat m s
        (LLVMValue.Call1 "llvm.sqrt.f32"
          (sumOfSquares (loadedElement a name 0) (loadedElement b name 1)
            (loadedElement c name 2)))
      = some (m.sqrtf (x * x + y * y + z * z)) := by
  simp [evalFloat, evalFloatBinOp, sumOfSquares, loadedElement, ha, hb, hc]

theorem Imath_dot_normalize_self {F : Type} [LinearOrderedField F] (m : CMath F)
    (a : Imath.Vec3 F) (hsq : m.sqrtf (a.dot a) * m.sqrtf (a.dot a) = a.dot a)
    (ha : 0 < a.dot a) : (a.normalize m).dot (a.normalize m) = 1 := by
  have hl : m.sqrtf (a.dot a) ≠ 0 := by
    intro h0
    rw [h0, mul_zero] at hsq
    exact absurd hsq.symm (ne_of_gt ha)
  unfold Imath.Vec3.normalize
  simp only [hl, ne_eq, not_false_eq_true, if_true]
  have h1 : a.x / m.sqrtf (a.dot a) * (a.x / m.sqrtf (a.dot a))
      + a.y / m.sqrtf (a.dot a) * (a.y / m.sqrtf (a.dot a))
      + a.z / m.sqrtf (a.dot a) * (a.z / m.sqrtf (a.dot a))
      = (a.x * a.x + a.y * a.y + a.z * a.z)
          * (m.sqrtf (a.dot a) * m.sqrtf (a.dot a))⁻¹ := by
    rw [mul_inv]
    ring
  simp only [Imath.Vec3.dot] at h1 hsq ha ⊢
  rw [h1, hsq, mul_inv_cancel₀ (ne_of_gt ha)]

theorem make_orthonormals_unnormalized_spec {F : Type} [LinearOrderedField F]
    (N : Imath.Vec3 F) (hN : ¬ (N.x = 0 ∧ N.y = 0 ∧ N.z = 0)) :
    N.dot (ClosurePrimitive.make_orthonormals_unnormalized N) = 0
    ∧ 0 < (ClosurePrimitive.make_orthonormals_unnormalized N).dot
        (ClosurePrimitive.make_orthonormals_unnormalized N) := by
  unfold ClosurePrimitive.make_orthonormals_unnormalized
  simp only [Imath.Vec3.get]
  split_ifs with h
  · refine ⟨by simp only [Imath.Vec3.dot]; ring, ?_⟩
    simp only [Imath.Vec3.dot]
    rcases h with h | h
    · have h1 : N.x - N.y ≠ 0 := sub_ne_zero.mpr h
      have := mul_self_pos.mpr h1
      nlinarith [mul_self_nonneg (N.z - N.y), mul_self_nonneg (N.x - N.z)]
    · have h1 : N.x - N.z ≠ 0 := sub_ne_zero.mpr h
      have := mul_self_pos.mpr h1
      nlinarith [mul_self_nonneg (N.z - N.y), mul_self_nonneg (N.y - N.x)]
  · push_neg at h
    obtain ⟨h1, h2⟩ := h
    have hx : N.x ≠ 0 := by
      intro h0
      exact hN ⟨h0, by rw [← h1, h0], by rw [← h2, h0]⟩
    refine ⟨by simp only [Imath.Vec3.dot]; rw [← h1, ← h2]; ring, ?_⟩
    simp only [Imath.Vec3.dot]
    rw [← h1, ← h2]
    have := mul_self_pos.mpr hx
    nlinarith

theorem Imath_cross_dot_self {F : Type} [LinearOrderedField F] (N a : Imath.Vec3 F) :
    a.dot (N.cross a) = 0 := by
  simp only [Imath.Vec3.dot, Imath.Vec3.cross]
  ring

theorem Imath_cross_norm {F : Type} [LinearOrderedField F] (N a : Imath.Vec3 F) :
    (N.cross a).dot (N.cross a) = N.dot N * a.dot a - N.dot a * N.dot a := by
  simp only [Imath.Vec3.dot, Imath.Vec3.cross]
  ring

theorem to_unit_disk_eq_polar {F : Type} [LinearOrderedField F] (m : CMath F) (x y : F) :
    to_unit_disk m x y
      = ((to_unit_disk_polar m x y).1 * m.cosf (to_unit_disk_polar m x y).2,
         (to_unit_disk_polar m x y).1 * m.sinf (to_unit_disk_polar m x y).2) := rfl

theorem to_unit_disk_radius {F : Type} [LinearOrderedField F] (m : CMath F) (x y : F) :
    (to_unit_disk_polar m x y).1 = max |2 * x - 1| |2 * y - 1| := by
  unfold to_unit_disk_polar
  simp only [gt_iff_lt]
  split_ifs with h1 h2 h3
  · have ha : 0 ≤ 2 * x - 1 := by linarith
    rw [abs_of_nonneg ha, max_eq_left]
    exact abs_le.mpr ⟨by linarith, by linarith⟩
  · have hb : 0 ≤ 2 * y - 1 := by linarith
    rw [abs_of_nonneg hb, max_eq_right]
    exact abs_le.mpr ⟨by linarith, by linarith⟩
  · have ha : 2 * x - 1 ≤ 0 := by linarith
    rw [abs_of_nonpos ha, max_eq_left]
    exact abs_le.mpr ⟨by linarith, by linarith⟩
  all_goals
    have hb : 2 * y - 1 ≤ 0 := by linarith
    rw [abs_of_nonpos hb, max_eq_right]
    exact abs_le.mpr ⟨by linarith, by linarith⟩

theorem loadLLVMValue_transfer (rop r : RuntimeOptimizer) (sym : Symbol) (c : ℤ)
    (ptr : LLVMValue)
    (h : (loadLLVMValue rop sym c 0).1 = some (LLVMValue.Load rop.m_next_id ptr))
    (hn : r.m_named_values = rop.m_named_values) :
    loadLLVMValue r sym c 0 = (some (LLVMValue.Load r.m_next_id ptr), (r.CreateLoad ptr).2) := by
  unfold loadLLVMValue at h ⊢
  simp only [ne_eq, not_true_eq_false, decide_False, Bool.and_false, Bool.false_eq_true,
    if_false] at h ⊢
  by_cases hg : sym.symtype = SymType.SymTypeGlobal
  · simp only [hg, if_true] at h ⊢
    unfold LLVMLoadShaderGlobal at h ⊢
    simp only at h ⊢
    by_cases h1 : ShaderGlobalNameToIndex sym.name 0 = -1
    · simp only [h1, if_true] at h
      cases h
    · simp only [h1, if_false] at h ⊢
      by_cases h2 : (sym.typespec.simpletype.aggregate : ℤ) = 1
      · simp only [h2, if_true, RuntimeOptimizer.CreateLoad, Option.some.injEq,
          LLVMValue.Load.injEq, true_and] at h
        subst h
        simp only [h2, if_true]
        rfl
      · simp only [h2, if_false, RuntimeOptimizer.CreateLoad, Option.some.injEq,
          LLVMValue.Load.injEq, true_and] at h
        subst h
        simp only [h2, if_false]
        rfl
  · simp only [hg, if_false] at h ⊢
    unfold getLLVMSymbolBase at h ⊢
    simp only [hn] at h ⊢
    cases hl : rop.m_named_values.lookup sym.dealias_mangled with
    | none =>
      simp only [hl] at h
      cases h
    | some aggregate =>
      simp only [hl] at h ⊢
      cases hb : (decide ((sym.typespec.simpletype.aggregate : ℤ) = 1) && !sym.has_derivs)
      · simp only [hb, Bool.false_eq_true, if_false, RuntimeOptimizer.CreateLoad,
          Option.some.injEq, LLVMValue.Load.injEq, true_and] at h
        subst h
        simp only [Bool.false_eq_true, if_false]
        rfl
      · simp only [hb, if_true, RuntimeOptimizer.CreateLoad, Option.some.injEq,
          LLVMValue.Load.injEq, true_and] at h
        subst h
        simp only [if_true]
        rfl

theorem emit_blocks (rop : RuntimeOptimizer) (instr : Instruction) :
    (rop.emit instr).m_blocks
      = blocksWith rop.m_blocks rop.m_insert_block rop.m_insert_pos [instr] := by
  unfold RuntimeOptimizer.emit blocksWith
  cases rop.m_insert_pos with
  | none => rfl
  | some k =>
    simp only [insertedAt, insertAt]
    congr 1
    funext b
    simp

theorem emit_insert_block (rop : RuntimeOptimizer) (instr : Instruction) :
    (rop.emit instr).m_insert_block = rop.m_insert_block := by
  unfold RuntimeOptimizer.emit
  cases rop.m_insert_pos <;> rfl

theorem emit_insert_pos (rop : RuntimeOptimizer) (instr : Instruction) :
    (rop.emit instr).m_insert_pos = rop.m_insert_pos.map fun k => k + 1 := by
  unfold RuntimeOptimizer.emit
  cases rop.m_insert_pos <;> rfl

theorem emit_named_values (rop : RuntimeOptimizer) (instr : Instruction) :
    (rop.emit instr).m_named_values = rop.m_named_values := by
  unfold RuntimeOptimizer.emit
  cases rop.m_insert_pos <;> rfl

theorem emit_next_id (rop : RuntimeOptimizer) (instr : Instruction) :
    (rop.emit instr).m_next_id = rop.m_next_id := by
  unfold RuntimeOptimizer.emit
  cases rop.m_insert_pos <;> rfl

theorem blocksWith_append (blocks : List (List Instruction)) (b : Nat) (pos : Option Nat)
    (l1 l2 : List Instruction) :
    blocksWith (blocksWith blocks b pos l1) b (pos.map fun k => k + l1.length) l2
      = blocksWith blocks b pos (l1 ++ l2) := by
  unfold blocksWith
  apply List.ext_getElem?
  intro n
  simp only [List.getElem?_modify]
  cases blocks[n]? with
  | none => rfl
  | some old =>
    by_cases hb : b = n
    · simp only [hb, if_true, Option.map_some']
      cases pos with
      | none => simp [insertedAt]
      | some k =>
        simp only [insertedAt, Option.map_some', Option.some.injEq]
        by_cases hk : k ≤ old.length
        · have h1 : (List.take k old ++ l1 ++ List.drop k old).take (k + l1.length)
              = List.take k old ++ l1 := by
            rw [List.append_assoc, List.take_append_eq_append_take]
            simp [List.length_take, Nat.min_eq_left hk, List.take_append_eq_append_take]
          have h2 : (List.take k old ++ l1 ++ List.drop k old).drop (k + l1.length)
              = List.drop k old := by
            rw [List.append_assoc, List.drop_append_eq_append_drop]
            simp [List.length_take, Nat.min_eq_left hk, List.drop_append_eq_append_drop]
          simp only [Option.map_eq_map, Option.map_some', h1, h2, Option.some.injEq]
          simp
        · have hk2 : old.length ≤ k := by omega
          have h3 : (old ++ l1).length ≤ k + l1.length := by
            rw [List.length_append]
            omega
          simp [List.take_of_length_le hk2, List.drop_of_length_le hk2,
            List.take_of_length_le h3, List.drop_of_length_le h3]
    · simp [hb]

theorem blocksWith_end_end (blocks : List (List Instruction)) (b : Nat)
    (l1 l2 : List Instruction) :
    blocksWith (blocksWith blocks b none l1) b none l2 = blocksWith blocks b none (l1 ++ l2) :=
  blocksWith_append blocks b none l1 l2

theorem setStart_spec (bb : List Bool) (k : Nat) (h : k < bb.length) :
    setStart bb k = some (bb.set k true)
    ∧ (bb.set k true).length = bb.length
    ∧ ∀ i, (bb.set k true).getD i false = (bb.getD i false || decide (i = k)) := by
  refine ⟨by simp [setStart, h], by simp, ?_⟩
  intro i
  simp only [List.getD_eq_getElem?_getD, List.getElem?_set]
  by_cases hik : k = i
  · subst hik
    simp [h]
  · have hki : ¬ i = k := fun e => hik e.symm
    simp [hik, hki]

theorem markBlockStarts_spec :
    ∀ (ops : List Opcode) (k : Nat) (bb : List Bool),
      targetsInRangeFrom ops k bb.length = true →
      ∃ bb1, markBlockStarts ops k bb = some bb1 ∧ bb1.length = bb.length
        ∧ ∀ i, bb1.getD i false = (bb.getD i false || blockStartFrom ops k i) := by
  intro ops
  induction ops with
  | nil =>
    intro k bb _
    exact ⟨bb, rfl, rfl, fun i => by simp [blockStartFrom]⟩
  | cons op rest ih =>
    intro k bb h
    simp only [targetsInRangeFrom, Bool.and_eq_true, List.all_eq_true, decide_eq_true_eq] at h
    obtain ⟨hin, hrest⟩ := h
    unfold markBlockStarts
    by_cases hif : op.opname = "if"
    · simp only [hif, if_true]
      have hl : op.blockStartsAt k = [k + 1, op.jump 0, op.jump 1] := by
        simp [Opcode.blockStartsAt, hif]
      rw [hl] at hin
      obtain ⟨e1, l1, g1⟩ := setStart_spec bb (k + 1) (hin _ (by simp))
      obtain ⟨e2, l2, g2⟩ := setStart_spec (bb.set (k + 1) true) (op.jump 0)
        (by rw [l1]; exact hin _ (by simp))
      obtain ⟨e3, l3, g3⟩ := setStart_spec ((bb.set (k + 1) true).set (op.jump 0) true)
        (op.jump 1) (by rw [l2, l1]; exact hin _ (by simp))
      simp only [e1, e2, e3, Option.some_bind]
      obtain ⟨bb1, hm, hlen, hget⟩ := ih (k + 1)
        (((bb.set (k + 1) true).set (op.jump 0) true).set (op.jump 1) true)
        (by rw [l3, l2, l1]; exact hrest)
      refine ⟨bb1, hm, by rw [hlen, l3, l2, l1], ?_⟩
      intro i
      rw [hget, g3, g2, g1]
      simp only [blockStartFrom, hl, List.mem_cons, List.mem_singleton, List.not_mem_nil,
        or_false, Bool.decide_or, Bool.or_assoc]
    · simp only [hif, if_false]
      by_cases hloop : op.opname = "for" ∨ op.opname = "while" ∨ op.opname = "dowhile"
      · simp only [hloop, if_true]
        have hl : op.blockStartsAt k
            = [k + 1, op.jump 0, op.jump 1, op.jump 2, op.jump 3] := by
          simp [Opcode.blockStartsAt, hif, hloop]
        rw [hl] at hin
        obtain ⟨e1, l1, g1⟩ := setStart_spec bb (k + 1) (hin _ (by simp))
        obtain ⟨e2, l2, g2⟩ := setStart_spec (bb.set (k + 1) true) (op.jump 0)
          (by rw [l1]; exact hin _ (by simp))
        obtain ⟨e3, l3, g3⟩ := setStart_spec ((bb.set (k + 1) true).set (op.jump 0) true)
          (op.jump 1) (by rw [l2, l1]; exact hin _ (by simp))
        obtain ⟨e4, l4, g4⟩ := setStart_spec
          (((bb.set (k + 1) true).set (op.jump 0) true).set (op.jump 1) true)
          (op.jump 2) (by rw [l3, l2, l1]; exact hin _ (by simp))
        obtain ⟨e5, l5, g5⟩ := setStart_spec
          ((((bb.set (k + 1) true).set (op.jump 0) true).set (op.jump 1) true).set
            (op.jump 2) true)
          (op.jump 3) (by rw [l4, l3, l2, l1]; exact hin _ (by simp))
        simp only [e1, e2, e3, e4, e5, Option.some_bind]
        obtain ⟨bb1, hm, hlen, hget⟩ := ih (k + 1)
          (((((bb.set (k + 1) true).set (op.jump 0) true).set (op.jump 1) true).set
            (op.jump 2) true).set (op.jump 3) true)
          (by rw [l5, l4, l3, l2, l1]; exact hrest)
        refine ⟨bb1, hm, by rw [hlen, l5, l4, l3, l2, l1], ?_⟩
        intro i
        rw [hget, g5, g4, g3, g2, g1]
        simp only [blockStartFrom, hl, List.mem_cons, List.mem_singleton, List.not_mem_nil,
          or_false, Bool.decide_or, Bool.or_assoc]
      · simp only [hloop, if_false]
        obtain ⟨bb1, hm, hlen, hget⟩ := ih (k + 1) bb hrest
        refine ⟨bb1, hm, hlen, ?_⟩
        intro i
        rw [hget]
        have hl : op.blockStartsAt k = [] := by
          simp [Opcode.blockStartsAt, hif, hloop]
        simp [blockStartFrom, hl]

theorem createBlocks_range (bb : List Bool) :
    ∀ (n s : Nat) (rop : RuntimeOptimizer),
      (createBlocks bb (List.range' s n) rop).m_blocks
          = rop.m_blocks
            ++ List.replicate ((List.range' s n).filter fun j => bb.getD j false).length []
      ∧ ∀ i, (createBlocks bb (List.range' s n) rop).bb_map i
          = if s ≤ i ∧ i < s + n ∧ bb.getD i false = true then
              some (rop.m_blocks.length
                + ((List.range' s (i - s)).filter fun j => bb.getD j false).length)
            else rop.bb_map i := by
  intro n
  induction n with
  | zero =>
    intro s rop
    refine ⟨by simp [createBlocks], ?_⟩
    intro i
    have : ¬ (s ≤ i ∧ i < s + 0 ∧ bb.getD i false = true) := by omega
    simp only [List.range'_zero, createBlocks, this, if_false]
  | succ n ih =>
    intro s rop
    simp only [List.range'_succ, createBlocks]
    by_cases hs : bb.getD s false = true
    · simp only [hs, if_true]
      obtain ⟨hb, hm⟩ := ih (s + 1)
        { (rop.BasicBlockCreate).2 with
          m_bb_map := (s, (rop.BasicBlockCreate).1)
            :: (rop.BasicBlockCreate).2.m_bb_map.filter fun e => e.1 ≠ s }
      refine ⟨?_, ?_⟩
      · rw [hb]
        simp only [RuntimeOptimizer.BasicBlockCreate, List.filter_cons, hs, if_true,
          List.length_cons, List.replicate_succ, List.append_assoc, List.singleton_append]
      · intro i
        rw [hm i]
        by_cases hi : s + 1 ≤ i ∧ i < s + 1 + n ∧ bb.getD i false = true
        · have hi2 : s ≤ i ∧ i < s + (n + 1) ∧ bb.getD i false = true :=
            ⟨by omega, by omega, hi.2.2⟩
          simp only [hi, hi2, and_self, if_true, RuntimeOptimizer.BasicBlockCreate,
            List.length_append, List.length_singleton, Option.some.injEq]
          have hsub : i - s = (i - (s + 1)) + 1 := by omega
          rw [hsub, List.range'_succ, List.filter_cons]
          simp only [hs, if_true, List.length_cons]
          omega
        · simp only [hi, if_false]
          by_cases his : i = s
          · subst his
            have hi2 : i ≤ i ∧ i < i + (n + 1) ∧ bb.getD i false = true :=
              ⟨le_refl _, by omega, hs⟩
            rw [if_pos hi2]
            simp [RuntimeOptimizer.bb_map, RuntimeOptimizer.BasicBlockCreate, List.lookup]
          · have hi2 : ¬ (s ≤ i ∧ i < s + (n + 1) ∧ bb.getD i false = true) := by
              intro h
              exact hi ⟨by omega, by omega, h.2.2⟩
            simp only [hi2, if_false, RuntimeOptimizer.bb_map,
              RuntimeOptimizer.BasicBlockCreate, List.lookup]
            have hne : (i == s) = false := by simpa using his
            rw [hne]
            simp only
            induction rop.m_bb_map with
            | nil => rfl
            | cons e t iht =>
              by_cases he : e.1 = s
              · have hne2 : (i == e.1) = false := by
                  rw [he]
                  exact hne
                simp only [List.filter_cons, he, ne_eq, not_true_eq_false, decide_False,
                  Bool.false_eq_true, if_false]
                rw [iht]
                obtain ⟨e1, e2⟩ := e
                simp only at he hne2
                simp only [List.lookup, hne2]
              · simp only [List.filter_cons, he, ne_eq, not_false_eq_true, decide_True,
                  if_true]
                obtain ⟨e1, e2⟩ := e
                simp only [List.lookup]
                rw [iht]
    · simp only [hs, if_false, Bool.false_eq_true]
      obtain ⟨hb, hm⟩ := ih (s + 1) rop
      refine ⟨?_, ?_⟩
      · rw [hb]
        simp only [List.filter_cons, hs, if_false, Bool.false_eq_true]
      · intro i
        rw [hm i]
        by_cases hi : s + 1 ≤ i ∧ i < s + 1 + n ∧ bb.getD i false = true
        · have hi2 : s ≤ i ∧ i < s + (n + 1) ∧ bb.getD i false = true :=
            ⟨by omega, by omega, hi.2.2⟩
          simp only [hi, hi2, and_self, if_true, Option.some.injEq]
          have hsub : i - s = (i - (s + 1)) + 1 := by omega
          rw [hsub, List.range'_succ, List.filter_cons]
          simp only [hs, if_false, Bool.false_eq_true]
        · have hi2 : ¬ (s ≤ i ∧ i < s + (n + 1) ∧ bb.getD i false = true) := by
            intro h
            by_cases his : i = s
            · subst his
              exact hs h.2.2
            · exact hi ⟨by omega, by omega, h.2.2⟩
          simp only [hi, hi2, if_false]

theorem withInserted_nil (rop : RuntimeOptimizer) : rop.withInserted [] 0 = rop := by
  have hb : blocksWith rop.m_blocks rop.m_insert_block rop.m_insert_pos [] = rop.m_blocks := by
    unfold blocksWith
    apply List.ext_getElem?
    intro n
    simp only [List.getElem?_modify]
    cases rop.m_blocks[n]? with
    | none => rfl
    | some old =>
      by_cases hn : rop.m_insert_block = n
      · cases rop.m_insert_pos <;> simp [hn, insertedAt]
      · simp [hn]
  cases rop with
  | mk ops syms nv al bl ib ip ni bm er wa inf ln id lv =>
    simp only [RuntimeOptimizer.withInserted] at hb ⊢
    rw [hb]
    cases ip <;> rfl

theorem withInserted_emit (rop : RuntimeOptimizer) (new : List Instruction) (loads : Nat)
    (instr : Instruction) :
    (rop.withInserted new loads).emit instr = rop.withInserted (new ++ [instr]) loads := by
  have hb := emit_blocks (rop.withInserted new loads) instr
  have h2 := blocksWith_append rop.m_blocks rop.m_insert_block rop.m_insert_pos new [instr]
  cases rop with
  | mk ops syms nv al bl ib ip ni bm er wa inf ln id lv =>
    simp only [RuntimeOptimizer.withInserted] at hb h2 ⊢
    rw [h2] at hb
    cases ip with
    | none =>
      simp only [RuntimeOptimizer.emit, Option.map_none'] at hb ⊢
      rw [hb]
    | some k =>
      simp only [RuntimeOptimizer.emit, Option.map_some'] at hb ⊢
      rw [hb]
      simp [Nat.add_assoc]

theorem withInserted_load (rop : RuntimeOptimizer) (new : List Instruction) (loads : Nat)
    (ptr : LLVMValue) :
    (rop.withInserted new loads).CreateLoad ptr
      = (LLVMValue.Load (rop.m_next_id + loads) ptr,
         rop.withInserted (new ++ [Instruction.Load (rop.m_next_id + loads) ptr])
           (loads + 1)) := by
  unfold RuntimeOptimizer.CreateLoad
  rw [withInserted_emit]
  rfl

theorem storeLLVMValue_plain (rop : RuntimeOptimizer) (v : LLVMValue) (sym : Symbol) (c : ℤ)
    (aggregate : LLVMValue)
    (hl : rop.m_named_values.lookup sym.dealias_mangled = some aggregate)
    (hd : sym.has_derivs = false) :
    storeLLVMValue rop v sym c 0
      = rop.emit (Instruction.Store v (componentPointer aggregate sym c)) := by
  unfold storeLLVMValue getLLVMSymbolBase componentPointer RuntimeOptimizer.CreateStore
  simp only [hl, hd, ne_eq, not_true_eq_false, decide_False, Bool.and_false,
    Bool.false_eq_true, if_false, Bool.not_false, Bool.and_true, decide_eq_true_eq]
  split_ifs <;> rfl

theorem llvm_assign_initial_constant_loop_spec (sym : Symbol) (aggregate : LLVMValue)
    (rop : RuntimeOptimizer)
    (hl : rop.m_named_values.lookup sym.dealias_mangled = some aggregate)
    (hd : sym.has_derivs = false) :
    ∀ (l : List Nat) (new : List Instruction) (loads : Nat),
      (∀ i ∈ l, (initialConstant sym i).isSome = true) →
      llvm_assign_initial_constant_loop sym l (rop.withInserted new loads)
        = some (rop.withInserted (new ++ initialStores aggregate sym l) loads) := by
  intro l
  induction l with
  | nil =>
    intro new loads _
    simp [llvm_assign_initial_constant_loop, initialStores]
  | cons i rest ih =>
    intro new loads hall
    have hi := hall i (List.mem_cons_self _ _)
    obtain ⟨v, hv⟩ := Option.isSome_iff_exists.mp hi
    have hv2 := hv
    unfold initialConstant at hv2
    unfold llvm_assign_initial_constant_loop
    simp only [hv2]
    have hl2 : (rop.withInserted new loads).m_named_values.lookup sym.dealias_mangled
        = some aggregate := hl
    rw [storeLLVMValue_plain _ v sym i aggregate hl2 hd, withInserted_emit,
      ih _ _ (fun j hj => hall j (List.mem_cons_of_mem _ hj))]
    simp [initialStores, hv]

theorem setupSymbols_named_values :
    ∀ (syms : List Symbol) (rop rop1 : RuntimeOptimizer),
      setupSymbols syms rop = some rop1 →
      ∀ name : String,
        (rop1.m_named_values.lookup name).isSome
          = ((rop.m_named_values.lookup name).isSome
              || syms.any fun s => receivesStorage s && decide (s.dealias_mangled = name)) := by
  intro syms
  induction syms with
  | nil =>
    intro rop rop1 h name
    simp only [setupSymbols, Option.some.injEq] at h
    subst h
    simp
  | cons s rest ih =>
    intro rop rop1 h name
    unfold setupSymbols at h
    by_cases hskip : SkipSymbol s = true
    · simp only [hskip, if_true] at h
      rw [ih _ _ h name]
      simp [receivesStorage, hskip]
    · simp only [hskip, if_false, Bool.false_eq_true] at h
      by_cases hg : s.symtype = SymType.SymTypeGlobal
      · simp only [hg, if_true] at h
        rw [ih _ _ h name]
        simp [receivesStorage, hg]
      · simp only [hg, if_false] at h
        have hrec : receivesStorage s = true := by
          simp [receivesStorage, hskip, hg]
        have hlook : ((getOrAllocateLLVMSymbol rop s).2.m_named_values.lookup name).isSome
            = ((rop.m_named_values.lookup name).isSome || decide (s.dealias_mangled = name)) := by
          by_cases hn : s.dealias_mangled = name
          · subst hn
            cases hl : rop.m_named_values.lookup s.dealias_mangled with
            | none =>
              unfold getOrAllocateLLVMSymbol
              simp only [hl]
              simp [List.lookup]
            | some v =>
              unfold getOrAllocateLLVMSymbol
              simp only [hl]
              simp [hl]
          · rw [lookup_getOrAllocateLLVMSymbol rop s name hn]
            simp [hn]
        by_cases hc : s.is_constant = true
        · simp only [hc, if_true] at h
          cases hinit : llvm_assign_initial_constant (getOrAllocateLLVMSymbol rop s).2 s with
          | none =>
            rw [hinit] at h
            cases h
          | some rop2 =>
            rw [hinit] at h
            simp only [Option.some_bind] at h
            have hf := frame_llvm_assign_initial_constant _ _ _ hinit
            have hnv : rop2.m_named_values = (getOrAllocateLLVMSymbol rop s).2.m_named_values :=
              congrArg (fun f => f.2.2.1) hf
            rw [ih _ _ h name, hnv, hlook]
            simp [hrec, Bool.or_assoc]
        · simp only [hc, if_false, Bool.false_eq_true] at h
          rw [ih _ _ h name, hlook]
          simp [hrec, Bool.or_assoc]

theorem build_llvm_version_storage (rop : RuntimeOptimizer)
    (r : Option LayerFunction × RuntimeOptimizer) (h : build_llvm_version rop = some r) :
    ∀ name : String,
      (r.2.m_named_values.lookup name).isSome
        = rop.m_symbols.any fun s => receivesStorage s && decide (s.dealias_mangled = name) := by
  intro name
  unfold build_llvm_version at h
  simp only at h
  split at h
  · cases h
  · rename_i rop1 hsetup
    have hn1 := setupSymbols_named_values _ _ _ hsetup name
    simp only [List.lookup, Option.isSome_none, Bool.false_or] at hn1
    split at h
    · cases h
    · rename_i bb_start _
      have hcb := createBlocks_spec bb_start (List.range rop1.m_ops.length)
        { rop1 with m_bb_map := [] }
      generalize createBlocks bb_start (List.range rop1.m_ops.length)
        { rop1 with m_bb_map := [] } = rop2 at h hcb
      have hn2 : rop2.m_named_values = rop1.m_named_values := hcb.2
      split at h
      · cases h
      · rename_i rop3 hlow
        obtain ⟨hf3, _, _⟩ := lowerOps_spec _ _ _ _ _ _ hlow
        have hnv3 : rop3.m_named_values = rop2.m_named_values :=
          congrArg (fun f => f.2.2.1) hf3
        cases h
        simp only
        rw [hnv3, hn2, hn1]
      · rename_i rop3 hlow
        obtain ⟨hf3, _, _⟩ := lowerOps_spec _ _ _ _ _ _ hlow
        have hnv3 : rop3.m_named_values = rop2.m_named_values :=
          congrArg (fun f => f.2.2.1) hf3
        have hnv4 : (rop3.emit Instruction.RetVoid).m_named_values = rop3.m_named_values :=
          emit_named_values _ _
        cases h
        simp only [RuntimeOptimizer.CreateRetVoid]
        rw [hnv4, hnv3, hn2, hn1]

theorem componentsText_nonzero (spec : List Char) :
    ∀ l : List Nat, (∀ i ∈ l, i ≠ 0) →
      componentsText spec l = (List.replicate l.length (' ' :: spec)).flatten := by
  intro l
  induction l with
  | nil => intro _; rfl
  | cons i rest ih =>
    intro h
    have hi : i ≠ 0 := h i (List.mem_cons_self _ _)
    simp only [componentsText, hi, ne_eq, not_false_eq_true, if_true, List.length_cons,
      List.replicate_succ, List.flatten_cons]
    rw [ih (fun j hj => h j (List.mem_cons_of_mem _ hj))]

theorem repeatedConversion_succ (spec : List Char) :
    ∀ m : Nat, repeatedConversion spec (m + 1)
      = spec ++ (List.replicate m (' ' :: spec)).flatten := by
  intro m
  induction m with
  | zero => simp [repeatedConversion, List.intercalate, List.intersperse]
  | succ m ih =>
    unfold repeatedConversion at ih ⊢
    simp only [List.intercalate, List.replicate_succ, List.intersperse, List.flatten_cons]
      at ih ⊢
    rw [ih]
    simp

theorem componentsText_range (spec : List Char) (n : Nat) :
    componentsText spec (List.range n) = repeatedConversion spec n := by
  cases n with
  | zero => simp [componentsText, repeatedConversion, List.intercalate, List.intersperse]
  | succ m =>
    rw [List.range_succ_eq_map, repeatedConversion_succ]
    simp only [componentsText, ne_eq, not_true_eq_false, if_false]
    rw [componentsText_nonzero spec _ (by
      intro i hi
      obtain ⟨j, _, hj⟩ := List.mem_map.mp hi
      omega)]
    simp

theorem componentLoads_length (p : Nat → LLVMValue) (widen : Bool) :
    ∀ (l : List Nat) (id : Nat), (componentLoads p widen l id).length = l.length := by
  intro l
  induction l with
  | nil => intro _; rfl
  | cons i rest ih =>
    intro id
    simp [componentLoads, ih]

theorem llvm_gen_printf_components_spec (rop : RuntimeOptimizer) (sym : Symbol)
    (spec : List Char) (p : Nat → LLVMValue) :
    ∀ (l : List Nat) (s : List Char) (args : List LLVMValue) (new : List Instruction)
      (n : Nat),
      (∀ i ∈ l, (loadLLVMValue rop sym (i : ℤ) 0).1
          = some (LLVMValue.Load rop.m_next_id (p i))) →
      llvm_gen_printf_components sym spec l s args (rop.withInserted new n)
        = some
            (s ++ componentsText spec l,
             args ++ (componentLoads p sym.typespec.is_floatbased l (rop.m_next_id + n)).map
                Prod.snd,
             rop.withInserted
               (new ++ (componentLoads p sym.typespec.is_floatbased l
                  (rop.m_next_id + n)).map Prod.fst)
               (n + l.length)) := by
  intro l
  induction l with
  | nil =>
    intro s args new n _
    simp [llvm_gen_printf_components, componentsText, componentLoads]
  | cons i rest ih =>
    intro s args new n h
    have hT := loadLLVMValue_transfer rop (rop.withInserted new n) sym (i : ℤ) (p i)
      (h i (List.mem_cons_self _ _)) rfl
    unfold llvm_gen_printf_components
    simp only [hT]
    rw [withInserted_load]
    simp only
    rw [ih _ _ _ _ (fun j hj => h j (List.mem_cons_of_mem _ hj))]
    have hid : (rop.withInserted new n).m_next_id = rop.m_next_id + n := rfl
    simp only [hid, componentsText, componentLoads, List.map_cons, List.append_assoc,
      List.singleton_append, List.length_cons, Option.some.injEq, Prod.mk.injEq]
    refine ⟨?_, ?_, ?_⟩
    · by_cases hi : i = 0
      · simp [hi]
      · simp [hi]
    · rfl
    · have : n + 1 + rest.length = n + (rest.length + 1) := by omega
      rw [this]
      rfl

theorem printfLoads_length (ptr : Nat → Nat → LLVMValue) :
    ∀ (syms : List Symbol) (k id : Nat),
      (printfLoads ptr syms k id).length = (syms.map printfComponents).sum := by
  intro syms
  induction syms with
  | nil => intro _ _; rfl
  | cons s rest ih =>
    intro k id
    simp [printfLoads, componentLoads_length, ih]

theorem firstPiece_conversion (c : Char) (rest : List Char) (spec rest1 : List Char)
    (hfp : firstPiece c rest = some (FormatPiece.conversion spec, rest1)) :
    c = '%' ∧ rest.head? ≠ some '%' ∧ (scanConversion (c :: rest)).1 = spec
    ∧ (scanConversion (c :: rest)).2 = some rest1 := by
  unfold firstPiece at hfp
  by_cases hpc : c = '%'
  · simp only [hpc, if_true] at hfp
    by_cases hh : rest.head? = some '%'
    · simp only [hh, if_true, Option.some.injEq, Prod.mk.injEq, reduceCtorEq, false_and]
        at hfp
    · simp only [hh, if_false] at hfp
      cases hsc : (scanConversion ('%' :: rest)).2 with
      | none =>
        rw [hsc] at hfp
        cases hfp
      | some r1 =>
        rw [hsc] at hfp
        simp only [Option.map_some', Option.some.injEq, Prod.mk.injEq,
          FormatPiece.conversion.injEq] at hfp
        subst hpc
        exact ⟨rfl, hh, hfp.1, by rw [hsc, hfp.2]⟩
  · simp only [hpc, if_false] at hfp
    by_cases hbs : c = '\\'
    · simp only [hbs, if_true] at hfp
      cases rest with
      | nil => cases hfp
      | cons e r1 =>
        simp only [Option.some.injEq, Prod.mk.injEq, reduceCtorEq, false_and] at hfp
    · simp only [hbs, if_false, Option.some.injEq, Prod.mk.injEq, reduceCtorEq, false_and]
        at hfp

theorem llvm_gen_printf_step_plain (op : Opcode) (c : Char) (rest : List Char)
    (p : FormatPiece) (rest1 s : List Char) (arg : ℤ) (args : List LLVMValue)
    (r : RuntimeOptimizer) (hfp : firstPiece c rest = some (p, rest1))
    (hp : ∀ spec, p ≠ FormatPiece.conversion spec) :
    llvm_gen_printf_step op c rest s arg args r
      = some (r, some (some rest1, s ++ expandPieces true [p] [], arg, args)) := by
  unfold firstPiece at hfp
  unfold llvm_gen_printf_step
  by_cases hpc : c = '%'
  · simp only [hpc, if_true] at hfp ⊢
    by_cases hh : rest.head? = some '%'
    · simp only [hh, if_true, Option.some.injEq, Prod.mk.injEq] at hfp ⊢
      obtain ⟨h1, h2⟩ := hfp
      subst h1
      subst h2
      simp [expandPieces]
    · simp only [hh, if_false] at hfp
      cases hsc : (scanConversion ('%' :: rest)).2 with
      | none =>
        rw [hsc] at hfp
        cases hfp
      | some r1 =>
        rw [hsc] at hfp
        simp only [Option.map_some', Option.some.injEq, Prod.mk.injEq] at hfp
        exact absurd hfp.1.symm (hp _)
  · simp only [hpc, if_false] at hfp ⊢
    by_cases hbs : c = '\\'
    · simp only [hbs, if_true] at hfp ⊢
      cases rest with
      | nil => cases hfp
      | cons e r1 =>
        simp only [Option.some.injEq, Prod.mk.injEq] at hfp ⊢
        obtain ⟨h1, h2⟩ := hfp
        subst h1
        subst h2
        simp [expandPieces, escapeChar]
    · simp only [hbs, if_false, Option.some.injEq, Prod.mk.injEq] at hfp ⊢
      obtain ⟨h1, h2⟩ := hfp
      subst h1
      subst h2
      simp [expandPieces]

theorem llvm_gen_printf_step_conversion (rop : RuntimeOptimizer) (op : Opcode)
    (p : Nat → LLVMValue) (c : Char) (rest spec rest1 : List Char) (sym : Symbol) (k : Nat)
    (s : List Char) (args : List LLVMValue) (new : List Instruction) (n : Nat)
    (hfp : firstPiece c rest = some (FormatPiece.conversion spec, rest1))
    (harg : rop.opargsym op (1 + k) = some sym) (hskip : SkipSymbol sym = false)
    (hload : ∀ i : Nat, i < printfComponents sym →
      (loadLLVMValue rop sym (i : ℤ) 0).1 = some (LLVMValue.Load rop.m_next_id (p i))) :
    llvm_gen_printf_step op c rest s (k : ℤ) args (rop.withInserted new n)
      = some
          (rop.withInserted
            (new ++ (componentLoads p sym.typespec.is_floatbased
              (List.range (printfComponents sym)) (rop.m_next_id + n)).map Prod.fst)
            (n + printfComponents sym),
           some
            (some rest1, s ++ repeatedConversion spec (printfComponents sym),
             ((k + 1 : Nat) : ℤ),
             args ++ (componentLoads p sym.typespec.is_floatbased
              (List.range (printfComponents sym)) (rop.m_next_id + n)).map Prod.snd)) := by
  obtain ⟨hpc, hh, hs1, hs2⟩ := firstPiece_conversion c rest spec rest1 hfp
  have hlt : 1 + k < op.nargs := by
    unfold RuntimeOptimizer.opargsym at harg
    by_contra hge
    rw [List.getElem?_eq_none (by
      unfold Opcode.nargs at hge
      omega)] at harg
    cases harg
  have hnot : ¬ ((k : ℤ) ≥ (op.nargs : ℤ)) := by omega
  have htn : (1 + (k : ℤ)).toNat = 1 + k := by omega
  have hop2 : (rop.withInserted new n).opargsym op (1 + k) = some sym := harg
  have hcomp := llvm_gen_printf_components_spec rop sym spec p
    (List.range (printfComponents sym)) s args new n
    (fun i hi => hload i (List.mem_range.mp hi))
  unfold llvm_gen_printf_step
  subst hpc
  simp only [if_true, hh, if_false, hnot, htn, hop2, hskip, Bool.false_eq_true, hs1, hs2]
  unfold printfComponents at hcomp ⊢
  rw [hcomp]
  simp only [componentsText_range, List.length_range, Option.some.injEq, Prod.mk.injEq,
    true_and, Nat.cast_add, Nat.cast_one, and_self]

theorem llvm_gen_printf_loop_spec (rop : RuntimeOptimizer) (op : Opcode)
    (ptr : Nat → Nat → LLVMValue) :
    ∀ (fuel : Nat) (format : List Char) (pieces : List FormatPiece) (syms : List Symbol)
      (k : Nat) (s : List Char) (args : List LLVMValue) (new : List Instruction) (n : Nat),
      formatPieces fuel format = some pieces → conversionCount pieces = syms.length →
      (∀ (j : Nat) (sym : Symbol), syms[j]? = some sym →
        rop.opargsym op (1 + (k + j)) = some sym ∧ SkipSymbol sym = false
        ∧ ∀ i : Nat, i < printfComponents sym →
            (loadLLVMValue rop sym (i : ℤ) 0).1
              = some (LLVMValue.Load rop.m_next_id (ptr (k + j) i))) →
      llvm_gen_printf_loop op fuel (some format) s (k : ℤ) args (rop.withInserted new n)
        = some
            (rop.withInserted
               (new ++ (printfLoads ptr syms k (rop.m_next_id + n)).map Prod.fst)
               (n + (printfLoads ptr syms k (rop.m_next_id + n)).length),
             some
               (s ++ expandPieces true pieces (syms.map printfComponents),
                args ++ (printfLoads ptr syms k (rop.m_next_id + n)).map Prod.snd)) := by
  intro fuel
  induction fuel with
  | zero =>
    intro format pieces syms k s args new n hp
    rw [formatPieces] at hp
    cases hp
  | succ fuel ih =>
    intro format pieces syms k s args new n hp hc hsyms
    cases format with
    | nil =>
      rw [formatPieces] at hp
      simp only [Option.some.injEq] at hp
      subst hp
      simp only [conversionCount] at hc
      have hs : syms = [] := List.length_eq_zero.mp hc.symm
      subst hs
      simp [llvm_gen_printf_loop, printfLoads, expandPieces]
    | cons c rest =>
      rw [formatPieces] at hp
      cases hfp : firstPiece c rest with
      | none =>
        rw [hfp] at hp
        cases hp
      | some pr =>
        obtain ⟨p, rest1⟩ := pr
        rw [hfp] at hp
        simp only at hp
        cases hr : formatPieces fuel rest1 with
        | none =>
          rw [hr] at hp
          cases hp
        | some ps =>
          rw [hr] at hp
          simp only [Option.map_some', Option.some.injEq] at hp
          subst hp
          cases p with
          | conversion spec =>
            simp only [conversionCount] at hc
            cases syms with
            | nil => simp at hc
            | cons sym syms1 =>
              simp only [List.length_cons, Nat.add_right_cancel_iff] at hc
              obtain ⟨harg, hskip, hload⟩ := hsyms 0 sym (by simp)
              rw [Nat.add_zero] at harg
              have hstep := llvm_gen_printf_step_conversion rop op (ptr k) c rest spec rest1
                sym k s args new n hfp harg hskip (fun i hi => by
                  have := hload i hi
                  rw [Nat.add_zero] at this
                  exact this)
              simp only [llvm_gen_printf_loop, hstep]
              rw [ih rest1 ps syms1 (k + 1) _ _ _ _ hr hc (fun j sym1 hj => by
                have := hsyms (j + 1) sym1 (by simpa using hj)
                have he : k + (j + 1) = k + 1 + j := by omega
                rw [he] at this
                exact this)]
              simp only [printfLoads, componentLoads_length, List.length_range,
                List.map_append, List.append_assoc, List.length_append, expandPieces,
                List.map_cons, List.headD_cons, List.tail_cons, Option.some.injEq,
                Prod.mk.injEq, Nat.add_assoc, and_self]
          | text ch =>
            have hstep := llvm_gen_printf_step_plain op c rest _ rest1 s (k : ℤ) args
              (rop.withInserted new n) hfp (fun spec h => by cases h)
            simp only [conversionCount] at hc
            simp only [llvm_gen_printf_loop, hstep]
            rw [ih rest1 ps syms k _ _ new n hr hc hsyms]
            simp [expandPieces]
          | percent =>
            have hstep := llvm_gen_printf_step_plain op c rest _ rest1 s (k : ℤ) args
              (rop.withInserted new n) hfp (fun spec h => by cases h)
            simp only [conversionCount] at hc
            simp only [llvm_gen_printf_loop, hstep]
            rw [ih rest1 ps syms k _ _ new n hr hc hsyms]
            simp [expandPieces]
          | escape e =>
            have hstep := llvm_gen_printf_step_plain op c rest _ rest1 s (k : ℤ) args
              (rop.withInserted new n) hfp (fun spec h => by cases h)
            simp only [conversionCount] at hc
            simp only [llvm_gen_printf_loop, hstep]
            rw [ih rest1 ps syms k _ _ new n hr hc hsyms]
            simp [expandPieces]

theorem to_unit_disk_with_defined {F : Type} [LinearOrderedField F]
    (quot : F → F → Option F) (m : CMath F) (x y : F)
    (hq : ∀ p q : F, q ≠ 0 → quot p q = some (p / q)) :
    to_unit_disk_with quot m x y = some (to_unit_disk m x y) := by
  unfold to_unit_disk_with to_unit_disk
  simp only [gt_iff_lt]
  split_ifs with h1 h2 h3 h4
  · have h0 : 2 * x - 1 ≠ 0 := fun h0 => by linarith
    rw [hq _ _ h0]
    rfl
  · have h0 : 2 * y - 1 ≠ 0 := fun h0 => by linarith
    rw [hq _ _ h0]
    rfl
  · have h0 : 2 * x - 1 ≠ 0 := fun h0 => by linarith
    rw [hq _ _ h0]
    rfl
  · rw [hq _ _ h4]
    rfl
  · rfl

theorem to_unit_disk_with_none {F : Type} [LinearOrderedField F] (m : CMath F) (x y : F) :
    (to_unit_disk_with (fun _ _ => none) m x y).isSome = true
      ↔ 2 * x - 1 = 0 ∧ 2 * y - 1 = 0 := by
  unfold to_unit_disk_with
  simp only [gt_iff_lt]
  split_ifs with h1 h2 h3 h4
  · simp only [Option.map_none', Option.isSome_none, Bool.false_eq_true, false_iff]
    intro h
    linarith [h.1, h.2]
  · simp only [Option.map_none', Option.isSome_none, Bool.false_eq_true, false_iff]
    intro h
    linarith [h.1, h.2]
  · simp only [Option.map_none', Option.isSome_none, Bool.false_eq_true, false_iff]
    intro h
    linarith [h.1, h.2]
  · simp only [Option.map_none', Option.isSome_none, Bool.false_eq_true, false_iff]
    intro h
    exact h4 h.2
  · simp only [Option.map_some', Option.isSome_some, true_iff]
    push_neg at h4
    refine ⟨?_, h4⟩
    linarith

theorem tdiv_in_range (a b : ℤ) (hb : b ≠ 0) (ha1 : INT_MIN ≤ a) (ha2 : a ≤ INT_MAX)
    (hb1 : INT_MIN ≤ b) (hb2 : b ≤ INT_MAX) (hc : ¬ (a = INT_MIN ∧ b = -1)) :
    INT_MIN ≤ Int.tdiv a b ∧ Int.tdiv a b ≤ INT_MAX := by
  unfold INT_MIN INT_MAX at *
  have hq := Int.natAbs_tdiv a b
  have hle : (a.natAbs).div (b.natAbs) ≤ a.natAbs := Nat.div_le_self _ _
  by_cases h1 : b = -1
  · subst h1
    have : Int.tdiv a (-1) = -a := by
      rw [Int.tdiv_neg, Int.tdiv_one]
    rw [this]
    have : a ≠ -2147483648 := fun h => hc ⟨h, rfl⟩
    omega
  · by_cases h2 : b = 1
    · subst h2
      rw [Int.tdiv_one]
      omega
    · have hb2 : 2 ≤ b.natAbs := by omega
      have hhalf : (a.natAbs).div (b.natAbs) ≤ a.natAbs / 2 :=
        Nat.div_le_div_left hb2 (by decide)
      have hq2 : (Int.tdiv a b).natAbs ≤ a.natAbs / 2 := by
        rw [hq]
        exact hhalf
      omega

theorem layout_of_elements_per_point (S : Symbol)
    (h : S.typespec.simpletype.numelements ≤ S.elements_per_point) :
    (S.m_step ≠ 0 → S.typespec.simpletype.numelements ≤ S.m_step)
    ∧ (S.m_step = 0 → S.typespec.simpletype.numelements ≤ S.m_data.length) := by
  unfold Symbol.elements_per_point at h
  constructor
  · intro hs
    rwa [if_neg hs] at h
  · intro hs
    rwa [if_pos hs] at h

theorem is_int_not_array (t : TypeSpec) (h : t.is_int = true) : t.is_array = false := by
  simp only [TypeSpec.is_int, Bool.and_eq_true, decide_eq_true_eq] at h
  simp [TypeSpec.is_array, h.1, TypeDesc.TypeInt]

theorem OP_aref_frame (exec exec1 : ShadingExecution) (r a x : Nat)
    (runflags : List Bool) (bp ep : Nat) (Result : Symbol) (i : Nat)
    (hR : exec.sym r = some Result)
    (h : OP_aref exec 3 [r, a, x] runflags bp ep = Except.ok exec1)
    (hi : i < exec.m_npoints) (hoff : pointIsActive runflags bp ep i = false) :
    pointValue exec1 r i = pointValue exec r i := by
  unfold OP_aref at h
  simp only [ne_eq, not_true_eq_false, if_false, List.getD_cons_zero, List.getD_cons_succ] at h
  split at h
  · rename_i R0 Src Index hR0 hS hX
    rw [hR] at hR0
    cases hR0
    split_ifs at h with c1 c2 c3
    split at h
    · rename_i impl hsel
      obtain ⟨T, hT⟩ := OP_aref_select_specialized _ _ hsel
      subst hT
      obtain ⟨e0, he0, hex⟩ := storeImplementation_ok _ _ _ h
      have hna : Result.typespec.is_array = false := by
        simp only [Bool.not_eq_true', Bool.not_eq_false, Bool.and_eq_true,
          Bool.not_eq_true', decide_eq_true_eq] at c3
        simpa using c3.1.2
      have := specialized_aref_frame exec e0 r a x runflags bp ep Result i hR hna he0 hi hoff
      rw [hex]
      exact this
    · cases h
  · cases h

theorem OP_aassign_frame (exec exec1 : ShadingExecution) (r x sx : Nat)
    (runflags : List Bool) (bp ep : Nat) (Result : Symbol) (i k : Nat)
    (hR : exec.sym r = some Result)
    (hlay : Result.typespec.simpletype.numelements ≤ Result.elements_per_point)
    (hrange : ∀ j X ind, pointIsActive runflags bp ep j = true → exec.sym x = some X →
      X.intAt j = some ind → 0 ≤ ind ∧ ind < (Result.typespec.simpletype.numelements : ℤ))
    (h : OP_aassign exec 3 [r, x, sx] runflags bp ep = Except.ok exec1)
    (hi : i < exec.m_npoints) (hoff : pointIsActive runflags bp ep i = false)
    (hk : k < Result.typespec.simpletype.numelements) :
    pointElement exec1 r i k = pointElement exec r i k := by
  unfold OP_aassign at h
  simp only [ne_eq, not_true_eq_false, if_false, List.getD_cons_zero, List.getD_cons_succ] at h
  split at h
  · rename_i R0 Index Src hR0 hX hS
    rw [hR] at hR0
    cases hR0
    split_ifs at h with c1 c2 c3
    split at h
    · rename_i impl hsel
      obtain ⟨T, hT⟩ := OP_aassign_select_specialized _ _ _ hsel
      subst hT
      obtain ⟨e0, he0, hex⟩ := storeImplementation_ok _ _ _ h
      have har : Result.typespec.is_array = true := by
        simp only [Bool.not_eq_true', Bool.not_eq_false, Bool.and_eq_true] at c3
        exact c3.1
      have hint : Index.typespec.is_int = true := by
        simp only [Bool.not_eq_true', Bool.not_eq_false, Bool.and_eq_true] at c2
        exact c2.2
      have hxr : x ≠ r := by
        intro hxr
        subst hxr
        rw [hR] at hX
        cases hX
        rw [is_int_not_array _ hint] at har
        cases har
      obtain ⟨hvar, hlen⟩ := layout_of_elements_per_point Result hlay
      have := specialized_aassign_frame exec e0 r x sx runflags bp ep Result i k hR hxr hvar
        hlen hrange he0 hi hoff hk
      rw [hex]
      exact this
    · cases h
  · cases h

/-! ## The properties claimed by the specification -/

/-- C1 (failing inputs): for matrix = 2.0 * 3.0 the interpreter selects
`ScalarMatrixMul` and leaves 6 in the four diagonal elements and 0 in the
twelve others, while the code generated by `llvm_gen_binary_op` stores 6 in
all sixteen elements; for int = 7 / 0 the interpreter stores 0, while the
generated code is an unguarded `SDiv`, which has no value for a zero divisor. -/
theorem binary_op_backends_disagree :
    resultValue (mulMatrixScenario.run_op [true] 0 1)
      = some (Value.matrix (ScalarMatrixMul 2 3))
    ∧ (∀ k : Fin 16, (ScalarMatrixMul 2 3).flat k = if k.val % 5 = 0 then 6 else 0)
    ∧ (∀ k : Fin 16,
        (generatedCode (llvm_gen_binary_op mulMatrixLayer 0)).bind
          (fun code => runAndRead code
            [(Addr.slot "a", Scalar.f32 2), (Addr.slot "b", Scalar.f32 3)]
            (Addr.elem "r" (k.val : ℤ)))
        = some (Scalar.f32 6))
    ∧ resultValue (divByZeroScenario.run_op [true] 0 1) = some (Value.int 0)
    ∧ generatedCode (llvm_gen_binary_op divIntLayer 0)
      = some [Instruction.Load 0 (LLVMValue.Alloca "a"), Instruction.Load 1 (LLVMValue.Alloca "b"),
              Instruction.Store
                (LLVMValue.BinOp BinaryOps.SDiv (LLVMValue.Load 0 (LLVMValue.Alloca "a"))
                  (LLVMValue.Load 1 (LLVMValue.Alloca "b")))
                (LLVMValue.Alloca "r")]
    ∧ (generatedCode (llvm_gen_binary_op divIntLayer 0)).bind
        (fun code => runAndRead code
          [(Addr.slot "r", Scalar.i32 5), (Addr.slot "a", Scalar.i32 7),
           (Addr.slot "b", Scalar.i32 0)] (Addr.slot "r"))
      = none := by
  refine ⟨mulMatrixScenario_result, ?_, ?_, divByZeroScenario_result, ?_, ?_⟩
  · with_unfolding_all decide
  · with_unfolding_all decide
  · decide
  · with_unfolding_all decide

/-- C2: executed on an opcode whose destination is float, operand A int and
operand B float, `OP_add` selects `binary_op<float,int,float,Add<float,int,float>>`,
runs it and stores it as the implementation of the opcode; the functor maps
3 and 2.5 to 5.5; a second execution runs the stored specialization directly;
and dispatching again from `OP_add` selects the same specialization and
leaves the stored implementation unchanged. -/
theorem OP_add_float_int_float (exec : ShadingExecution) (args : List Nat)
    (runflags : List Bool) (bp ep : Nat) (Result A B : Symbol)
    (hR : exec.sym (args.getD 0 0) = some Result) (hA : exec.sym (args.getD 1 0) = some A)
    (hB : exec.sym (args.getD 2 0) = some B)
    (tR : Result.typespec = TypeSpec.float) (tA : A.typespec = TypeSpec.int)
    (tB : B.typespec = TypeSpec.float) :
    OP_add_select Result.typespec A.typespec B.typespec = some binary_op_float_int_float_Add
    ∧ OP_add exec 3 args runflags bp ep =
        storeImplementation binary_op_float_int_float_Add
          (runSpecialized binary_op_float_int_float_Add exec 3 args runflags bp ep)
    ∧ Functor.call (Functor.Add CType.float CType.int CType.float) exec (Value.int 3)
        (Value.float (5 / 2)) = (some (Value.float (11 / 2)), exec)
    ∧ ∀ exec1, OP_add exec 3 args runflags bp ep = Except.ok exec1 →
        exec1.op.implementation = binary_op_float_int_float_Add
        ∧ (∀ rf b e, exec1.run_op rf b e =
            runSpecialized binary_op_float_int_float_Add exec1 exec1.op.nargs exec1.op.m_args rf b e)
        ∧ (∀ rf b e, OP_add exec1 3 args rf b e =
            storeImplementation binary_op_float_int_float_Add
              (runSpecialized binary_op_float_int_float_Add exec1 3 args rf b e))
        ∧ (∀ rf b e exec2, OP_add exec1 3 args rf b e = Except.ok exec2 →
            exec2.op.implementation = exec1.op.implementation) := by
  have hsel : OP_add_select Result.typespec A.typespec B.typespec
      = some binary_op_float_int_float_Add := by
    rw [tR, tA, tB]
    exact OP_add_select_float_int_float _ _ _ (by decide) (by decide) (by decide)
  have hrun : ∀ (ex : ShadingExecution) (R1 A1 B1 : Symbol) (rf : List Bool) (b e : Nat),
      ex.sym (args.getD 0 0) = some R1 → ex.sym (args.getD 1 0) = some A1 →
      ex.sym (args.getD 2 0) = some B1 → R1.typespec = TypeSpec.float →
      A1.typespec = TypeSpec.int → B1.typespec = TypeSpec.float →
      OP_add ex 3 args rf b e =
        storeImplementation binary_op_float_int_float_Add
          (runSpecialized binary_op_float_int_float_Add ex 3 args rf b e) := by
    intro ex R1 A1 B1 rf b e h1 h2 h3 t1 t2 t3
    rw [OP_add_unfold ex args rf b e R1 A1 B1 h1 h2 h3, t1, t2, t3, anyStructureOrArray_scalars,
      OP_add_select_float_int_float _ _ _ (by decide) (by decide) (by decide)]
    simp
  refine ⟨hsel, hrun exec Result A B runflags bp ep hR hA hB tR tA tB, ?_, ?_⟩
  · simp [Functor.call, cppAdd, cppArith, CType.construct]
    norm_num
  · intro exec1 h1
    rw [hrun exec Result A B runflags bp ep hR hA hB tR tA tB] at h1
    obtain ⟨e0, he0, hex⟩ := storeImplementation_ok _ _ _ h1
    have hst : SameTypes exec e0 :=
      SameTypes_runSpecialized _ exec e0 3 args runflags bp ep _ _ _ _ rfl he0
    have hst1 : SameTypes exec exec1 := by
      intro k
      rw [hex]
      exact hst k
    obtain ⟨R1, hR1, tR1⟩ := sym_of_SameTypes exec exec1 hst1 _ Result hR
    obtain ⟨A1, hA1, tA1⟩ := sym_of_SameTypes exec exec1 hst1 _ A hA
    obtain ⟨B1, hB1, tB1⟩ := sym_of_SameTypes exec exec1 hst1 _ B hB
    have himpl : exec1.op.implementation = binary_op_float_int_float_Add := by
      rw [hex]
      rfl
    have hre := fun rf b e =>
      hrun exec1 R1 A1 B1 rf b e hR1 hA1 hB1 (tR1.trans tR) (tA1.trans tA) (tB1.trans tB)
    refine ⟨himpl, ?_, hre, ?_⟩
    · intro rf b e
      simp only [ShadingExecution.run_op, himpl]
      rfl
    · intro rf b e exec2 h2
      rw [hre rf b e] at h2
      obtain ⟨e3, _, hex2⟩ := storeImplementation_ok _ _ _ h2
      rw [himpl, hex2]
      rfl

/-- Witness for C2 on the scenario of the spec (A = 3, B = 2.5): the first
execution leaves 5.5 in the destination and the specialization in the opcode. -/
theorem OP_add_float_int_float_witness :
    resultValue (addScenario.run_op [true] 0 1) = some (Value.float (11 / 2))
    ∧ storedImplementation (addScenario.run_op [true] 0 1) = some binary_op_float_int_float_Add
    ∧ OP_add addScenario 3 [0, 1, 2] [true] 0 1 =
        storeImplementation binary_op_float_int_float_Add
          (runSpecialized binary_op_float_int_float_Add addScenario 3 [0, 1, 2] [true] 0 1) := by
  refine ⟨?_, ?_, (OP_add_float_int_float addScenario [0, 1, 2] [true] 0 1
      (Symbol.mkLocal "r" TypeSpec.float [Value.float 0])
      (Symbol.mkLocal "a" TypeSpec.int [Value.int 3])
      (Symbol.mkLocal "b" TypeSpec.float [Value.float (5 / 2)]) rfl rfl rfl rfl rfl rfl).2.1⟩
  · simp [resultValue, addScenario, ShadingExecution.single, ShadingExecution.run_op,
      ShadingExecution.op, Opcode.implementation, OpImpl.run, OP_add, Opcode.nargs,
      ShadingExecution.sym, Symbol.mkLocal, Symbol.typespec, TypeSpec.is_structure,
      TypeSpec.is_array, TypeSpec.float, TypeSpec.int, TypeDesc.TypeFloat, TypeDesc.TypeInt,
      OP_add_select, TypeSpec.is_closure, TypeSpec.is_triple, TypeSpec.is_float, TypeSpec.is_int,
      TypeDesc.TypeVector, runSpecialized, binary_op, ShadingExecution.adjust_varying, all_points_on_mk_one,
      Symbol.is_varying, pointLoop, List.range', Symbol.valueAt, Functor.call, cppAdd, cppArith,
      CType.construct, storeResult, ShadingExecution.setSym, Symbol.setValueAt,
      Opcode.set_implementation, storeImplementation, Except.toOption]
    norm_num
  · simp [storedImplementation, addScenario, ShadingExecution.single, ShadingExecution.run_op,
      ShadingExecution.op, Opcode.implementation, OpImpl.run, OP_add, Opcode.nargs,
      ShadingExecution.sym, Symbol.mkLocal, Symbol.typespec, TypeSpec.is_structure,
      TypeSpec.is_array, TypeSpec.float, TypeSpec.int, TypeDesc.TypeFloat, TypeDesc.TypeInt,
      OP_add_select, TypeSpec.is_closure, TypeSpec.is_triple, TypeSpec.is_float, TypeSpec.is_int,
      TypeDesc.TypeVector, runSpecialized, binary_op, ShadingExecution.adjust_varying, all_points_on_mk_one,
      Symbol.is_varying, pointLoop, List.range', Symbol.valueAt, Functor.call, cppAdd, cppArith,
      CType.construct, storeResult, ShadingExecution.setSym, Symbol.setValueAt,
      Opcode.set_implementation, storeImplementation, Except.toOption,
      binary_op_float_int_float_Add]

/-- C3: for every triple of (destination, A, B) types `OP_add` either selects
one specialization, runs it and stores it, or aborts: it selects one when the
triple is one of the ten supported ones, and for every other triple the
selection is null (or an earlier assertion on structures and arrays fails) and
the entry point ends in a failed assertion, which returns no state: nothing is
run and the stored implementation is not rewritten. -/
theorem OP_add_selects_iff_supported (exec : ShadingExecution) (args : List Nat)
    (runflags : List Bool) (bp ep : Nat) (Result A B : Symbol)
    (hR : exec.sym (args.getD 0 0) = some Result) (hA : exec.sym (args.getD 1 0) = some A)
    (hB : exec.sym (args.getD 2 0) = some B) :
    (OP_add_supported Result.typespec A.typespec B.typespec = true →
      ∃ impl, OP_add_select Result.typespec A.typespec B.typespec = some impl
        ∧ OP_add exec 3 args runflags bp ep =
            storeImplementation impl (runSpecialized impl exec 3 args runflags bp ep))
    ∧ (OP_add_supported Result.typespec A.typespec B.typespec = false →
        (anyStructureOrArray Result.typespec A.typespec B.typespec = false →
          OP_add_select Result.typespec A.typespec B.typespec = none)
        ∧ ∃ msg, OP_add exec 3 args runflags bp ep = Except.error msg) := by
  constructor
  · intro h
    obtain ⟨impl, himpl⟩ := OP_add_select_of_supported _ _ _ h
    refine ⟨impl, himpl, ?_⟩
    have hg : anyStructureOrArray Result.typespec A.typespec B.typespec = false := by
      simp only [OP_add_supported, Bool.and_eq_true, Bool.not_eq_true'] at h
      exact h.1
    rw [OP_add_unfold exec args runflags bp ep Result A B hR hA hB, hg, himpl]
    simp
  · intro h
    constructor
    · intro hg
      exact OP_add_select_none_of_unsupported _ _ _ hg h
    · cases hg : anyStructureOrArray Result.typespec A.typespec B.typespec with
      | true => exact OP_add_abort_of_guard exec args runflags bp ep Result A B hR hA hB hg
      | false =>
        refine ⟨"ASSERT (0): Addition types cannot be handled", ?_⟩
        rw [OP_add_unfold exec args runflags bp ep Result A B hR hA hB, hg,
          OP_add_select_none_of_unsupported _ _ _ hg h]
        simp

/-- Witness for C3: float = int + int is not supported, selects nothing and
aborts. -/
theorem OP_add_selects_iff_supported_witness :
    OP_add_supported TypeSpec.float TypeSpec.int TypeSpec.int = false
    ∧ OP_add_select TypeSpec.float TypeSpec.int TypeSpec.int = none
    ∧ ∃ msg, OP_add addFloatFromInts 3 [0, 1, 2] [true] 0 1 = Except.error msg :=
  have h := OP_add_selects_iff_supported addFloatFromInts [0, 1, 2] [true] 0 1
    (Symbol.mkLocal "r" TypeSpec.float [Value.float 0])
    (Symbol.mkLocal "a" TypeSpec.int [Value.int 1])
    (Symbol.mkLocal "b" TypeSpec.int [Value.int 2]) rfl rfl rfl
  ⟨by decide, (h.2 (by decide)).1 (by decide), (h.2 (by decide)).2⟩

/-- C5 (the claim fails): for a = INT_MIN = -2147483648 and b = -1, a
divisor different from 0, the truncated quotient is 2147483648, which is
greater than INT_MAX and so is not an int: the C++ division `a / b`
overflows, and `Div<int,int,int>`, which tests the divisor against zero
only, has no defined result; the div opcode executed on these operands does
not return a result. -/
theorem Div_int_min_by_minus_one_overflows :
    (-1 : ℤ) ≠ 0
    ∧ INT_MIN = -2147483648
    ∧ Int.tdiv INT_MIN (-1) = 2147483648
    ∧ INT_MAX < Int.tdiv INT_MIN (-1)
    ∧ cppDivInt INT_MIN (-1) = none
    ∧ Functor.call (Functor.Div CType.int CType.int CType.int) divOverflowScenario
        (Value.int INT_MIN) (Value.int (-1)) = (none, divOverflowScenario)
    ∧ (divOverflowScenario.run_op [true] 0 1).toOption = none := by
  refine ⟨by decide, rfl, by decide, by decide, by decide, ?_, ?_⟩
  · simp [Functor.call, DivGeneric, cppIsZero, cppDiv, cppDivInt]
  · simp [divOverflowScenario, ShadingExecution.single, ShadingExecution.run_op,
      ShadingExecution.op, Opcode.implementation, OpImpl.run, OP_div, Opcode.nargs,
      ShadingExecution.sym, Symbol.mkLocal, Symbol.typespec, TypeSpec.is_structure,
      TypeSpec.is_array, TypeSpec.int, TypeDesc.TypeFloat, TypeDesc.TypeInt,
      OP_div_select, TypeSpec.is_closure, TypeSpec.is_triple, TypeSpec.is_float, TypeSpec.is_int,
      TypeDesc.TypeVector, runSpecialized, binary_op, ShadingExecution.adjust_varying,
      all_points_on_mk_one,
      Symbol.is_varying, pointLoop, List.range', Symbol.valueAt, Functor.call, DivGeneric,
      cppIsZero, cppDiv, cppDivInt, CType.construct, storeResult, ShadingExecution.setSym,
      Symbol.setValueAt, Opcode.set_implementation, storeImplementation, Except.toOption]

/-- C5 (amended): the scalar division functors return 0 for a zero divisor,
leaving the execution untouched; for a nonzero divisor they return the
quotient: on floats always, on ints the truncated quotient for every pair
of operands other than INT_MIN and -1, and for ints a and b in the range of
`int` other than that pair the truncated quotient is in the range of `int`
again; `ScalarMatrixDiv (a, 0)` is the all-zero matrix. -/
theorem Div_scalar_zero_guard (exec : ShadingExecution) (a b : ℤ) (x y : ℚ) :
    Functor.call (Functor.Div CType.int CType.int CType.int) exec (Value.int a) (Value.int 0)
        = (some (Value.int 0), exec)
    ∧ Functor.call (Functor.Div CType.float CType.float CType.float) exec (Value.float x) (Value.float 0)
        = (some (Value.float 0), exec)
    ∧ Functor.call (Functor.Div CType.float CType.float CType.int) exec (Value.float x) (Value.int 0)
        = (some (Value.float 0), exec)
    ∧ Functor.call (Functor.Div CType.float CType.int CType.float) exec (Value.int a) (Value.float 0)
        = (some (Value.float 0), exec)
    ∧ (b ≠ 0 → ¬ (a = INT_MIN ∧ b = -1) →
        Functor.call (Functor.Div CType.int CType.int CType.int) exec (Value.int a) (Value.int b)
          = (some (Value.int (Int.tdiv a b)), exec))
    ∧ (b ≠ 0 → INT_MIN ≤ a → a ≤ INT_MAX → INT_MIN ≤ b → b ≤ INT_MAX →
        ¬ (a = INT_MIN ∧ b = -1) →
        INT_MIN ≤ Int.tdiv a b ∧ Int.tdiv a b ≤ INT_MAX)
    ∧ (b ≠ 0 →
        Functor.call (Functor.Div CType.float CType.float CType.int) exec (Value.float x) (Value.int b)
          = (some (Value.float (x / (b : ℚ))), exec))
    ∧ (y ≠ 0 →
        Functor.call (Functor.Div CType.float CType.float CType.float) exec (Value.float x) (Value.float y)
          = (some (Value.float (x / y)), exec)
        ∧ Functor.call (Functor.Div CType.float CType.int CType.float) exec (Value.int a) (Value.float y)
          = (some (Value.float ((a : ℚ) / y)), exec))
    ∧ (∀ i j, (ScalarMatrixDiv x 0).x i j = 0) := by
  refine ⟨?_, ?_, ?_, ?_, ?_, ?_, ?_, ?_, ?_⟩
  · simp [Functor.call, DivGeneric, cppIsZero, CType.construct, truncToInt_zero]
  · simp [Functor.call, DivGeneric, cppIsZero, CType.construct]
  · simp [Functor.call, DivGeneric, cppIsZero, CType.construct]
  · simp [Functor.call, DivGeneric, cppIsZero, CType.construct]
  · intro h hc
    simp [Functor.call, DivGeneric, cppIsZero, CType.construct, cppDiv, cppDivInt, h, hc]
  · intro h ha1 ha2 hb1 hb2 hc
    exact tdiv_in_range a b h ha1 ha2 hb1 hb2 hc
  · intro h
    simp [Functor.call, DivGeneric, cppIsZero, CType.construct, cppDiv, cppDivFloat, h]
  · intro h
    simp [Functor.call, DivGeneric, cppIsZero, CType.construct, cppDiv, cppDivFloat, h]
  · intro i j
    fin_cases i <;> fin_cases j <;> simp [ScalarMatrixDiv, Matrix44.mk16] <;> rfl

/-- Witness for C5: 7 / 0 and 7 / 2 on ints. -/
theorem Div_scalar_zero_guard_witness :
    Functor.call (Functor.Div CType.int CType.int CType.int) divByZeroScenario (Value.int 7)
        (Value.int 0) = (some (Value.int 0), divByZeroScenario)
    ∧ Functor.call (Functor.Div CType.int CType.int CType.int) divByZeroScenario (Value.int 7)
        (Value.int 2) = (some (Value.int (Int.tdiv 7 2)), divByZeroScenario)
    ∧ Int.tdiv 7 2 = 3 :=
  have h := Div_scalar_zero_guard divByZeroScenario 7 2 1 1
  ⟨h.1, h.2.2.2.2.1 (by decide) (by decide), by decide⟩

/-- C6 (counterexample): the interpreter's division 7 / 0 on ints stores 0 and
reports no error at all, neither does any `Div` functor or `ScalarMatrixDiv`;
the same scenario with `mod` reports one error. -/
theorem OP_div_by_zero_is_silent :
    (∀ (R A B : CType) (exec : ShadingExecution) (a b : Value),
        (Functor.call (Functor.Div R A B) exec a b).2 = exec)
    ∧ (∀ (exec : ShadingExecution) (a b : Value),
        (Functor.call Functor.ScalarMatrixDiv exec a b).2 = exec)
    ∧ resultValue (divByZeroScenario.run_op [true] 0 1) = some (Value.int 0)
    ∧ reportedErrors (divByZeroScenario.run_op [true] 0 1) = some []
    ∧ resultValue (modByZeroScenario.run_op [true] 0 1) = some (Value.int 0)
    ∧ reportedErrors (modByZeroScenario.run_op [true] 0 1)
        = some ["attempted to compute mod(%d, %d)"] :=
  ⟨fun _ _ _ exec a b => Functor_call_exec_of_ne_Mod _ (by simp) exec a b,
   fun exec a b => Functor_call_exec_of_ne_Mod _ (by simp) exec a b,
   divByZeroScenario_result, divByZeroScenario_errors,
   modByZeroScenario_result, modByZeroScenario_errors⟩

/-- C6 (amended): a zero divisor in the interpreter's div opcode is replaced
by 0 silently.  Every execution of `OP_div` that returns leaves the error
channel of the execution exactly as it was; no `Div` functor and not
`ScalarMatrixDiv` touches the execution; and a zero divisor yields 0. -/
theorem OP_div_reports_no_error (exec exec1 : ShadingExecution) (nargs : Nat) (args : List Nat)
    (runflags : List Bool) (bp ep : Nat)
    (h : OP_div exec nargs args runflags bp ep = Except.ok exec1) :
    exec1.m_errors = exec.m_errors
    ∧ (∀ (R A B : CType) (e : ShadingExecution) (a b : Value),
        (Functor.call (Functor.Div R A B) e a b).2 = e)
    ∧ (∀ (e : ShadingExecution) (a b : Value),
        (Functor.call Functor.ScalarMatrixDiv e a b).2 = e)
    ∧ (∀ (e : ShadingExecution) (a : ℤ),
        Functor.call (Functor.Div CType.int CType.int CType.int) e (Value.int a) (Value.int 0)
          = (some (Value.int 0), e))
    ∧ (∀ (e : ShadingExecution) (x : ℚ),
        Functor.call (Functor.Div CType.float CType.float CType.float) e (Value.float x)
          (Value.float 0) = (some (Value.float 0), e)) := by
  refine ⟨?_, fun R A B e a b => Functor_call_exec_of_ne_Mod _ (by simp) e a b,
    fun e a b => Functor_call_exec_of_ne_Mod _ (by simp) e a b, ?_, ?_⟩
  · unfold OP_div at h
    split_ifs at h
    split at h
    · split_ifs at h
      split at h
      · rename_i impl hsel
        obtain ⟨TR, TA, TB, F, hi, hF⟩ := OP_div_select_functor _ _ _ impl hsel
        obtain ⟨e0, he0, hex⟩ := storeImplementation_ok _ _ _ h
        subst hi
        rw [hex]
        exact errors_binary_op F hF exec e0 nargs args runflags bp ep he0
      · cases h
    · cases h
  · intro e a
    simp [Functor.call, DivGeneric, cppIsZero, CType.construct, truncToInt_zero]
  · intro e x
    simp [Functor.call, DivGeneric, cppIsZero, CType.construct]

/-- Witness for C6 (amended): the division 7 / 0 returns and reports nothing. -/
theorem OP_div_reports_no_error_witness :
    ∃ exec1, OP_div divByZeroScenario 3 [0, 1, 2] [true] 0 1 = Except.ok exec1
      ∧ exec1.m_errors = divByZeroScenario.m_errors := by
  cases h : OP_div divByZeroScenario 3 [0, 1, 2] [true] 0 1 with
  | ok exec1 => exact ⟨exec1, rfl, (OP_div_reports_no_error _ _ _ _ _ _ _ h).1⟩
  | error msg =>
    exfalso
    revert h
    simp [divByZeroScenario, ShadingExecution.single, OP_div,
      ShadingExecution.sym, Symbol.mkLocal, Symbol.typespec, TypeSpec.is_structure,
      TypeSpec.is_array, TypeSpec.int, TypeDesc.TypeFloat, TypeDesc.TypeInt,
      OP_div_select, TypeSpec.is_closure, TypeSpec.is_triple, TypeSpec.is_float, TypeSpec.is_int,
      TypeDesc.TypeVector, runSpecialized, binary_op, ShadingExecution.adjust_varying, all_points_on_mk_one,
      Symbol.is_varying, pointLoop, List.range', Symbol.valueAt, Functor.call, DivGeneric,
      cppIsZero, CType.construct, storeResult, ShadingExecution.setSym, Symbol.setValueAt,
      storeImplementation, truncToInt_zero]

/-- C7: one component of `llvm_gen_binary_op`, for every combination of
int/float operands and destination.  With `f1`, `f2`, `fd` the float-ness of
the two operands and of the destination, and `v1`, `v2` the loaded operands:
an int operand facing a float operand is converted int-to-float (`a`, `b`);
the instruction emitted is the floating-point one iff `f1 || f2` (`r`); the
value stored is `r` converted float-to-int iff the destination is int and the
operation is float, int-to-float iff the destination is float and the
operation is integer (`stored`).  So an int plus a float into a float
evaluates to the promoted int plus the float, also in the code generated for
a whole `add` opcode. -/
theorem llvm_gen_binary_op_promotes (op : Opcode) (dst src1 src2 : Symbol)
    (rop : RuntimeOptimizer) (i : Nat) (v1 v2 a b r stored : LLVMValue) (f1 f2 fd : Bool)
    (hop : op.opname = "add" ∨ op.opname = "sub" ∨ op.opname = "mul" ∨ op.opname = "div"
      ∨ op.opname = "mod")
    (hf1 : src1.typespec.is_floatbased = f1) (hf2 : src2.typespec.is_floatbased = f2)
    (hfd : dst.typespec.is_floatbased = fd)
    (h1 : (loadLLVMValue rop src1 i 0).1 = some v1)
    (h2 : (loadLLVMValue (loadLLVMValue rop src1 i 0).2 src2 i 0).1 = some v2)
    (ha : a = if !f1 && f2 then LLVMValue.Cast CastOps.SIToFP v1 else v1)
    (hb : b = if f1 && !f2 then LLVMValue.Cast CastOps.SIToFP v2 else v2)
    (hr : r = LLVMValue.BinOp
      (if f1 || f2 then floatInstruction op.opname else intInstruction op.opname) a b)
    (hs : stored =
      if !fd && (f1 || f2) then LLVMValue.Cast CastOps.FPToSI r
      else if fd && !(f1 || f2) then LLVMValue.Cast CastOps.SIToFP r
      else r) :
    ((floatInstruction op.opname).isFloat = true ∧ (intInstruction op.opname).isFloat = false)
    ∧ llvm_gen_binary_op_component op dst src1 src2 rop i =
        (if dst.has_derivs then
           (storeLLVMValue (loadLLVMValue (loadLLVMValue rop src1 i 0).2 src2 i 0).2
              stored dst i 0).info "punting on derivatives for now"
         else
           storeLLVMValue (loadLLVMValue (loadLLVMValue rop src1 i 0).2 src2 i 0).2
              stored dst i 0,
         true)
    ∧ (∀ (m : Machine) (x : ℤ) (y : ℚ), evalValue m v1 = some (Scalar.i32 x) →
        evalValue m v2 = some (Scalar.f32 y) →
        evalValue m (LLVMValue.BinOp BinaryOps.FAdd (LLVMValue.Cast CastOps.SIToFP v1) v2)
          = some (Scalar.f32 ((x : ℚ) + y)))
    ∧ (∀ (x : ℤ) (y : ℚ),
        (generatedCode (llvm_gen_binary_op addIntFloatLayer 0)).bind
          (fun code => runAndRead code
            [(Addr.slot "a", Scalar.i32 x), (Addr.slot "b", Scalar.f32 y)] (Addr.slot "r"))
        = some (Scalar.f32 ((x : ℚ) + y))) := by
  refine ⟨?_, ?_, ?_, ?_⟩
  · rcases hop with h | h | h | h | h <;> rw [h] <;> decide
  · subst hf1 hf2 hfd ha hb hr hs
    rcases hop with h | h | h | h | h <;>
      cases hf1 : src1.typespec.is_floatbased <;>
      cases hf2 : src2.typespec.is_floatbased <;>
      cases hfd : dst.typespec.is_floatbased <;>
      cases hdd : dst.has_derivs <;>
      simp [llvm_gen_binary_op_component, h1, h2, hf1, hf2, hfd, hdd, h, binaryOpResult,
        upconvertOperands, llvm_int_to_float, llvm_float_to_int, floatInstruction,
        intInstruction]
  · intro m x y hx hy
    simp [evalValue, hx, hy, evalCast, evalBinOp]
  · intro x y
    have hcode : generatedCode (llvm_gen_binary_op addIntFloatLayer 0)
        = some [Instruction.Load 0 (LLVMValue.Alloca "a"),
                Instruction.Load 1 (LLVMValue.Alloca "b"),
                Instruction.Store
                  (LLVMValue.BinOp BinaryOps.FAdd
                    (LLVMValue.Cast CastOps.SIToFP (LLVMValue.Load 0 (LLVMValue.Alloca "a")))
                    (LLVMValue.Load 1 (LLVMValue.Alloca "b")))
                  (LLVMValue.Alloca "r")] := by
      decide
    rw [hcode]
    simp [runAndRead, runCode, stepInstruction, evalPtr, Machine.ofList, memOfList, evalValue,
      evalCast, evalBinOp, Addr.slot]

/-- Witness for C7: component 0 of `add` with a float destination, an int
first operand and a float second operand stores `FAdd (SIToFP a) b`. -/
theorem llvm_gen_binary_op_promotes_witness :
    llvm_gen_binary_op_component ⟨"add", [0, 1, 2], [], OpImpl.OP_add⟩
        (Symbol.mkLocal "r" TypeSpec.float []) (Symbol.mkLocal "a" TypeSpec.int [])
        (Symbol.mkLocal "b" TypeSpec.float []) addIntFloatLayer 0
      = (storeLLVMValue
          (loadLLVMValue
            (loadLLVMValue addIntFloatLayer (Symbol.mkLocal "a" TypeSpec.int []) 0 0).2
            (Symbol.mkLocal "b" TypeSpec.float []) 0 0).2
          (LLVMValue.BinOp BinaryOps.FAdd
            (LLVMValue.Cast CastOps.SIToFP (LLVMValue.Load 0 (LLVMValue.Alloca "a")))
            (LLVMValue.Load 1 (LLVMValue.Alloca "b")))
          (Symbol.mkLocal "r" TypeSpec.float []) 0 0, true) :=
  (llvm_gen_binary_op_promotes ⟨"add", [0, 1, 2], [], OpImpl.OP_add⟩
    (Symbol.mkLocal "r" TypeSpec.float []) (Symbol.mkLocal "a" TypeSpec.int [])
    (Symbol.mkLocal "b" TypeSpec.float []) addIntFloatLayer 0
    (LLVMValue.Load 0 (LLVMValue.Alloca "a")) (LLVMValue.Load 1 (LLVMValue.Alloca "b"))
    (LLVMValue.Cast CastOps.SIToFP (LLVMValue.Load 0 (LLVMValue.Alloca "a")))
    (LLVMValue.Load 1 (LLVMValue.Alloca "b"))
    (LLVMValue.BinOp BinaryOps.FAdd
      (LLVMValue.Cast CastOps.SIToFP (LLVMValue.Load 0 (LLVMValue.Alloca "a")))
      (LLVMValue.Load 1 (LLVMValue.Alloca "b")))
    (LLVMValue.BinOp BinaryOps.FAdd
      (LLVMValue.Cast CastOps.SIToFP (LLVMValue.Load 0 (LLVMValue.Alloca "a")))
      (LLVMValue.Load 1 (LLVMValue.Alloca "b")))
    false true true (Or.inl rfl) rfl rfl rfl rfl rfl rfl rfl rfl rfl).2.1

/-- C8: with a matrix destination and two scalar operands (int or float, all
four combinations) `OP_mul` and `OP_div` select `ScalarMatrixMul` and
`ScalarMatrixDiv`, whose result has a*b (a/b, or 0 when b = 0) in the four
diagonal entries and 0 in the twelve others; with a scalar and a matrix
operand they select the `Mul` / `Div` functors, which apply the scalar to each
of the sixteen elements (of the matrix, or of its inverse for scalar / matrix). -/
theorem matrix_from_scalars_is_diagonal (exec : ShadingExecution) (R A B : TypeSpec)
    (hR : R.is_matrix = true) (a b : ℚ) (p : ℤ) (m : Matrix44) :
    ((A.is_float = true ∨ A.is_int = true) → (B.is_float = true ∨ B.is_int = true) →
      OP_mul_select R A B = some (OpImpl.binary_op CType.Matrix44 (scalarCType A) (scalarCType B)
          Functor.ScalarMatrixMul)
      ∧ OP_div_select R A B = some (OpImpl.binary_op CType.Matrix44 (scalarCType A) (scalarCType B)
          Functor.ScalarMatrixDiv))
    ∧ (∀ va vb x y, va.toFloat? = some x → vb.toFloat? = some y →
        Functor.call Functor.ScalarMatrixMul exec va vb
          = (some (Value.matrix (ScalarMatrixMul x y)), exec)
        ∧ Functor.call Functor.ScalarMatrixDiv exec va vb
          = (some (Value.matrix (ScalarMatrixDiv x y)), exec))
    ∧ (∀ i j, (ScalarMatrixMul a b).x i j = if i = j then a * b else 0)
    ∧ (∀ i j, (ScalarMatrixDiv a b).x i j = if i = j then (if b = 0 then 0 else a / b) else 0)
    ∧ ((A.is_float = true ∨ A.is_int = true) → B.is_matrix = true →
      OP_mul_select R A B = some (OpImpl.binary_op CType.Matrix44 (scalarCType A) CType.Matrix44
          (Functor.Mul CType.Matrix44 (scalarCType A) CType.Matrix44))
      ∧ OP_div_select R A B = some (OpImpl.binary_op CType.Matrix44 (scalarCType A) CType.Matrix44
          (Functor.Div CType.Matrix44 (scalarCType A) CType.Matrix44)))
    ∧ (A.is_matrix = true → (B.is_float = true ∨ B.is_int = true) →
      OP_mul_select R A B = some (OpImpl.binary_op CType.Matrix44 CType.Matrix44 (scalarCType B)
          (Functor.Mul CType.Matrix44 CType.Matrix44 (scalarCType B)))
      ∧ OP_div_select R A B = some (OpImpl.binary_op CType.Matrix44 CType.Matrix44 (scalarCType B)
          (Functor.Div CType.Matrix44 CType.Matrix44 (scalarCType B))))
    ∧ (Functor.call (Functor.Mul CType.Matrix44 CType.float CType.Matrix44) exec (Value.float a)
          (Value.matrix m) = (some (Value.matrix (m.scale a)), exec)
      ∧ Functor.call (Functor.Mul CType.Matrix44 CType.int CType.Matrix44) exec (Value.int p)
          (Value.matrix m) = (some (Value.matrix (m.scale (p : ℚ))), exec)
      ∧ Functor.call (Functor.Mul CType.Matrix44 CType.Matrix44 CType.float) exec (Value.matrix m)
          (Value.float a) = (some (Value.matrix (m.scale a)), exec)
      ∧ Functor.call (Functor.Mul CType.Matrix44 CType.Matrix44 CType.int) exec (Value.matrix m)
          (Value.int p) = (some (Value.matrix (m.scale (p : ℚ))), exec)
      ∧ ∀ i j, (m.scale a).x i j = m.x i j * a)
    ∧ (Functor.call (Functor.Div CType.Matrix44 CType.float CType.Matrix44) exec (Value.float a)
          (Value.matrix m) = (some (Value.matrix (m.inverse.scale a)), exec)
      ∧ Functor.call (Functor.Div CType.Matrix44 CType.int CType.Matrix44) exec (Value.int p)
          (Value.matrix m) = (some (Value.matrix (m.inverse.scale (p : ℚ))), exec)
      ∧ (b ≠ 0 → Functor.call (Functor.Div CType.Matrix44 CType.Matrix44 CType.float) exec
          (Value.matrix m) (Value.float b) = (some (Value.matrix (m.divScalar b)), exec))
      ∧ (p ≠ 0 → Functor.call (Functor.Div CType.Matrix44 CType.Matrix44 CType.int) exec
          (Value.matrix m) (Value.int p) = (some (Value.matrix (m.divScalar (p : ℚ))), exec))
      ∧ Functor.call (Functor.Div CType.Matrix44 CType.Matrix44 CType.float) exec
          (Value.matrix m) (Value.float 0) = (some (Value.matrix (Matrix44.splat 0)), exec)
      ∧ (∀ i j, (m.divScalar b).x i j = m.x i j / b)
      ∧ ∀ i j, (Matrix44.splat 0).x i j = 0) := by
  refine ⟨?_, ?_, ScalarMatrixMul_apply a b, ScalarMatrixDiv_apply a b, ?_, ?_, ?_, ?_⟩
  · intro hA hB
    exact ⟨OP_mul_select_scalars R A B hR hA hB, OP_div_select_scalars R A B hR hA hB⟩
  · intro va vb x y hx hy
    simp [Functor.call, hx, hy]
  · intro hA hB
    exact ⟨OP_mul_select_scalar_matrix R A B hR hA hB, OP_div_select_scalar_matrix R A B hR hA hB⟩
  · intro hA hB
    exact ⟨OP_mul_select_matrix_scalar R A B hR hA hB, OP_div_select_matrix_scalar R A B hR hA hB⟩
  · refine ⟨?_, ?_, ?_, ?_, fun i j => rfl⟩
    · simp [Functor.call, cppMul, CType.construct]
    · simp [Functor.call]
    · simp [Functor.call, cppMul, CType.construct]
    · simp [Functor.call]
  · refine ⟨?_, ?_, ?_, ?_, ?_, fun i j => rfl, fun i j => rfl⟩
    · simp [Functor.call]
    · simp [Functor.call]
    · intro hb
      simp [Functor.call, DivGeneric, cppIsZero, cppDiv, CType.construct, hb]
    · intro hp
      simp [Functor.call, cppDiv, hp]
    · simp [Functor.call, DivGeneric, cppIsZero, CType.construct]

/-- Witness for C8: matrix = int * float selects `ScalarMatrixMul`, and
`ScalarMatrixMul (2, 3)` has 6 on the diagonal and 0 off it. -/
theorem matrix_from_scalars_is_diagonal_witness :
    OP_mul_select TypeSpec.matrix TypeSpec.int TypeSpec.float
      = some (OpImpl.binary_op CType.Matrix44 CType.int CType.float Functor.ScalarMatrixMul)
    ∧ (ScalarMatrixMul 2 3).x 1 1 = 6 ∧ (ScalarMatrixMul 2 3).x 1 2 = 0 := by
  have h := matrix_from_scalars_is_diagonal mulMatrixScenario TypeSpec.matrix TypeSpec.int
    TypeSpec.float (by decide) 2 3 1 (Matrix44.splat 0)
  refine ⟨(h.1 (Or.inr (by decide)) (Or.inl (by decide))).1, ?_, ?_⟩
  · rw [h.2.2.1]
    norm_num
  · rw [h.2.2.1]
    simp

/-- C9 (failing input): for `eq` and `neq` of two triples into an int
destination, `llvm_gen_compare_op` iterates over the components of the
destination, which has one: the generated code loads and compares component 0
only, so for all operands the stored int is the comparison of the first
components.  On (1,2,3) and (1,5,6) it stores 1 for `eq`, where the AND over
the three components is 0, and 0 for `neq`, where the OR over them is 1. -/
theorem compare_op_reads_first_component_only :
    generatedCode (llvm_gen_compare_op eqTriplesLayer 0)
      = some (compareFirstComponentCode CmpPredicate.FCMP_UEQ)
    ∧ generatedCode (llvm_gen_compare_op neqTriplesLayer 0)
      = some (compareFirstComponentCode CmpPredicate.FCMP_UNE)
    ∧ (∀ a b : Vec3,
        runAndRead (compareFirstComponentCode CmpPredicate.FCMP_UEQ)
          (memOfVec3 "a" a ++ memOfVec3 "b" b) (Addr.slot "r")
        = some (Scalar.i32 (if a.x = b.x then 1 else 0)))
    ∧ (∀ a b : Vec3,
        runAndRead (compareFirstComponentCode CmpPredicate.FCMP_UNE)
          (memOfVec3 "a" a ++ memOfVec3 "b" b) (Addr.slot "r")
        = some (Scalar.i32 (if a.x = b.x then 0 else 1)))
    ∧ (generatedCode (llvm_gen_compare_op eqTriplesLayer 0)).bind
        (fun code => runAndRead code (memOfVec3 "a" ⟨1, 2, 3⟩ ++ memOfVec3 "b" ⟨1, 5, 6⟩)
          (Addr.slot "r")) = some (Scalar.i32 1)
    ∧ (decide ((1 : ℚ) = 1) && decide ((2 : ℚ) = 5) && decide ((3 : ℚ) = 6)) = false
    ∧ (generatedCode (llvm_gen_compare_op neqTriplesLayer 0)).bind
        (fun code => runAndRead code (memOfVec3 "a" ⟨1, 2, 3⟩ ++ memOfVec3 "b" ⟨1, 5, 6⟩)
          (Addr.slot "r")) = some (Scalar.i32 0)
    ∧ (decide ((1 : ℚ) ≠ 1) || decide ((2 : ℚ) ≠ 5) || decide ((3 : ℚ) ≠ 6)) = true := by
  have h1 : generatedCode (llvm_gen_compare_op eqTriplesLayer 0)
      = some (compareFirstComponentCode CmpPredicate.FCMP_UEQ) := by
    decide
  have h2 : generatedCode (llvm_gen_compare_op neqTriplesLayer 0)
      = some (compareFirstComponentCode CmpPredicate.FCMP_UNE) := by
    decide
  refine ⟨h1, h2, ?_, ?_, ?_, by norm_num, ?_, by norm_num⟩
  · intro a b
    by_cases hab : a.x = b.x <;>
      simp [compareFirstComponentCode, runAndRead, runCode, stepInstruction, evalPtr,
        Machine.ofList, memOfList, evalValue, evalCast, evalCmp, Addr.slot, Addr.elem,
        memOfVec3, hab]
  · intro a b
    by_cases hab : a.x = b.x <;>
      simp [compareFirstComponentCode, runAndRead, runCode, stepInstruction, evalPtr,
        Machine.ofList, memOfList, evalValue, evalCast, evalCmp, Addr.slot, Addr.elem,
        memOfVec3, hab]
  · rw [h1]
    simp [compareFirstComponentCode, runAndRead, runCode, stepInstruction, evalPtr,
      Machine.ofList, memOfList, evalValue, evalCast, evalCmp, Addr.slot, Addr.elem, memOfVec3]
  · rw [h2]
    simp [compareFirstComponentCode, runAndRead, runCode, stepInstruction, evalPtr,
      Machine.ofList, memOfList, evalValue, evalCast, evalCmp, Addr.slot, Addr.elem, memOfVec3]

/-- C10: for a symbol without derivatives (of any kind, allocated or not) and
a derivative index different from 0, `loadLLVMValue` returns the constant zero
of the symbol's base type and leaves the generator state as it was: no load
is emitted and no error is reported. -/
theorem loadLLVMValue_no_derivs (rop : RuntimeOptimizer) (sym : Symbol) (component d : ℤ)
    (hnd : sym.has_derivs = false) (hd : d ≠ 0) :
    loadLLVMValue rop sym component d =
      (some (if sym.typespec.is_floatbased then LLVMValue.ConstantFP 0 else LLVMValue.ConstantInt 32 0), rop)
    ∧ (loadLLVMValue rop sym component d).2.loadCount = rop.loadCount
    ∧ (loadLLVMValue rop sym component d).2.m_blocks = rop.m_blocks
    ∧ (loadLLVMValue rop sym component d).2.m_errors = rop.m_errors
    ∧ (∀ m : Machine, (loadLLVMValue rop sym component d).1.bind (evalValue m) =
        some (if sym.typespec.is_floatbased then Scalar.f32 0 else Scalar.i32 0)) := by
  have h : loadLLVMValue rop sym component d =
      (some (if sym.typespec.is_floatbased then LLVMValue.ConstantFP 0 else LLVMValue.ConstantInt 32 0), rop) := by
    unfold loadLLVMValue
    simp only [hnd, hd]
    cases hf : sym.typespec.is_floatbased <;> simp [hd]
  refine ⟨h, ?_, ?_, ?_, ?_⟩
  · rw [h]
  · rw [h]
  · rw [h]
  · intro m
    rw [h]
    cases hf : sym.typespec.is_floatbased <;> simp [evalValue]

/-- Witness for C10: d/dx of a float local without derivatives. -/
theorem loadLLVMValue_no_derivs_witness :
    (Symbol.mkLocal "r" TypeSpec.float []).has_derivs = false
    ∧ (loadLLVMValue (RuntimeOptimizer.start [] [Symbol.mkLocal "r" TypeSpec.float []])
        (Symbol.mkLocal "r" TypeSpec.float []) 0 1).1 = some (LLVMValue.ConstantFP 0) :=
  ⟨rfl, by
    rw [(loadLLVMValue_no_derivs (RuntimeOptimizer.start [] [Symbol.mkLocal "r" TypeSpec.float []])
      (Symbol.mkLocal "r" TypeSpec.float []) 0 1 rfl (by decide)).1]
    rfl⟩

/-- C11: for a layer without a recorded native version, whenever
`build_llvm_version` has a defined result: it returns NULL, its last report
is the unsupported-opcode error and it records no native version on the
layer, if and only if the layer contains an opcode whose name is neither a
registered generator name nor `nop` nor `end`; otherwise it returns the layer
function and records it. -/
theorem build_llvm_version_null_iff_unsupported (rop : RuntimeOptimizer)
    (r : Option LayerFunction × RuntimeOptimizer) (hv : rop.m_llvm_version = none)
    (h : build_llvm_version rop = some r) :
    ((r.1 = none ∧ r.2.m_errors.getLast? = some "LLVMOSL: Unsupported op %s"
        ∧ r.2.m_llvm_version = none)
      ↔ ∃ op ∈ rop.m_ops,
          op.opname ∉ registeredGeneratorNames ∧ op.opname ≠ "nop" ∧ op.opname ≠ "end")
    ∧ (r.1 ≠ none →
        r.1 = some ⟨rop.m_layername, rop.m_id⟩ ∧ r.2.m_llvm_version = r.1) := by
  obtain ⟨_, _, _, hiff, hnull, hfun⟩ := build_llvm_version_spec rop r h
  constructor
  · constructor
    · rintro ⟨h1, _, _⟩
      exact hiff.mp h1
    · intro hex
      have h1 := hiff.mpr hex
      obtain ⟨h2, h3⟩ := hnull h1
      exact ⟨h1, h2, h3.trans hv⟩
  · intro hne
    cases hr : r.1 with
    | none => exact absurd hr hne
    | some f =>
      obtain ⟨h1, h2⟩ := hfun f hr
      subst h1
      exact ⟨rfl, h2⟩

/-- C11, on the layer `add`, `floor`, `add`: the result is defined, NULL is
returned, the error is reported and no native version is recorded. -/
theorem build_llvm_version_null_iff_unsupported_witness :
    ∃ r, build_llvm_version unsupportedLayer = some r
      ∧ r.1 = none ∧ r.2.m_errors.getLast? = some "LLVMOSL: Unsupported op %s"
      ∧ r.2.m_llvm_version = none := by
  cases hb : build_llvm_version unsupportedLayer with
  | none =>
    have : (build_llvm_version unsupportedLayer).isSome = true := by decide
    rw [hb] at this
    cases this
  | some r =>
    exact ⟨r, rfl, ((build_llvm_version_null_iff_unsupported unsupportedLayer r rfl hb).1).mpr
      ⟨Opcode.mk0 "floor" [0, 1], List.mem_cons_of_mem _ (List.mem_cons_self _ _), by decide,
        by decide, by decide⟩⟩

/-- C12: `storeLLVMValue` does not look at the kind of
the symbol: unlike `loadLLVMValue`, which hands a global to
`LLVMLoadShaderGlobal`, it never reaches `LLVMStoreShaderGlobal` and never
reports that a store to a shader global is unsupported; a store to a global
goes to whatever storage the allocation map holds under the global's
mangled name.  In the layer that assigns the local triple `a` to the global
`P` while a local `x` is an alias of `P`, the three stores are emitted into
the stack slot allocated for `x` under the name `P`, no error is reported,
and `build_llvm_version` returns the layer function and records it.  In the
layer without the alias the map has no entry for `P`: each of the three
stores emits nothing and `getLLVMSymbolBase` reports that the symbol could
not be found, yet generation is not aborted either.  In general, a store to
a symbol without an entry in the allocation map emits no instruction and
reports exactly one error; the lowering routines leave the map as it is;
after `build_llvm_version` the map has no entry for a global whose mangled
name no symbol with storage de-aliases to; and whenever no opcode is
unsupported `build_llvm_version` returns the layer function, whatever the
stores reported. -/
theorem store_to_global_is_not_dispatched :
    (∀ (rop : RuntimeOptimizer) (v : LLVMValue) (sym : Symbol) (c d : ℤ) (t : SymType),
        storeLLVMValue rop v { sym with m_symtype := t } c d = storeLLVMValue rop v sym c d)
    ∧ (∀ (rop : RuntimeOptimizer) (v : LLVMValue) (sym : Symbol) (c d : ℤ),
        (storeLLVMValue rop v sym c d).m_errors = rop.m_errors
        ∨ (storeLLVMValue rop v sym c d).m_errors = rop.m_errors ++
            ["Tried to store to symbol '%s', component %d, deriv_idx %d but doesn't have derivatives"]
        ∨ (storeLLVMValue rop v sym c d).m_errors = rop.m_errors ++
            ["Couldn't find symbol '%s' (unmangled = '%s'). Did you forget to allocate it?"])
    ∧ (∀ (rop : RuntimeOptimizer) (v : LLVMValue) (sym : Symbol) (c d : ℤ),
        (LLVMStoreShaderGlobal rop v sym c d).2.m_errors
          = rop.m_errors ++ ["WARNING: Store to shaderglobal unsupported!"])
    ∧ (∀ (rop : RuntimeOptimizer) (sym : Symbol) (c : ℤ),
        sym.symtype = SymType.SymTypeGlobal →
        loadLLVMValue rop sym c 0 = LLVMLoadShaderGlobal rop sym c 0)
    ∧ (build_llvm_version storeToAliasedGlobalLayer).map
        (fun r => (r.1, r.2.m_llvm_version, r.2.m_errors, r.2.m_blocks))
      = some (some ⟨"layer", 0⟩, some ⟨"layer", 0⟩, [],
          [[Instruction.Load 0 (LLVMValue.ConstGEP2_32 (LLVMValue.Alloca "a") 0 0),
            Instruction.Store (LLVMValue.Load 0 (LLVMValue.ConstGEP2_32 (LLVMValue.Alloca "a") 0 0))
              (LLVMValue.ConstGEP2_32 (LLVMValue.Alloca "P") 0 0),
            Instruction.Load 1 (LLVMValue.ConstGEP2_32 (LLVMValue.Alloca "a") 0 1),
            Instruction.Store (LLVMValue.Load 1 (LLVMValue.ConstGEP2_32 (LLVMValue.Alloca "a") 0 1))
              (LLVMValue.ConstGEP2_32 (LLVMValue.Alloca "P") 0 1),
            Instruction.Load 2 (LLVMValue.ConstGEP2_32 (LLVMValue.Alloca "a") 0 2),
            Instruction.Store (LLVMValue.Load 2 (LLVMValue.ConstGEP2_32 (LLVMValue.Alloca "a") 0 2))
              (LLVMValue.ConstGEP2_32 (LLVMValue.Alloca "P") 0 2),
            Instruction.RetVoid]])
    ∧ (build_llvm_version storeToGlobalLayer).map
        (fun r => (r.1, r.2.m_llvm_version, r.2.m_errors, r.2.m_blocks))
      = some (some ⟨"layer", 0⟩, some ⟨"layer", 0⟩,
          ["Couldn't find symbol '%s' (unmangled = '%s'). Did you forget to allocate it?",
           "Couldn't find symbol '%s' (unmangled = '%s'). Did you forget to allocate it?",
           "Couldn't find symbol '%s' (unmangled = '%s'). Did you forget to allocate it?"],
          [[Instruction.Load 0 (LLVMValue.ConstGEP2_32 (LLVMValue.Alloca "a") 0 0),
            Instruction.Load 1 (LLVMValue.ConstGEP2_32 (LLVMValue.Alloca "a") 0 1),
            Instruction.Load 2 (LLVMValue.ConstGEP2_32 (LLVMValue.Alloca "a") 0 2),
            Instruction.RetVoid]])
    ∧ (∀ (rop : RuntimeOptimizer) (v : LLVMValue) (sym : Symbol) (c d : ℤ),
        rop.m_named_values.lookup sym.dealias_mangled = none →
        (storeLLVMValue rop v sym c d).m_blocks = rop.m_blocks
        ∧ ∃ msg, (storeLLVMValue rop v sym c d).m_errors = rop.m_errors ++ [msg])
    ∧ (∀ (name : String) (found : OpLLVMer) (rop rop1 : RuntimeOptimizer) (opnum : Nat),
        llvm_generator_table.lookup name = some found → found rop opnum = some rop1 →
        rop1.m_named_values = rop.m_named_values)
    ∧ (∀ (rop : RuntimeOptimizer) (r : Option LayerFunction × RuntimeOptimizer) (sym : Symbol),
        build_llvm_version rop = some r →
        (∀ s ∈ rop.m_symbols, ¬ SkipSymbol s = true → s.symtype ≠ SymType.SymTypeGlobal →
          s.dealias_mangled ≠ sym.dealias_mangled) →
        r.2.m_named_values.lookup sym.dealias_mangled = none)
    ∧ (∀ (rop : RuntimeOptimizer) (r : Option LayerFunction × RuntimeOptimizer),
        build_llvm_version rop = some r →
        (∀ op ∈ rop.m_ops, ¬ unsupportedOp op.opname) →
        r.1 = some ⟨rop.m_layername, rop.m_id⟩ ∧ r.2.m_llvm_version = r.1) := by
  refine ⟨fun _ _ _ _ _ _ => rfl, ?_, fun _ _ _ _ _ => rfl, ?_, by decide, by decide,
    ?_, ?_, ?_, ?_⟩
  · intro rop v sym c d
    have hst : ∀ p : LLVMValue, (rop.CreateStore v p).m_errors = rop.m_errors := by
      intro p
      unfold RuntimeOptimizer.CreateStore RuntimeOptimizer.emit
      cases rop.m_insert_pos <;> rfl
    cases hl : rop.m_named_values.lookup sym.dealias_mangled with
    | none =>
      rw [storeLLVMValue_unallocated rop v sym c d hl]
      split_ifs
      · exact Or.inr (Or.inl rfl)
      · exact Or.inr (Or.inr rfl)
    | some aggregate =>
      unfold storeLLVMValue getLLVMSymbolBase
      simp only [hl]
      split_ifs
      · exact Or.inr (Or.inl rfl)
      · exact Or.inl (hst _)
      · exact Or.inl (hst _)
  · intro rop sym c hg
    simp [loadLLVMValue, hg]
  · intro rop v sym c d hl
    rw [storeLLVMValue_unallocated rop v sym c d hl]
    exact ⟨rfl, _, rfl⟩
  · intro name found rop rop1 opnum hf h
    exact congrArg (fun f => f.2.2.1) (generator_frame name found hf rop rop1 opnum h)
  · intro rop r sym h hs
    obtain ⟨_, _, hn, _⟩ := build_llvm_version_spec rop r h
    exact hn _ hs
  · intro rop r h hall
    obtain ⟨_, _, _, hiff, _, hfun⟩ := build_llvm_version_spec rop r h
    cases hr : r.1 with
    | none =>
      obtain ⟨op, hop, hu⟩ := hiff.mp hr
      exact absurd hu (hall op hop)
    | some f =>
      obtain ⟨h1, h2⟩ := hfun f hr
      subst h1
      exact ⟨rfl, h2⟩

/-- C13: `ShaderGlobalNameToIndex` maps P to 0/1/2, I to 3/4/5, u to 8/10/11,
v to 9/12/13 and Ps to 19/20/21 for `deriv` 0/1/2, and N to 6, Ng to 7, dPdu
to 14, dPdv to 15, time to 16, dtime to 17, dPdtime to 18 for every `deriv`;
it returns -1 exactly for the other names and for P, I, u, v, Ps with `deriv`
outside 0..2.  Every other index addresses a field of the record of
`getShaderGlobalType` of the global's kind (a 3-float vector for P, I, N, Ng,
dPdu, dPdv, dPdtime, Ps, a float for u, v, time, dtime).
`LLVMLoadShaderGlobal` emits one load of that field (of its element, for a
vector) when the index is not -1, and otherwise emits nothing, reports an
error and returns null. -/
theorem ShaderGlobalNameToIndex_layout (name : String) (deriv : ℤ) (rop : RuntimeOptimizer)
    (sym : Symbol) (component : ℤ) :
    (ShaderGlobalNameToIndex "P" 0 = 0 ∧ ShaderGlobalNameToIndex "P" 1 = 1
      ∧ ShaderGlobalNameToIndex "P" 2 = 2 ∧ ShaderGlobalNameToIndex "I" 0 = 3
      ∧ ShaderGlobalNameToIndex "I" 1 = 4 ∧ ShaderGlobalNameToIndex "I" 2 = 5
      ∧ ShaderGlobalNameToIndex "u" 0 = 8 ∧ ShaderGlobalNameToIndex "u" 1 = 10
      ∧ ShaderGlobalNameToIndex "u" 2 = 11 ∧ ShaderGlobalNameToIndex "v" 0 = 9
      ∧ ShaderGlobalNameToIndex "v" 1 = 12 ∧ ShaderGlobalNameToIndex "v" 2 = 13
      ∧ ShaderGlobalNameToIndex "Ps" 0 = 19 ∧ ShaderGlobalNameToIndex "Ps" 1 = 20
      ∧ ShaderGlobalNameToIndex "Ps" 2 = 21)
    ∧ (ShaderGlobalNameToIndex "N" deriv = 6 ∧ ShaderGlobalNameToIndex "Ng" deriv = 7
      ∧ ShaderGlobalNameToIndex "dPdu" deriv = 14 ∧ ShaderGlobalNameToIndex "dPdv" deriv = 15
      ∧ ShaderGlobalNameToIndex "time" deriv = 16 ∧ ShaderGlobalNameToIndex "dtime" deriv = 17
      ∧ ShaderGlobalNameToIndex "dPdtime" deriv = 18)
    ∧ (ShaderGlobalNameToIndex name deriv = -1 ↔
        (name ∉ shaderGlobalNames ∨
          (name ∈ shaderGlobalNamesWithDerivs ∧ deriv ≠ 0 ∧ deriv ≠ 1 ∧ deriv ≠ 2)))
    ∧ (ShaderGlobalNameToIndex name deriv ≠ -1 →
        shaderGlobalField (ShaderGlobalNameToIndex name deriv) =
          some (if shaderGlobalIsTriple name then SGFieldType.vec3_type
                else SGFieldType.float_type))
    ∧ (ShaderGlobalNameToIndex sym.name deriv ≠ -1 →
        ∃ ptr : LLVMValue,
          LLVMLoadShaderGlobal rop sym component deriv =
            (some (LLVMValue.Load rop.m_next_id ptr), (rop.CreateLoad ptr).2)
          ∧ (ptr = LLVMValue.ConstGEP2_32 LLVMValue.SgPtr 0
                (ShaderGlobalNameToIndex sym.name deriv)
             ∨ ptr = LLVMValue.ConstGEP2_32
                (LLVMValue.ConstGEP2_32 LLVMValue.SgPtr 0
                  (ShaderGlobalNameToIndex sym.name deriv))
                0 (min (sym.typespec.simpletype.aggregate : ℤ) component)))
    ∧ (ShaderGlobalNameToIndex sym.name deriv = -1 →
        LLVMLoadShaderGlobal rop sym component deriv =
          (none, rop.error "Warning unhandled global '%s'")) := by
  refine ⟨⟨rfl, rfl, rfl, rfl, rfl, rfl, rfl, rfl, rfl, rfl, rfl, rfl, rfl, rfl, rfl⟩,
    ShaderGlobalNameToIndex_fixed deriv, ShaderGlobalNameToIndex_eq_neg_one_iff name deriv,
    shaderGlobalField_of_index name deriv, ?_, ?_⟩
  · intro h
    unfold LLVMLoadShaderGlobal
    simp only [if_neg h]
    split_ifs
    · exact ⟨_, rfl, Or.inl rfl⟩
    · exact ⟨_, rfl, Or.inr rfl⟩
  · intro h
    unfold LLVMLoadShaderGlobal
    simp only [if_pos h]

/-- C14 (the claim fails): the record that `getShaderGlobalType` declares does
not have 32 slots. -/
theorem getShaderGlobalType_not_32_slots : getShaderGlobalType.length ≠ 32 := by
  decide

/-- C14 (amended): the record that `getShaderGlobalType` declares has exactly
30 slots: the 22 vector or float slots that `ShaderGlobalNameToIndex`
addresses (8 vectors, 6 floats, 2 vectors, 2 floats, 4 vectors), then four
pointers, one float and three flags. -/
theorem getShaderGlobalType_has_30_slots :
    getShaderGlobalType.length = 30
    ∧ getShaderGlobalType.take 22 =
        List.replicate 8 SGFieldType.vec3_type ++ List.replicate 6 SGFieldType.float_type
          ++ List.replicate 2 SGFieldType.vec3_type ++ List.replicate 2 SGFieldType.float_type
          ++ List.replicate 4 SGFieldType.vec3_type
    ∧ getShaderGlobalType.drop 22 =
        List.replicate 4 SGFieldType.void_ptr_type ++ [SGFieldType.float_type]
          ++ List.replicate 3 SGFieldType.bool_type := by
  decide

/-- C15 (the claim fails): the array write `r[-1] = 99` executed with run
flags (off, on) over the range [0, 2) changes the destination of point 0,
whose run flag is off: element 1 of its array is 11 before the op and 99
after it. -/
theorem aassign_writes_inactive_point :
    pointIsActive [false, true] 0 2 0 = false
    ∧ (pointElement aassignOutOfRangeScenario 0 0 1).bind Value.toFloat? = some 11
    ∧ ((specialized_aassign aassignOutOfRangeScenario 3 [0, 1, 2] [false, true] 0 2).toOption.bind
        fun e => (pointElement e 0 0 1).bind Value.toFloat?) = some 99
    ∧ ((aassignOutOfRangeScenario.run_op [false, true] 0 2).toOption.bind
        fun e => (pointElement e 0 0 1).bind Value.toFloat?) = some 99 := by
  refine ⟨by decide, by decide, by decide, by decide⟩

/-- C15 (amended): for a point `i` of the batch that is not executing (run
flag off, or outside the range [begin, end)) and every execution that
returns, in whichever of the three access shapes: `OP_aref`, and
`specialized_aref` with a destination that is not an array, leave the
destination's value for `i` as it was; `closure_binary_op` and
`closure_unary_op` with a destination that is not an array leave the
destination's value for `i` as it was; `OP_aassign`, and
`specialized_aassign` with an array as destination and an int as index,
leave every element of the destination's array for `i` as it was, provided
the storage of the destination has room for the whole array of each point
and the index of every executing point lies within the array.  The shape
with a uniform destination is only reached when every point of the batch is
executing. -/
theorem array_and_closure_ops_frame (exec exec1 : ShadingExecution) (r a b : Nat)
    (runflags : List Bool) (bp ep : Nat) (Result : Symbol) (i : Nat)
    (hR : exec.sym r = some Result) (hi : i < exec.m_npoints)
    (hoff : pointIsActive runflags bp ep i = false) :
    (OP_aref exec 3 [r, a, b] runflags bp ep = Except.ok exec1 →
      pointValue exec1 r i = pointValue exec r i)
    ∧ (Result.typespec.is_array = false →
      specialized_aref exec 3 [r, a, b] runflags bp ep = Except.ok exec1 →
      pointValue exec1 r i = pointValue exec r i)
    ∧ (Result.typespec.simpletype.numelements ≤ Result.elements_per_point →
      (∀ j X ind, pointIsActive runflags bp ep j = true → exec.sym a = some X →
        X.intAt j = some ind →
        0 ≤ ind ∧ ind < (Result.typespec.simpletype.numelements : ℤ)) →
      OP_aassign exec 3 [r, a, b] runflags bp ep = Except.ok exec1 →
      ∀ k, k < Result.typespec.simpletype.numelements →
        pointElement exec1 r i k = pointElement exec r i k)
    ∧ (Result.typespec.is_array = true →
      (∀ X, exec.sym a = some X → X.typespec.is_int = true) →
      Result.typespec.simpletype.numelements ≤ Result.elements_per_point →
      (∀ j X ind, pointIsActive runflags bp ep j = true → exec.sym a = some X →
        X.intAt j = some ind →
        0 ≤ ind ∧ ind < (Result.typespec.simpletype.numelements : ℤ)) →
      specialized_aassign exec 3 [r, a, b] runflags bp ep = Except.ok exec1 →
      ∀ k, k < Result.typespec.simpletype.numelements →
        pointElement exec1 r i k = pointElement exec r i k)
    ∧ (Result.typespec.is_array = false →
      ∀ F, closure_binary_op F exec 3 [r, a, b] runflags bp ep = Except.ok exec1 →
        pointValue exec1 r i = pointValue exec r i)
    ∧ (Result.typespec.is_array = false →
      ∀ F, closure_unary_op F exec 2 [r, a] runflags bp ep = Except.ok exec1 →
        pointValue exec1 r i = pointValue exec r i)
    ∧ (∀ (vary : Bool) (R1 : Symbol),
        (exec.adjust_varying r vary runflags bp ep).sym r = some R1 →
        R1.is_varying = true) := by
  refine ⟨?_, ?_, ?_, ?_, ?_, ?_, ?_⟩
  · intro h
    exact OP_aref_frame exec exec1 r a b runflags bp ep Result i hR h hi hoff
  · intro hna h
    exact specialized_aref_frame exec exec1 r a b runflags bp ep Result i hR hna h hi hoff
  · intro hlay hrange h k hk
    exact OP_aassign_frame exec exec1 r a b runflags bp ep Result i k hR hlay hrange h hi hoff hk
  · intro har hint hlay hrange h k hk
    have hxr : a ≠ r := by
      intro hxr
      subst hxr
      rw [is_int_not_array _ (hint Result hR)] at har
      cases har
    obtain ⟨hvar, hlen⟩ := layout_of_elements_per_point Result hlay
    exact specialized_aassign_frame exec exec1 r a b runflags bp ep Result i k hR hxr hvar hlen
      hrange h hi hoff hk
  · intro hna F h
    exact closure_binary_op_frame F exec exec1 r a b runflags bp ep Result i hR hna h hi hoff
  · intro hna F h
    exact closure_unary_op_frame F exec exec1 r a runflags bp ep Result i hR hna h hi hoff
  · intro vary R1 hR1
    obtain ⟨S1, hS1, hd⟩ := sym_adjust_varying_self exec r vary runflags bp ep Result hR
    rw [hS1] at hR1
    obtain rfl := Option.some.inj hR1
    cases hz : decide (S1.m_step = 0) with
    | false =>
      simpa [Symbol.is_varying] using hz
    | true =>
      exfalso
      exact uniform_prelude_absurd exec runflags bp ep i Result S1 vary hi hoff
        (by simpa using hz) hd

/-- C15 (amended), on the write `r[1] = 99` with run flags (off, on): the
execution returns and both elements of the array of point 0 are as before. -/
theorem array_and_closure_ops_frame_witness :
    ∃ exec1, OP_aassign aassignInRangeScenario 3 [0, 1, 2] [false, true] 0 2
        = Except.ok exec1
      ∧ ∀ k, k < 2 →
        pointElement exec1 0 0 k = pointElement aassignInRangeScenario 0 0 k := by
  cases hb : OP_aassign aassignInRangeScenario 3 [0, 1, 2] [false, true] 0 2 with
  | error msg =>
    have hs : (OP_aassign aassignInRangeScenario 3 [0, 1, 2] [false, true] 0
      2).toOption.isSome = true := by decide
    rw [hb] at hs
    cases hs
  | ok exec1 =>
    refine ⟨exec1, rfl, ?_⟩
    refine (array_and_closure_ops_frame aassignInRangeScenario exec1 0 1 2 [false, true] 0 2
      (Symbol.mkVarying "r" (TypeSpec.floatArray 2)
        [Value.float 10, Value.float 11, Value.float 20, Value.float 21] 2) 0 rfl
      (by decide) (by decide)).2.2.1 (by decide) ?_ hb
    intro j X ind _ hX hI
    have hX2 : X = Symbol.mkConst "x" TypeSpec.int [Value.int 1] := by
      have : aassignInRangeScenario.sym 1
          = some (Symbol.mkConst "x" TypeSpec.int [Value.int 1]) := rfl
      rw [this] at hX
      exact (Option.some.inj hX).symm
    subst hX2
    simp [Symbol.intAt, Symbol.valueAt, Symbol.mkConst, Symbol.mkLocal] at hI
    subst hI
    exact ⟨by decide, by decide⟩

/-- C16 (the claim fails): a constant index outside the array is not
rejected when the opcode is specialized.  The read `r = a[2]` from an array of
length 2 returns, reports no error, stores `specialized_aref<float>` as the
implementation, and reads the first element of the next point (20) into the
active point; the write `r[-1] = 99` returns, reports no error, stores
`specialized_aassign<float>`, and overwrites the last element of the previous
point. -/
theorem array_index_is_not_bounds_checked :
    reportedErrors (arefOutOfRangeScenario.run_op [true, false] 0 2) = some []
    ∧ storedImplementation (arefOutOfRangeScenario.run_op [true, false] 0 2)
        = some (OpImpl.specialized_aref CType.float)
    ∧ floatsOf (arefOutOfRangeScenario.run_op [true, false] 0 2) 0 = some [some 20, some 0]
    ∧ reportedErrors (aassignOutOfRangeScenario.run_op [false, true] 0 2) = some []
    ∧ storedImplementation (aassignOutOfRangeScenario.run_op [false, true] 0 2)
        = some (OpImpl.specialized_aassign CType.float)
    ∧ floatsOf (aassignOutOfRangeScenario.run_op [false, true] 0 2) 0
        = some [some 10, some 99, some 20, some 21] := by
  refine ⟨by decide, by decide, by decide, by decide, by decide, by decide⟩

/-- C16 (amended): `OP_aref` and `OP_aassign` examine only the types of their
operands, never the value of the index.  When the type assertions hold and a
specialization exists for the types, the entry point is the specialized
template run on the same execution followed by the store of the
implementation pointer, whatever the index is; and no execution of either
entry point that returns adds anything to the error channel. -/
theorem array_entry_points_check_types_only (exec : ShadingExecution) (args : List Nat)
    (runflags : List Bool) (bp ep : Nat) (s0 s1 s2 : Symbol)
    (h0 : exec.sym (args.getD 0 0) = some s0) (h1 : exec.sym (args.getD 1 0) = some s1)
    (h2 : exec.sym (args.getD 2 0) = some s2) :
    (s0.typespec.is_closure = false → s1.typespec.is_closure = false →
      s2.typespec.is_closure = false → s2.typespec.is_int = true →
      s1.typespec.is_array = true → s0.typespec.is_array = false →
      s0.typespec = s1.typespec.elementtype →
      ∀ impl, OP_aref_select s0.typespec = some impl →
        OP_aref exec 3 args runflags bp ep
          = storeImplementation impl (specialized_aref exec 3 args runflags bp ep))
    ∧ (s0.typespec.is_closure = false → s2.typespec.is_closure = false →
      s1.typespec.is_closure = false → s1.typespec.is_int = true →
      s0.typespec.is_array = true → s2.typespec.is_array = false →
      ∀ impl, OP_aassign_select s0.typespec.elementtype s2.typespec = some impl →
        OP_aassign exec 3 args runflags bp ep
          = storeImplementation impl (specialized_aassign exec 3 args runflags bp ep))
    ∧ (∀ exec1, OP_aref exec 3 args runflags bp ep = Except.ok exec1 →
        exec1.m_errors = exec.m_errors)
    ∧ (∀ exec1, OP_aassign exec 3 args runflags bp ep = Except.ok exec1 →
        exec1.m_errors = exec.m_errors) := by
  refine ⟨?_, ?_, ?_, ?_⟩
  · intro c0 c1 c2 c3 c4 c5 c6 impl hsel
    obtain ⟨T, hT⟩ := OP_aref_select_specialized _ _ hsel
    subst hT
    simp only [List.getD_eq_getElem?_getD] at h0 h1 h2
    simp [OP_aref, h0, h1, h2, c0, c1, c2, c3, c4, c5, ← c6, hsel, runSpecialized]
  · intro c0 c1 c2 c3 c4 c5 impl hsel
    obtain ⟨T, hT⟩ := OP_aassign_select_specialized _ _ _ hsel
    subst hT
    simp only [List.getD_eq_getElem?_getD] at h0 h1 h2
    simp [OP_aassign, h0, h1, h2, c0, c1, c2, c3, c4, c5, hsel, runSpecialized]
  · intro exec1 h
    unfold OP_aref at h
    simp only [h0, h1, h2] at h
    split_ifs at h
    split at h
    · rename_i impl hsel
      obtain ⟨T, hT⟩ := OP_aref_select_specialized _ _ hsel
      subst hT
      obtain ⟨e0, he0, hex⟩ := storeImplementation_ok _ _ _ h
      rw [hex]
      exact errors_specialized_aref exec e0 _ _ _ _ _ he0
    · cases h
  · intro exec1 h
    unfold OP_aassign at h
    simp only [h0, h1, h2] at h
    split_ifs at h
    split at h
    · rename_i impl hsel
      obtain ⟨T, hT⟩ := OP_aassign_select_specialized _ _ _ hsel
      subst hT
      obtain ⟨e0, he0, hex⟩ := storeImplementation_ok _ _ _ h
      rw [hex]
      exact errors_specialized_aassign exec e0 _ _ _ _ _ he0
    · cases h

/-- C16 (amended), on the read `r = a[2]` from an array of length 2: the
entry point is the specialized template followed by the store of the
implementation pointer. -/
theorem array_entry_points_check_types_only_witness :
    OP_aref arefOutOfRangeScenario 3 [0, 1, 2] [true, false] 0 2
      = storeImplementation (OpImpl.specialized_aref CType.float)
          (specialized_aref arefOutOfRangeScenario 3 [0, 1, 2] [true, false] 0 2) :=
  (array_entry_points_check_types_only arefOutOfRangeScenario [0, 1, 2] [true, false] 0 2
    _ _ _ rfl rfl rfl).1 rfl rfl rfl rfl rfl rfl rfl _ rfl

/-- C17 (the claim fails): the division of a closure by the float 2 does not
select a specialization: `OP_div` fails its assertion on the type of the
result and stores no implementation, while the multiplication of the same
operands selects `closure_binary_op<ClosureColor *, float, MulClosure>`. -/
theorem OP_div_rejects_closures :
    divClosureScenario.run_op [true] 0 1 = Except.error "ASSERT on the type of Result"
    ∧ storedImplementation (divClosureScenario.run_op [true] 0 1) = none
    ∧ storedImplementation (mulClosureScenario.run_op [true] 0 1)
        = some (OpImpl.closure_binary_op CType.ClosureColorPtr CType.float Functor.MulClosure) := by
  refine ⟨rfl, by decide, by decide⟩

/-- C17 (amended): for a closure destination the interpreter selects a
closure specialization for add and sub of two closures, for mul of a closure
by a color or a float in either operand order, and for unary negate; division
is not among them: `OP_div` aborts on its assertions whenever an operand is a
closure, and no selection of `OP_div` is a closure specialization.  The
functor `DivClosure`, which scales a closure by 1/s, exists but is never
selected. -/
theorem closure_algebra_without_div (R A B : TypeSpec) (hR : R.is_closure = true) :
    (A.is_closure = true → B.is_closure = true →
      OP_add_select R A B
        = some (OpImpl.closure_binary_op CType.ClosureColorPtr CType.ClosureColorPtr
                  Functor.AddClosure)
      ∧ OP_sub_select R A B
        = some (OpImpl.closure_binary_op CType.ClosureColorPtr CType.ClosureColorPtr
                  Functor.SubClosure))
    ∧ (A.is_closure = true → B.is_triple = true →
        OP_mul_select R A B
          = some (OpImpl.closure_binary_op CType.ClosureColorPtr CType.Color3
                    Functor.MulClosure))
    ∧ (A.is_closure = true → B.is_float = true →
        OP_mul_select R A B
          = some (OpImpl.closure_binary_op CType.ClosureColorPtr CType.float
                    Functor.MulClosure))
    ∧ (A.is_triple = true → B.is_closure = true →
        OP_mul_select R A B
          = some (OpImpl.closure_binary_op CType.Color3 CType.ClosureColorPtr
                    Functor.MulClosure))
    ∧ (A.is_float = true → B.is_closure = true →
        OP_mul_select R A B
          = some (OpImpl.closure_binary_op CType.float CType.ClosureColorPtr
                    Functor.MulClosure))
    ∧ (A.is_closure = true →
        OP_neg_select R A = some (OpImpl.closure_unary_op CType.ClosureColorPtr
                                    Functor.NegClosure))
    ∧ (∀ (exec : ShadingExecution) (nargs : Nat) (args : List Nat) (runflags : List Bool)
        (bp ep : Nat) (Result : Symbol),
        exec.sym (args.getD 0 0) = some Result → Result.typespec = R →
        ∃ msg, OP_div exec nargs args runflags bp ep = Except.error msg)
    ∧ (∀ impl, OP_div_select R A B = some impl →
        ∃ (TR TA TB : CType) (F : Functor), impl = OpImpl.binary_op TR TA TB F)
    ∧ (∀ (a : ClosureColor) (s : ℚ), s ≠ 0 →
        Functor.callClosure Functor.DivClosure (Value.closure a) (Value.float s)
          = some (a.mulFloat (1 / s))) := by
  refine ⟨?_, ?_, ?_, ?_, ?_, ?_, ?_, ?_, ?_⟩
  · intro hA hB
    constructor
    · simp [OP_add_select, hR, hA, hB]
    · simp [OP_sub_select, hR, hA, hB]
  · intro hA hB
    simp [OP_mul_select, hR, hA, hB]
  · intro hA hB
    obtain ⟨_, _, h3, _⟩ := is_float_excl B hB
    simp [OP_mul_select, hR, hA, hB, h3]
  · intro hA hB
    obtain ⟨h1, _⟩ := is_triple_excl A hA
    simp [OP_mul_select, hR, hA, hB, h1]
  · intro hA hB
    obtain ⟨h1, _, h3, _⟩ := is_float_excl A hA
    simp [OP_mul_select, hR, hA, hB, h1, h3]
  · intro hA
    simp [OP_neg_select, hR, hA]
  · intro exec nargs args runflags bp ep Result hs ht
    exact OP_div_aborts_on_closure exec nargs args runflags bp ep
      ⟨0, by omega, Result, hs, by rw [ht]; exact hR⟩
  · intro impl h
    obtain ⟨TR, TA, TB, F, hi, _⟩ := OP_div_select_functor R A B impl h
    exact ⟨TR, TA, TB, F, hi⟩
  · intro a s hs
    simp [Functor.callClosure, cppDivFloat, hs]

/-- C17 (amended), on the types closure = closure * float. -/
theorem closure_algebra_without_div_witness :
    OP_mul_select TypeSpec.closure TypeSpec.closure TypeSpec.float
      = some (OpImpl.closure_binary_op CType.ClosureColorPtr CType.float Functor.MulClosure) :=
  (closure_algebra_without_div TypeSpec.closure TypeSpec.closure TypeSpec.float rfl).2.2.1
    rfl rfl

/-- C18 (the claim fails): for `r = a + b` with a destination that carries
derivatives the generator emits two loads, one store into component 0 of the
value plane and the return, and logs the marker; run on a memory whose
derivative planes of `r` hold 7 and 9, the code leaves 7 and 9 there: no zero
is stored. -/
theorem derivative_planes_are_not_zeroed :
    (build_llvm_version addWithDerivsLayer).map (fun r => (r.2.m_blocks, r.2.m_infos))
      = some ([addWithDerivsCode], ["punting on derivatives for now"])
    ∧ runAndRead addWithDerivsCode staleDerivsMemory (Addr.elem "r" 0) = some (Scalar.f32 3)
    ∧ runAndRead addWithDerivsCode staleDerivsMemory (Addr.elem "r" 1) = some (Scalar.f32 7)
    ∧ runAndRead addWithDerivsCode staleDerivsMemory (Addr.elem "r" 2) = some (Scalar.f32 9) := by
  refine ⟨by decide, ?_, ?_, ?_⟩ <;> with_unfolding_all decide

/-- C18 (amended): when the registered lowering routine of a value opcode
(binary and unary arithmetic, assign, compref, constructors, comparisons,
length/luminance, dot, cross, normalize) lowers an opcode whose destination
carries derivatives, every store instruction it adds writes a component of
the value plane of the destination (an index below the component count):
nothing is stored into the d/dx and d/dy planes, which keep their content;
and the marker "punting on derivatives for now" is logged unless no store was
added. -/
theorem lowering_leaves_derivative_planes (name : String) (found : OpLLVMer)
    (rop rop1 : RuntimeOptimizer) (opnum : Nat) (op : Opcode) (dst : Symbol)
    (hname : name ∈ valueLoweringNames)
    (hfound : llvm_generator_table.lookup name = some found)
    (hop : rop.m_ops[opnum]? = some op) (hdst : rop.opargsym op 0 = some dst)
    (hd : dst.has_derivs = true) (hn : 1 ≤ dst.typespec.simpletype.aggregate)
    (h : found rop opnum = some rop1) :
    (∀ x ∈ rop1.allInstrs, x ∈ rop.allInstrs ∨ (∀ v p, x ≠ Instruction.Store v p)
        ∨ ∃ (aggregate v : LLVMValue) (c : ℤ),
            rop.m_named_values.lookup dst.dealias_mangled = some aggregate
            ∧ 0 ≤ c ∧ c < (dst.typespec.simpletype.aggregate : ℤ)
            ∧ x = Instruction.Store v (LLVMValue.ConstGEP2_32 aggregate 0 c))
    ∧ ∃ extra : List String, rop1.m_infos = rop.m_infos ++ extra
        ∧ ((∀ x ∈ rop1.allInstrs, x ∈ rop.allInstrs ∨ ∀ v p, x ≠ Instruction.Store v p)
            ∨ "punting on derivatives for now" ∈ extra) := by
  have hP : ∀ i : Nat, i < dst.typespec.simpletype.aggregate ∨ i = 0 →
      (fun c : ℤ => 0 ≤ c ∧ c < (dst.typespec.simpletype.aggregate : ℤ)) (i : ℤ) := by
    intro i hi
    constructor
    · omega
    · rcases hi with hi | hi
      · exact_mod_cast hi
      · subst hi
        exact_mod_cast hn
  have hsteps := generator_Steps name found hfound hname
    (fun c : ℤ => 0 ≤ c ∧ c < (dst.typespec.simpletype.aggregate : ℤ)) rop rop1 opnum op dst hP
    hop hdst h
  obtain ⟨_, extra, hi, hm, hs⟩ := Steps_effect hsteps hd
  refine ⟨fun x hx => ?_, extra, hi, hm⟩
  rcases hs x hx with h1 | h1 | ⟨a, v, c, ha, hc, hx1⟩
  · exact Or.inl h1
  · exact Or.inr (Or.inl h1)
  · refine Or.inr (Or.inr ⟨a, v, c, ha, hc.1, hc.2, ?_⟩)
    rw [hx1, min_eq_right (le_of_lt hc.2)]

/-- C18 (amended), on `r = a + b` with a float destination that carries
derivatives, after the allocation of the symbols: the routine adds a store,
every store it adds writes component 0 of `r`, and the marker is logged. -/
theorem lowering_leaves_derivative_planes_witness :
    ∃ rop1, llvm_gen_binary_op addWithDerivsStart 0 = some rop1
      ∧ (∀ x ∈ rop1.allInstrs, (∀ v p, x ≠ Instruction.Store v p)
          ∨ ∃ (v : LLVMValue) (c : ℤ), 0 ≤ c ∧ c < 1
              ∧ x = Instruction.Store v (LLVMValue.ConstGEP2_32 (LLVMValue.Alloca "r") 0 c))
      ∧ "punting on derivatives for now" ∈ rop1.m_infos := by
  have hnil : addWithDerivsStart.allInstrs = [] := by decide
  have hlook : addWithDerivsStart.m_named_values.lookup "r" = some (LLVMValue.Alloca "r") := by
    decide
  have hsome : (llvm_gen_binary_op addWithDerivsStart 0).isSome = true := by decide
  have hstore : (llvm_gen_binary_op addWithDerivsStart 0).all
      (fun r => r.allInstrs.any
        (fun x => match x with
          | Instruction.Store _ _ => true
          | _ => false)) = true := by decide
  cases hb : llvm_gen_binary_op addWithDerivsStart 0 with
  | none =>
    rw [hb] at hsome
    cases hsome
  | some rop1 =>
    rw [hb] at hstore
    obtain ⟨hst, extra, hinf, hmark⟩ := lowering_leaves_derivative_planes "add"
      llvm_gen_binary_op addWithDerivsStart rop1 0 (Opcode.mk0 "add" [0, 1, 2])
      (Symbol.mkLocal "r" TypeSpec.float []).withDerivs (by decide) rfl rfl rfl rfl
      (by decide) hb
    refine ⟨rop1, rfl, fun x hx => ?_, ?_⟩
    · rcases hst x hx with h1 | h1 | ⟨a, v, c, ha, h0, hc, hx1⟩
      · rw [hnil] at h1
        cases h1
      · exact Or.inl h1
      · have ha2 : addWithDerivsStart.m_named_values.lookup "r" = some a := ha
        rw [hlook] at ha2
        have ha1 := Option.some.inj ha2
        subst ha1
        exact Or.inr ⟨v, c, h0, hc, hx1⟩
    · rcases hmark with hno | hm
      · exfalso
        simp only [Option.all_some, List.any_eq_true] at hstore
        obtain ⟨x, hx, hxs⟩ := hstore
        rcases hno x hx with h1 | h1
        · rw [hnil] at h1
          cases h1
        · cases x with
          | Store v p => exact h1 v p rfl
          | _ => simp at hxs
      · rw [hinf]
        exact List.mem_append_right _ hm

/-- C19: for the Transparent model, every outgoing direction and every pair
of random numbers, `sample` returns the direction opposite to the outgoing one
(component by component) with pdf 1; `eval` and `pdf` return zero for every
pair of directions; `get_cone` returns false. -/
theorem TransparentClosure_contract {F : Type} [LinearOrderedField F]
    (omega_out omega_in : Imath.Vec3 F) (randu randv : F) :
    (TransparentClosure.sample omega_out randu randv).1.x = -omega_out.x
    ∧ (TransparentClosure.sample omega_out randu randv).1.y = -omega_out.y
    ∧ (TransparentClosure.sample omega_out randu randv).1.z = -omega_out.z
    ∧ (TransparentClosure.sample omega_out randu randv).2 = 1
    ∧ (TransparentClosure.eval omega_out omega_in).x = 0
    ∧ (TransparentClosure.eval omega_out omega_in).y = 0
    ∧ (TransparentClosure.eval omega_out omega_in).z = 0
    ∧ TransparentClosure.pdf omega_out omega_in = 0
    ∧ TransparentClosure.get_cone omega_out = none :=
  ⟨rfl, rfl, rfl, rfl, rfl, rfl, rfl, rfl, rfl⟩

/-- C20: for the Diffuse model with a unit normal N, over a linearly ordered
field with a square root that is never negative (the reals with their square
root among them), for every outgoing direction and every (u, v): the sampled
direction satisfies N·ω_in ≥ 0; when N·ω_out > 0 it equals
sqrt (max (1 - x² - y², 0)) for the disk point (x, y) that `to_unit_disk`
yields, and otherwise ω_in is the zero vector. -/
theorem DiffuseClosure_sample_above_surface {F : Type} [LinearOrderedField F] (m : CMath F)
    (params : DiffuseClosure.params_t F) (omega_out : Imath.Vec3 F) (randu randv : F)
    (hsqrt : ∀ x : F, 0 ≤ m.sqrtf x) (hN : params.N.dot params.N = 1) :
    0 ≤ params.N.dot (DiffuseClosure.sample m params omega_out randu randv).1
    ∧ (0 < params.N.dot omega_out →
        params.N.dot (DiffuseClosure.sample m params omega_out randu randv).1 =
          m.sqrtf (max (1 - (to_unit_disk m randu randv).1 * (to_unit_disk m randu randv).1
                          - (to_unit_disk m randu randv).2 * (to_unit_disk m randu randv).2) 0))
    ∧ (¬ 0 < params.N.dot omega_out →
        (DiffuseClosure.sample m params omega_out randu randv).1.x = 0
        ∧ (DiffuseClosure.sample m params omega_out randu randv).1.y = 0
        ∧ (DiffuseClosure.sample m params omega_out randu randv).1.z = 0) := by
  by_cases h : 0 < params.N.dot omega_out
  · have hs : DiffuseClosure.sample m params omega_out randu randv =
        ClosurePrimitive.sample_cos_hemisphere m params.N omega_out randu randv := by
      unfold DiffuseClosure.sample
      simp only [gt_iff_lt, if_pos h]
    rw [hs, sample_cos_hemisphere_dot m params.N omega_out randu randv hN]
    exact ⟨hsqrt _, fun _ => rfl, fun hn => absurd h hn⟩
  · have hs : DiffuseClosure.sample m params omega_out randu randv = (⟨0, 0, 0⟩, 0) := by
      unfold DiffuseClosure.sample
      simp only [gt_iff_lt, if_neg h]
    rw [hs]
    refine ⟨?_, fun hp => absurd hp h, fun _ => ⟨rfl, rfl, rfl⟩⟩
    simp [Imath.Vec3.dot]

/-- C20, on the reals: normal and outgoing direction (0, 0, 1), random
numbers (1/2, 1/2). -/
theorem DiffuseClosure_sample_above_surface_witness :
    0 ≤ Imath.Vec3.dot (⟨0, 0, 1⟩ : Imath.Vec3 ℝ)
      (DiffuseClosure.sample
        (⟨Real.sqrt, Real.cos, Real.sin, fun x y => x ^ y, Real.pi, Real.pi / 4, 1 / Real.pi⟩ :
          CMath ℝ)
        ⟨⟨0, 0, 1⟩⟩ ⟨0, 0, 1⟩ (1 / 2) (1 / 2)).1 :=
  (DiffuseClosure_sample_above_surface
    (⟨Real.sqrt, Real.cos, Real.sin, fun x y => x ^ y, Real.pi, Real.pi / 4, 1 / Real.pi⟩ :
      CMath ℝ)
    ⟨⟨0, 0, 1⟩⟩ ⟨0, 0, 1⟩ (1 / 2) (1 / 2) (fun x => Real.sqrt_nonneg x)
    (by simp [Imath.Vec3.dot])).1

/-- C21 (the claim fails): for the Transparent model the sampler reports the
density 1 while `pdf` returns 0 for the sampled direction; and for the Phong
model with exponent 0 (over the reals, with the real power function) seen
from the back side the sampler reports the zero vector with density 0 while
`pdf` returns 1/(2π) for that direction. -/
theorem sampled_density_differs_from_pdf :
    (TransparentClosure.sample (⟨0, 0, 1⟩ : Imath.Vec3 ℚ) 0 0).2 = 1
    ∧ TransparentClosure.pdf (⟨0, 0, 1⟩ : Imath.Vec3 ℚ)
        (TransparentClosure.sample (⟨0, 0, 1⟩ : Imath.Vec3 ℚ) 0 0).1 = 0
    ∧ (PhongClosure.sample
        (⟨Real.sqrt, Real.cos, Real.sin, fun x y => x ^ y, Real.pi, Real.pi / 4, 1 / Real.pi⟩ :
          CMath ℝ)
        ⟨⟨0, 0, 1⟩, 0⟩ ⟨0, 0, -1⟩ 0 0).2 = 0
    ∧ PhongClosure.pdf
        (⟨Real.sqrt, Real.cos, Real.sin, fun x y => x ^ y, Real.pi, Real.pi / 4, 1 / Real.pi⟩ :
          CMath ℝ)
        ⟨⟨0, 0, 1⟩, 0⟩ ⟨0, 0, -1⟩
        (PhongClosure.sample
          (⟨Real.sqrt, Real.cos, Real.sin, fun x y => x ^ y, Real.pi, Real.pi / 4, 1 / Real.pi⟩ :
            CMath ℝ)
          ⟨⟨0, 0, 1⟩, 0⟩ ⟨0, 0, -1⟩ 0 0).1 = 1 / (2 * Real.pi)
    ∧ 1 / (2 * Real.pi) ≠ 0 := by
  have hs := (PhongClosure_sample_cases
    (⟨Real.sqrt, Real.cos, Real.sin, fun x y => x ^ y, Real.pi, Real.pi / 4, 1 / Real.pi⟩ :
      CMath ℝ)
    ⟨⟨0, 0, 1⟩, 0⟩ ⟨0, 0, -1⟩ 0 0).2.1 (by simp [Imath.Vec3.dot])
  refine ⟨rfl, rfl, ?_, ?_, ?_⟩
  · rw [hs]
  · rw [hs]
    simp [PhongClosure.pdf, Imath.Vec3.dot]
    ring
  · have := Real.pi_pos
    positivity

/-- C21 (amended): over a linearly ordered field with a square root that is
never negative: for the Diffuse model with a unit normal, `pdf` at the
sampled direction is the density `sample` reports, for every outgoing
direction and every (u, v); for the Phong model the same holds whenever the
sample reports a nonzero density or the power function gives 0 for base 0 and
the exponent of the parameter block (as it does for a positive exponent); for
the Transparent model `sample` reports the density 1 and `pdf` returns 0 for
every pair of directions. -/
theorem sample_pdf_consistency {F : Type} [LinearOrderedField F] (m : CMath F)
    (hsqrt : ∀ x : F, 0 ≤ m.sqrtf x) :
    (∀ (params : DiffuseClosure.params_t F) (omega_out : Imath.Vec3 F) (randu randv : F),
      params.N.dot params.N = 1 →
      DiffuseClosure.pdf m params omega_out
          (DiffuseClosure.sample m params omega_out randu randv).1
        = (DiffuseClosure.sample m params omega_out randu randv).2)
    ∧ (∀ (params : PhongClosure.params_t F) (omega_out : Imath.Vec3 F) (randu randv : F),
      ((PhongClosure.sample m params omega_out randu randv).2 ≠ 0
        ∨ m.powf 0 params.exponent = 0) →
      PhongClosure.pdf m params omega_out
          (PhongClosure.sample m params omega_out randu randv).1
        = (PhongClosure.sample m params omega_out randu randv).2)
    ∧ (∀ (omega_out omega_in : Imath.Vec3 F) (randu randv : F),
      (TransparentClosure.sample omega_out randu randv).2 = 1
      ∧ TransparentClosure.pdf omega_out omega_in = 0) := by
  refine ⟨?_, ?_, fun _ _ _ _ => ⟨rfl, rfl⟩⟩
  · intro params omega_out randu randv hN
    obtain ⟨hpos, hneg⟩ := DiffuseClosure_sample_cases m params omega_out randu randv
    unfold DiffuseClosure.pdf ClosurePrimitive.pdf_cos_hemisphere
    simp only
    rcases lt_or_le 0 (params.N.dot omega_out) with h | h
    · rw [hpos h, sample_cos_hemisphere_dot m params.N omega_out randu randv hN,
        sample_cos_hemisphere_pdf]
      split_ifs with hc
      · rfl
      · have h0 := le_antisymm (not_lt.mp hc) (hsqrt _)
        rw [h0, zero_mul]
    · rw [hneg h]
      simp [Imath.Vec3.dot]
  · intro params omega_out randu randv hor
    obtain ⟨hpos, hneg1, hneg2⟩ := PhongClosure_sample_cases m params omega_out randu randv
    rcases lt_or_le 0 (params.N.dot omega_out) with h1 | h1
    · rcases lt_or_le 0
        (params.N.dot (PhongClosure.drawn_direction m params omega_out randu randv))
        with h2 | h2
      · rw [hpos h1 h2]
      · rw [hneg2 h2] at hor ⊢
        rcases hor with hor | hor
        · exact absurd rfl hor
        · simp [PhongClosure.pdf, Imath.Vec3.dot, hor]
    · rw [hneg1 h1] at hor ⊢
      rcases hor with hor | hor
      · exact absurd rfl hor
      · simp [PhongClosure.pdf, Imath.Vec3.dot, hor]

/-- C21 (amended), on the reals: for the Diffuse model with normal and
outgoing direction (0, 0, 1) and random numbers (1/2, 1/2), `pdf` at the
sampled direction is the reported density. -/
theorem sample_pdf_consistency_witness :
    DiffuseClosure.pdf
        (⟨Real.sqrt, Real.cos, Real.sin, fun x y => x ^ y, Real.pi, Real.pi / 4, 1 / Real.pi⟩ :
          CMath ℝ)
        ⟨⟨0, 0, 1⟩⟩ ⟨0, 0, 1⟩
        (DiffuseClosure.sample
          (⟨Real.sqrt, Real.cos, Real.sin, fun x y => x ^ y, Real.pi, Real.pi / 4, 1 / Real.pi⟩ :
            CMath ℝ)
          ⟨⟨0, 0, 1⟩⟩ ⟨0, 0, 1⟩ (1 / 2) (1 / 2)).1
      = (DiffuseClosure.sample
          (⟨Real.sqrt, Real.cos, Real.sin, fun x y => x ^ y, Real.pi, Real.pi / 4, 1 / Real.pi⟩ :
            CMath ℝ)
          ⟨⟨0, 0, 1⟩⟩ ⟨0, 0, 1⟩ (1 / 2) (1 / 2)).2 :=
  (sample_pdf_consistency
    (⟨Real.sqrt, Real.cos, Real.sin, fun x y => x ^ y, Real.pi, Real.pi / 4, 1 / Real.pi⟩ :
      CMath ℝ)
    (fun x => Real.sqrt_nonneg x)).1 ⟨⟨0, 0, 1⟩⟩ ⟨0, 0, 1⟩ (1 / 2) (1 / 2)
    (by simp [Imath.Vec3.dot])

/-- C22 (the claim fails): seen from the back side (N·ω_out = -1), over the
reals, the Diffuse model with N = (0, 0, 1) evaluates to 1/π for
ω_in = (0, 0, 1), and the Phong model with exponent 1 evaluates to -3/(2π)
for ω_in = (0, 0, -1): neither is the zero color. -/
theorem eval_is_not_zero_from_the_back_side :
    Imath.Vec3.dot (⟨0, 0, 1⟩ : Imath.Vec3 ℝ) ⟨0, 0, -1⟩ ≤ 0
    ∧ (DiffuseClosure.eval
        (⟨Real.sqrt, Real.cos, Real.sin, fun x y => x ^ y, Real.pi, Real.pi / 4, 1 / Real.pi⟩ :
          CMath ℝ)
        ⟨⟨0, 0, 1⟩⟩ ⟨0, 0, -1⟩ ⟨0, 0, 1⟩).x = 1 / Real.pi
    ∧ (PhongClosure.eval
        (⟨Real.sqrt, Real.cos, Real.sin, fun x y => x ^ y, Real.pi, Real.pi / 4, 1 / Real.pi⟩ :
          CMath ℝ)
        ⟨⟨0, 0, 1⟩, 1⟩ ⟨0, 0, -1⟩ ⟨0, 0, -1⟩).x = -(3 / (2 * Real.pi))
    ∧ 1 / Real.pi ≠ 0 ∧ -(3 / (2 * Real.pi)) ≠ 0 := by
  have hpi := Real.pi_pos
  refine ⟨?_, ?_, ?_, ?_, ?_⟩
  · simp [Imath.Vec3.dot]
  · simp [DiffuseClosure.eval, Imath.Vec3.dot]
  · simp [PhongClosure.eval, PhongClosure.reflected, Imath.Vec3.dot, Imath.Vec3.smul,
      Imath.Vec3.sub]
    norm_num
    ring
  · positivity
  · have : 0 < 3 / (2 * Real.pi) := by positivity
    linarith

/-- C22 (amended): `eval` of the Diffuse and Phong models does not test the
side of the surface: for every pair of directions the Diffuse value is
(N·ω_in)·M_1_PI in the three channels, whatever ω_out is, and the Phong value
is (N·ω_in)·((e+2)·0.5·M_1_PI·powf (R·ω_in, e)) in the three channels.  The
side is reported by `get_cone`, which returns false exactly when N·ω_out ≤ 0.
With a nonzero M_1_PI the Diffuse value is the zero color exactly when
N·ω_in = 0. -/
theorem eval_does_not_test_the_side {F : Type} [LinearOrderedField F] (m : CMath F)
    (dparams : DiffuseClosure.params_t F) (pparams : PhongClosure.params_t F)
    (omega_out omega_out2 omega_in : Imath.Vec3 F) :
    DiffuseClosure.eval m dparams omega_out omega_in
      = DiffuseClosure.eval m dparams omega_out2 omega_in
    ∧ (DiffuseClosure.eval m dparams omega_out omega_in).x
        = dparams.N.dot omega_in * m.M_1_PI
    ∧ (DiffuseClosure.eval m dparams omega_out omega_in).y
        = dparams.N.dot omega_in * m.M_1_PI
    ∧ (DiffuseClosure.eval m dparams omega_out omega_in).z
        = dparams.N.dot omega_in * m.M_1_PI
    ∧ (PhongClosure.eval m pparams omega_out omega_in).x
        = pparams.N.dot omega_in * ((pparams.exponent + 2) * (1 / 2) * m.M_1_PI
            * m.powf ((PhongClosure.reflected pparams omega_out).dot omega_in)
                pparams.exponent)
    ∧ (PhongClosure.eval m pparams omega_out omega_in).y
        = (PhongClosure.eval m pparams omega_out omega_in).x
    ∧ (PhongClosure.eval m pparams omega_out omega_in).z
        = (PhongClosure.eval m pparams omega_out omega_in).x
    ∧ (DiffuseClosure.get_cone m dparams omega_out = none ↔ dparams.N.dot omega_out ≤ 0)
    ∧ (PhongClosure.get_cone m pparams omega_out = none ↔ pparams.N.dot omega_out ≤ 0)
    ∧ (m.M_1_PI ≠ 0 →
        ((DiffuseClosure.eval m dparams omega_out omega_in).x = 0
          ↔ dparams.N.dot omega_in = 0)) := by
  refine ⟨rfl, rfl, rfl, rfl, rfl, rfl, rfl, ?_, ?_, ?_⟩
  · unfold DiffuseClosure.get_cone
    simp only [gt_iff_lt]
    split_ifs with h
    · simp [not_le.mpr h]
    · simp [not_lt.mp h]
  · unfold PhongClosure.get_cone
    simp only [gt_iff_lt]
    split_ifs with h
    · simp [not_le.mpr h]
    · simp [not_lt.mp h]
  · intro hpi
    simp [DiffuseClosure.eval, hpi]

/-- C23: for the Phong model with normal N, exponent e and the reflected
vector R = 2(N·ω_out)N - ω_out, with the constant M_1_PI read as 1/π: for
every pair of directions `eval` is (N·ω_in)·(e+2)/(2π)·powf (R·ω_in, e) in
the three channels and `pdf` is (e+1)/(2π)·powf (R·ω_in, e), hence
(e+1)·eval = (e+2)·(N·ω_in)·pdf; and a sample that reports a nonzero density
reports (e+1)/(2π)·powf (R·ω_in, e) for the sampled direction, the value of
`pdf` there. -/
theorem PhongClosure_normalization {F : Type} [LinearOrderedField F] (m : CMath F)
    (params : PhongClosure.params_t F) (omega_out omega_in : Imath.Vec3 F)
    (hpi : m.M_1_PI = 1 / m.M_PI) :
    (PhongClosure.reflected params omega_out).x
        = 2 * params.N.dot omega_out * params.N.x - omega_out.x
    ∧ (PhongClosure.reflected params omega_out).y
        = 2 * params.N.dot omega_out * params.N.y - omega_out.y
    ∧ (PhongClosure.reflected params omega_out).z
        = 2 * params.N.dot omega_out * params.N.z - omega_out.z
    ∧ (PhongClosure.eval m params omega_out omega_in).x
        = params.N.dot omega_in * ((params.exponent + 2) / (2 * m.M_PI))
            * m.powf ((PhongClosure.reflected params omega_out).dot omega_in) params.exponent
    ∧ (PhongClosure.eval m params omega_out omega_in).y
        = (PhongClosure.eval m params omega_out omega_in).x
    ∧ (PhongClosure.eval m params omega_out omega_in).z
        = (PhongClosure.eval m params omega_out omega_in).x
    ∧ PhongClosure.pdf m params omega_out omega_in
        = (params.exponent + 1) / (2 * m.M_PI)
            * m.powf ((PhongClosure.reflected params omega_out).dot omega_in) params.exponent
    ∧ (params.exponent + 1) * (PhongClosure.eval m params omega_out omega_in).x
        = (params.exponent + 2) * params.N.dot omega_in
            * PhongClosure.pdf m params omega_out omega_in
    ∧ (∀ randu randv : F, (PhongClosure.sample m params omega_out randu randv).2 ≠ 0 →
        (PhongClosure.sample m params omega_out randu randv).2
          = (params.exponent + 1) / (2 * m.M_PI)
              * m.powf ((PhongClosure.reflected params omega_out).dot
                  (PhongClosure.sample m params omega_out randu randv).1) params.exponent
        ∧ (PhongClosure.sample m params omega_out randu randv).2
          = PhongClosure.pdf m params omega_out
              (PhongClosure.sample m params omega_out randu randv).1) := by
  have hpdf : ∀ w : Imath.Vec3 F, PhongClosure.pdf m params omega_out w
      = (params.exponent + 1) / (2 * m.M_PI)
          * m.powf ((PhongClosure.reflected params omega_out).dot w) params.exponent := by
    intro w
    simp only [PhongClosure.pdf, hpi]
    ring
  refine ⟨rfl, rfl, rfl, ?_, rfl, rfl, hpdf omega_in, ?_, ?_⟩
  · simp only [PhongClosure.eval, hpi]
    ring
  · simp only [PhongClosure.eval, PhongClosure.pdf]
    ring
  · intro randu randv hne
    obtain ⟨hpos, hneg1, hneg2⟩ := PhongClosure_sample_cases m params omega_out randu randv
    rcases lt_or_le 0 (params.N.dot omega_out) with h1 | h1
    · rcases lt_or_le 0
        (params.N.dot (PhongClosure.drawn_direction m params omega_out randu randv))
        with h2 | h2
      · rw [hpos h1 h2]
        exact ⟨hpdf _, rfl⟩
      · rw [hneg2 h2] at hne
        exact absurd rfl hne
    · rw [hneg1 h1] at hne
      exact absurd rfl hne

/-- C23, on the reals, with N = ω_out = ω_in = (0, 0, 1) and exponent 2:
(e+1)·eval = (e+2)·(N·ω_in)·pdf. -/
theorem PhongClosure_normalization_witness :
    ((2 : ℝ) + 1) * (PhongClosure.eval
        (⟨Real.sqrt, Real.cos, Real.sin, fun x y => x ^ y, Real.pi, Real.pi / 4, 1 / Real.pi⟩ :
          CMath ℝ)
        ⟨⟨0, 0, 1⟩, 2⟩ ⟨0, 0, 1⟩ ⟨0, 0, 1⟩).x
      = ((2 : ℝ) + 2) * Imath.Vec3.dot (⟨0, 0, 1⟩ : Imath.Vec3 ℝ) ⟨0, 0, 1⟩
          * PhongClosure.pdf
              (⟨Real.sqrt, Real.cos, Real.sin, fun x y => x ^ y, Real.pi, Real.pi / 4,
                1 / Real.pi⟩ : CMath ℝ)
              ⟨⟨0, 0, 1⟩, 2⟩ ⟨0, 0, 1⟩ ⟨0, 0, 1⟩ :=
  (PhongClosure_normalization
    (⟨Real.sqrt, Real.cos, Real.sin, fun x y => x ^ y, Real.pi, Real.pi / 4, 1 / Real.pi⟩ :
      CMath ℝ)
    ⟨⟨0, 0, 1⟩, 2⟩ ⟨0, 0, 1⟩ ⟨0, 0, 1⟩ rfl).2.2.2.2.2.2.2.1

/-- C24: over a linearly ordered field with a square root that is never
negative, for the Diffuse and Phong samplers, every parameter block, outgoing
direction and (u, v): when N·ω_out ≤ 0 the sample is the zero vector with
pdf 0; for Phong, when the drawn direction has N·ω_in ≤ 0 the sample is also
the zero vector with pdf 0; and every sample that reports a nonzero pdf
returns a direction with N·ω_in > 0, which is therefore not the zero vector. -/
theorem samplers_signal_no_sample {F : Type} [LinearOrderedField F] (m : CMath F)
    (dparams : DiffuseClosure.params_t F) (pparams : PhongClosure.params_t F)
    (omega_out : Imath.Vec3 F) (randu randv : F)
    (hsqrt : ∀ x : F, 0 ≤ m.sqrtf x) :
    (dparams.N.dot omega_out ≤ 0 →
      DiffuseClosure.sample m dparams omega_out randu randv = (⟨0, 0, 0⟩, 0))
    ∧ (pparams.N.dot omega_out ≤ 0 →
      PhongClosure.sample m pparams omega_out randu randv = (⟨0, 0, 0⟩, 0))
    ∧ (pparams.N.dot (PhongClosure.drawn_direction m pparams omega_out randu randv) ≤ 0 →
      PhongClosure.sample m pparams omega_out randu randv = (⟨0, 0, 0⟩, 0))
    ∧ ((DiffuseClosure.sample m dparams omega_out randu randv).2 ≠ 0 →
      0 < dparams.N.dot (DiffuseClosure.sample m dparams omega_out randu randv).1
      ∧ ¬ ((DiffuseClosure.sample m dparams omega_out randu randv).1.x = 0
          ∧ (DiffuseClosure.sample m dparams omega_out randu randv).1.y = 0
          ∧ (DiffuseClosure.sample m dparams omega_out randu randv).1.z = 0))
    ∧ ((PhongClosure.sample m pparams omega_out randu randv).2 ≠ 0 →
      0 < pparams.N.dot (PhongClosure.sample m pparams omega_out randu randv).1
      ∧ ¬ ((PhongClosure.sample m pparams omega_out randu randv).1.x = 0
          ∧ (PhongClosure.sample m pparams omega_out randu randv).1.y = 0
          ∧ (PhongClosure.sample m pparams omega_out randu randv).1.z = 0)) := by
  obtain ⟨hdpos, hdneg⟩ := DiffuseClosure_sample_cases m dparams omega_out randu randv
  obtain ⟨hppos, hpneg1, hpneg2⟩ := PhongClosure_sample_cases m pparams omega_out randu randv
  refine ⟨hdneg, hpneg1, hpneg2, ?_, ?_⟩
  · intro hne
    rcases lt_or_le 0 (dparams.N.dot omega_out) with h | h
    · rw [hdpos h] at hne ⊢
      rw [sample_cos_hemisphere_pdf] at hne
      have hc : m.sqrtf (max (1 - (to_unit_disk m randu randv).1 * (to_unit_disk m randu randv).1
          - (to_unit_disk m randu randv).2 * (to_unit_disk m randu randv).2) 0) ≠ 0 := by
        intro h0
        rw [h0, zero_mul] at hne
        exact hne rfl
      have hcpos := lt_of_le_of_ne (hsqrt _) (Ne.symm hc)
      have hNN := Imath_dot_self_pos dparams.N omega_out (ne_of_gt h)
      have hd : 0 < dparams.N.dot
          (ClosurePrimitive.sample_cos_hemisphere m dparams.N omega_out randu randv).1 := by
        rw [sample_cos_hemisphere_dot_scaled]
        exact mul_pos hcpos hNN
      exact ⟨hd, Imath_ne_zero_of_dot _ _ (ne_of_gt hd)⟩
    · rw [hdneg h] at hne
      exact absurd rfl hne
  · intro hne
    rcases lt_or_le 0 (pparams.N.dot omega_out) with h1 | h1
    · rcases lt_or_le 0
        (pparams.N.dot (PhongClosure.drawn_direction m pparams omega_out randu randv))
        with h2 | h2
      · rw [hppos h1 h2]
        exact ⟨h2, Imath_ne_zero_of_dot _ _ (ne_of_gt h2)⟩
      · rw [hpneg2 h2] at hne
        exact absurd rfl hne
    · rw [hpneg1 h1] at hne
      exact absurd rfl hne

/-- C24, on the reals: seen from the back side (N = (0, 0, 1),
ω_out = (0, 0, -1)) the Diffuse sample is the zero vector with pdf 0. -/
theorem samplers_signal_no_sample_witness :
    DiffuseClosure.sample
        (⟨Real.sqrt, Real.cos, Real.sin, fun x y => x ^ y, Real.pi, Real.pi / 4, 1 / Real.pi⟩ :
          CMath ℝ)
        ⟨⟨0, 0, 1⟩⟩ ⟨0, 0, -1⟩ (1 / 2) (1 / 2) = (⟨0, 0, 0⟩, 0) :=
  (samplers_signal_no_sample
    (⟨Real.sqrt, Real.cos, Real.sin, fun x y => x ^ y, Real.pi, Real.pi / 4, 1 / Real.pi⟩ :
      CMath ℝ)
    ⟨⟨0, 0, 1⟩⟩ ⟨⟨0, 0, 1⟩, 1⟩ ⟨0, 0, -1⟩ (1 / 2) (1 / 2)
    (fun x => Real.sqrt_nonneg x)).1 (by simp [Imath.Vec3.dot])

/-- C25: in every iteration `i` < 3 of the loop of `llvm_gen_cross`, for all
symbols, the value stored into component `i` of the destination is the
product of component (i+1)%3 of the first operand and component (i+2)%3 of
the second minus the product of component (i+2)%3 of the first and component
(i+1)%3 of the second, the operands being loaded in that iteration, after
the stores of the iterations before it.  So the function generated for
`r = cross (r, b)` (destination = first operand) leaves, in exact arithmetic
over any ordered field, x0 = r1·b2 - r2·b1 in component 0,
x1 = r2·b0 - x0·b2 in component 1 and x0·b1 - x1·b0 in component 2: for
r = (1, 2, 3) and b = (4, 5, 6) the values (-3, 30, -135), where the cross
product is (-3, 6, -3); and the function generated for `r = cross (a, r)`
leaves y0 = a1·r2 - a2·r1, y1 = a2·y0 - a0·r2 and a0·y1 - a1·y0.  With a
destination distinct from the operands, the function generated for
`r = cross (a, b)` leaves a1·b2 - a2·b1, a2·b0 - a0·b2, a0·b1 - a1·b0 in
`r`, the function generated for `r = cross (b, a)` leaves the negated
values, and the function generated for `r = cross (a, b); s = dot (a, r)`
leaves 0 in `s`. -/
theorem cross_in_place_reads_stored_components {F : Type} [LinearOrderedField F] (m : CMath F)
    (a0 a1 a2 b0 b1 b2 : F) :
    (∀ (dst src1 src2 : Symbol) (i : Nat) (rest : List Nat) (rop : RuntimeOptimizer), i < 3 →
      llvm_gen_cross_loop dst src1 src2 (i :: rest) rop =
        (let l10 := loadLLVMValue rop src1 (((i + 1) % 3 : Nat) : ℤ) 0
         let l11 := loadLLVMValue l10.2 src1 (((i + 2) % 3 : Nat) : ℤ) 0
         let l20 := loadLLVMValue l11.2 src2 (((i + 2) % 3 : Nat) : ℤ) 0
         let l21 := loadLLVMValue l20.2 src2 (((i + 1) % 3 : Nat) : ℤ) 0
         match l10.1, l11.1, l20.1, l21.1 with
         | some x1, some x2, some y2, some y1 =>
             llvm_gen_cross_loop dst src1 src2 rest
               (puntOnDerivs dst
                 (storeLLVMValue l21.2
                   (LLVMValue.BinOp BinaryOps.FSub (LLVMValue.BinOp BinaryOps.FMul x1 y2)
                     (LLVMValue.BinOp BinaryOps.FMul x2 y1)) dst i 0))
         | _, _, _, _ => some l21.2))
    ∧ (entryBlock crossInPlaceLayer).bind (fun code =>
        runFloatAndRead m code (floatMemOfVec "r" a0 a1 a2 ++ floatMemOfVec "b" b0 b1 b2)
          (Addr.elem "r" 0)) = some (a1 * b2 - a2 * b1)
    ∧ (entryBlock crossInPlaceLayer).bind (fun code =>
        runFloatAndRead m code (floatMemOfVec "r" a0 a1 a2 ++ floatMemOfVec "b" b0 b1 b2)
          (Addr.elem "r" 1)) = some (a2 * b0 - (a1 * b2 - a2 * b1) * b2)
    ∧ (entryBlock crossInPlaceLayer).bind (fun code =>
        runFloatAndRead m code (floatMemOfVec "r" a0 a1 a2 ++ floatMemOfVec "b" b0 b1 b2)
          (Addr.elem "r" 2))
        = some ((a1 * b2 - a2 * b1) * b1 - (a2 * b0 - (a1 * b2 - a2 * b1) * b2) * b0)
    ∧ ((entryBlock crossInPlaceLayer).bind (fun code =>
          runFloatAndRead m code (floatMemOfVec "r" (1 : F) 2 3 ++ floatMemOfVec "b" (4 : F) 5 6)
            (Addr.elem "r" 0)) = some (-3)
        ∧ (entryBlock crossInPlaceLayer).bind (fun code =>
          runFloatAndRead m code (floatMemOfVec "r" (1 : F) 2 3 ++ floatMemOfVec "b" (4 : F) 5 6)
            (Addr.elem "r" 1)) = some 30
        ∧ (entryBlock crossInPlaceLayer).bind (fun code =>
          runFloatAndRead m code (floatMemOfVec "r" (1 : F) 2 3 ++ floatMemOfVec "b" (4 : F) 5 6)
            (Addr.elem "r" 2)) = some (-135)
        ∧ (30 : F) ≠ 3 * 4 - 1 * 6 ∧ (-135 : F) ≠ 1 * 5 - 2 * 4)
    ∧ (entryBlock crossInPlaceSecondLayer).bind (fun code =>
        runFloatAndRead m code (floatMemOfVec "a" a0 a1 a2 ++ floatMemOfVec "r" b0 b1 b2)
          (Addr.elem "r" 0)) = some (a1 * b2 - a2 * b1)
    ∧ (entryBlock crossInPlaceSecondLayer).bind (fun code =>
        runFloatAndRead m code (floatMemOfVec "a" a0 a1 a2 ++ floatMemOfVec "r" b0 b1 b2)
          (Addr.elem "r" 1)) = some (a2 * (a1 * b2 - a2 * b1) - a0 * b2)
    ∧ (entryBlock crossInPlaceSecondLayer).bind (fun code =>
        runFloatAndRead m code (floatMemOfVec "a" a0 a1 a2 ++ floatMemOfVec "r" b0 b1 b2)
          (Addr.elem "r" 2))
        = some (a0 * (a2 * (a1 * b2 - a2 * b1) - a0 * b2) - a1 * (a1 * b2 - a2 * b1))
    ∧ (entryBlock crossLayer).bind (fun code =>
        runFloatAndRead m code (floatMemOfVec "a" a0 a1 a2 ++ floatMemOfVec "b" b0 b1 b2)
          (Addr.elem "r" 0)) = some (a1 * b2 - a2 * b1)
    ∧ (entryBlock crossLayer).bind (fun code =>
        runFloatAndRead m code (floatMemOfVec "a" a0 a1 a2 ++ floatMemOfVec "b" b0 b1 b2)
          (Addr.elem "r" 1)) = some (a2 * b0 - a0 * b2)
    ∧ (entryBlock crossLayer).bind (fun code =>
        runFloatAndRead m code (floatMemOfVec "a" a0 a1 a2 ++ floatMemOfVec "b" b0 b1 b2)
          (Addr.elem "r" 2)) = some (a0 * b1 - a1 * b0)
    ∧ (entryBlock crossSwappedLayer).bind (fun code =>
        runFloatAndRead m code (floatMemOfVec "a" a0 a1 a2 ++ floatMemOfVec "b" b0 b1 b2)
          (Addr.elem "r" 0)) = some (-(a1 * b2 - a2 * b1))
    ∧ (entryBlock crossSwappedLayer).bind (fun code =>
        runFloatAndRead m code (floatMemOfVec "a" a0 a1 a2 ++ floatMemOfVec "b" b0 b1 b2)
          (Addr.elem "r" 1)) = some (-(a2 * b0 - a0 * b2))
    ∧ (entryBlock crossSwappedLayer).bind (fun code =>
        runFloatAndRead m code (floatMemOfVec "a" a0 a1 a2 ++ floatMemOfVec "b" b0 b1 b2)
          (Addr.elem "r" 2)) = some (-(a0 * b1 - a1 * b0))
    ∧ (entryBlock crossDotLayer).bind (fun code =>
        runFloatAndRead m code (floatMemOfVec "a" a0 a1 a2 ++ floatMemOfVec "b" b0 b1 b2)
          (Addr.slot "s")) = some 0 := by
  refine ⟨?_, rfl, rfl, rfl, ⟨?_, ?_, ?_, by norm_num, by norm_num⟩, rfl, rfl, rfl,
    rfl, rfl, rfl, ?_, ?_, ?_, ?_⟩
  · intro dst src1 src2 i rest rop hi
    interval_cases i <;> rfl
  · exact @Eq.trans (Option F) _ (some (2 * 6 - 3 * 5)) _ rfl (congrArg some (by norm_num))
  · exact @Eq.trans (Option F) _ (some (3 * 4 - (2 * 6 - 3 * 5) * 6)) _ rfl
      (congrArg some (by norm_num))
  · exact @Eq.trans (Option F) _
      (some ((2 * 6 - 3 * 5) * 5 - (3 * 4 - (2 * 6 - 3 * 5) * 6) * 4)) _ rfl
      (congrArg some (by norm_num))
  · exact @Eq.trans (Option F) _ (some (b1 * a2 - b2 * a1)) _ rfl (congrArg some (by ring))
  · exact @Eq.trans (Option F) _ (some (b2 * a0 - b0 * a2)) _ rfl (congrArg some (by ring))
  · exact @Eq.trans (Option F) _ (some (b0 * a1 - b1 * a0)) _ rfl (congrArg some (by ring))
  · exact @Eq.trans (Option F) _
      (some (a0 * (a1 * b2 - a2 * b1) + a1 * (a2 * b0 - a0 * b2) + a2 * (a0 * b1 - a1 * b0))) _
      rfl (congrArg some (by ring))

/-- C26: over an ordered field with a square-root function that is never
negative and squares to its argument on nonnegative arguments (the reals with
their square root among them), the function generated for
`n = normalize (v); l = length (n)`, run on any nonzero 3-vector `v`, leaves
v_i · (1 / sqrt (v0² + v1² + v2²)) in component `i` of `n` and 1 in `l`. -/
theorem normalize_then_length {F : Type} [LinearOrderedField F] (m : CMath F)
    (v0 v1 v2 : F) (hnonneg : ∀ x : F, 0 ≤ m.sqrtf x)
    (hsq : ∀ x : F, 0 ≤ x → m.sqrtf x * m.sqrtf x = x)
    (hv : v0 ≠ 0 ∨ v1 ≠ 0 ∨ v2 ≠ 0) :
    entryBlock normalizeLengthLayer = some normalizeLengthCode
    ∧ runFloatAndRead m normalizeLengthCode (floatMemOfVec "v" v0 v1 v2) (Addr.elem "n" 0)
        = some (v0 * (1 / m.sqrtf (v0 * v0 + v1 * v1 + v2 * v2)))
    ∧ runFloatAndRead m normalizeLengthCode (floatMemOfVec "v" v0 v1 v2) (Addr.elem "n" 1)
        = some (v1 * (1 / m.sqrtf (v0 * v0 + v1 * v1 + v2 * v2)))
    ∧ runFloatAndRead m normalizeLengthCode (floatMemOfVec "v" v0 v1 v2) (Addr.elem "n" 2)
        = some (v2 * (1 / m.sqrtf (v0 * v0 + v1 * v1 + v2 * v2)))
    ∧ runFloatAndRead m normalizeLengthCode (floatMemOfVec "v" v0 v1 v2) (Addr.slot "l")
        = some 1 := by
  have hs : 0 < v0 * v0 + v1 * v1 + v2 * v2 := by
    rcases hv with h | h | h
    · have := mul_self_pos.mpr h
      nlinarith [mul_self_nonneg v1, mul_self_nonneg v2]
    · have := mul_self_pos.mpr h
      nlinarith [mul_self_nonneg v0, mul_self_nonneg v2]
    · have := mul_self_pos.mpr h
      nlinarith [mul_self_nonneg v0, mul_self_nonneg v1]
  have hq := hsq _ (le_of_lt hs)
  have hne : m.sqrtf (v0 * v0 + v1 * v1 + v2 * v2) ≠ 0 := by
    intro h0
    rw [h0, mul_zero] at hq
    exact absurd hq.symm (ne_of_gt hs)
  have hone : m.sqrtf 1 = 1 := by
    have h1 := hsq 1 zero_le_one
    have h2 := hnonneg 1
    nlinarith
  have hval : v0 * (1 / m.sqrtf (v0 * v0 + v1 * v1 + v2 * v2))
        * (v0 * (1 / m.sqrtf (v0 * v0 + v1 * v1 + v2 * v2)))
      + v1 * (1 / m.sqrtf (v0 * v0 + v1 * v1 + v2 * v2))
        * (v1 * (1 / m.sqrtf (v0 * v0 + v1 * v1 + v2 * v2)))
      + v2 * (1 / m.sqrtf (v0 * v0 + v1 * v1 + v2 * v2))
        * (v2 * (1 / m.sqrtf (v0 * v0 + v1 * v1 + v2 * v2))) = 1 := by
    have h3 : v0 * (1 / m.sqrtf (v0 * v0 + v1 * v1 + v2 * v2))
          * (v0 * (1 / m.sqrtf (v0 * v0 + v1 * v1 + v2 * v2)))
        + v1 * (1 / m.sqrtf (v0 * v0 + v1 * v1 + v2 * v2))
          * (v1 * (1 / m.sqrtf (v0 * v0 + v1 * v1 + v2 * v2)))
        + v2 * (1 / m.sqrtf (v0 * v0 + v1 * v1 + v2 * v2))
          * (v2 * (1 / m.sqrtf (v0 * v0 + v1 * v1 + v2 * v2)))
        = (v0 * v0 + v1 * v1 + v2 * v2)
          * (m.sqrtf (v0 * v0 + v1 * v1 + v2 * v2)
              * m.sqrtf (v0 * v0 + v1 * v1 + v2 * v2))⁻¹ := by
      rw [mul_inv]
      ring
    rw [h3, hq, mul_inv_cancel₀ (ne_of_gt hs)]
  have hrun : runFloat m normalizeLengthCode
        ⟨floatMemOfList (floatMemOfVec "v" v0 v1 v2), fun _ => none⟩
      = some ⟨fun b =>
          if b = Addr.slot "l" then some 1
          else if b = Addr.elem "n" 2 then
            some (v2 * (1 / m.sqrtf (v0 * v0 + v1 * v1 + v2 * v2)))
          else if b = Addr.elem "n" 1 then
            some (v1 * (1 / m.sqrtf (v0 * v0 + v1 * v1 + v2 * v2)))
          else if b = Addr.elem "n" 0 then
            some (v0 * (1 / m.sqrtf (v0 * v0 + v1 * v1 + v2 * v2)))
          else floatMemOfList (floatMemOfVec "v" v0 v1 v2) b,
        fun k =>
          if k = 8 then some (v2 * (1 / m.sqrtf (v0 * v0 + v1 * v1 + v2 * v2)))
          else if k = 7 then some (v1 * (1 / m.sqrtf (v0 * v0 + v1 * v1 + v2 * v2)))
          else if k = 6 then some (v0 * (1 / m.sqrtf (v0 * v0 + v1 * v1 + v2 * v2)))
          else if k = 5 then some v2
          else if k = 4 then some v1
          else if k = 3 then some v0
          else if k = 2 then some v2
          else if k = 1 then some v1
          else if k = 0 then some v0
          else none⟩ := by
    unfold normalizeLengthCode
    rw [runFloat_load m _ 0 "v" 0 _ v0 rfl, runFloat_load m _ 1 "v" 1 _ v1 rfl,
      runFloat_load m _ 2 "v" 2 _ v2 rfl, runFloat_load m _ 3 "v" 0 _ v0 rfl,
      runFloat_store m _ _ "n" 0 _ _ (evalFloat_scaled m _ 3 0 v0 v1 v2 v0 rfl rfl rfl rfl hne),
      runFloat_load m _ 4 "v" 1 _ v1 rfl,
      runFloat_store m _ _ "n" 1 _ _ (evalFloat_scaled m _ 4 1 v0 v1 v2 v1 rfl rfl rfl rfl hne),
      runFloat_load m _ 5 "v" 2 _ v2 rfl,
      runFloat_store m _ _ "n" 2 _ _ (evalFloat_scaled m _ 5 2 v0 v1 v2 v2 rfl rfl rfl rfl hne),
      runFloat_load m _ 6 "n" 0 _ _ rfl, runFloat_load m _ 7 "n" 1 _ _ rfl,
      runFloat_load m _ 8 "n" 2 _ _ rfl,
      runFloat_store_slot m _ _ "l" _ _
        ((evalFloat_length m _ 6 7 8 "n" _ _ _ rfl rfl rfl).trans
          (congrArg some ((congrArg m.sqrtf hval).trans hone)))]
    rfl
  refine ⟨by decide, ?_, ?_, ?_, ?_⟩ <;>
    · unfold runFloatAndRead
      rw [hrun]
      rfl

/-- C26, on the reals with the real square root: for v = (3, 4, 0) the
generated function leaves 1 in `l`. -/
theorem normalize_then_length_witness :
    runFloatAndRead
        (⟨Real.sqrt, Real.cos, Real.sin, fun x y => x ^ y, Real.pi, Real.pi / 4, 1 / Real.pi⟩ :
          CMath ℝ)
        normalizeLengthCode (floatMemOfVec "v" 3 4 0) (Addr.slot "l") = some 1 :=
  (normalize_then_length
    (⟨Real.sqrt, Real.cos, Real.sin, fun x y => x ^ y, Real.pi, Real.pi / 4, 1 / Real.pi⟩ :
      CMath ℝ)
    3 4 0 (fun x => Real.sqrt_nonneg x) (fun x hx => Real.mul_self_sqrt hx)
    (Or.inl (by norm_num))).2.2.2.2

/-- C27: the function generated for `l = length (v)` loads the three
components of `v` and stores the square root of (v0·v0 + v1·v1) + v2·v2; the
function generated for `s = dot (v, v)` stores (v0·v0 + v1·v1) + v2·v2, the
products accumulated in the same order.  Run on any 3-vector, over any
ordered field and square-root function, the value left in `l` is the square
root of the value left in `s`. -/
theorem length_is_sqrt_of_dot {F : Type} [LinearOrderedField F] (m : CMath F)
    (v0 v1 v2 : F) :
    entryBlock lengthLayer = some lengthCode
    ∧ entryBlock dotSelfLayer = some dotSelfCode
    ∧ runFloatAndRead m dotSelfCode (floatMemOfVec "v" v0 v1 v2) (Addr.slot "s")
        = some (v0 * v0 + v1 * v1 + v2 * v2)
    ∧ runFloatAndRead m lengthCode (floatMemOfVec "v" v0 v1 v2) (Addr.slot "l")
        = some (m.sqrtf (v0 * v0 + v1 * v1 + v2 * v2))
    ∧ runFloatAndRead m lengthCode (floatMemOfVec "v" v0 v1 v2) (Addr.slot "l")
        = (runFloatAndRead m dotSelfCode (floatMemOfVec "v" v0 v1 v2) (Addr.slot "s")).map
            m.sqrtf := by
  refine ⟨by decide, by decide, rfl, rfl, rfl⟩

/-- C28: `loadLLVMValue` and `storeLLVMValue` do not keep a broadcast
component inside its plane.  For a symbol with derivatives that has `n`
components, every requested component `c` ≥ `n` and every plane `d`, the slot
addressed is `d * n + n`, one past the last slot `d * n + n - 1` of plane
`d`: the component is limited to `n`, not to `n - 1`.  In the function
generated for `r = a + b` with triples `r`, `b` and a float `a` that carries
derivatives, components 1 and 2 read slot 1 of `a`, its derivative in x: with
a = 5, da/dx = 7 and b = (1, 2, 3) the function leaves (6, 9, 10) in `r`, not
(6, 7, 8). -/
theorem broadcast_component_leaves_its_plane :
    (∀ (rop : RuntimeOptimizer) (sym : Symbol) (c d : ℤ) (aggregate : LLVMValue),
        rop.m_named_values.lookup sym.dealias_mangled = some aggregate →
        sym.symtype ≠ SymType.SymTypeGlobal → sym.has_derivs = true →
        (sym.typespec.simpletype.aggregate : ℤ) ≤ c →
        (loadLLVMValue rop sym c d).1
            = some (LLVMValue.Load rop.m_next_id
                (LLVMValue.ConstGEP2_32 aggregate 0
                  (d * (sym.typespec.simpletype.aggregate : ℤ)
                    + (sym.typespec.simpletype.aggregate : ℤ))))
          ∧ ¬ (d * (sym.typespec.simpletype.aggregate : ℤ)
                  + (sym.typespec.simpletype.aggregate : ℤ)
                ≤ d * (sym.typespec.simpletype.aggregate : ℤ)
                  + (sym.typespec.simpletype.aggregate : ℤ) - 1))
    ∧ (∀ (rop : RuntimeOptimizer) (v : LLVMValue) (sym : Symbol) (c d : ℤ)
        (aggregate : LLVMValue),
        rop.m_named_values.lookup sym.dealias_mangled = some aggregate →
        sym.has_derivs = true →
        (sym.typespec.simpletype.aggregate : ℤ) ≤ c →
        storeLLVMValue rop v sym c d
          = rop.CreateStore v
              (LLVMValue.ConstGEP2_32 aggregate 0
                (d * (sym.typespec.simpletype.aggregate : ℤ)
                  + (sym.typespec.simpletype.aggregate : ℤ))))
    ∧ entryBlock broadcastDerivsLayer = some broadcastDerivsCode
    ∧ runAndRead broadcastDerivsCode broadcastDerivsMemory (Addr.elem "r" 0)
        = some (Scalar.f32 6)
    ∧ runAndRead broadcastDerivsCode broadcastDerivsMemory (Addr.elem "r" 1)
        = some (Scalar.f32 9)
    ∧ runAndRead broadcastDerivsCode broadcastDerivsMemory (Addr.elem "r" 2)
        = some (Scalar.f32 10) := by
  refine ⟨?_, ?_, by decide, by with_unfolding_all decide, by with_unfolding_all decide,
    by with_unfolding_all decide⟩
  · intro rop sym c d aggregate hl hg hd hc
    refine ⟨?_, by omega⟩
    rw [loadLLVMValue_with_derivs rop sym c d aggregate hl hg hd, min_eq_left hc, add_comm]
  · intro rop v sym c d aggregate hl hd hc
    rw [storeLLVMValue_with_derivs rop v sym c d aggregate hl hd, min_eq_left hc, add_comm]

/-- C29: when `llvm_gen_if` lowers an `if` whose condition is loaded and
whose three targets have blocks (then = block of `opnum + 1`, else = block of
`jump (0)`, after = block of `jump (1)`), it returns, and every block of the
function is its former content with: in the block of the insertion point,
the load of the condition followed by one conditional branch on the
truncated load, to the then block if true and to the else block if false;
one branch to the after block appended to the then block exactly when then
differs from after; and one appended to the else block exactly when else
differs from after.  No other block changes. -/
theorem llvm_gen_if_branches (rop : RuntimeOptimizer) (opnum : Nat) (op : Opcode)
    (cond : Symbol) (cond_load : LLVMValue) (then_block else_block after_block : Nat)
    (hop : rop.m_ops[opnum]? = some op) (hcond : rop.opargsym op 0 = some cond)
    (hskip : SkipSymbol cond = false)
    (hload : (loadLLVMValue rop cond 0 0).1 = some cond_load)
    (hthen : rop.bb_map (opnum + 1) = some then_block)
    (helse : rop.bb_map (op.jump 0) = some else_block)
    (hafter : rop.bb_map (op.jump 1) = some after_block) :
    ∃ (ptr : LLVMValue) (rop3 : RuntimeOptimizer),
      llvm_gen_if rop opnum = some rop3
      ∧ cond_load = LLVMValue.Load rop.m_next_id ptr
      ∧ ∀ X : Nat, rop3.m_blocks[X]?
          = (rop.m_blocks[X]?).map fun old =>
              (if X = rop.m_insert_block then
                  insertedAt rop.m_insert_pos old
                    [Instruction.Load rop.m_next_id ptr,
                     Instruction.CondBr (LLVMValue.Cast CastOps.Trunc cond_load)
                       then_block else_block]
                else old)
              ++ (if X = then_block ∧ then_block ≠ after_block then
                    [Instruction.Br after_block] else [])
              ++ (if X = else_block ∧ else_block ≠ after_block then
                    [Instruction.Br after_block] else []) := by
  obtain ⟨ptr, hv, hst⟩ := loadLLVMValue_some rop cond 0 cond_load hload
  have h1 := bb_map_loadLLVMValue rop cond 0 0 (opnum + 1)
  have h2 := bb_map_loadLLVMValue rop cond 0 0 (op.jump 0)
  have h3 := bb_map_loadLLVMValue rop cond 0 0 (op.jump 1)
  rw [hthen] at h1
  rw [helse] at h2
  rw [hafter] at h3
  rw [hst] at h1 h2 h3
  have hg : llvm_gen_if rop opnum
      = some
          (if else_block ≠ after_block then
            ((if then_block ≠ after_block then
                (((rop.CreateLoad ptr).2.CreateCondBr (LLVMValue.Cast CastOps.Trunc cond_load)
                    then_block else_block).SetInsertPoint then_block).CreateBr after_block
              else
                (rop.CreateLoad ptr).2.CreateCondBr (LLVMValue.Cast CastOps.Trunc cond_load)
                  then_block else_block).SetInsertPoint else_block).CreateBr after_block
          else
            if then_block ≠ after_block then
              (((rop.CreateLoad ptr).2.CreateCondBr (LLVMValue.Cast CastOps.Trunc cond_load)
                  then_block else_block).SetInsertPoint then_block).CreateBr after_block
            else
              (rop.CreateLoad ptr).2.CreateCondBr (LLVMValue.Cast CastOps.Trunc cond_load)
                then_block else_block) := by
    unfold llvm_gen_if
    simp only [hop, hcond, hskip, hload, h1, h2, h3, Bool.false_eq_true, if_false, hst]
  refine ⟨ptr, _, hg, hv, ?_⟩
  · intro X
    simp only [RuntimeOptimizer.CreateLoad, RuntimeOptimizer.CreateCondBr]
    by_cases ht : then_block = after_block <;> by_cases he : else_block = after_block
    · simp only [ht, he, ne_eq, not_true_eq_false, if_false, and_false, List.append_nil]
      rw [blocks_emit_emit]
    · simp only [ht, he, ne_eq, not_true_eq_false, not_false_eq_true, if_false, if_true,
        and_false, and_true, List.append_nil]
      rw [blocks_append_branch, blocks_emit_emit]
      cases rop.m_blocks[X]? with
      | none => rfl
      | some old =>
        by_cases hx : X = else_block
        · simp [hx]
        · simp [hx]
    · simp only [ht, he, ne_eq, not_true_eq_false, not_false_eq_true, if_false, if_true,
        and_false, and_true, List.append_nil]
      rw [blocks_append_branch, blocks_emit_emit]
      cases rop.m_blocks[X]? with
      | none => rfl
      | some old =>
        by_cases hx : X = then_block
        · simp [hx]
        · simp [hx]
    · simp only [ht, he, ne_eq, not_false_eq_true, if_true, and_true]
      rw [blocks_append_branch, blocks_append_branch, blocks_emit_emit]
      cases rop.m_blocks[X]? with
      | none => rfl
      | some old =>
        by_cases hx : X = then_block
        · subst hx
          by_cases hy : X = else_block
          · subst hy
            simp
          · simp [hy]
        · by_cases hy : X = else_block
          · subst hy
            simp [hx]
          · simp [hx, hy]

/-- C29, on the layer `if (c) { x = y; } else { x = z; }` (then block 1, else
block 2, after block 3): the entry block receives the load of `c` and the
conditional branch, the then block and the else block one branch to block 3
each, and block 3 nothing. -/
theorem llvm_gen_if_branches_witness :
    ∃ (ptr : LLVMValue) (rop3 : RuntimeOptimizer),
      llvm_gen_if flatIfStart 0 = some rop3
      ∧ LLVMValue.Load 0 (LLVMValue.Alloca "c") = LLVMValue.Load flatIfStart.m_next_id ptr
      ∧ ∀ X : Nat, rop3.m_blocks[X]?
          = (flatIfStart.m_blocks[X]?).map fun old =>
              (if X = flatIfStart.m_insert_block then
                  insertedAt flatIfStart.m_insert_pos old
                    [Instruction.Load flatIfStart.m_next_id ptr,
                     Instruction.CondBr
                       (LLVMValue.Cast CastOps.Trunc (LLVMValue.Load 0 (LLVMValue.Alloca "c")))
                       1 2]
                else old)
              ++ (if X = 1 ∧ 1 ≠ 3 then [Instruction.Br 3] else [])
              ++ (if X = 2 ∧ 2 ≠ 3 then [Instruction.Br 3] else []) :=
  llvm_gen_if_branches flatIfStart 0 ⟨"if", [0], [2, 3], OpImpl.other "if"⟩
    (Symbol.mkLocal "c" TypeSpec.int []) (LLVMValue.Load 0 (LLVMValue.Alloca "c")) 1 2 3
    rfl rfl (by decide) (by decide) (by decide) (by decide) (by decide)

/-- C30: `build_llvm_version` does not produce a well-formed function for a
conditional nested in the then part of a conditional.  For the layer
`if (c) { if (d) { x = y; } x = z; }`, whose jump targets are valid opcode
indices, it returns the function with the blocks below: block 1 holds the
conditional branch of the inner `if` followed by the branch the outer `if`
appended, so it has two terminators, and block 3 (`x = z`) has none.  The
layer `if (c) { x = y; } else { x = z; }` without nesting gets four
well-formed blocks. -/
theorem nested_conditional_is_malformed :
    builtBlocks nestedIfLayer
      = some
          [[Instruction.Load 0 (LLVMValue.Alloca "c"),
            Instruction.CondBr
              (LLVMValue.Cast CastOps.Trunc (LLVMValue.Load 0 (LLVMValue.Alloca "c"))) 1 4],
           [Instruction.Load 1 (LLVMValue.Alloca "d"),
            Instruction.CondBr
              (LLVMValue.Cast CastOps.Trunc (LLVMValue.Load 1 (LLVMValue.Alloca "d"))) 2 3,
            Instruction.Br 4],
           [Instruction.Load 2 (LLVMValue.Alloca "y"),
            Instruction.Store (LLVMValue.Load 2 (LLVMValue.Alloca "y")) (LLVMValue.Alloca "x"),
            Instruction.Br 3],
           [Instruction.Load 3 (LLVMValue.Alloca "z"),
            Instruction.Store (LLVMValue.Load 3 (LLVMValue.Alloca "z")) (LLVMValue.Alloca "x")],
           [Instruction.RetVoid]]
    ∧ (builtBlocks nestedIfLayer).map (fun blocks => blocks.map wellFormedBlock)
        = some [true, false, true, false, true]
    ∧ (builtBlocks flatIfLayer).map (fun blocks => blocks.map wellFormedBlock)
        = some [true, true, true, true] := by
  refine ⟨by decide, by decide, by decide⟩

/-- C31: when `llvm_gen_loop_op` lowers a `for`, `while` or `dowhile` whose
condition can be loaded and whose five targets have blocks (init = block of
`opnum + 1`; cond, body, step, after = blocks of `jump (0)` .. `jump (3)`),
it returns, and the blocks of the function are the former blocks with the
edges of the specification emitted in its order: a jump into init at the
builder's position when init differs from cond; a jump into cond (into body
for `dowhile`) at the end of init, or at the builder's position when init is
cond; the load of the condition and a conditional branch on its truncation to
body if true and to after if false, at the end of cond; then body to step and
step to cond when step differs from after, and body to cond otherwise. -/
theorem llvm_gen_loop_op_edges (rop : RuntimeOptimizer) (opnum : Nat) (op : Opcode)
    (cond : Symbol) (ptr : LLVMValue)
    (init_block cond_block body_block step_block after_block : Nat)
    (hop : rop.m_ops[opnum]? = some op) (hcond : rop.opargsym op 0 = some cond)
    (hskip : SkipSymbol cond = false)
    (hload : (loadLLVMValue rop cond 0 0).1 = some (LLVMValue.Load rop.m_next_id ptr))
    (hinit : rop.bb_map (opnum + 1) = some init_block)
    (hc : rop.bb_map (op.jump 0) = some cond_block)
    (hb : rop.bb_map (op.jump 1) = some body_block)
    (hs : rop.bb_map (op.jump 2) = some step_block)
    (ha : rop.bb_map (op.jump 3) = some after_block) :
    (llvm_gen_loop_op rop opnum).map (fun r => r.m_blocks)
      = some
          (specifiedLoopEdges rop.m_blocks rop.m_insert_block rop.m_insert_pos
            (decide (op.opname = "dowhile")) init_block cond_block body_block step_block
            after_block (Instruction.Load rop.m_next_id ptr)
            (LLVMValue.Load rop.m_next_id ptr)) := by
  have hT := fun r hn => loadLLVMValue_transfer rop r cond 0 ptr hload hn
  unfold llvm_gen_loop_op
  simp only [hop, hcond, hskip, hinit, hc, hb, hs, ha, Bool.false_eq_true, if_false]
  by_cases hic : init_block = cond_block <;> by_cases hdw : op.opname = "dowhile" <;>
    by_cases hsa : step_block = after_block
  all_goals
    simp only [hic, hdw, hsa, ne_eq, not_true_eq_false, not_false_eq_true, if_true, if_false,
      decide_True, decide_False, specifiedLoopEdges, Bool.false_eq_true]
    rw [hT]
    · simp only [Option.map_some', RuntimeOptimizer.CreateBr, RuntimeOptimizer.CreateCondBr,
        RuntimeOptimizer.SetInsertPoint, RuntimeOptimizer.CreateLoad, emit_blocks,
        emit_next_id, emit_insert_block, emit_insert_pos, Option.map_none',
        blocksWith_end_end, List.cons_append, List.nil_append]
    · simp only [RuntimeOptimizer.CreateBr, RuntimeOptimizer.SetInsertPoint,
        emit_named_values]

/-- C31, on the layer `for (i = 0; c; i = n) { x = y; }` (init block 1, cond
2, body 3, step 4, after 5): the entry block jumps to 1, block 1 to 2, block 2
tests `c` and branches to 3 or 5, block 3 jumps to 4 and block 4 back to 2. -/
theorem llvm_gen_loop_op_edges_witness :
    (llvm_gen_loop_op forStart 0).map (fun r => r.m_blocks)
      = some
          [[Instruction.Br 1], [Instruction.Br 2],
           [Instruction.Load 0 (LLVMValue.Alloca "c"),
            Instruction.CondBr
              (LLVMValue.Cast CastOps.Trunc (LLVMValue.Load 0 (LLVMValue.Alloca "c"))) 3 5],
           [Instruction.Br 4], [Instruction.Br 2], []] :=
  (llvm_gen_loop_op_edges forStart 0 ⟨"for", [0], [2, 3, 4, 5], OpImpl.other "for"⟩
    (Symbol.mkLocal "c" TypeSpec.int []) (LLVMValue.Alloca "c") 1 2 3 4 5
    rfl rfl (by decide) (by decide) (by decide) (by decide) (by decide) (by decide)
    (by decide)).trans (by decide)

/-- C32: for every opcode sequence whose jump targets and successor indices
are within the sequence, the marking loop of `build_llvm_version` returns a
vector that marks index `i` exactly when `i` is the index after an `if` or
one of its two jump targets, or the index after a `for`, `while` or `dowhile`
or one of its four jump targets.  The block-creating loop appends exactly one
new empty block per marked index and maps each marked index to its own block
(the marked indices below it counted from the first new block), and no other
index to any.  The lowering loop moves the builder to the beginning of the
block of opcode `opnum` before it calls the lowering routine exactly when
`opnum` is marked. -/
theorem block_discovery (ops : List Opcode) (rop : RuntimeOptimizer)
    (h : targetsInRange ops = true) :
    ∃ bb_start : List Bool,
      markBlockStarts ops 0 (List.replicate ops.length false) = some bb_start
      ∧ bb_start.length = ops.length
      ∧ (∀ i : Nat, bb_start.getD i false = isBlockStart ops i)
      ∧ (createBlocks bb_start (List.range ops.length) { rop with m_bb_map := [] }).m_blocks
          = rop.m_blocks ++ List.replicate (blockStartsBelow ops ops.length) []
      ∧ (∀ i : Nat,
          (createBlocks bb_start (List.range ops.length) { rop with m_bb_map := [] }).bb_map i
            = if isBlockStart ops i = true then
                some (rop.m_blocks.length + blockStartsBelow ops i)
              else none)
      ∧ (∀ (op : Opcode) (rest : List Opcode) (opnum : Nat) (r : RuntimeOptimizer)
          (found : OpLLVMer) (b : Nat),
          llvm_generator_table.lookup op.opname = some found →
          isBlockStart ops opnum = true → r.bb_map opnum = some b → b ≠ 0 →
          lowerOps bb_start (op :: rest) opnum r
            = (found (r.SetInsertPointBegin b) opnum).bind
                (lowerOps bb_start rest (opnum + 1)))
      ∧ (∀ (op : Opcode) (rest : List Opcode) (opnum : Nat) (r : RuntimeOptimizer)
          (found : OpLLVMer),
          llvm_generator_table.lookup op.opname = some found →
          isBlockStart ops opnum = false →
          lowerOps bb_start (op :: rest) opnum r
            = (found r opnum).bind (lowerOps bb_start rest (opnum + 1))) := by
  obtain ⟨bb, hm, hlen, hget⟩ := markBlockStarts_spec ops 0 (List.replicate ops.length false)
    (by rw [List.length_replicate]; exact h)
  rw [List.length_replicate] at hlen
  have hget2 : ∀ i : Nat, bb.getD i false = isBlockStart ops i := by
    intro i
    rw [hget i]
    have : (List.replicate ops.length false).getD i false = false := by
      simp only [List.getD_eq_getElem?_getD, List.getElem?_replicate]
      split_ifs <;> rfl
    rw [this]
    rfl
  have hfun : (fun j => bb.getD j false) = isBlockStart ops := funext hget2
  obtain ⟨hb, hmap⟩ := createBlocks_range bb ops.length 0 { rop with m_bb_map := [] }
  rw [← List.range_eq_range'] at hb hmap
  refine ⟨bb, hm, hlen, hget2, ?_, ?_, ?_, ?_⟩
  · rw [hb, hfun]
    rfl
  · intro i
    rw [hmap i, hfun]
    by_cases hi : isBlockStart ops i = true
    · have hlt : i < ops.length := by
        by_contra hge
        have h0 : bb.getD i false = false := by
          simp only [List.getD_eq_getElem?_getD]
          rw [List.getElem?_eq_none (by omega)]
          rfl
        rw [hget2 i, hi] at h0
        cases h0
      have hc : 0 ≤ i ∧ i < 0 + ops.length ∧ bb.getD i false = true :=
        ⟨Nat.zero_le _, by omega, by rw [hget2 i]; exact hi⟩
      rw [if_pos hc, if_pos hi, Nat.sub_zero, ← List.range_eq_range']
      rfl
    · have hc : ¬ (0 ≤ i ∧ i < 0 + ops.length ∧ bb.getD i false = true) := by
        intro hc
        rw [hget2 i] at hc
        exact hi hc.2.2
      rw [if_neg hc, if_neg hi]
      rfl
  · intro op rest opnum r found b hfound hmark hbb hb0
    rw [← hget2 opnum] at hmark
    simp only [lowerOps, hmark, if_true, hbb, hb0, ne_eq, not_false_eq_true, hfound]
  · intro op rest opnum r found hfound hmark
    rw [← hget2 opnum] at hmark
    simp only [lowerOps, hmark, Bool.false_eq_true, if_false, hfound]

/-- C32, on the opcodes of `if (c) { if (d) { x = y; } x = z; }`: the
indices 1, 2, 3 and 4 are marked and index 0 is not. -/
theorem block_discovery_witness :
    ∃ bb_start : List Bool,
      markBlockStarts nestedIfLayer.m_ops 0 (List.replicate nestedIfLayer.m_ops.length false)
        = some bb_start
      ∧ bb_start = [false, true, true, true, true] := by
  obtain ⟨bb, hm, _⟩ := block_discovery nestedIfLayer.m_ops nestedIfLayer (by decide)
  refine ⟨bb, hm, ?_⟩
  have h2 : markBlockStarts nestedIfLayer.m_ops 0
      (List.replicate nestedIfLayer.m_ops.length false)
      = some [false, true, true, true, true] := by decide
  rw [h2] at hm
  exact (Option.some.inj hm).symm

/-- C33 (the claim fails): text other than conversions and `%%` is not
always copied.  For the format of the four characters `a`, backslash, `t`,
`b` the call receives the three characters `a`, tab, `b`: `llvm_gen_printf`
replaces a backslash and the character after it by the character the escape
sequence stands for. -/
theorem printf_translates_escape_sequences :
    entryBlock printfEscapeLayer
      = some
          [Instruction.Call "llvm_osl_printf"
             [LLVMValue.ConstGEP2_32 (LLVMValue.GlobalString "a\tb") 0 0],
           Instruction.RetVoid]
    ∧ formatPieces 5 "a\\tb".toList
        = some [FormatPiece.text 'a', FormatPiece.escape 't', FormatPiece.text 'b']
    ∧ String.mk
        (expandPieces false [FormatPiece.text 'a', FormatPiece.escape 't', FormatPiece.text 'b']
          []) = "a\\tb"
    ∧ "a\tb" ≠ "a\\tb" := by
  refine ⟨by decide, by decide, by decide, by decide⟩

/-- C33 (amended): for a printf opcode with a constant format whose pieces
are `pieces` (every `%` outside `%%` reaches a conversion character, no
backslash ends the format), with one value argument `syms[j]` per conversion,
none of them skipped, and every component of them loadable,
`llvm_gen_printf` returns, and it inserts at the builder's position the
loads of all components in argument and component order followed by one call
of `llvm_osl_printf`, and nothing else.  The call's first argument is the
rewritten format, in which every conversion is replaced by as many copies
separated by single spaces as its argument has components (array elements
times aggregate size), `%%` is copied, an escape sequence is replaced by the
character it stands for, and every other character is copied; the other
arguments are the loaded components, each float-based one widened to double,
as many as the component counts add up to.  When the format symbol is not a
constant the routine only warns, and when the argument of a conversion is a
skipped symbol the walk ends with a warning and the routine returns without
emitting the call. -/
theorem llvm_gen_printf_expands (rop : RuntimeOptimizer) (opnum : Nat) (op : Opcode)
    (format_sym : Symbol) (fmt : String) (pieces : List FormatPiece) (syms : List Symbol)
    (ptr : Nat → Nat → LLVMValue)
    (hop : rop.m_ops[opnum]? = some op) (hfmt : rop.opargsym op 0 = some format_sym)
    (hconst : format_sym.is_constant = true) (hstr : format_sym.constString = some fmt)
    (hpieces : formatPieces (fmt.toList.length + 1) fmt.toList = some pieces)
    (hcount : conversionCount pieces = syms.length)
    (hsyms : ∀ (j : Nat) (sym : Symbol), syms[j]? = some sym →
      rop.opargsym op (1 + j) = some sym ∧ SkipSymbol sym = false
      ∧ ∀ i : Nat, i < printfComponents sym →
          (loadLLVMValue rop sym (i : ℤ) 0).1
            = some (LLVMValue.Load rop.m_next_id (ptr j i))) :
    llvm_gen_printf rop opnum
        = some
            (rop.withInserted
              ((printfLoads ptr syms 0 rop.m_next_id).map Prod.fst
                ++ [Instruction.Call "llvm_osl_printf"
                      (LLVMValue.ConstGEP2_32
                          (LLVMValue.GlobalString
                            (String.mk (expandPieces true pieces (syms.map printfComponents))))
                          0 0
                        :: (printfLoads ptr syms 0 rop.m_next_id).map Prod.snd)])
              (printfLoads ptr syms 0 rop.m_next_id).length)
    ∧ (printfLoads ptr syms 0 rop.m_next_id).length = (syms.map printfComponents).sum
    ∧ (∀ (r : RuntimeOptimizer) (num : Nat) (o : Opcode) (f : Symbol),
        r.m_ops[num]? = some o → r.opargsym o 0 = some f → f.is_constant = false →
        llvm_gen_printf r num = some (r.warning "printf must currently have constant format"))
    ∧ (∀ (r : RuntimeOptimizer) (o : Opcode) (rest s : List Char) (k : Nat)
        (args : List LLVMValue) (sym : Symbol),
        rest.head? ≠ some '%' → r.opargsym o (1 + k) = some sym → SkipSymbol sym = true →
        llvm_gen_printf_step o '%' rest s (k : ℤ) args r
          = some (r.warning "symbol type for '%s' unsupported for printf", none))
    ∧ (∀ (r r1 : RuntimeOptimizer) (num : Nat) (o : Opcode) (f : Symbol) (text : String),
        r.m_ops[num]? = some o → r.opargsym o 0 = some f → f.is_constant = true →
        f.constString = some text →
        llvm_gen_printf_loop o (text.toList.length + 1) (some text.toList) [] 0 [] r
          = some (r1, none) →
        llvm_gen_printf r num = some r1) := by
  refine ⟨?_, printfLoads_length ptr syms 0 rop.m_next_id, ?_, ?_, ?_⟩
  · have h := llvm_gen_printf_loop_spec rop op ptr (fmt.toList.length + 1) fmt.toList pieces
      syms 0 [] [] [] 0 hpieces hcount (fun j sym hj => by
        have := hsyms j sym hj
        rw [Nat.zero_add]
        exact this)
    rw [withInserted_nil] at h
    simp only [Nat.cast_zero, Nat.add_zero, Nat.zero_add, List.nil_append] at h
    unfold llvm_gen_printf
    simp only [hop, hfmt, hconst, Bool.not_true, Bool.false_eq_true, if_false, hstr, h]
    unfold RuntimeOptimizer.CreateCall
    rw [withInserted_emit]
  · intro r num o f ho hf hc
    unfold llvm_gen_printf
    simp only [ho, hf, hc, Bool.not_false, if_true]
  · intro r o rest s k args sym hh harg hskip
    have hlt : 1 + k < o.nargs := by
      unfold RuntimeOptimizer.opargsym at harg
      by_contra hge
      rw [List.getElem?_eq_none (by
        unfold Opcode.nargs at hge
        omega)] at harg
      cases harg
    have hnot : ¬ ((k : ℤ) ≥ (o.nargs : ℤ)) := by omega
    have htn : (1 + (k : ℤ)).toNat = 1 + k := by omega
    unfold llvm_gen_printf_step
    simp only [if_true, hh, if_false, hnot, htn, harg, hskip]
  · intro r r1 num o f text ho hf hc hs hl
    unfold llvm_gen_printf
    simp only [ho, hf, hc, Bool.not_true, Bool.false_eq_true, if_false, hs, hl]

/-- C33 (amended), on the layer `printf ("v=%f i=%d%%", v, i)` with a triple
`v` and an int `i`: three loads of `v`, one of `i`, and the call with the
format "v=%f %f %f i=%d%%", the three components of `v` widened, and `i`. -/
theorem llvm_gen_printf_expands_witness :
    (llvm_gen_printf
        (RuntimeOptimizer.start printfVectorLayer.m_ops printfVectorLayer.m_symbols) 0).map
        (fun r => r.m_blocks)
      = some
          [[loadElement 0 "v" 0, loadElement 1 "v" 1, loadElement 2 "v" 2,
            Instruction.Load 3 (LLVMValue.Alloca "i"),
            Instruction.Call "llvm_osl_printf"
              [LLVMValue.ConstGEP2_32 (LLVMValue.GlobalString "v=%f %f %f i=%d%%") 0 0,
               LLVMValue.Cast CastOps.FPExt (loadedElement 0 "v" 0),
               LLVMValue.Cast CastOps.FPExt (loadedElement 1 "v" 1),
               LLVMValue.Cast CastOps.FPExt (loadedElement 2 "v" 2),
               LLVMValue.Load 3 (LLVMValue.Alloca "i")]]] :=
  (congrArg (Option.map fun r => r.m_blocks)
    (llvm_gen_printf_expands
      (RuntimeOptimizer.start printfVectorLayer.m_ops printfVectorLayer.m_symbols) 0
      (Opcode.mk0 "printf" [0, 1, 2])
      (Symbol.mkConst "fmt" TypeSpec.string [Value.string "v=%f i=%d%%"]) "v=%f i=%d%%"
      [FormatPiece.text 'v', FormatPiece.text '=', FormatPiece.conversion ['%', 'f'],
       FormatPiece.text ' ', FormatPiece.text 'i', FormatPiece.text '=',
       FormatPiece.conversion ['%', 'd'], FormatPiece.percent]
      [Symbol.mkLocal "v" TypeSpec.triple [], Symbol.mkLocal "i" TypeSpec.int []]
      (fun k i =>
        if k = 0 then LLVMValue.ConstGEP2_32 (LLVMValue.Alloca "v") 0 i
        else LLVMValue.Alloca "i")
      rfl rfl rfl rfl (by decide) rfl
      (fun j sym hj => by
        match j, hj with
        | 0, hj =>
          simp only [List.getElem?_cons_zero, Option.some.injEq] at hj
          subst hj
          refine ⟨rfl, by decide, ?_⟩
          intro i hi
          have h3 : printfComponents (Symbol.mkLocal "v" TypeSpec.triple []) = 3 := by decide
          rw [h3] at hi
          interval_cases i <;> decide
        | 1, hj =>
          simp only [List.getElem?_cons_succ, List.getElem?_cons_zero, Option.some.injEq] at hj
          subst hj
          refine ⟨rfl, by decide, ?_⟩
          intro i hi
          have h1 : printfComponents (Symbol.mkLocal "i" TypeSpec.int []) = 1 := by decide
          rw [h1] at hi
          interval_cases i
          decide
        | (j + 2), hj => simp at hj)).1).trans (by decide)

/-- C34: `llvm_gen_printf` tests `arg >= op.nargs ()`, but the opcode's
arguments are the format and `nargs - 1` values, and the symbol it then looks
up is argument `1 + arg`.  So at the first conversion that has no value
argument (`arg + 1 = nargs`) the test passes, no error is reported, and the
look-up is at index `nargs`, past the opcode's arguments, which has no
defined result; the error "Mismatch between format string and arguments" is
only reached when `arg ≥ nargs`.  For `printf ("%d")` and for
`printf ("%d %d", i)` neither `llvm_gen_printf` nor `build_llvm_version` has
a defined result. -/
theorem printf_missing_argument_is_looked_up :
    (∀ (op : Opcode) (rest s : List Char) (arg : ℤ) (call_args : List LLVMValue)
        (rop : RuntimeOptimizer),
        rest.head? ≠ some '%' → arg + 1 = (op.nargs : ℤ) →
        rop.opargsym op (1 + arg).toNat = rop.opargsym op op.nargs
        ∧ rop.opargsym op op.nargs = none
        ∧ llvm_gen_printf_step op '%' rest s arg call_args rop = none)
    ∧ (∀ (op : Opcode) (rest s : List Char) (arg : ℤ) (call_args : List LLVMValue)
        (rop : RuntimeOptimizer),
        rest.head? ≠ some '%' → (op.nargs : ℤ) ≤ arg →
        llvm_gen_printf_step op '%' rest s arg call_args rop
          = some (rop.error "Mismatch between format string and arguments", none))
    ∧ llvm_gen_printf
        (RuntimeOptimizer.start printfMissingArgLayer.m_ops printfMissingArgLayer.m_symbols) 0
        = none
    ∧ llvm_gen_printf
        (RuntimeOptimizer.start printfSecondArgMissingLayer.m_ops
          printfSecondArgMissingLayer.m_symbols) 0 = none
    ∧ build_llvm_version printfMissingArgLayer = none
    ∧ build_llvm_version printfSecondArgMissingLayer = none := by
  refine ⟨?_, ?_, ?_, ?_, ?_, ?_⟩
  · intro op rest s arg call_args rop hrest harg
    have h1 : (1 + arg).toNat = op.nargs := by omega
    have h2 : rop.opargsym op op.nargs = none := by
      simp [RuntimeOptimizer.opargsym, Opcode.nargs]
    refine ⟨by rw [h1], h2, ?_⟩
    have h3 : ¬ (arg ≥ (op.nargs : ℤ)) := by omega
    unfold llvm_gen_printf_step
    simp only [if_true, hrest, if_false, h3, h1, h2]
  · intro op rest s arg call_args rop hrest harg
    unfold llvm_gen_printf_step
    simp only [if_true, hrest, if_false, ge_iff_le, harg]
  · have h : (llvm_gen_printf
        (RuntimeOptimizer.start printfMissingArgLayer.m_ops printfMissingArgLayer.m_symbols)
        0).isNone = true := by decide
    exact Option.isNone_iff_eq_none.mp h
  · have h : (llvm_gen_printf
        (RuntimeOptimizer.start printfSecondArgMissingLayer.m_ops
          printfSecondArgMissingLayer.m_symbols) 0).isNone = true := by decide
    exact Option.isNone_iff_eq_none.mp h
  · have h : (build_llvm_version printfMissingArgLayer).isNone = true := by decide
    exact Option.isNone_iff_eq_none.mp h
  · have h : (build_llvm_version printfSecondArgMissingLayer).isNone = true := by decide
    exact Option.isNone_iff_eq_none.mp h

/-- C35: `llvm_gen_construct_aggregate` fills `nargs - 1` entries of its
array `src_syms` and then reads entry `i` for every component `i` of the
destination.  When the loop reaches a component `i` with no argument `i + 1`
it reads an entry that was never written, which has no defined result.  For
the one-argument constructor `c = color (a)` with a triple `c` only entry 0
is filled: neither `llvm_gen_construct_aggregate` nor `build_llvm_version`
has a defined result, while `c = color (x, y, z)` is lowered to three loads
and three stores. -/
theorem construct_aggregate_reads_unfilled_source :
    (∀ (rop : RuntimeOptimizer) (opnum : Nat) (op : Opcode) (dst arg1 : Symbol),
        rop.m_ops[opnum]? = some op → rop.opargsym op 0 = some dst →
        rop.opargsym op 1 = some arg1 → arg1.typespec.is_string = false → op.nargs ≤ 17 →
        (constructorSources rop op).length = op.nargs - 1
        ∧ llvm_gen_construct_aggregate rop opnum
            = llvm_gen_construct_aggregate_loop dst (constructorSources rop op)
                (List.range dst.typespec.simpletype.aggregate) rop)
    ∧ (∀ (dst : Symbol) (src_syms : List (Option Symbol)) (i : Nat) (rest : List Nat)
        (rop : RuntimeOptimizer),
        src_syms.length ≤ i →
        src_syms[i]? = none
        ∧ llvm_gen_construct_aggregate_loop dst src_syms (i :: rest) rop = none)
    ∧ (constructorSources colorFromFloatLayer (Opcode.mk0 "color" [0, 1])).length = 1
    ∧ llvm_gen_construct_aggregate
        (RuntimeOptimizer.start colorFromFloatLayer.m_ops colorFromFloatLayer.m_symbols) 0
        = none
    ∧ build_llvm_version colorFromFloatLayer = none
    ∧ entryBlock colorFromThreeLayer
        = some
            [Instruction.Load 0 (LLVMValue.Alloca "x"),
             storeElement (LLVMValue.Load 0 (LLVMValue.Alloca "x")) "c" 0,
             Instruction.Load 1 (LLVMValue.Alloca "y"),
             storeElement (LLVMValue.Load 1 (LLVMValue.Alloca "y")) "c" 1,
             Instruction.Load 2 (LLVMValue.Alloca "z"),
             storeElement (LLVMValue.Load 2 (LLVMValue.Alloca "z")) "c" 2,
             Instruction.RetVoid] := by
  refine ⟨?_, ?_, by decide, ?_, ?_, by decide⟩
  · intro rop opnum op dst arg1 hop hdst harg1 hstr hn
    refine ⟨by simp [constructorSources], ?_⟩
    have hn2 : ¬ (17 < op.nargs) := by omega
    unfold llvm_gen_construct_aggregate
    simp only [hop, hdst, harg1, hstr, Bool.false_eq_true, if_false, hn2, constructorSources]
  · intro dst src_syms i rest rop hi
    have h := List.getElem?_eq_none hi
    refine ⟨h, ?_⟩
    unfold llvm_gen_construct_aggregate_loop
    simp only [h]
  · have h : (llvm_gen_construct_aggregate
        (RuntimeOptimizer.start colorFromFloatLayer.m_ops colorFromFloatLayer.m_symbols)
        0).isNone = true := by decide
    exact Option.isNone_iff_eq_none.mp h
  · have h : (build_llvm_version colorFromFloatLayer).isNone = true := by decide
    exact Option.isNone_iff_eq_none.mp h

/-- C36: for a symbol whose de-aliased mangled name is not in the allocation
map, `getOrAllocateLLVMSymbol` returns a new allocation of that name, adds
one alloca of `aggregate * (3 if the symbol has derivatives, else 1)`
elements, float when the symbol is float-based and int otherwise, and enters
it into the map under the de-aliased mangled name, leaving the other entries
and the blocks as they are.  A later call for any symbol with the same
de-aliased mangled name returns the same allocation and changes nothing. -/
theorem getOrAllocateLLVMSymbol_storage (rop : RuntimeOptimizer) (sym sym2 : Symbol)
    (hnew : rop.m_named_values.lookup sym.dealias_mangled = none)
    (hsame : sym2.dealias_mangled = sym.dealias_mangled) :
    (getOrAllocateLLVMSymbol rop sym).1 = LLVMValue.Alloca sym.dealias_mangled
    ∧ (getOrAllocateLLVMSymbol rop sym).2.m_allocas
        = ⟨sym.dealias_mangled, sym.typespec.is_floatbased,
            sym.typespec.simpletype.aggregate * (if sym.has_derivs then 3 else 1)⟩
          :: rop.m_allocas
    ∧ (sym.has_derivs = true →
        ((getOrAllocateLLVMSymbol rop sym).2.m_allocas.head?.map fun a => a.total_size)
          = some (3 * sym.typespec.simpletype.aggregate))
    ∧ (sym.has_derivs = false →
        ((getOrAllocateLLVMSymbol rop sym).2.m_allocas.head?.map fun a => a.total_size)
          = some sym.typespec.simpletype.aggregate)
    ∧ (getOrAllocateLLVMSymbol rop sym).2.m_named_values.lookup sym.dealias_mangled
        = some (LLVMValue.Alloca sym.dealias_mangled)
    ∧ (∀ name : String, name ≠ sym.dealias_mangled →
        (getOrAllocateLLVMSymbol rop sym).2.m_named_values.lookup name
          = rop.m_named_values.lookup name)
    ∧ (getOrAllocateLLVMSymbol rop sym).2.m_blocks = rop.m_blocks
    ∧ getOrAllocateLLVMSymbol (getOrAllocateLLVMSymbol rop sym).2 sym2
        = ((getOrAllocateLLVMSymbol rop sym).1, (getOrAllocateLLVMSymbol rop sym).2) := by
  have hg : getOrAllocateLLVMSymbol rop sym
      = (LLVMValue.Alloca sym.dealias_mangled,
         { rop with
           m_allocas :=
             ⟨sym.dealias_mangled, sym.typespec.is_floatbased,
               sym.typespec.simpletype.aggregate * (if sym.has_derivs then 3 else 1)⟩
             :: rop.m_allocas,
           m_named_values :=
             (sym.dealias_mangled, LLVMValue.Alloca sym.dealias_mangled)
               :: rop.m_named_values }) := by
    unfold getOrAllocateLLVMSymbol
    simp only [hnew]
  rw [hg]
  refine ⟨rfl, rfl, ?_, ?_, ?_, ?_, rfl, ?_⟩
  · intro hd
    simp [hd, Nat.mul_comm]
  · intro hd
    simp [hd]
  · simp [List.lookup]
  · intro name hne
    simp only [List.lookup]
    have : (name == sym.dealias_mangled) = false := by simpa using hne
    rw [this]
  · unfold getOrAllocateLLVMSymbol
    simp [hsame, List.lookup]

/-- C36, for a triple `a` with derivatives and an empty allocation map: nine
float elements are allocated. -/
theorem getOrAllocateLLVMSymbol_storage_witness :
    (getOrAllocateLLVMSymbol (RuntimeOptimizer.ofLayer [] [])
        (Symbol.mkLocal "a" TypeSpec.triple []).withDerivs).2.m_allocas
      = [⟨"a", true, 9⟩] :=
  (getOrAllocateLLVMSymbol_storage (RuntimeOptimizer.ofLayer [] [])
    (Symbol.mkLocal "a" TypeSpec.triple []).withDerivs
    (Symbol.mkLocal "a" TypeSpec.triple []).withDerivs rfl rfl).2.1

/-- C37 (the claim fails): a float parameter that is not connected and has
no initialization ops, but that geometry data may override (`lockgeom` 0), is
none of the symbols the claim lists as elided; yet `SkipSymbol` returns true
for it and `build_llvm_version` allocates storage for the local `x` only. -/
theorem user_data_parameter_gets_no_storage :
    (Symbol.mkUserData "Kd" TypeSpec.float).symtype = SymType.SymTypeParam
    ∧ (Symbol.mkUserData "Kd" TypeSpec.float).valuesource ≠ ValueSource.ConnectedVal
    ∧ (Symbol.mkUserData "Kd" TypeSpec.float).initbegin
        = (Symbol.mkUserData "Kd" TypeSpec.float).initend
    ∧ (Symbol.mkUserData "Kd" TypeSpec.float).typespec.simpletype.basetype ≠ BASETYPE.STRING
    ∧ (Symbol.mkUserData "Kd" TypeSpec.float).typespec.is_closure = false
    ∧ (Symbol.mkUserData "Kd" TypeSpec.float).typespec.is_structure = false
    ∧ SkipSymbol (Symbol.mkUserData "Kd" TypeSpec.float) = true
    ∧ (build_llvm_version userDataLayer).map (fun r => r.2.m_named_values)
        = some [("x", LLVMValue.Alloca "x")]
    ∧ (build_llvm_version userDataLayer).map (fun r => r.2.m_allocas)
        = some [⟨"x", true, 1⟩] := by
  refine ⟨rfl, by decide, rfl, by decide, rfl, rfl, by decide, by decide, by decide⟩

/-- C37 (amended): `SkipSymbol` elides exactly the output parameters, the
symbols whose base type is string, the closures, the structures, and the
parameters that are connected, or that geometry data may override
(`lockgeom` 0), or that have initialization ops.  When `build_llvm_version`
returns, the allocation map holds a name exactly when it is the de-aliased
mangled name of a symbol of the layer that is neither elided nor a global.
In the symbol loop, a constant that is neither elided nor a global is given
its storage and then, before the next symbol and before any opcode is
lowered, `llvm_assign_initial_constant`, which inserts at the builder's
position one store per component, of the component's literal value, and
nothing else. -/
theorem storage_and_initial_constants (rop : RuntimeOptimizer)
    (r : Option LayerFunction × RuntimeOptimizer) (h : build_llvm_version rop = some r) :
    (∀ s : Symbol,
      SkipSymbol s = true ↔
        (s.symtype = SymType.SymTypeOutputParam
          ∨ s.typespec.simpletype.basetype = BASETYPE.STRING
          ∨ s.typespec.is_closure = true
          ∨ s.typespec.is_structure = true
          ∨ (s.symtype = SymType.SymTypeParam
              ∧ (s.valuesource = ValueSource.ConnectedVal ∨ s.lockgeom = false
                  ∨ s.initbegin ≠ s.initend))))
    ∧ (∀ name : String,
        (r.2.m_named_values.lookup name).isSome = true
          ↔ ∃ s ∈ rop.m_symbols, SkipSymbol s = false ∧ s.symtype ≠ SymType.SymTypeGlobal
              ∧ s.dealias_mangled = name)
    ∧ (∀ (s : Symbol) (rest : List Symbol) (rop1 : RuntimeOptimizer),
        SkipSymbol s = false → s.is_constant = true →
        setupSymbols (s :: rest) rop1
          = (llvm_assign_initial_constant (getOrAllocateLLVMSymbol rop1 s).2 s).bind
              (setupSymbols rest))
    ∧ (∀ (s : Symbol) (rop1 : RuntimeOptimizer) (aggregate : LLVMValue),
        rop1.m_named_values.lookup s.dealias_mangled = some aggregate →
        s.is_constant = true → s.has_derivs = false →
        (∀ i, i < s.typespec.simpletype.aggregate → (initialConstant s i).isSome = true) →
        llvm_assign_initial_constant rop1 s
            = some (rop1.withInserted
                (initialStores aggregate s (List.range s.typespec.simpletype.aggregate)) 0)
        ∧ (initialStores aggregate s (List.range s.typespec.simpletype.aggregate)).length
            = s.typespec.simpletype.aggregate) := by
  refine ⟨?_, ?_, ?_, ?_⟩
  · intro s
    unfold SkipSymbol
    by_cases h1 : s.symtype = SymType.SymTypeOutputParam
    · simp [h1]
    · by_cases h2 : s.typespec.simpletype.basetype = BASETYPE.STRING
      · simp [h2]
      · by_cases h3 : s.typespec.is_closure = true
        · simp [h3]
        · by_cases h4 : s.typespec.is_structure = true
          · simp [h4]
          · by_cases h5 : s.symtype = SymType.SymTypeParam
            · by_cases h6 : s.valuesource = ValueSource.ConnectedVal
              · simp [h1, h2, h3, h4, h5, h6]
              · by_cases h7 : s.lockgeom = false
                · simp [h1, h2, h3, h4, h5, h6, h7]
                · simp [h1, h2, h3, h4, h5, h6, h7]
            · simp [h1, h2, h3, h4, h5]
  · intro name
    rw [build_llvm_version_storage rop r h name]
    simp only [List.any_eq_true, receivesStorage, Bool.and_eq_true, Bool.not_eq_true',
      decide_eq_true_eq]
    constructor
    · rintro ⟨s, hs, ⟨h1, h2⟩, h3⟩
      exact ⟨s, hs, h1, h2, h3⟩
    · rintro ⟨s, hs, h1, h2, h3⟩
      exact ⟨s, hs, ⟨h1, h2⟩, h3⟩
  · intro s rest rop1 hskip hc
    have hg : s.symtype ≠ SymType.SymTypeGlobal := by
      intro hg
      simp [Symbol.is_constant, Symbol.symtype] at hc hg
      rw [hc] at hg
      cases hg
    simp only [setupSymbols, hskip, Bool.false_eq_true, if_false, hg, hc, if_true]
  · intro s rop1 aggregate hl hc hd hall
    refine ⟨?_, ?_⟩
    · unfold llvm_assign_initial_constant
      simp only [hc, hd, Bool.not_false, Bool.and_self, Bool.not_true, Bool.false_eq_true,
        if_false]
      have := llvm_assign_initial_constant_loop_spec s aggregate rop1 hl hd
        (List.range s.typespec.simpletype.aggregate) [] 0
        (fun i hi => hall i (List.mem_range.mp hi))
      rw [withInserted_nil] at this
      rw [this, List.nil_append]
    · unfold initialStores
      have : ∀ l : List Nat, (∀ i ∈ l, (initialConstant s i).isSome = true) →
          (l.filterMap fun i =>
            (initialConstant s i).map fun v =>
              Instruction.Store v (componentPointer aggregate s i)).length = l.length := by
        intro l
        induction l with
        | nil => intro _; rfl
        | cons i rest ih =>
          intro hl2
          obtain ⟨v, hv⟩ := Option.isSome_iff_exists.mp (hl2 i (List.mem_cons_self _ _))
          simp only [List.filterMap_cons, hv, Option.map_some', List.length_cons]
          rw [ih (fun j hj => hl2 j (List.mem_cons_of_mem _ hj))]
      rw [this _ (fun i hi => hall i (List.mem_range.mp hi)), List.length_range]

/-- C37 (amended), on the layer `x = c1` with the constants `c1` = 2.5,
`c2` = (1, 2, 3) and `c3` = 7: the allocation map holds `c2`, and the entry
block starts with the stores of the literal values, before the code of the
assignment. -/
theorem storage_and_initial_constants_witness :
    (∃ r, build_llvm_version constantsLayer = some r
      ∧ ((r.2.m_named_values.lookup "c2").isSome = true
          ↔ ∃ s ∈ constantsLayer.m_symbols, SkipSymbol s = false
              ∧ s.symtype ≠ SymType.SymTypeGlobal ∧ s.dealias_mangled = "c2"))
    ∧ entryBlock constantsLayer
        = some
            [Instruction.Store (LLVMValue.ConstantFP (5 / 2)) (LLVMValue.Alloca "c1"),
             storeElement (LLVMValue.ConstantFP 1) "c2" 0,
             storeElement (LLVMValue.ConstantFP 2) "c2" 1,
             storeElement (LLVMValue.ConstantFP 3) "c2" 2,
             Instruction.Store (LLVMValue.ConstantInt 32 7) (LLVMValue.Alloca "c3"),
             Instruction.Load 0 (LLVMValue.Alloca "c1"),
             Instruction.Store (LLVMValue.Load 0 (LLVMValue.Alloca "c1")) (LLVMValue.Alloca "x"),
             Instruction.RetVoid] :=
  ⟨⟨(build_llvm_version constantsLayer).get (by decide), (Option.some_get _).symm,
      (storage_and_initial_constants constantsLayer _ (Option.some_get _).symm).2.1 "c2"⟩,
   by with_unfolding_all decide⟩

/-- C38: over an ordered field with a square-root function that squares to
its argument on nonnegative arguments, for every nonzero N: the vector
`make_orthonormals` chooses before normalization is (1,1,1)×N when the
components of N are not all equal and (-1,1,1)×N when they are; it is
orthogonal to N and not zero, so its length, the divisor of the
normalization, is not zero; the returned a has unit length and is orthogonal
to N; the returned b = N×a is orthogonal to N and to a; and when N has unit
length, b has unit length too, so (a, b, N) is an orthonormal frame. -/
theorem make_orthonormals_frame {F : Type} [LinearOrderedField F] (m : CMath F)
    (N : Imath.Vec3 F) (hsq : ∀ x : F, 0 ≤ x → m.sqrtf x * m.sqrtf x = x)
    (hN : ¬ (N.x = 0 ∧ N.y = 0 ∧ N.z = 0)) :
    ClosurePrimitive.make_orthonormals m N
        = ((ClosurePrimitive.make_orthonormals_unnormalized N).normalize m,
           N.cross ((ClosurePrimitive.make_orthonormals_unnormalized N).normalize m))
    ∧ (N.x ≠ N.y ∨ N.x ≠ N.z →
        ClosurePrimitive.make_orthonormals_unnormalized N
          = (⟨1, 1, 1⟩ : Imath.Vec3 F).cross N)
    ∧ (N.x = N.y ∧ N.x = N.z →
        ClosurePrimitive.make_orthonormals_unnormalized N
          = (⟨-1, 1, 1⟩ : Imath.Vec3 F).cross N)
    ∧ N.dot (ClosurePrimitive.make_orthonormals_unnormalized N) = 0
    ∧ ¬ ((ClosurePrimitive.make_orthonormals_unnormalized N).x = 0
        ∧ (ClosurePrimitive.make_orthonormals_unnormalized N).y = 0
        ∧ (ClosurePrimitive.make_orthonormals_unnormalized N).z = 0)
    ∧ m.sqrtf ((ClosurePrimitive.make_orthonormals_unnormalized N).dot
        (ClosurePrimitive.make_orthonormals_unnormalized N)) ≠ 0
    ∧ (ClosurePrimitive.make_orthonormals m N).1.dot (ClosurePrimitive.make_orthonormals m N).1
        = 1
    ∧ N.dot (ClosurePrimitive.make_orthonormals m N).1 = 0
    ∧ N.dot (ClosurePrimitive.make_orthonormals m N).2 = 0
    ∧ (ClosurePrimitive.make_orthonormals m N).1.dot (ClosurePrimitive.make_orthonormals m N).2
        = 0
    ∧ (N.dot N = 1 →
        (ClosurePrimitive.make_orthonormals m N).2.dot (ClosurePrimitive.make_orthonormals m N).2
          = 1) := by
  obtain ⟨horth, hpos⟩ := make_orthonormals_unnormalized_spec N hN
  have hq := hsq _ (le_of_lt hpos)
  have hmk : ClosurePrimitive.make_orthonormals m N
        = ((ClosurePrimitive.make_orthonormals_unnormalized N).normalize m,
           N.cross ((ClosurePrimitive.make_orthonormals_unnormalized N).normalize m)) := rfl
  have hunit := Imath_dot_normalize_self m _ hq hpos
  have hNa := Imath_dot_normalize m N _ horth
  refine ⟨hmk, ?_, ?_, horth, ?_, ?_, ?_, ?_, ?_, ?_, ?_⟩
  · intro h
    unfold ClosurePrimitive.make_orthonormals_unnormalized
    simp only [Imath.Vec3.get, ne_eq, h, if_true, Imath.Vec3.cross, one_mul]
  · intro h
    have h2 : ¬ (N.x ≠ N.y ∨ N.x ≠ N.z) := by
      push_neg
      exact h
    unfold ClosurePrimitive.make_orthonormals_unnormalized
    simp only [Imath.Vec3.get, h2, if_false, Imath.Vec3.cross, one_mul, neg_mul,
      sub_neg_eq_add]
  · intro h0
    simp only [Imath.Vec3.dot] at hpos
    rw [h0.1, h0.2.1, h0.2.2] at hpos
    simp at hpos
  · intro h0
    rw [h0, mul_zero] at hq
    exact absurd hq.symm (ne_of_gt hpos)
  · rw [hmk]
    exact hunit
  · rw [hmk]
    exact hNa
  · rw [hmk]
    exact Imath_dot_cross_self _ _
  · rw [hmk]
    exact Imath_cross_dot_self _ _
  · intro hNN
    rw [hmk]
    simp only
    rw [Imath_cross_norm, hNN, hunit, hNa]
    ring

/-- C38, on the reals with the real square root, for N = (0, 0, 1): the
returned a has unit length. -/
theorem make_orthonormals_frame_witness :
    (ClosurePrimitive.make_orthonormals
        (⟨Real.sqrt, Real.cos, Real.sin, fun x y => x ^ y, Real.pi, Real.pi / 4, 1 / Real.pi⟩ :
          CMath ℝ) ⟨0, 0, 1⟩).1.dot
      (ClosurePrimitive.make_orthonormals
        (⟨Real.sqrt, Real.cos, Real.sin, fun x y => x ^ y, Real.pi, Real.pi / 4, 1 / Real.pi⟩ :
          CMath ℝ) ⟨0, 0, 1⟩).1 = 1 :=
  (make_orthonormals_frame
    (⟨Real.sqrt, Real.cos, Real.sin, fun x y => x ^ y, Real.pi, Real.pi / 4, 1 / Real.pi⟩ :
      CMath ℝ)
    ⟨0, 0, 1⟩ (fun x hx => Real.mul_self_sqrt hx) (by norm_num)).2.2.2.2.2.2.1

/-- C39: `to_unit_disk` never divides by zero.  With the division as a
parameter that is only required to give a / b for a nonzero divisor b (and
may have no value otherwise), the function returns for every input, and
returns the values of `to_unit_disk`; with the machine division, which has
no value for a zero divisor, likewise; with a division that never has a
value it returns exactly when a = 2x - 1 and b = 2y - 1 are both zero, so
the branch without a quotient is taken exactly then, and there phi = 0.
For (x, y) in [0,1] x [0,1] the radius is r = max (|2x - 1|, |2y - 1|) with
0 ≤ r ≤ 1, and with cosine and sine functions whose squares add up to 1 the
output point (x', y') satisfies x'² + y'² = r², so it lies in the closed
unit disk and 1 - x'² - y'² ≥ 0. -/
theorem to_unit_disk_safe {F : Type} [LinearOrderedField F] (m : CMath F) (x y : F)
    (hcs : ∀ t : F, m.cosf t * m.cosf t + m.sinf t * m.sinf t = 1)
    (hx : 0 ≤ x ∧ x ≤ 1) (hy : 0 ≤ y ∧ y ≤ 1) :
    (∀ quot : F → F → Option F, (∀ p q : F, q ≠ 0 → quot p q = some (p / q)) →
        to_unit_disk_with quot m x y = some (to_unit_disk m x y))
    ∧ to_unit_disk_with floatQuotient m x y = some (to_unit_disk m x y)
    ∧ ((to_unit_disk_with (fun _ _ => none) m x y).isSome = true
          ↔ 2 * x - 1 = 0 ∧ 2 * y - 1 = 0)
    ∧ (2 * x - 1 = 0 → 2 * y - 1 = 0 → (to_unit_disk_polar m x y).2 = 0)
    ∧ to_unit_disk m x y
        = ((to_unit_disk_polar m x y).1 * m.cosf (to_unit_disk_polar m x y).2,
           (to_unit_disk_polar m x y).1 * m.sinf (to_unit_disk_polar m x y).2)
    ∧ (to_unit_disk_polar m x y).1 = max |2 * x - 1| |2 * y - 1|
    ∧ 0 ≤ (to_unit_disk_polar m x y).1 ∧ (to_unit_disk_polar m x y).1 ≤ 1
    ∧ (to_unit_disk m x y).1 * (to_unit_disk m x y).1
        + (to_unit_disk m x y).2 * (to_unit_disk m x y).2
        = (to_unit_disk_polar m x y).1 * (to_unit_disk_polar m x y).1
    ∧ (to_unit_disk m x y).1 * (to_unit_disk m x y).1
        + (to_unit_disk m x y).2 * (to_unit_disk m x y).2 ≤ 1
    ∧ 0 ≤ 1 - (to_unit_disk m x y).1 * (to_unit_disk m x y).1
        - (to_unit_disk m x y).2 * (to_unit_disk m x y).2 := by
  have hr := to_unit_disk_radius m x y
  have hr0 : 0 ≤ (to_unit_disk_polar m x y).1 := by
    rw [hr]
    exact le_max_of_le_left (abs_nonneg _)
  have hr1 : (to_unit_disk_polar m x y).1 ≤ 1 := by
    rw [hr]
    exact max_le (abs_le.mpr ⟨by linarith [hx.1], by linarith [hx.2]⟩)
      (abs_le.mpr ⟨by linarith [hy.1], by linarith [hy.2]⟩)
  have hsum : (to_unit_disk m x y).1 * (to_unit_disk m x y).1
        + (to_unit_disk m x y).2 * (to_unit_disk m x y).2
        = (to_unit_disk_polar m x y).1 * (to_unit_disk_polar m x y).1 := by
    rw [to_unit_disk_eq_polar]
    simp only
    have := hcs (to_unit_disk_polar m x y).2
    linear_combination
      (to_unit_disk_polar m x y).1 * (to_unit_disk_polar m x y).1 * this
  have hle : (to_unit_disk m x y).1 * (to_unit_disk m x y).1
        + (to_unit_disk m x y).2 * (to_unit_disk m x y).2 ≤ 1 := by
    rw [hsum]
    nlinarith
  refine ⟨fun quot hq => to_unit_disk_with_defined quot m x y hq,
    to_unit_disk_with_defined floatQuotient m x y (fun p q hq => if_neg hq),
    to_unit_disk_with_none m x y, ?_,
    to_unit_disk_eq_polar m x y, hr, hr0, hr1, hsum, hle, by linarith⟩
  intro ha hb
  unfold to_unit_disk_polar
  simp only [ha, hb, gt_iff_lt, neg_zero, lt_self_iff_false, if_false, ne_eq, not_true_eq_false]

/-- C39, on the reals with the real cosine and sine, for the corner
(x, y) = (1, 0): the output point lies in the closed unit disk. -/
theorem to_unit_disk_safe_witness :
    (to_unit_disk
        (⟨Real.sqrt, Real.cos, Real.sin, fun x y => x ^ y, Real.pi, Real.pi / 4, 1 / Real.pi⟩ :
          CMath ℝ) 1 0).1
      * (to_unit_disk
        (⟨Real.sqrt, Real.cos, Real.sin, fun x y => x ^ y, Real.pi, Real.pi / 4, 1 / Real.pi⟩ :
          CMath ℝ) 1 0).1
      + (to_unit_disk
        (⟨Real.sqrt, Real.cos, Real.sin, fun x y => x ^ y, Real.pi, Real.pi / 4, 1 / Real.pi⟩ :
          CMath ℝ) 1 0).2
      * (to_unit_disk
        (⟨Real.sqrt, Real.cos, Real.sin, fun x y => x ^ y, Real.pi, Real.pi / 4, 1 / Real.pi⟩ :
          CMath ℝ) 1 0).2 ≤ 1 :=
  (to_unit_disk_safe
    (⟨Real.sqrt, Real.cos, Real.sin, fun x y => x ^ y, Real.pi, Real.pi / 4, 1 / Real.pi⟩ :
      CMath ℝ)
    1 0
    (fun t => by
      have := Real.cos_sq_add_sin_sq t
      nlinarith [this])
    ⟨by norm_num, by norm_num⟩ ⟨by norm_num, by norm_num⟩).2.2.2.2.2.2.2.2.2.1

end OSL
